import Mathlib

/-!
# livekit-server: wrap-around counters, the subscription reconciler and the forwarder

Shallow embedding of

* `pkg/sfu/utils/wraparound.go` (`WrapAround[T, ET]`),
* `pkg/rtc/subscriptionmanager.go` (`SubscriptionManager`, `trackSubscription`),
* `pkg/service/egressservice.go` (`EgressService.startEgress`),
* `pkg/service/node_provider.go` (`NodeProvider.FetchRelevant`), and
* `pkg/rtc/types/ice.go` (`ICEConnectionDetails`),

and a model of the forwarder of `pkg/sfu`, of which only `forwarder_test.go` is among the
sources.

Unsigned machine integers are natural numbers reduced modulo `2 ^ width` at every
operation that can overflow.  `tb` is the bit width of the raw type `T`
(`uint16`/`uint32`), `eb` the bit width of the extended type `ET`
(`uint32`/`uint64`).
-/

namespace Utils

/-! ## Machine arithmetic -/

/-- Conversion of an unsigned value to an unsigned type of `n` bits (truncation). -/
def conv (n x : Nat) : Nat := x % 2 ^ n

/-- Wrapping addition of `n`-bit unsigned integers. -/
def addW (n a b : Nat) : Nat := (a + b) % 2 ^ n

/-- Wrapping subtraction of `n`-bit unsigned integers. -/
def subW (n a b : Nat) : Nat := (a % 2 ^ n + (2 ^ n - b % 2 ^ n)) % 2 ^ n

/-- Bitwise complement `^x` of an `n`-bit unsigned integer. -/
def notW (n x : Nat) : Nat := 2 ^ n - 1 - x % 2 ^ n

/-! ## `WrapAround` -/

/-- The struct `WrapAround[T, ET]`, `T` being `tb` bits wide and `ET` `eb` bits wide. -/
structure WrapAround (tb eb : Nat) where
  fullRange : Nat
  initialized : Bool
  start : Nat
  highest : Nat
  cycles : Nat
deriving DecidableEq, Repr

/-- The struct `WrapAroundUpdateResult[ET]`. -/
structure WrapAroundUpdateResult where
  IsRestart : Bool
  PreExtendedStart : Nat
  PreExtendedHighest : Nat
  ExtendedVal : Nat
deriving DecidableEq, Repr

/-- `NewWrapAround`: `fullRange` is `1 << (sizeof(T) * 8)` computed in `ET`. -/
def NewWrapAround (tb eb : Nat) : WrapAround tb eb :=
  { fullRange := conv eb (1 <<< tb), initialized := false, start := 0, highest := 0, cycles := 0 }

namespace WrapAround

variable {tb eb : Nat}

/-- `Seed` copies everything but `fullRange` from `frm`. -/
def Seed (w frm : WrapAround tb eb) : WrapAround tb eb :=
  { w with initialized := frm.initialized, start := frm.start, highest := frm.highest,
           cycles := frm.cycles }

/-- `getExtendedHighest`: `cycles + ET(val)`. -/
def getExtendedHighest (_w : WrapAround tb eb) (cycles val : Nat) : Nat :=
  addW eb cycles (conv eb val)

/-- `isWrapBack`: `ET(later) < (fullRange>>1) && ET(earlier) >= (fullRange>>1)`. -/
def isWrapBack (w : WrapAround tb eb) (earlier later : Nat) : Bool :=
  decide (conv eb later < w.fullRange >>> 1) && decide (conv eb earlier ≥ w.fullRange >>> 1)

def GetStart (w : WrapAround tb eb) : Nat := w.start

def GetExtendedStart (w : WrapAround tb eb) : Nat := conv eb w.start

def GetHighest (w : WrapAround tb eb) : Nat := w.highest

def GetExtendedHighest (w : WrapAround tb eb) : Nat := w.getExtendedHighest w.cycles w.highest

/-- `maybeAdjustStart`: returns the new state with `(isRestart, preExtendedStart, extendedVal)`. -/
def maybeAdjustStart (w : WrapAround tb eb) (val : Nat) : WrapAround tb eb × Bool × Nat × Nat :=
  let cycles := w.cycles
  let totalNum := addW eb (subW eb w.GetExtendedHighest w.GetExtendedStart) 1
  if totalNum > w.fullRange >>> 1 then
    let cycles := if w.isWrapBack val w.highest then subW eb cycles w.fullRange else cycles
    (w, false, 0, w.getExtendedHighest cycles val)
  else if subW tb val w.start > conv tb (w.fullRange >>> 1) then
    -- out-of-order with existing start => a new start
    let preExtendedStart := w.GetExtendedStart
    if w.isWrapBack val w.highest then
      let w1 : WrapAround tb eb := { w with cycles := w.fullRange }
      let w2 : WrapAround tb eb := { w1 with start := val }
      (w2, true, preExtendedStart, w2.getExtendedHighest 0 val)
    else
      let w2 : WrapAround tb eb := { w with start := val }
      (w2, true, preExtendedStart, w2.getExtendedHighest cycles val)
  else
    let cycles := if w.isWrapBack val w.highest then subW eb cycles w.fullRange else cycles
    (w, false, 0, w.getExtendedHighest cycles val)

/-- `Update`: returns the new state and the result record. -/
def Update (w : WrapAround tb eb) (val : Nat) : WrapAround tb eb × WrapAroundUpdateResult :=
  if !w.initialized then
    ({ w with start := val, highest := val, initialized := true },
     { IsRestart := false, PreExtendedStart := 0,
       PreExtendedHighest := subW eb (conv eb val) 1, ExtendedVal := conv eb val })
  else
    let preExtendedHighest := w.GetExtendedHighest
    let gap := subW tb val w.highest
    if gap == 0 || gap > conv tb (w.fullRange >>> 1) then
      -- duplicate OR out-of-order
      let r := w.maybeAdjustStart val
      (r.1, { IsRestart := r.2.1, PreExtendedStart := r.2.2.1,
              PreExtendedHighest := preExtendedHighest, ExtendedVal := r.2.2.2 })
    else
      -- in-order
      let w1 : WrapAround tb eb := if val < w.highest then { w with cycles := addW eb w.cycles w.fullRange } else w
      let w2 : WrapAround tb eb := { w1 with highest := val }
      (w2, { IsRestart := false, PreExtendedStart := 0,
             PreExtendedHighest := preExtendedHighest,
             ExtendedVal := w2.getExtendedHighest w2.cycles val })

/-- `RollbackRestart`. -/
def RollbackRestart (w : WrapAround tb eb) (ev : Nat) : WrapAround tb eb :=
  let w1 : WrapAround tb eb := if w.isWrapBack w.start (conv tb ev) then
      { w with cycles := subW eb w.cycles w.fullRange } else w
  { w1 with start := conv tb ev }

/-- `ResetHighest`: `highest = T(ev)`, `cycles = ev & ^(fullRange - 1)`. -/
def ResetHighest (w : WrapAround tb eb) (ev : Nat) : WrapAround tb eb :=
  { w with highest := conv tb ev, cycles := ev &&& notW eb (subW eb w.fullRange 1) }

/-- Values of the fields are in the range of their Go types and `fullRange` is the one
set by `NewWrapAround` (the field is never written afterwards). -/
def WF (w : WrapAround tb eb) : Prop :=
  w.fullRange = conv eb (1 <<< tb) ∧ w.start < 2 ^ tb ∧ w.highest < 2 ^ tb ∧ w.cycles < 2 ^ eb

instance (w : WrapAround tb eb) : Decidable w.WF := by
  unfold WF; infer_instance

/-- States reachable from `NewWrapAround` through the exported mutators. -/
inductive Reachable : WrapAround tb eb → Prop
  | new : Reachable (NewWrapAround tb eb)
  | update (w : WrapAround tb eb) (v : Nat) :
      Reachable w → v < 2 ^ tb → Reachable (w.Update v).1
  | resetHighest (w : WrapAround tb eb) (ev : Nat) :
      Reachable w → ev < 2 ^ eb → Reachable (w.ResetHighest ev)
  | rollbackRestart (w : WrapAround tb eb) (ev : Nat) :
      Reachable w → ev < 2 ^ eb → Reachable (w.RollbackRestart ev)
  | seed (w frm : WrapAround tb eb) :
      Reachable w → Reachable frm → Reachable (w.Seed frm)

/-- The raw gap `val - highest` computed in `T`, as `Update` does. -/
def gap (w : WrapAround tb eb) (val : Nat) : Nat := subW tb val w.highest

/-- Whether `Update val` takes the initialising or the in-order branch. -/
def isInOrder (w : WrapAround tb eb) (val : Nat) : Bool :=
  !w.initialized || !(w.gap val == 0 || w.gap val > conv tb (w.fullRange >>> 1))

/-- Feeds the values to `Update` one after the other; returns the final state and the
results in call order. -/
def updates (w : WrapAround tb eb) : List Nat → WrapAround tb eb × List WrapAroundUpdateResult
  | [] => (w, [])
  | v :: vs =>
    let r := w.Update v
    let rest := updates r.1 vs
    (rest.1, r.2 :: rest.2)

/-- Number of values of the sequence that `Update` handled as first or in-order value. -/
def inOrderCount (w : WrapAround tb eb) : List Nat → Nat
  | [] => 0
  | v :: vs => (if w.isInOrder v then 1 else 0) + inOrderCount (w.Update v).1 vs

/-- Sum of the raw gaps of the values handled in-order by an initialised counter. -/
def inOrderGapSum (w : WrapAround tb eb) : List Nat → Nat
  | [] => 0
  | v :: vs =>
    (if w.initialized && w.isInOrder v then w.gap v else 0) + inOrderGapSum (w.Update v).1 vs

/-- Every in-order value after the first one is the successor (in `T`) of the highest. -/
def contiguous (w : WrapAround tb eb) : List Nat → Bool
  | [] => true
  | v :: vs =>
    (!(w.initialized && w.isInOrder v) || w.gap v == 1) && contiguous (w.Update v).1 vs

/-- Invariant of the reachable states: well-formed fields and `cycles` a multiple of the
full range of the raw type. -/
def Inv (w : WrapAround tb eb) : Prop := w.WF ∧ 2 ^ tb ∣ w.cycles

/-- The local variable `totalNum` of `maybeAdjustStart`:
`GetExtendedHighest() - GetExtendedStart() + 1`, computed in `ET`. -/
def totalNum (w : WrapAround tb eb) : Nat :=
  addW eb (subW eb w.GetExtendedHighest w.GetExtendedStart) 1

/-- States reached from `NewWrapAround` by `Update` calls alone, none of which makes the
extended counter overflow: the extended highest never goes down. -/
inductive UpdateReachable : WrapAround tb eb → Prop
  | new : UpdateReachable (NewWrapAround tb eb)
  | update (w : WrapAround tb eb) (v : Nat) :
      UpdateReachable w → v < 2 ^ tb →
      w.GetExtendedHighest ≤ (w.Update v).1.GetExtendedHighest →
      UpdateReachable (w.Update v).1

/-- The extended start does not exceed the extended highest. -/
def Ordered (w : WrapAround tb eb) : Prop := w.start ≤ w.cycles + w.highest

/-- The state of a `WrapAround[uint16, uint32]` that started at 0 and whose extended highest
is `k`. -/
def countedTo (k : Nat) : WrapAround 16 32 :=
  { fullRange := 65536, initialized := true, start := 0, highest := k % 65536,
    cycles := k - k % 65536 }

/-- The state of a `WrapAround[uint16, uint32]` that started at 0 and has reached the maximum
of `uint32`. -/
def atMaximum : WrapAround 16 32 := countedTo 4294967295

end WrapAround

end Utils

/-! ## `pkg/rtc/subscriptionmanager.go`

Every exported operation and every callback is one atomic step on the manager state.
`trackSubscription` objects live in `objs`, addressed by the natural number that stands
for the Go pointer; the `subscriptions` map holds such addresses.  Calls into
collaborators (participant, track resolver, publisher track, telemetry, logger,
callbacks) are recorded as `Event`s, their results are read from an `Env`.  Times and
durations are integers (nanoseconds). -/

namespace Rtc

abbrev TrackID := String
abbrev ParticipantID := String
abbrev ParticipantIdentity := String
abbrev Time := Int
abbrev Duration := Int

/-- The package variables `reconcileInterval`, `notFoundTimeout`, `subscriptionTimeout`
(variables so that tests can override them). -/
structure Timeouts where
  reconcileInterval : Duration
  notFoundTimeout : Duration
  subscriptionTimeout : Duration
deriving DecidableEq, Repr

/-- The values the package variables are initialised with: 3 s, 5 s, 10 s. -/
def defaultTimeouts : Timeouts :=
  { reconcileInterval := 3 * 1000000000
    notFoundTimeout := 5 * 1000000000
    subscriptionTimeout := 10 * 1000000000 }

/-- The error values `reconcileSubscription` and `subscribe` compare against; `other`
stands for any further error value. -/
inductive SubError
  | ErrNoTrackPermission
  | ErrNoSubscribePermission
  | ErrTrackNotAttached
  | ErrPublisherNotConnected
  | ErrTrackNotFound
  | errAlreadySubscribed
  | other (code : Nat)
deriving DecidableEq, Repr

/-- What the manager observes of a `types.SubscribedTrack`. -/
structure SubscribedTrack where
  id : Nat
  mediaTrack : Nat
  needsNegotiation : Bool
  hasRTPSender : Bool
deriving DecidableEq, Repr

/-- The struct `trackSubscription` (its lock left out). -/
structure trackSubscription where
  desired : Bool
  trackID : TrackID
  publisherID : ParticipantID
  publisherIdentity : ParticipantIdentity
  settings : Option Nat
  hasPermission : Bool
  subscribedTrack : Option SubscribedTrack
  numAttempts : Int
  bound : Bool
  subStartedAt : Option Time
deriving DecidableEq, Repr

/-- Calls into collaborators, in program order. -/
inductive Event
  | log (level : String) (msg : String) (trackID : TrackID)
  | TrackSubscribeRequested (trackID : TrackID) (publisherID : ParticipantID)
  | SubscriptionPermissionUpdate (publisherID : ParticipantID) (trackID : TrackID)
      (hasPermission : Bool)
  | AddChangeObserver (track : Nat) (trackID : TrackID)
  | RemoveChangeObserver (track : Nat)
  | AddSubscriber (track : Nat)
  | RemoveSubscriber (track : Nat) (willBeResumed : Bool)
  | OnClose (subTrack : Nat) (handler : Option Nat)
  | AddOnBind (subTrack : Nat) (sub : Nat)
  | UpdateSubscriberSettings (subTrack : Nat) (settings : Option Nat)
  | Negotiate (force : Bool)
  | OnTrackSubscribed (subTrack : Nat)
  | OnTrackUnsubscribed (subTrack : Nat)
  | OnSubscribeStatusChanged (publisherID : ParticipantID) (subscribed : Bool)
  | OnSubcriptionError (trackID : TrackID)
  | TrackSubscribed (track : Nat)
  | TrackUnsubscribed (track : Nat)
  | RemoveTrackFromSubscriber (subTrack : Nat)
  | nilDereference
deriving DecidableEq, Repr

/-- The struct `types.MediaResolverResult`, as far as `subscribe` reads it. -/
structure MediaResolverResult where
  Track : Nat
  HasPermission : Bool
deriving DecidableEq, Repr

/-- Results of the calls into collaborators during one step. -/
structure Env where
  /-- clock read by `time.Now()` in `startAttempt` -/
  now : Time
  /-- clock read by `time.Since` in `durationSinceStart` -/
  since : Time
  participantClosed : Bool
  participantDisconnected : Bool
  canSubscribe : Bool
  resolver : Except SubError MediaResolverResult
  addSubscriber : Option SubscribedTrack × Option SubError
  removeTrackFails : Bool

/-- How a call of `subscribe` ends. -/
inductive Outcome
  | ok
  | failed (err : SubError)
  | nilDeref
deriving DecidableEq, Repr

/-- `atomic.Int32.Add`: two's complement addition on 32 bits. -/
def addInt32 (a b : Int) : Int := (a + b + 2 ^ 31) % 2 ^ 32 - 2 ^ 31

/-! ### Go maps and sets as association lists -/

def mapGet {κ α : Type} [DecidableEq κ] : List (κ × α) → κ → Option α
  | [], _ => none
  | (k', v) :: r, k => if k' = k then some v else mapGet r k

def mapDel {κ α : Type} [DecidableEq κ] (m : List (κ × α)) (k : κ) : List (κ × α) :=
  m.filter (fun e => decide (e.1 ≠ k))

def mapSet {κ α : Type} [DecidableEq κ] (m : List (κ × α)) (k : κ) (v : α) : List (κ × α) :=
  (k, v) :: mapDel m k

def setAdd {κ : Type} [DecidableEq κ] (s : List κ) (k : κ) : List κ :=
  if k ∈ s then s else k :: s

def setDel {κ : Type} [DecidableEq κ] (s : List κ) (k : κ) : List κ :=
  s.filter (fun e => decide (e ≠ k))

/-! ### `trackSubscription` -/

def newTrackSubscription (trackID : TrackID) : trackSubscription :=
  { desired := false, trackID := trackID, publisherID := "", publisherIdentity := "",
    settings := none, hasPermission := true, subscribedTrack := none, numAttempts := 0,
    bound := false, subStartedAt := none }

namespace trackSubscription

def setPublisher (s : trackSubscription) (publisherIdentity : ParticipantIdentity)
    (publisherID : ParticipantID) : trackSubscription :=
  { s with publisherID := publisherID, publisherIdentity := publisherIdentity }

def getPublisherID (s : trackSubscription) : ParticipantID := s.publisherID

def getPublisherIdentity (s : trackSubscription) : ParticipantIdentity := s.publisherIdentity

/-- `setDesired`: the new object and whether the flag changed. -/
def setDesired (s : trackSubscription) (desired : Bool) : trackSubscription × Bool :=
  if s.desired = desired then (s, false) else ({ s with desired := desired }, true)

/-- `setHasPermission`: the new object and whether the permission changed. -/
def setHasPermission (s : trackSubscription) (perm : Bool) : trackSubscription × Bool :=
  if s.hasPermission = perm then (s, false) else ({ s with hasPermission := perm }, true)

def getHasPermission (s : trackSubscription) : Bool := s.hasPermission

def isDesired (s : trackSubscription) : Bool := s.desired

/-- `setSubscribedTrack`: stores the track, clears `bound`, and pushes the stored settings
to a non-nil track. -/
def setSubscribedTrack (s : trackSubscription) (track : Option SubscribedTrack) :
    trackSubscription × List Event :=
  ({ s with subscribedTrack := track, bound := false },
   match s.settings, track with
   | some settings, some t => [Event.UpdateSubscriberSettings t.id (some settings)]
   | _, _ => [])

def getSubscribedTrack (s : trackSubscription) : Option SubscribedTrack := s.subscribedTrack

def setSettings (s : trackSubscription) (settings : Option Nat) :
    trackSubscription × List Event :=
  ({ s with settings := settings },
   match s.subscribedTrack with
   | some t => [Event.UpdateSubscriberSettings t.id settings]
   | none => [])

def setBound (s : trackSubscription) : trackSubscription := { s with bound := true }

def startAttempt (s : trackSubscription) (now : Time) : trackSubscription :=
  if s.numAttempts == 0 then { s with subStartedAt := some now } else s

def recordAttempt (s : trackSubscription) (success : Bool) : trackSubscription :=
  if !success then { s with numAttempts := addInt32 s.numAttempts 1 }
  else { s with numAttempts := 0 }

/-- `durationSinceStart`, `since` being the clock value `time.Since` reads. -/
def durationSinceStart (s : trackSubscription) (since : Time) : Duration :=
  match s.subStartedAt with
  | none => 0
  | some t => since - t

def needsSubscribe (s : trackSubscription) : Bool :=
  s.desired && s.subscribedTrack.isNone

def needsUnsubscribe (s : trackSubscription) : Bool :=
  !s.desired && s.subscribedTrack.isSome

def needsBind (s : trackSubscription) : Bool :=
  s.desired && s.subscribedTrack.isSome && !s.bound

end trackSubscription

/-! ### `SubscriptionManager` -/

/-- The struct `SubscriptionManager`: `objs` is the store of `trackSubscription` objects,
`nextAddr` the next free address; `closed` says that `closeCh` is closed;
`onSubscribeStatusChanged` says whether the callback is set. -/
structure SubscriptionManager where
  objs : Nat → trackSubscription
  nextAddr : Nat
  subscriptions : List (TrackID × Nat)
  subscribedTo : List (ParticipantID × List TrackID)
  reconcileCh : List TrackID
  closed : Bool
  onSubscribeStatusChanged : Bool

/-- `NewSubscriptionManager` (the worker goroutine is the caller of the steps below). -/
def NewSubscriptionManager : SubscriptionManager :=
  { objs := fun _ => newTrackSubscription "", nextAddr := 0, subscriptions := [],
    subscribedTo := [], reconcileCh := [], closed := false, onSubscribeStatusChanged := false }

namespace SubscriptionManager

/-- Writes the object at address `p`. -/
def store (m : SubscriptionManager) (p : Nat) (s : trackSubscription) : SubscriptionManager :=
  { m with objs := fun q => if q = p then s else m.objs q }

def IsClosed (m : SubscriptionManager) : Bool := m.closed

/-- `queueReconcile`: non-blocking send on a channel of capacity 10. -/
def queueReconcile (m : SubscriptionManager) (trackID : TrackID) : SubscriptionManager :=
  if m.reconcileCh.length < 10 then { m with reconcileCh := m.reconcileCh ++ [trackID] } else m

/-- The lookup-or-create prologue shared by `SubscribeToTrack` and
`UpdateSubscribedTrackSettings`: the manager and the address of the subscription. -/
def getOrCreate (m : SubscriptionManager) (trackID : TrackID) : SubscriptionManager × Nat :=
  match mapGet m.subscriptions trackID with
  | some p => (m, p)
  | none =>
    ({ (m.store m.nextAddr (newTrackSubscription trackID)) with
        nextAddr := m.nextAddr + 1,
        subscriptions := mapSet m.subscriptions trackID m.nextAddr },
     m.nextAddr)

def SubscribeToTrack (m : SubscriptionManager) (trackID : TrackID)
    (publisherIdentity : ParticipantIdentity) (publisherID : ParticipantID) :
    SubscriptionManager × List Event :=
  let r := m.getOrCreate trackID
  let sub := (r.1.objs r.2).setPublisher publisherIdentity publisherID
  let d := sub.setDesired true
  let m1 := r.1.store r.2 d.1
  if d.2 then
    (m1.queueReconcile trackID, [Event.log "info" "subscribing to track" trackID])
  else (m1, [])

def UnsubscribeFromTrack (m : SubscriptionManager) (trackID : TrackID) :
    SubscriptionManager × List Event :=
  match mapGet m.subscriptions trackID with
  | none => (m, [])
  | some p =>
    let d := (m.objs p).setDesired false
    let m1 := m.store p d.1
    if d.2 then
      (m1.queueReconcile trackID, [Event.log "info" "unsubscribing from track" trackID])
    else (m1, [])

def HasSubscriptions (m : SubscriptionManager) : Bool :=
  m.subscriptions.any (fun e => (m.objs e.2).isDesired)

def GetSubscribedTracks (m : SubscriptionManager) : List SubscribedTrack :=
  m.subscriptions.filterMap (fun e => (m.objs e.2).getSubscribedTrack)

def GetSubscribedParticipants (m : SubscriptionManager) : List ParticipantID :=
  m.subscribedTo.map (fun e => e.1)

def IsSubscribedTo (m : SubscriptionManager) (participantID : ParticipantID) : Bool :=
  (mapGet m.subscribedTo participantID).isSome

def UpdateSubscribedTrackSettings (m : SubscriptionManager) (trackID : TrackID)
    (settings : Option Nat) : SubscriptionManager × List Event :=
  let r := m.getOrCreate trackID
  let u := (r.1.objs r.2).setSettings settings
  (r.1.store r.2 u.1, u.2)

def OnSubscribeStatusChanged (m : SubscriptionManager) (fn : Bool) : SubscriptionManager :=
  { m with onSubscribeStatusChanged := fn }

def canReconcile (m : SubscriptionManager) (env : Env) : Bool :=
  if m.IsClosed || env.participantClosed || env.participantDisconnected then false else true

/-- The part of `subscribe` after `AddSubscriber` has handed out `subTrack`. -/
def subscribeTail (m1 : SubscriptionManager) (p : Nat) (subTrack : SubscribedTrack)
    (e2 : List Event) : SubscriptionManager × List Event × Outcome :=
  let e3 := e2 ++ [Event.OnClose subTrack.id (some p), Event.AddOnBind subTrack.id p]
  let ss := (m1.objs p).setSubscribedTrack (some subTrack)
  let m2 := m1.store p ss.1
  let e4 := e3 ++ ss.2 ++ (if subTrack.needsNegotiation then [Event.Negotiate false] else [])
  let publisherID := ss.1.getPublisherID
  let changedCB := m2.onSubscribeStatusChanged
  let old := mapGet m2.subscribedTo publisherID
  let firstSubscribe := old.isNone
  let pTracks := setAdd (old.getD []) ss.1.trackID
  let m3 := { m2 with subscribedTo := mapSet m2.subscribedTo publisherID pTracks }
  let e5 := e4 ++ [Event.OnTrackSubscribed subTrack.id] ++
    (if changedCB && firstSubscribe then [Event.OnSubscribeStatusChanged publisherID true]
     else [])
  (m3, e5, Outcome.ok)

/-- `subscribe`: the new manager, the calls made, and how it ended. -/
def subscribe (m : SubscriptionManager) (p : Nat) (env : Env) :
    SubscriptionManager × List Event × Outcome :=
  let m0 := m.store p ((m.objs p).startAttempt env.now)
  if !env.canSubscribe then (m0, [], Outcome.failed SubError.ErrNoSubscribePermission)
  else
    match env.resolver with
    | Except.error err => (m0, [], Outcome.failed err)
    | Except.ok res =>
      let track := res.Track
      let sp := (m0.objs p).setHasPermission res.HasPermission
      let permChanged := sp.2
      let m1 := m0.store p sp.1
      let e1 := if permChanged then
          [Event.SubscriptionPermissionUpdate sp.1.getPublisherID sp.1.trackID res.HasPermission]
        else []
      if !res.HasPermission then
        (m1, e1 ++ (if permChanged then [Event.AddChangeObserver track sp.1.trackID] else []),
          Outcome.failed SubError.ErrNoTrackPermission)
      else
        let e2 := e1 ++ [Event.AddSubscriber track]
        match env.addSubscriber with
        | (subTrack, some err) =>
          if err ≠ SubError.errAlreadySubscribed then (m1, e2, Outcome.failed err)
          else
            match subTrack with
            | none => (m1, e2 ++ [Event.nilDereference], Outcome.nilDeref)
            | some st => m1.subscribeTail p st e2
        | (none, none) => (m1, e2 ++ [Event.nilDereference], Outcome.nilDeref)
        | (some st, none) => m1.subscribeTail p st e2

/-- `unsubscribe`: the new manager, the calls made, and the returned error. -/
def unsubscribe (m : SubscriptionManager) (p : Nat) :
    SubscriptionManager × List Event × Option SubError :=
  match (m.objs p).getSubscribedTrack with
  | none => (m, [], none)
  | some subTrack =>
    (m, [Event.RemoveChangeObserver subTrack.mediaTrack,
         Event.RemoveSubscriber subTrack.mediaTrack false], none)

/-- `reconcileSubscription` for the subscription at address `s`. -/
def reconcileSubscription (cfg : Timeouts) (m : SubscriptionManager) (s : Nat) (env : Env) :
    SubscriptionManager × List Event :=
  if !m.canReconcile env then (m, [])
  else if (m.objs s).needsSubscribe then
    let e0 := if (m.objs s).numAttempts == 0 then
        [Event.TrackSubscribeRequested (m.objs s).trackID (m.objs s).getPublisherID]
      else []
    let r := m.subscribe s env
    match r.2.2 with
    | Outcome.nilDeref => (r.1, e0 ++ r.2.1)
    | Outcome.ok => (r.1.store s ((r.1.objs s).recordAttempt true), e0 ++ r.2.1)
    | Outcome.failed err =>
      let m1 := r.1.store s ((r.1.objs s).recordAttempt false)
      let e1 := e0 ++ r.2.1
      if err = SubError.ErrNoTrackPermission ∨ err = SubError.ErrNoSubscribePermission
          ∨ err = SubError.ErrTrackNotAttached then
        (m1, e1)
      else if err = SubError.ErrPublisherNotConnected ∨ err = SubError.ErrTrackNotFound then
        if (m1.objs s).durationSinceStart env.since > cfg.notFoundTimeout then
          let m2 := m1.store s ((m1.objs s).setDesired false).1
          (m2.queueReconcile (m2.objs s).trackID,
           e1 ++ [Event.log "info" "unsubscribing track since track isn't available"
                    (m1.objs s).trackID])
        else (m1, e1)
      else
        let e2 := e1 ++ [Event.log "warn" "failed to subscribe" (m1.objs s).trackID]
        if (m1.objs s).durationSinceStart env.since > cfg.subscriptionTimeout then
          (m1, e2 ++ [Event.OnSubcriptionError (m1.objs s).trackID])
        else (m1, e2)
  else if (m.objs s).needsUnsubscribe then
    let r := m.unsubscribe s
    match r.2.2 with
    | some _ => (r.1, r.2.1 ++ [Event.log "error" "failed to unsubscribe" (r.1.objs s).trackID])
    | none =>
      if !(r.1.objs s).isDesired then
        ({ r.1 with subscriptions := mapDel r.1.subscriptions (r.1.objs s).trackID }, r.2.1)
      else (r.1, r.2.1)
  else if (m.objs s).needsBind then
    if (m.objs s).durationSinceStart env.since > cfg.subscriptionTimeout then
      (m, [Event.log "error" "track not bound after timeout" (m.objs s).trackID,
           Event.OnSubcriptionError (m.objs s).trackID])
    else (m, [])
  else (m, [])

/-- `reconcileSubscriptions`: the subscriptions that need work are collected first and
reconciled afterwards, the `i`-th of them under `envs i`. -/
def reconcileSubscriptions (cfg : Timeouts) (m : SubscriptionManager) (envs : Nat → Env) :
    SubscriptionManager × List Event :=
  let needsToReconcile := (m.subscriptions.map (fun e => e.2)).filter (fun p =>
    (m.objs p).needsSubscribe || (m.objs p).needsUnsubscribe || (m.objs p).needsBind)
  (needsToReconcile.enum).foldl
    (fun acc ip =>
      let r := reconcileSubscription cfg acc.1 ip.2 (envs ip.1)
      (r.1, acc.2 ++ r.2))
    (m, [])

/-- `handleSubscribedTrackClose` for the subscription at address `s`. -/
def handleSubscribedTrackClose (m : SubscriptionManager) (s : Nat) (willBeResumed : Bool)
    (env : Env) : SubscriptionManager × List Event :=
  let e0 := [Event.log "debug" "subscribed track closed" (m.objs s).trackID]
  match (m.objs s).getSubscribedTrack with
  | none => (m, e0)
  | some subTrack =>
    let publisherID := (m.objs s).getPublisherID
    let changedCB := m.onSubscribeStatusChanged
    let r : List (ParticipantID × List TrackID) × Bool :=
      match mapGet m.subscribedTo publisherID with
      | none => (m.subscribedTo, false)
      | some pTracks =>
        let pTracks1 := setDel pTracks (m.objs s).trackID
        if pTracks1.length = 0 then (mapDel m.subscribedTo publisherID, true)
        else (mapSet m.subscribedTo publisherID pTracks1, false)
    let lastSubscription := r.2
    let m1 := { m with subscribedTo := r.1 }
    let e1 := e0 ++
      (if changedCB && lastSubscription then [Event.OnSubscribeStatusChanged publisherID false]
       else [])
    let ss := (m1.objs s).setSubscribedTrack none
    let m2 := m1.store s ss.1
    let e2 := e1 ++ [Event.OnClose subTrack.id none] ++ ss.2 ++
      [Event.OnTrackUnsubscribed subTrack.id]
    let e3 := if !willBeResumed then
        e2 ++ (if !env.participantClosed then [Event.TrackUnsubscribed subTrack.mediaTrack]
               else []) ++
          (if subTrack.hasRTPSender then
            [Event.log "debug" "removing PeerConnection track" (m.objs s).trackID,
             Event.RemoveTrackFromSubscriber subTrack.id] ++
            (if env.removeTrackFails then
              [Event.log "debug" "could not remove remoteTrack from forwarder"
                (m.objs s).trackID]
             else [])
           else []) ++
          [Event.Negotiate false]
      else e2
    (m2.queueReconcile (m2.objs s).trackID, e3)

/-- The callback `subscribe` hands to `AddOnBind`, run for the subscription at `s`. -/
def onBind (m : SubscriptionManager) (s : Nat) : SubscriptionManager × List Event :=
  (m.store s (m.objs s).setBound,
   match (m.objs s).getSubscribedTrack with
   | some subTrack => [Event.TrackSubscribed subTrack.mediaTrack]
   | none => [])

/-- The condition under which `reconcileSubscription` clears `desired`. -/
def clearsDesired (cfg : Timeouts) (m : SubscriptionManager) (s : Nat) (env : Env) : Prop :=
  m.canReconcile env = true ∧ (m.objs s).needsSubscribe = true ∧
  ((m.subscribe s env).2.2 = Outcome.failed SubError.ErrPublisherNotConnected ∨
   (m.subscribe s env).2.2 = Outcome.failed SubError.ErrTrackNotFound) ∧
  ((m.objs s).startAttempt env.now).durationSinceStart env.since > cfg.notFoundTimeout

/-- The duration `reconcileSubscription` compares with the timeouts: after a `subscribe`
it is read from the object `startAttempt` has been applied to. -/
def durationRead (m : SubscriptionManager) (s : Nat) (env : Env) : Duration :=
  if (m.objs s).needsSubscribe then ((m.objs s).startAttempt env.now).durationSinceStart env.since
  else (m.objs s).durationSinceStart env.since

/-- The condition under which `reconcileSubscription` calls `OnSubcriptionError`. -/
def raisesError (cfg : Timeouts) (m : SubscriptionManager) (s : Nat) (env : Env) : Prop :=
  m.canReconcile env = true ∧ durationRead m s env > cfg.subscriptionTimeout ∧
  (((m.objs s).needsSubscribe = true ∧
      ∃ err, (m.subscribe s env).2.2 = Outcome.failed err ∧
        err ≠ SubError.ErrNoTrackPermission ∧ err ≠ SubError.ErrNoSubscribePermission ∧
        err ≠ SubError.ErrTrackNotAttached ∧ err ≠ SubError.ErrPublisherNotConnected ∧
        err ≠ SubError.ErrTrackNotFound) ∨
   ((m.objs s).needsSubscribe = false ∧ (m.objs s).needsUnsubscribe = false ∧
      (m.objs s).needsBind = true))

/-- Reconciles the subscription at `s` once per environment of the list, in order. -/
def reconcileRun (cfg : Timeouts) (m : SubscriptionManager) (s : Nat) :
    List Env → SubscriptionManager
  | [] => m
  | env :: rest => reconcileRun cfg (m.reconcileSubscription cfg s env).1 s rest

/-- Every reconcile of the run gets as far as `subscribe`, which fails with
`ErrPublisherNotConnected` or `ErrTrackNotFound`. -/
def notFoundRun (cfg : Timeouts) (m : SubscriptionManager) (s : Nat) : List Env → Bool
  | [] => true
  | env :: rest =>
    m.canReconcile env &&
    (decide ((m.subscribe s env).2.2 = Outcome.failed SubError.ErrPublisherNotConnected) ||
     decide ((m.subscribe s env).2.2 = Outcome.failed SubError.ErrTrackNotFound)) &&
    notFoundRun cfg (m.reconcileSubscription cfg s env).1 s rest

/-- Every reconcile of the run gets as far as `subscribe`, which returns an error. -/
def failedRun (cfg : Timeouts) (m : SubscriptionManager) (s : Nat) : List Env → Bool
  | [] => true
  | env :: rest =>
    m.canReconcile env && (m.objs s).needsSubscribe &&
    (match (m.subscribe s env).2.2 with
     | Outcome.failed _ => true
     | _ => false) &&
    failedRun cfg (m.reconcileSubscription cfg s env).1 s rest

/-- Runs `reconcileSubscriptions` once per element of the list, one element per tick. -/
def tickRun (cfg : Timeouts) (m : SubscriptionManager) :
    List (Nat → Env) → SubscriptionManager
  | [] => m
  | envs :: rest => tickRun cfg (m.reconcileSubscriptions cfg envs).1 rest

/-- Clock readings of successive reconciles: the first not before `t`, each at least `d`
after the one before, and `time.Since` never reading an earlier time than `time.Now`. -/
def ticksFrom (t : Time) (d : Duration) : List Env → Bool
  | [] => true
  | e :: r => decide (t ≤ e.now) && decide (e.now ≤ e.since) && ticksFrom (e.now + d) d r

/-- An environment in which reconcile goes ahead and `subscribe` either succeeds or fails
with `ErrPublisherNotConnected` or `ErrTrackNotFound`. -/
def retriable (e : Env) : Bool :=
  !e.participantClosed && !e.participantDisconnected && e.canSubscribe &&
  (match e.resolver with
   | Except.error err =>
     decide (err = SubError.ErrPublisherNotConnected) || decide (err = SubError.ErrTrackNotFound)
   | Except.ok res =>
     res.HasPermission &&
     (match e.addSubscriber with
      | (some _, none) => true
      | _ => false))

/-- The states reconcile works towards: not desired, or holding a subscribed track. -/
def settled (a : trackSubscription) : Bool := !a.desired || a.subscribedTrack.isSome

end SubscriptionManager

/-- The operations on a manager that the properties below range over. -/
inductive Op
  | SubscribeToTrack (trackID : TrackID) (publisherIdentity : ParticipantIdentity)
      (publisherID : ParticipantID)
  | UnsubscribeFromTrack (trackID : TrackID)
  | UpdateSubscribedTrackSettings (trackID : TrackID) (settings : Option Nat)
  | reconcileSubscription (s : Nat) (env : Env)
  | handleSubscribedTrackClose (s : Nat) (willBeResumed : Bool) (env : Env)
  | onBind (s : Nat)

/-- Runs one operation. -/
def Op.run (cfg : Timeouts) (m : SubscriptionManager) : Op → SubscriptionManager × List Event
  | Op.SubscribeToTrack trackID publisherIdentity publisherID =>
    m.SubscribeToTrack trackID publisherIdentity publisherID
  | Op.UnsubscribeFromTrack trackID => m.UnsubscribeFromTrack trackID
  | Op.UpdateSubscribedTrackSettings trackID settings =>
    m.UpdateSubscribedTrackSettings trackID settings
  | Op.reconcileSubscription s env => m.reconcileSubscription cfg s env
  | Op.handleSubscribedTrackClose s willBeResumed env =>
    m.handleSubscribedTrackClose s willBeResumed env
  | Op.onBind s => m.onBind s

/-- Runs the operations one after the other. -/
def runOps (cfg : Timeouts) (m : SubscriptionManager) (ops : List Op) : SubscriptionManager :=
  ops.foldl (fun acc op => (op.run cfg acc).1) m

/-! ### Subscribe-status callbacks along a run of subscribes and closes -/

/-- The arguments of the `OnSubscribeStatusChanged` calls among the events, in order. -/
def statusEvents (es : List Event) : List (ParticipantID × Bool) :=
  es.filterMap (fun e =>
    match e with
    | Event.OnSubscribeStatusChanged p b => some (p, b)
    | _ => none)

/-- A call of `subscribe` for the subscription at `s`, or the close callback of its
subscribed track. -/
inductive SubOp
  | subscribe (s : Nat) (env : Env)
  | close (s : Nat) (willBeResumed : Bool) (env : Env)

/-- Runs one of the two. -/
def SubOp.run (m : SubscriptionManager) : SubOp → SubscriptionManager × List Event
  | SubOp.subscribe s env => ((m.subscribe s env).1, (m.subscribe s env).2.1)
  | SubOp.close s willBeResumed env => m.handleSubscribedTrackClose s willBeResumed env

/-- The `OnSubscribeStatusChanged` calls made along a run. -/
def statusTrace (m : SubscriptionManager) : List SubOp → List (ParticipantID × Bool)
  | [] => []
  | op :: rest => statusEvents (op.run m).2 ++ statusTrace (op.run m).1 rest

/-- The runs considered: `live` lists the subscriptions that hold a subscribed track.
Every `subscribe` is for a subscription without a subscribed track, succeeds, and is for a
track (publisher and track id) that no live subscription stands for. -/
def validOps (m : SubscriptionManager) (live : List Nat) : List SubOp → Bool
  | [] => true
  | SubOp.subscribe s env :: rest =>
    (m.objs s).subscribedTrack.isNone &&
    decide ((m.subscribe s env).2.2 = Outcome.ok) &&
    live.all (fun q => !(decide ((m.objs q).publisherID = (m.objs s).publisherID) &&
      decide ((m.objs q).trackID = (m.objs s).trackID))) &&
    validOps (m.subscribe s env).1 (s :: live) rest
  | SubOp.close s willBeResumed env :: rest =>
    validOps (m.handleSubscribedTrackClose s willBeResumed env).1 (live.erase s) rest

/-- The calls the specification asks for, `pubOf` giving the publisher of a subscription:
`(publisher, true)` when a track is subscribed while no live subscription has that
publisher, `(publisher, false)` when a live subscription is closed and no other live
subscription has that publisher, and nothing otherwise. -/
def specStatusChanges (pubOf : Nat → ParticipantID) :
    List Nat → List SubOp → List (ParticipantID × Bool)
  | _, [] => []
  | live, SubOp.subscribe s _ :: rest =>
    (if live.any (fun q => decide (pubOf q = pubOf s)) then [] else [(pubOf s, true)]) ++
      specStatusChanges pubOf (s :: live) rest
  | live, SubOp.close s _ _ :: rest =>
    (if s ∈ live then
      (if (live.erase s).any (fun q => decide (pubOf q = pubOf s)) then []
       else [(pubOf s, false)])
     else []) ++
      specStatusChanges pubOf (live.erase s) rest

/-- Consistency of the `subscribedTo` map with the subscriptions `live` that hold a
subscribed track: the map has no empty set, the set of a publisher holds exactly the track
ids of the live subscriptions of that publisher, and two live subscriptions never stand for
the same track of the same publisher. -/
def Tracks (m : SubscriptionManager) (live : List Nat) : Prop :=
  live.Nodup ∧
  (∀ q, q ∈ live ↔ (m.objs q).subscribedTrack.isSome = true) ∧
  (∀ pub l, mapGet m.subscribedTo pub = some l → l ≠ []) ∧
  (∀ pub tid, tid ∈ (mapGet m.subscribedTo pub).getD [] ↔
    ∃ q, q ∈ live ∧ (m.objs q).publisherID = pub ∧ (m.objs q).trackID = tid) ∧
  (∀ q, q ∈ live → ∀ q2, q2 ∈ live → (m.objs q).publisherID = (m.objs q2).publisherID →
    (m.objs q).trackID = (m.objs q2).trackID → q = q2)

/-! ### Concrete environments for the scenarios -/

namespace Scenario

/-- Seconds as a duration. -/
def sec (n : Int) : Duration := n * 1000000000

def subTrack : SubscribedTrack :=
  { id := 1, mediaTrack := 7, needsNegotiation := false, hasRTPSender := false }

/-- The resolver finds the track with permission and `AddSubscriber` succeeds. -/
def envOk (t : Time) : Env :=
  { now := t, since := t, participantClosed := false, participantDisconnected := false,
    canSubscribe := true, resolver := Except.ok { Track := 7, HasPermission := true },
    addSubscriber := (some subTrack, none), removeTrackFails := false }

/-- The resolver answers `ErrTrackNotFound`. -/
def envNotFound (t : Time) : Env :=
  { envOk t with resolver := Except.error SubError.ErrTrackNotFound }

/-- The participant is disconnected. -/
def envDisconnected (t : Time) : Env :=
  { envOk t with participantDisconnected := true }

/-- A manager with one subscription `t` that is desired and has no subscribed track. -/
def wanted : SubscriptionManager :=
  (NewSubscriptionManager.SubscribeToTrack "t" "pub" "pubID").1

/-- The subscription `t` subscribed at time 0 and not bound yet. -/
def subscribed : SubscriptionManager :=
  (wanted.reconcileSubscription defaultTimeouts 0 (envOk 0)).1

/-- The subscription `t` subscribed and then no longer wanted. -/
def unwanted : SubscriptionManager := (subscribed.UnsubscribeFromTrack "t").1

/-- The resolver finds the track and reports that permission is missing. -/
def envDenied (t : Time) : Env :=
  { envOk t with resolver := Except.ok { Track := 7, HasPermission := false } }

/-- The publisher track answers `AddSubscriber` with `errAlreadySubscribed` and, as Go
functions do next to an error, a nil `SubscribedTrack`. -/
def envAlreadyNil (t : Time) : Env :=
  { envOk t with addSubscriber := (none, some SubError.errAlreadySubscribed) }

/-- `AddSubscriber` fails with an error that is none of the sentinel values. -/
def envFails (t : Time) : Env :=
  { envOk t with addSubscriber := (none, some (SubError.other 1)) }

/-- `AddSubscriber` answers `errAlreadySubscribed` and hands out a track all the same. -/
def envAlreadySome (t : Time) : Env :=
  { envOk t with addSubscriber := (some subTrack, some SubError.errAlreadySubscribed) }

/-- The subscription `t` after one attempt at which `AddSubscriber` failed. -/
def failedOnce : SubscriptionManager :=
  (wanted.reconcileSubscription defaultTimeouts 0 (envFails 0)).1

/-- A manager with the status callback set and three wanted subscriptions: tracks `a` and
`b` of publisher `pubID` (addresses 0 and 1) and track `c` of publisher `pub2ID`
(address 2). -/
def threeTracks : SubscriptionManager :=
  ((((NewSubscriptionManager.OnSubscribeStatusChanged true).SubscribeToTrack
    "a" "pub" "pubID").1.SubscribeToTrack "b" "pub" "pubID").1.SubscribeToTrack
    "c" "pub2" "pub2ID").1

/-- All three tracks are subscribed, then closed. -/
def threeOps : List SubOp :=
  [SubOp.subscribe 0 (envOk 0), SubOp.subscribe 2 (envOk 0), SubOp.subscribe 1 (envOk 0),
   SubOp.close 0 false (envOk 1), SubOp.close 2 false (envOk 1), SubOp.close 1 false (envOk 1)]

/-- The subscription `t` after one attempt that was refused for lack of permission. -/
def denied : SubscriptionManager :=
  (wanted.reconcileSubscription defaultTimeouts 0 (envDenied 0)).1

/-- A second subscribed track of the media track 7, as `AddSubscriber` hands out to a new
subscription of the same track. -/
def subTrack2 : SubscribedTrack :=
  { id := 2, mediaTrack := 7, needsNegotiation := false, hasRTPSender := false }

/-- The resolver finds the track with permission and `AddSubscriber` hands out
`subTrack2`. -/
def envOk2 (t : Time) : Env :=
  { envOk t with addSubscriber := (some subTrack2, none) }

/-- With the status callback set, `SubscribeToTrack(t)` and a reconcile that subscribes:
the subscription object at address 0 holds `subTrack`. -/
def staleFirst : SubscriptionManager × List Event :=
  ((NewSubscriptionManager.OnSubscribeStatusChanged true).SubscribeToTrack
    "t" "pub" "pubID").1.reconcileSubscription defaultTimeouts 0 (envOk 0)

/-- Then `UnsubscribeFromTrack(t)` and a reconcile: the track is asked to remove the
subscriber and the entry of `t` is deleted from the subscriptions; the close callback of
`subTrack` has not run yet. -/
def staleRemoved : SubscriptionManager × List Event :=
  (staleFirst.1.UnsubscribeFromTrack "t").1.reconcileSubscription defaultTimeouts 0 (envOk 1)

/-- Then `SubscribeToTrack(t)` again, which makes a new subscription object at address 1,
and a reconcile that subscribes it with `subTrack2`. -/
def staleSecond : SubscriptionManager × List Event :=
  (staleRemoved.1.SubscribeToTrack "t" "pub" "pubID").1.reconcileSubscription
    defaultTimeouts 1 (envOk2 2)

/-- Then the close callback of `subTrack`, registered for the object at address 0. -/
def staleClose : SubscriptionManager × List Event :=
  staleSecond.1.handleSubscribedTrackClose 0 false (envOk 3)

/-- Then the close callback of `subTrack2`, registered for the object at address 1. -/
def staleLast : SubscriptionManager × List Event :=
  staleClose.1.handleSubscribedTrackClose 1 false (envOk 4)

end Scenario

end Rtc

/-! ## `pkg/sfu`: the forwarder

`forwarder.go` and `rtpmunger.go` are not among the sources; of the forwarder only
`forwarder_test.go` is.  The definitions of this section are therefore modelled from the
specification (sections 3, 4.1 and 4.2); where the specification leaves a detail open or
is contradicted by an expectation of `forwarder_test.go`, the test decides, and the
definition says so.  The expectations of the tests are transcribed as data
(`TestForwarder...`). -/

namespace Sfu

open Utils

/-! ### Packet translation, audio path -/

/-- The values of `SequenceNumberOrdering` the tests name. -/
inductive SequenceNumberOrdering
  | Contiguous
  | OutOfOrder
  | Gap
  | Duplicate
deriving DecidableEq, Repr

/-- The struct `TranslationParamsRTP`, as the tests build it. -/
structure TranslationParamsRTP where
  snOrdering : SequenceNumberOrdering
  sequenceNumber : Nat
  timestamp : Nat
deriving DecidableEq, Repr

/-- The struct `TranslationParams`, as the tests build it for an audio track (no VP8 part,
no layer switch). -/
structure TranslationParams where
  shouldDrop : Bool
  isDroppingRelevant : Bool
  rtp : Option TranslationParamsRTP
deriving DecidableEq, Repr

/-- What the audio path reads of a packet (`testutils.TestExtPacketParams`): a packet with
`PayloadSize = 0` is padding only.  `frameTimeDelta` is the frame time delta the forwarder
derives for the packet; it is used only for the first packet of a new source. -/
structure ExtPacket where
  SequenceNumber : Nat
  Timestamp : Nat
  SSRC : Nat
  PayloadSize : Nat
  frameTimeDelta : Nat
deriving DecidableEq, Repr

/-- Modelled from the spec: the state of the sequence number and timestamp munger
(`rtpmunger.go` is missing), section 4.1 steps 5 to 9.  `missingSNs` maps a source sequence
number reserved by a gap to the offset in force when it was reserved. -/
structure RTPMunger where
  highestIncomingSN : Nat
  snOffset : Nat
  lastSN : Nat
  lastTS : Nat
  tsOffset : Nat
  missingSNs : List (Nat × Nat)
deriving DecidableEq, Repr

/-- Modelled from the spec: the part of the `Forwarder` state that the audio path of
`GetTranslationParams` uses (`forwarder.go` is missing), section 3. -/
structure PacketForwarder where
  muted : Bool
  pubMuted : Bool
  started : Bool
  lastSSRC : Nat
  rtpMunger : RTPMunger
deriving DecidableEq, Repr

/-- A forwarder that has seen no packet. -/
def newPacketForwarder : PacketForwarder :=
  { muted := false, pubMuted := false, started := false, lastSSRC := 0,
    rtpMunger := { highestIncomingSN := 0, snOffset := 0, lastSN := 0, lastTS := 0,
                   tsOffset := 0, missingSNs := [] } }

namespace RTPMunger

/-- Modelled from the spec: locking onto the first packet (`rtpmunger.go` is missing).  The
first packet is translated to its own sequence number and timestamp (test, line 1158). -/
def SetLastSnTs (r : RTPMunger) (pkt : ExtPacket) : RTPMunger :=
  { r with highestIncomingSN := subW 16 pkt.SequenceNumber 1,
           snOffset := 0,
           lastSN := subW 16 pkt.SequenceNumber 1,
           lastTS := conv 32 pkt.Timestamp,
           tsOffset := 0,
           missingSNs := [] }

/-- Modelled from the spec: step 5 of section 4.1 (`rtpmunger.go` is missing).  On the first
packet of a new source the offsets are set so that this packet gets the sequence number
`lastSN + 1` and the timestamp `lastTS + frameTimeDelta`; the reservations of the old
source are dropped. -/
def UpdateSnTsOffsets (r : RTPMunger) (pkt : ExtPacket) : RTPMunger :=
  { r with highestIncomingSN := subW 16 pkt.SequenceNumber 1,
           snOffset := subW 16 (subW 16 pkt.SequenceNumber r.lastSN) 1,
           tsOffset := subW 32 (subW 32 pkt.Timestamp r.lastTS) pkt.frameTimeDelta,
           missingSNs := [] }

/-- Modelled from the spec: the reservation of step 8 (`rtpmunger.go` is missing): the
source sequence numbers `highest + 1, ..., highest + n` are reserved under `offset`. -/
def reserve (missing : List (Nat × Nat)) (highest offset : Nat) : Nat → List (Nat × Nat)
  | 0 => missing
  | n + 1 => Rtc.mapSet (reserve missing highest offset n) (addW 16 highest (n + 1)) offset

/-- Modelled from the spec: steps 6 to 9 of section 4.1 (`rtpmunger.go` is missing).  With
`diff = SequenceNumber - highestIncomingSN` on 16 bits:
* `diff = 0`: duplicate, dropped (step 6);
* `diff > 2^15`: before the highest; forwarded as `OutOfOrder` under the reserved offset if
  the number was reserved by a gap, and the reservation is used up; dropped as relevant
  otherwise (step 7);
* `diff = 1` and padding only: dropped, and the offset grows by one so that the next packet
  stays contiguous (step 9; test, lines 1197 to 1224);
* otherwise forwarded as `Contiguous` (`diff = 1`) or as `Gap` (`diff > 1`), the `diff - 1`
  numbers in between being reserved (step 8; test, lines 1226 to 1244).
The result is the new state, the translated header if the packet is forwarded, and whether
a drop is relevant. -/
def UpdateAndGetSnTs (r : RTPMunger) (pkt : ExtPacket) :
    RTPMunger × Option TranslationParamsRTP × Bool :=
  let sn := conv 16 pkt.SequenceNumber
  let diff := subW 16 sn r.highestIncomingSN
  if diff = 0 then (r, none, false)
  else if diff > 2 ^ 15 then
    match Rtc.mapGet r.missingSNs sn with
    | some offset =>
      ({ r with missingSNs := Rtc.mapDel r.missingSNs sn },
       some { snOrdering := SequenceNumberOrdering.OutOfOrder,
              sequenceNumber := subW 16 sn offset,
              timestamp := subW 32 pkt.Timestamp r.tsOffset },
       false)
    | none => (r, none, true)
  else if diff = 1 ∧ pkt.PayloadSize = 0 then
    ({ r with highestIncomingSN := sn, snOffset := addW 16 r.snOffset 1 }, none, false)
  else
    let out := subW 16 sn r.snOffset
    let ts := subW 32 pkt.Timestamp r.tsOffset
    ({ r with highestIncomingSN := sn, lastSN := out, lastTS := ts,
              missingSNs := reserve r.missingSNs r.highestIncomingSN r.snOffset (diff - 1) },
     some { snOrdering := if diff = 1 then SequenceNumberOrdering.Contiguous
                          else SequenceNumberOrdering.Gap,
            sequenceNumber := out, timestamp := ts },
     false)

end RTPMunger

namespace PacketForwarder

/-- Modelled from the spec: `GetTranslationParams` for an audio track (`forwarder.go` is
missing), section 4.1: the mute gate (step 1), locking onto the first packet or onto a new
source (step 5), then the munger (steps 6 to 9).  The video gates (steps 2 to 4) and the
VP8 munging (step 10) do not apply to audio. -/
def GetTranslationParams (f : PacketForwarder) (pkt : ExtPacket) :
    PacketForwarder × TranslationParams :=
  if f.muted || f.pubMuted then
    (f, { shouldDrop := true, isDroppingRelevant := false, rtp := none })
  else
    let r0 := if !f.started then f.rtpMunger.SetLastSnTs pkt
      else if f.lastSSRC ≠ pkt.SSRC then f.rtpMunger.UpdateSnTsOffsets pkt
      else f.rtpMunger
    let u := r0.UpdateAndGetSnTs pkt
    ({ f with started := true, lastSSRC := pkt.SSRC, rtpMunger := u.1 },
     match u.2.1 with
     | some rtp => { shouldDrop := false, isDroppingRelevant := false, rtp := some rtp }
     | none => { shouldDrop := true, isDroppingRelevant := u.2.2, rtp := none })

/-- The answers to a sequence of packets, in order. -/
def translate (f : PacketForwarder) : List ExtPacket → List TranslationParams
  | [] => []
  | pkt :: rest => (f.GetTranslationParams pkt).2 :: translate (f.GetTranslationParams pkt).1 rest

/-- The state after a sequence of packets. -/
def after (f : PacketForwarder) : List ExtPacket → PacketForwarder
  | [] => f
  | pkt :: rest => after (f.GetTranslationParams pkt).1 rest

end PacketForwarder

/-- The translated headers of the forwarded packets, in forwarding order. -/
def forwarded (tps : List TranslationParams) : List TranslationParamsRTP :=
  tps.filterMap (fun tp => tp.rtp)

/-- `b` is strictly ahead of `a` as a 16-bit sequence number: `0 < b - a ≤ 2^15`. -/
def snAhead (a b : Nat) : Bool :=
  decide (0 < subW 16 b a) && decide (subW 16 b a ≤ 2 ^ 15)

/-- `b` is not behind `a` as a 32-bit timestamp: `b - a ≤ 2^31`. -/
def tsNotBehind (a b : Nat) : Bool := decide (subW 32 b a ≤ 2 ^ 31)

/-- Every element stands in relation `r` to the one before it. -/
def chain (r : Nat → Nat → Bool) : List Nat → Bool
  | [] => true
  | [_] => true
  | a :: b :: rest => r a b && chain r (b :: rest)

/-- The headers of the packets forwarded in order, as `Contiguous` or `Gap`. -/
def inOrder (tps : List TranslationParams) : List TranslationParamsRTP :=
  (forwarded tps).filter (fun r => decide (r.snOrdering ≠ SequenceNumberOrdering.OutOfOrder))

/-- The condition on one packet under which timestamps can be compared: its source
timestamp is not behind that of the last packet forwarded in order (`lastTS + tsOffset`),
or, for the first packet of a new source, its frame time delta is at most `2^31`. -/
def tsCond (f : PacketForwarder) (pkt : ExtPacket) : Bool :=
  if f.lastSSRC = pkt.SSRC then
    tsNotBehind (addW 32 f.rtpMunger.lastTS f.rtpMunger.tsOffset) pkt.Timestamp
  else decide (pkt.frameTimeDelta ≤ 2 ^ 31)

/-- The condition `tsCond` for every packet of the sequence that a started forwarder
forwards in order. -/
def tsInputOk (f : PacketForwarder) : List ExtPacket → Bool
  | [] => true
  | pkt :: rest =>
    (match (f.GetTranslationParams pkt).2.rtp with
     | some rtp =>
       decide (rtp.snOrdering = SequenceNumberOrdering.OutOfOrder) || !f.started ||
       tsCond f pkt
     | none => true) &&
    tsInputOk (f.GetTranslationParams pkt).1 rest

/-- The munger's last outbound sequence number is the translation of the highest source
sequence number. -/
def RTPMunger.consistent (r : RTPMunger) : Prop :=
  r.lastSN = subW 16 r.highestIncomingSN r.snOffset

/-- The packets of `TestForwarderGetTranslationParamsAudio` (lines 1148 to 1290) with the
answer the test requires for each. -/
def TestForwarderGetTranslationParamsAudio : List (ExtPacket × TranslationParams) :=
  let pkt (sn ts ssrc size : Nat) : ExtPacket :=
    { SequenceNumber := sn, Timestamp := ts, SSRC := ssrc, PayloadSize := size,
      frameTimeDelta := 1 }
  let drop (relevant : Bool) : TranslationParams :=
    { shouldDrop := true, isDroppingRelevant := relevant, rtp := none }
  let fwd (o : SequenceNumberOrdering) (sn ts : Nat) : TranslationParams :=
    { shouldDrop := false, isDroppingRelevant := false,
      rtp := some { snOrdering := o, sequenceNumber := sn, timestamp := ts } }
  [(pkt 23333 0xabcdef 0x12345678 20, fwd SequenceNumberOrdering.Contiguous 23333 0xabcdef),
   (pkt 23333 0xabcdef 0x12345678 20, drop false),
   (pkt 23332 0xabcdef 0x12345678 20, drop true),
   (pkt 23334 0xabcdef 0x12345678 0, drop false),
   (pkt 23335 0xabcdef 0x12345678 20, fwd SequenceNumberOrdering.Contiguous 23334 0xabcdef),
   (pkt 23337 0xabcdef 0x12345678 0, fwd SequenceNumberOrdering.Gap 23336 0xabcdef),
   (pkt 23336 0xabcdef 0x12345678 20, fwd SequenceNumberOrdering.OutOfOrder 23335 0xabcdef),
   (pkt 123 0xfedcba 0x87654321 20, fwd SequenceNumberOrdering.Contiguous 23337 0xabcdf0)]

/-! ### Layer allocation -/

/-- The struct `VideoLayers`; the invalid value of a component is -1. -/
structure VideoLayers where
  Spatial : Int
  Temporal : Int
deriving DecidableEq, Repr

def InvalidLayerSpatial : Int := -1

def InvalidLayerTemporal : Int := -1

def InvalidLayers : VideoLayers := { Spatial := InvalidLayerSpatial, Temporal := InvalidLayerTemporal }

def DefaultMaxLayerSpatial : Int := 2

def DefaultMaxLayerTemporal : Int := 3

def DefaultMaxLayers : VideoLayers :=
  { Spatial := DefaultMaxLayerSpatial, Temporal := DefaultMaxLayerTemporal }

namespace VideoLayers

/-- Modelled from the spec: `IsValid` (its declaration is missing): neither component is
the invalid value. -/
def IsValid (v : VideoLayers) : Bool :=
  decide (v.Spatial ≠ InvalidLayerSpatial) && decide (v.Temporal ≠ InvalidLayerTemporal)

/-- Modelled from the spec: `GreaterThan` (its declaration is missing): higher spatial
layer, or the same spatial layer and a higher temporal layer. -/
def GreaterThan (v v2 : VideoLayers) : Bool :=
  decide (v.Spatial > v2.Spatial) ||
  (decide (v.Spatial = v2.Spatial) && decide (v.Temporal > v2.Temporal))

end VideoLayers

/-- The type `Bitrates`: rows are spatial layers, columns temporal layers; a cell that is
not written is 0, as in the Go array. -/
abbrev Bitrates := List (List Int)

/-- The cell `brs[s][t]`. -/
def Bitrates.cell (brs : Bitrates) (s t : Int) : Int :=
  if s < 0 ∨ t < 0 then 0 else (brs.getD s.toNat []).getD t.toNat 0

/-- The values of `VideoPauseReason`. -/
inductive VideoPauseReason
  | None
  | Muted
  | PubMuted
  | FeedDry
  | Bandwidth
deriving DecidableEq, Repr

/-- The struct `VideoAllocation`, with the fields the tests set. -/
structure VideoAllocation where
  pauseReason : VideoPauseReason
  isDeficient : Bool
  bandwidthRequested : Int
  bandwidthDelta : Int
  bitrates : Bitrates
  targetLayers : VideoLayers
  requestLayerSpatial : Int
  maxLayers : VideoLayers
  distanceToDesired : Int
deriving DecidableEq, Repr

/-- Modelled from the spec: the provisional accumulator of section 4.2
(`forwarder.go` is missing): the snapshot `ProvisionalAllocatePrepare` takes and the cell
committed so far. -/
structure Provisional where
  muted : Bool
  pubMuted : Bool
  maxPublishedLayer : Int
  maxLayers : VideoLayers
  bitrates : Bitrates
  allocatedLayers : VideoLayers
deriving DecidableEq, Repr

/-- Modelled from the spec: the part of the `Forwarder` state that the layer allocator uses
(`forwarder.go` is missing), section 3. -/
structure Forwarder where
  muted : Bool
  pubMuted : Bool
  maxLayers : VideoLayers
  maxPublishedLayer : Int
  currentLayers : VideoLayers
  targetLayers : VideoLayers
  parkedLayers : VideoLayers
  requestLayerSpatial : Int
  lastAllocation : VideoAllocation
  provisional : Provisional
deriving DecidableEq, Repr

/-- Modelled from the spec: a new video forwarder (`NewForwarder` is missing).  Its max
layers are `(invalid, 3)` and its current and target layers are invalid
(`TestForwarderLayersVideo`, lines 60 to 68); nothing has been requested yet. -/
def newVideoForwarder : Forwarder :=
  { muted := false, pubMuted := false,
    maxLayers := { Spatial := InvalidLayerSpatial, Temporal := DefaultMaxLayerTemporal },
    maxPublishedLayer := InvalidLayerSpatial,
    currentLayers := InvalidLayers, targetLayers := InvalidLayers,
    parkedLayers := InvalidLayers, requestLayerSpatial := InvalidLayerSpatial,
    lastAllocation :=
      { pauseReason := VideoPauseReason.FeedDry, isDeficient := false,
        bandwidthRequested := 0, bandwidthDelta := 0, bitrates := [],
        targetLayers := InvalidLayers, requestLayerSpatial := InvalidLayerSpatial,
        maxLayers := InvalidLayers, distanceToDesired := 0 },
    provisional :=
      { muted := false, pubMuted := false, maxPublishedLayer := InvalidLayerSpatial,
        maxLayers := InvalidLayers, bitrates := [], allocatedLayers := InvalidLayers } }

/-- The cells `n, n - 1, ..., 0` of one axis, none if `n` is negative. -/
def downFrom (n : Int) : List Int :=
  (List.range (n + 1).toNat).reverse.map Int.ofNat

/-- Modelled from the spec: the cells that `distance_to_desired` passes (`forwarder.go` is
missing), from `max` downwards: spatial layers from `max.Spatial` to 0, within each the
temporal layers from `max.Temporal` to 0. -/
def cellsDown (max : VideoLayers) : List (Int × Int) :=
  (downFrom max.Spatial).flatMap (fun s => (downFrom max.Temporal).map (fun t => (s, t)))

/-- Modelled from the spec: the count of `distance_to_desired` (`forwarder.go` is missing):
walks the cells, counting those with a bitrate, until the target is met; the result is the
count and whether the target was met. -/
def walk (brs : Bitrates) (target : VideoLayers) : List (Int × Int) → Int × Bool
  | [] => (0, false)
  | c :: rest =>
    if brs.cell c.1 c.2 = 0 then walk brs target rest
    else if c.1 = target.Spatial ∧ c.2 = target.Temporal then (0, true)
    else ((walk brs target rest).1 + 1, (walk brs target rest).2)

/-- Modelled from the spec: the cells counted for a target above max layers
(`forwarder.go` is missing): those of the spatial layers above `max.Spatial` up to the
target's, within each the temporal layers from the target's down to 0. -/
def overshootCells (target max : VideoLayers) : List (Int × Int) :=
  ((downFrom target.Spatial).filter (fun s => decide (s > max.Spatial))).flatMap
    (fun s => (downFrom target.Temporal).map (fun t => (s, t)))

/-- Modelled from the spec: `distance_to_desired` of section 4.2 (`forwarder.go` is missing).
The spec's formula counts every cell between target and max layers; the expectations of
`forwarder_test.go` require that only cells with a bitrate count (lines 879 to 898), that an
invalid target counts every cell with a bitrate up to max layers (lines 1075 to 1089), and
that the distance is 0 without a published layer (lines 140 to 157).  When the target is
above max layers the distance is minus the number of cells with a bitrate that
`overshootCells` lists (lines 484 to 500, 739 to 752). -/
def getDistanceToDesired (muted pubMuted : Bool) (maxPublishedLayer : Int) (brs : Bitrates)
    (target max : VideoLayers) : Int :=
  if muted || pubMuted || decide (maxPublishedLayer = InvalidLayerSpatial) then 0
  else
    let w := walk brs target (cellsDown max)
    if w.2 then w.1
    else if target.IsValid then
      -(((overshootCells target max).countP (fun c => decide (brs.cell c.1 c.2 ≠ 0)) : Nat) : Int)
    else w.1

/-- The formula of the specification for `distance_to_desired` (section 4.2). -/
def specDistanceToDesired (a : VideoAllocation) : Int :=
  if a.pauseReason = VideoPauseReason.Muted ∨ a.pauseReason = VideoPauseReason.PubMuted then 0
  else (a.maxLayers.Spatial - a.targetLayers.Spatial) * (DefaultMaxLayerTemporal + 1)
    + (a.maxLayers.Temporal - a.targetLayers.Temporal)

/-- The cells that the walk from `max` downwards passes before it meets the cell of the
target: those of the spatial layers above the target's and those of the target's spatial
layer with a higher temporal layer. -/
def cellsAbove (target max : VideoLayers) : List (Int × Int) :=
  (cellsDown max).takeWhile
    (fun c => !decide (c.1 = target.Spatial ∧ c.2 = target.Temporal))

/-- The rule that `distanceToDesired` of an allocation follows, for an allocation made while
the forwarder had the given mute flags and max published layer.  The distance is 0 if the
forwarder is muted, muted by the publisher or has no published layer.  Otherwise:
* if the target is a cell with a bitrate that is not above max layers, the distance is the
  number of cells with a bitrate between the target and max layers (`cellsAbove`); with
  `MaxTemporal` for max temporal layer this is at most the value
  `(max_spatial - target_spatial) * (MaxTemporal + 1) + (max_temporal - target_temporal)` of
  the specification, equal to it if all these cells have a bitrate and smaller if one has
  none;
* if the target is invalid, the distance is the number of cells with a bitrate up to max
  layers;
* if the target is a cell with a bitrate in a spatial layer above max layers, the distance
  is negative. -/
def DistanceRule (muted pubMuted : Bool) (maxPublishedLayer : Int) (a : VideoAllocation) :
    Prop :=
  (muted = true ∨ pubMuted = true ∨ maxPublishedLayer = InvalidLayerSpatial →
    a.distanceToDesired = 0) ∧
  (muted = false → pubMuted = false → maxPublishedLayer ≠ InvalidLayerSpatial →
    (0 ≤ a.targetLayers.Spatial → a.targetLayers.Spatial ≤ a.maxLayers.Spatial →
      0 ≤ a.targetLayers.Temporal → a.targetLayers.Temporal ≤ a.maxLayers.Temporal →
      a.bitrates.cell a.targetLayers.Spatial a.targetLayers.Temporal ≠ 0 →
      a.distanceToDesired = (((cellsAbove a.targetLayers a.maxLayers).countP
          (fun c => decide (a.bitrates.cell c.1 c.2 ≠ 0)) : Nat) : Int) ∧
      (a.maxLayers.Temporal = DefaultMaxLayerTemporal →
        a.distanceToDesired ≤ (a.maxLayers.Spatial - a.targetLayers.Spatial) *
            (DefaultMaxLayerTemporal + 1) + (a.maxLayers.Temporal - a.targetLayers.Temporal) ∧
        ((∀ c ∈ cellsAbove a.targetLayers a.maxLayers, a.bitrates.cell c.1 c.2 ≠ 0) →
          a.distanceToDesired = (a.maxLayers.Spatial - a.targetLayers.Spatial) *
            (DefaultMaxLayerTemporal + 1) + (a.maxLayers.Temporal - a.targetLayers.Temporal)) ∧
        ((∃ c ∈ cellsAbove a.targetLayers a.maxLayers, a.bitrates.cell c.1 c.2 = 0) →
          a.distanceToDesired < (a.maxLayers.Spatial - a.targetLayers.Spatial) *
            (DefaultMaxLayerTemporal + 1) +
            (a.maxLayers.Temporal - a.targetLayers.Temporal)))) ∧
    (a.targetLayers = InvalidLayers →
      a.distanceToDesired = (((cellsDown a.maxLayers).countP
          (fun c => decide (a.bitrates.cell c.1 c.2 ≠ 0)) : Nat) : Int)) ∧
    (0 ≤ a.targetLayers.Spatial → 0 ≤ a.targetLayers.Temporal →
      a.maxLayers.Spatial < a.targetLayers.Spatial →
      a.bitrates.cell a.targetLayers.Spatial a.targetLayers.Temporal ≠ 0 →
      a.distanceToDesired < 0))

/-- Modelled from the spec: what an allocator operation selects for the allocation it
returns (`forwarder.go` is missing).  How `AllocateOptimal`, `ProvisionalAllocateCommit` and
`AllocateNextHigher` select is not modelled: the selection is a parameter of theirs. -/
structure VideoSelection where
  pauseReason : VideoPauseReason
  isDeficient : Bool
  bandwidthRequested : Int
  bandwidthDelta : Int
  targetLayers : VideoLayers
  requestLayerSpatial : Int
deriving DecidableEq, Repr

/-- Modelled from the spec: the allocation made of a selection (`forwarder.go` is missing).
It carries the bitrates and the max layers it was made for; its distance to desired is
computed from them, the target, and the mute flags and max published layer of the
forwarder. -/
def VideoSelection.allocation (sel : VideoSelection) (muted pubMuted : Bool)
    (maxPublishedLayer : Int) (brs : Bitrates) (maxLayers : VideoLayers) : VideoAllocation :=
  { pauseReason := sel.pauseReason, isDeficient := sel.isDeficient,
    bandwidthRequested := sel.bandwidthRequested, bandwidthDelta := sel.bandwidthDelta,
    bitrates := brs, targetLayers := sel.targetLayers,
    requestLayerSpatial := sel.requestLayerSpatial, maxLayers := maxLayers,
    distanceToDesired :=
      getDistanceToDesired muted pubMuted maxPublishedLayer brs sel.targetLayers maxLayers }

namespace Forwarder

/-- Modelled from the spec: `Mute` (`forwarder.go` is missing) sets the flag and reports
whether it changed (`TestForwarderMute`). -/
def Mute (f : Forwarder) (muted : Bool) : Forwarder × Bool :=
  if f.muted = muted then (f, false) else ({ f with muted := muted }, true)

/-- Modelled from the spec: `PubMute` (`forwarder.go` is missing) sets the flag and reports
whether it changed. -/
def PubMute (f : Forwarder) (pubMuted : Bool) : Forwarder × Bool :=
  if f.pubMuted = pubMuted then (f, false) else ({ f with pubMuted := pubMuted }, true)

/-- Modelled from the spec: `SetMaxSpatialLayer`, as far as the allocator tests use it. -/
def SetMaxSpatialLayer (f : Forwarder) (spatial : Int) : Forwarder :=
  { f with maxLayers := { f.maxLayers with Spatial := spatial } }

/-- Modelled from the spec: `SetMaxTemporalLayer`, as far as the allocator tests use it. -/
def SetMaxTemporalLayer (f : Forwarder) (temporal : Int) : Forwarder :=
  { f with maxLayers := { f.maxLayers with Temporal := temporal } }

/-- Modelled from the spec: `SetMaxPublishedLayer`, as far as the allocator tests use it. -/
def SetMaxPublishedLayer (f : Forwarder) (spatial : Int) : Forwarder :=
  { f with maxPublishedLayer := spatial }

/-- Modelled from the spec: the allocation of a paused forwarder (`forwarder.go` is
missing): no target, nothing requested, the delta taken from the last requested bitrate. -/
def pausedAllocation (f : Forwarder) (reason : VideoPauseReason) (brs : Bitrates) :
    VideoAllocation :=
  { pauseReason := reason, isDeficient := false, bandwidthRequested := 0,
    bandwidthDelta := 0 - f.lastAllocation.bandwidthRequested, bitrates := brs,
    targetLayers := InvalidLayers, requestLayerSpatial := InvalidLayerSpatial,
    maxLayers := f.maxLayers,
    distanceToDesired :=
      getDistanceToDesired f.muted f.pubMuted f.maxPublishedLayer brs InvalidLayers f.maxLayers }

/-- Modelled from the spec: every allocator operation records the allocation it returns as
the last allocation, and the target of the allocation becomes the target of the forwarder
(`forwarder.go` is missing; the tests require `f.lastAllocation` and `f.TargetLayers()` to
agree with the result). -/
def updateAllocation (f : Forwarder) (alloc : VideoAllocation) : Forwarder × VideoAllocation :=
  ({ f with targetLayers := alloc.targetLayers,
            requestLayerSpatial := alloc.requestLayerSpatial,
            lastAllocation := alloc }, alloc)

/-- Modelled from the spec: `AllocateOptimal` of section 4.2 (`forwarder.go` is missing).
A muted forwarder is paused with `Muted` and a forwarder muted by the publisher with
`PubMuted`, whatever its layers (section 8, items 2 and 3, and the test, lines 159 to 195);
for a forwarder that is both, the specification names both reasons and the model takes
`Muted`, which section 4.2 lists first.  A forwarder that is neither is paused with
`FeedDry` if its max layers are invalid (section 4.2) or no layer is published (test, lines
140 to 157).  The selection made in all other cases is the parameter `select`. -/
def AllocateOptimal (f : Forwarder) (availableLayers : List Int) (brs : Bitrates)
    (allowOvershoot : Bool)
    (select : Forwarder → List Int → Bitrates → Bool → VideoSelection) :
    Forwarder × VideoAllocation :=
  f.updateAllocation
    (if f.muted then f.pausedAllocation VideoPauseReason.Muted brs
     else if f.pubMuted then f.pausedAllocation VideoPauseReason.PubMuted brs
     else if !f.maxLayers.IsValid || decide (f.maxPublishedLayer = InvalidLayerSpatial) then
       f.pausedAllocation VideoPauseReason.FeedDry brs
     else (select f availableLayers brs allowOvershoot).allocation f.muted f.pubMuted
       f.maxPublishedLayer brs f.maxLayers)

/-- Modelled from the spec: `Pause` of section 4.2 (`forwarder.go` is missing): the target
becomes invalid and nothing is requested; the pause reason is `Muted` or `PubMuted` for a
forwarder that is muted or muted by the publisher (`Muted` for one that is both, as in
`AllocateOptimal`) and `Bandwidth` otherwise, in which case the allocation is deficient
(`TestForwarderPause`, `TestForwarderPauseMute`). -/
def Pause (f : Forwarder) (brs : Bitrates) : Forwarder × VideoAllocation :=
  f.updateAllocation
    (if f.muted then f.pausedAllocation VideoPauseReason.Muted brs
     else if f.pubMuted then f.pausedAllocation VideoPauseReason.PubMuted brs
     else { f.pausedAllocation VideoPauseReason.Bandwidth brs with isDeficient := true })

/-- Modelled from the spec: `ProvisionalAllocatePrepare` of section 4.2: snapshots the
matrix and the forwarder's limits, and resets the accumulator. -/
def ProvisionalAllocatePrepare (f : Forwarder) (brs : Bitrates) : Forwarder :=
  { f with provisional :=
      { muted := f.muted, pubMuted := f.pubMuted, maxPublishedLayer := f.maxPublishedLayer,
        maxLayers := f.maxLayers, bitrates := brs, allocatedLayers := InvalidLayers } }

/-- Modelled from the spec: `previous_committed` of section 4.2 (`forwarder.go` is
missing): the bitrate of the cell committed so far, 0 if none is. -/
def committedBitrate (f : Forwarder) : Int :=
  if f.provisional.allocatedLayers.IsValid then
    f.provisional.bitrates.cell f.provisional.allocatedLayers.Spatial
      f.provisional.allocatedLayers.Temporal
  else 0

/-- Modelled from the spec: `ProvisionalAllocate` of section 4.2 (`forwarder.go` is
missing).  The spec's rule (`specProvisionalAllocate`) contradicts the returns that
`TestForwarderProvisionalAllocate` requires (lines 396 to 411, 470 to 479); this is the rule
that reproduces them.  Nothing is committed when the forwarder is muted, has no valid max
layers or published layer, the layer is above max layers without overshoot being allowed,
or the cell has no bitrate.  Otherwise the cell is committed, and `b - previous_committed`
returned, if the layer is not above max layers and `b ≤ available + previous_committed`, or
if pausing is not allowed and either nothing is committed yet or the layer is not above the
committed one. -/
def ProvisionalAllocate (f : Forwarder) (availableChannelCapacity : Int) (layers : VideoLayers)
    (allowPause allowOvershoot : Bool) : Forwarder × Int :=
  if f.provisional.muted || f.provisional.pubMuted ||
      decide (f.provisional.maxPublishedLayer = InvalidLayerSpatial) ||
      !f.provisional.maxLayers.IsValid ||
      (!allowOvershoot && layers.GreaterThan f.provisional.maxLayers) then (f, 0)
  else
    let requiredBitrate := f.provisional.bitrates.cell layers.Spatial layers.Temporal
    if requiredBitrate = 0 then (f, 0)
    else
      let alreadyAllocatedBitrate := f.committedBitrate
      if (!layers.GreaterThan f.provisional.maxLayers &&
          decide (requiredBitrate ≤ availableChannelCapacity + alreadyAllocatedBitrate)) ||
         (!allowPause && (!f.provisional.allocatedLayers.IsValid ||
            !layers.GreaterThan f.provisional.allocatedLayers)) then
        ({ f with provisional := { f.provisional with allocatedLayers := layers } },
         requiredBitrate - alreadyAllocatedBitrate)
      else (f, 0)

/-- The rule of the specification for `ProvisionalAllocate` (section 4.2): the cell is
committed, and `b - previous_committed` returned, if `b ≤ available - committed` or if
pausing is not allowed and nothing is committed yet; otherwise 0 is returned. -/
def specProvisionalAllocate (f : Forwarder) (availableChannelCapacity : Int)
    (layers : VideoLayers) (allowPause _allowOvershoot : Bool) : Forwarder × Int :=
  let b := f.provisional.bitrates.cell layers.Spatial layers.Temporal
  if decide (b ≤ availableChannelCapacity - f.committedBitrate) ||
      (!allowPause && !f.provisional.allocatedLayers.IsValid) then
    ({ f with provisional := { f.provisional with allocatedLayers := layers } },
     b - f.committedBitrate)
  else (f, 0)

/-- Modelled from the spec: `ProvisionalAllocateCommit` of section 4.2 (`forwarder.go` is
missing), made for the bitrates, max layers, mute flags and max published layer that
`ProvisionalAllocatePrepare` took.  A forwarder that was muted then is paused with `Muted`
and one muted by the publisher with `PubMuted`, also without a published layer
(`TestForwarderProvisionalAllocateMute`).  Otherwise the selection that is finalized is the
parameter `select`: the tests require more than the committed cell of it (lines 505 to 580:
the current layers as target, or none, with `FeedDry`, when no cell has a bitrate). -/
def ProvisionalAllocateCommit (f : Forwarder) (select : Forwarder → VideoSelection) :
    Forwarder × VideoAllocation :=
  f.updateAllocation
    ((if f.provisional.muted then
        { pauseReason := VideoPauseReason.Muted, isDeficient := false,
          bandwidthRequested := 0,
          bandwidthDelta := 0 - f.lastAllocation.bandwidthRequested,
          targetLayers := InvalidLayers, requestLayerSpatial := InvalidLayerSpatial }
      else if f.provisional.pubMuted then
        { pauseReason := VideoPauseReason.PubMuted, isDeficient := false,
          bandwidthRequested := 0,
          bandwidthDelta := 0 - f.lastAllocation.bandwidthRequested,
          targetLayers := InvalidLayers, requestLayerSpatial := InvalidLayerSpatial }
      else select f).allocation f.provisional.muted f.provisional.pubMuted
        f.provisional.maxPublishedLayer f.provisional.bitrates f.provisional.maxLayers)

/-- Modelled from the spec: `AllocateNextHigher` of section 4.2 (`forwarder.go` is
missing).  It acts only if the last allocation is deficient and the current layers have
caught up with the target layers; the cell it moves to, if any, is the parameter `pick`.
When it does not act, or there is no such cell, the last allocation is returned as it is and
nothing is boosted (`TestForwarderAllocateNextHigher`, lines 859 to 872 and 895 to 898). -/
def AllocateNextHigher (f : Forwarder) (additionalCapacity : Int) (brs : Bitrates)
    (allowOvershoot : Bool)
    (pick : Forwarder → Int → Bitrates → Bool → Option VideoSelection) :
    Forwarder × VideoAllocation × Bool :=
  if !f.lastAllocation.isDeficient || decide (f.currentLayers ≠ f.targetLayers) then
    (f, f.lastAllocation, false)
  else
    match pick f additionalCapacity brs allowOvershoot with
    | none => (f, f.lastAllocation, false)
    | some sel =>
      ((f.updateAllocation (sel.allocation f.muted f.pubMuted f.maxPublishedLayer brs
          f.maxLayers)).1,
       (f.updateAllocation (sel.allocation f.muted f.pubMuted f.maxPublishedLayer brs
          f.maxLayers)).2, true)

/-- Modelled from the spec: the selection that `ProvisionalAllocateCommit` finalizes
according to section 4.2 (`forwarder.go` is missing): the committed cell becomes the
target and its bitrate is requested, the allocation is deficient if that is less than the
bitrate of max layers, and the pause reason is `Bandwidth` if no cell is committed. -/
def committedSelection (f : Forwarder) : VideoSelection :=
  { pauseReason :=
      if f.provisional.allocatedLayers.IsValid then VideoPauseReason.None
      else VideoPauseReason.Bandwidth,
    isDeficient := decide (f.committedBitrate <
      f.provisional.bitrates.cell f.provisional.maxLayers.Spatial
        f.provisional.maxLayers.Temporal),
    bandwidthRequested := f.committedBitrate,
    bandwidthDelta := f.committedBitrate - f.lastAllocation.bandwidthRequested,
    targetLayers := f.provisional.allocatedLayers,
    requestLayerSpatial := f.provisional.allocatedLayers.Spatial }

end Forwarder

/-- The forwarder after a sequence of calls `(available, layers, allowPause,
allowOvershoot)` of `ProvisionalAllocate`. -/
def provisionalAllocateAll (f : Forwarder) : List (Int × VideoLayers × Bool × Bool) → Forwarder
  | [] => f
  | c :: rest => provisionalAllocateAll (f.ProvisionalAllocate c.1 c.2.1 c.2.2.1 c.2.2.2).1 rest

/-- The returns of a sequence of calls `(available, layers, allowPause, allowOvershoot)` of
an allocation rule, in order. -/
def allocateAll
    (rule : Forwarder → Int → VideoLayers → Bool → Bool → Forwarder × Int) (f : Forwarder) :
    List (Int × VideoLayers × Bool × Bool) → List Int
  | [] => []
  | c :: rest => (rule f c.1 c.2.1 c.2.2.1 c.2.2.2).2 ::
      allocateAll rule (rule f c.1 c.2.1 c.2.2.1 c.2.2.2).1 rest

/-! ### Expectations of `forwarder_test.go`, transcribed -/

/-- The matrix with a bitrate in every cell that most allocator tests use. -/
def fullBitrates : Bitrates := [[1, 2, 3, 4], [5, 6, 7, 8], [9, 10, 11, 12]]

/-- The matrix of `TestForwarderAllocateOptimal` and `TestForwarderAllocateNextHigher`. -/
def sparseBitrates : Bitrates := [[2, 3, 0, 0], [4, 0, 0, 5], [0, 7, 0, 0]]

/-- The forwarder the allocator tests start from (lines 383 to 386): a new video forwarder
after `SetMaxSpatialLayer(2)`, `SetMaxTemporalLayer(3)`, `SetMaxPublishedLayer(2)`. -/
def testForwarder : Forwarder :=
  ((newVideoForwarder.SetMaxSpatialLayer DefaultMaxLayerSpatial).SetMaxTemporalLayer
    DefaultMaxLayerTemporal).SetMaxPublishedLayer DefaultMaxLayerSpatial

/-- The first five calls of `ProvisionalAllocate` in `TestForwarderProvisionalAllocate`
(lines 396 to 411), after `ProvisionalAllocatePrepare(fullBitrates)`. -/
def TestForwarderProvisionalAllocate_calls : List (Int × VideoLayers × Bool × Bool) :=
  [(12, { Spatial := 0, Temporal := 0 }, true, false),
   (12, { Spatial := 2, Temporal := 3 }, true, false),
   (12, { Spatial := 0, Temporal := 3 }, true, false),
   (12, { Spatial := 1, Temporal := 2 }, true, false),
   (11 - 7 - 1, { Spatial := 2, Temporal := 2 }, true, false)]

/-- The returns the test requires of these calls: `bitrates[0][0]`,
`bitrates[2][3] - bitrates[0][0]`, `bitrates[0][3] - bitrates[2][3]`,
`bitrates[1][2] - bitrates[0][3]`, 0. -/
def TestForwarderProvisionalAllocate_returns : List Int := [1, 12 - 1, 4 - 12, 7 - 4, 0]

/-- The matrix of the overshoot part of `TestForwarderProvisionalAllocate` (lines 461 to
465). -/
def overshootBitrates : Bitrates := [[0, 0, 0, 0], [5, 6, 7, 8], [9, 10, 11, 12]]

/-- The calls of the overshoot part (lines 470 to 479), made after `SetMaxSpatialLayer(0)`
and `ProvisionalAllocatePrepare(overshootBitrates)`. -/
def TestForwarderProvisionalAllocate_overshootCalls : List (Int × VideoLayers × Bool × Bool) :=
  [(12, { Spatial := 0, Temporal := 0 }, false, true),
   (12, { Spatial := 2, Temporal := 3 }, false, true),
   (12, { Spatial := 1, Temporal := 3 }, false, true)]

/-- The returns the test requires of them: 0, `bitrates[2][3]`,
`bitrates[1][3] - bitrates[2][3]`. -/
def TestForwarderProvisionalAllocate_overshootReturns : List Int := [0, 12, 8 - 12]

/-- The allocation `TestForwarderProvisionalAllocate` requires of the first commit (lines
413 to 426). -/
def TestForwarderProvisionalAllocate_expectedResult : VideoAllocation :=
  { pauseReason := VideoPauseReason.None, isDeficient := true, bandwidthRequested := 7,
    bandwidthDelta := 7, bitrates := fullBitrates,
    targetLayers := { Spatial := 1, Temporal := 2 }, requestLayerSpatial := 1,
    maxLayers := DefaultMaxLayers, distanceToDesired := 5 }

/-- The allocation `TestForwarderAllocateNextHigher` requires of the move from `(0, 0)` to
`(0, 1)` (lines 879 to 893). -/
def TestForwarderAllocateNextHigher_expectedResult : VideoAllocation :=
  { pauseReason := VideoPauseReason.None, isDeficient := true, bandwidthRequested := 3,
    bandwidthDelta := 1, bitrates := sparseBitrates,
    targetLayers := { Spatial := 0, Temporal := 1 }, requestLayerSpatial := 0,
    maxLayers := DefaultMaxLayers, distanceToDesired := 3 }

/-- The allocation `TestForwarderPause` requires of `Pause` (lines 1075 to 1085). -/
def TestForwarderPause_expectedResult : VideoAllocation :=
  { pauseReason := VideoPauseReason.Bandwidth, isDeficient := true, bandwidthRequested := 0,
    bandwidthDelta := 0 - 1, bitrates := fullBitrates,
    targetLayers := InvalidLayers, requestLayerSpatial := InvalidLayerSpatial,
    maxLayers := DefaultMaxLayers, distanceToDesired := 12 }

/-- The allocations `TestForwarderAllocateOptimal` requires of a paused forwarder (lines 123
to 195), by pause reason and max layers. -/
def TestForwarderAllocateOptimal_expectedResult (reason : VideoPauseReason)
    (maxLayers : VideoLayers) : VideoAllocation :=
  { pauseReason := reason, isDeficient := false, bandwidthRequested := 0, bandwidthDelta := 0,
    bitrates := sparseBitrates, targetLayers := InvalidLayers,
    requestLayerSpatial := InvalidLayerSpatial, maxLayers := maxLayers,
    distanceToDesired := 0 }

/-- The forwarder of `TestForwarderProvisionalAllocate` before its first commit: after
`ProvisionalAllocatePrepare(fullBitrates)` and the five calls of lines 396 to 411. -/
def TestForwarderProvisionalAllocate_state : Forwarder :=
  provisionalAllocateAll (testForwarder.ProvisionalAllocatePrepare fullBitrates)
    TestForwarderProvisionalAllocate_calls

/-- The forwarder of `TestForwarderProvisionalAllocateMute` before its commit (lines 585 to
601): no layer is published, `Mute(true)`, `ProvisionalAllocatePrepare(fullBitrates)` and
two calls. -/
def TestForwarderProvisionalAllocateMute_state : Forwarder :=
  provisionalAllocateAll
    (((((newVideoForwarder.SetMaxSpatialLayer DefaultMaxLayerSpatial).SetMaxTemporalLayer
      DefaultMaxLayerTemporal).Mute true).1).ProvisionalAllocatePrepare fullBitrates)
    [(12, { Spatial := 0, Temporal := 0 }, true, false),
     (12, { Spatial := 1, Temporal := 2 }, true, true)]

/-- The allocation `TestForwarderProvisionalAllocateMute` requires of the commit (lines 604
to 614). -/
def TestForwarderProvisionalAllocateMute_expectedResult : VideoAllocation :=
  { pauseReason := VideoPauseReason.Muted, isDeficient := false, bandwidthRequested := 0,
    bandwidthDelta := 0, bitrates := fullBitrates, targetLayers := InvalidLayers,
    requestLayerSpatial := InvalidLayerSpatial, maxLayers := DefaultMaxLayers,
    distanceToDesired := 0 }

/-- The forwarder of `TestForwarderAllocateNextHigher` before the move from `(0, 0)` (lines
853 to 877): target and current layers `(0, 0)`, the last allocation deficient. -/
def TestForwarderAllocateNextHigher_state : Forwarder :=
  { testForwarder with
      targetLayers := { Spatial := 0, Temporal := 0 },
      currentLayers := { Spatial := 0, Temporal := 0 },
      lastAllocation := { testForwarder.lastAllocation with isDeficient := true } }

/-- The cell `(0, 1)` that the test requires this move to select (lines 879 to 893). -/
def TestForwarderAllocateNextHigher_pick : VideoSelection :=
  { pauseReason := VideoPauseReason.None, isDeficient := true, bandwidthRequested := 3,
    bandwidthDelta := 1, targetLayers := { Spatial := 0, Temporal := 1 },
    requestLayerSpatial := 0 }

/-- The forwarder of `TestForwarderPause` and of `TestForwarderPauseMute` before `Pause`
(lines 1059 to 1072 and 1093 to 1106): the cell `(0, 0)` is allocated and committed;
`allowOvershoot` is false in the first test and true in the second. -/
def TestForwarderPause_state (allowOvershoot : Bool) : Forwarder :=
  (((testForwarder.ProvisionalAllocatePrepare fullBitrates).ProvisionalAllocate 12
    { Spatial := 0, Temporal := 0 } true allowOvershoot).1.ProvisionalAllocateCommit
      Forwarder.committedSelection).1

/-- The allocation `TestForwarderPauseMute` requires of `Pause` (lines 1110 to 1119). -/
def TestForwarderPauseMute_expectedResult : VideoAllocation :=
  { pauseReason := VideoPauseReason.Muted, isDeficient := false, bandwidthRequested := 0,
    bandwidthDelta := 0 - 1, bitrates := fullBitrates,
    targetLayers := InvalidLayers, requestLayerSpatial := InvalidLayerSpatial,
    maxLayers := DefaultMaxLayers, distanceToDesired := 0 }

/-- Expectations of `distanceToDesired` in `forwarder_test.go`: whether the forwarder is
muted, muted by the publisher, its max published layer, then bitrates, target layers, max
layers and the distance of the expected allocation.  In the order of the lines 125, 143,
162, 181, 200, 218, 425, 451, 498, 542, 575, 613, 654, 682, 751, 790, 892, 919, 942, 963,
997, 1048, 1084, 1118 of the file. -/
def TestForwarder_distances :
    List (Bool × Bool × Int × Bitrates × VideoLayers × VideoLayers × Int) :=
  let l (s t : Int) : VideoLayers := { Spatial := s, Temporal := t }
  let coop : Bitrates := [[1, 2, 3, 4], [5, 6, 7, 8], [9, 10, 0, 0]]
  let coopOver : Bitrates := [[0, 0, 0, 0], [5, 6, 7, 8], [9, 10, 0, 0]]
  [(false, false, -1, sparseBitrates, InvalidLayers, InvalidLayers, 0),
   (false, false, -1, sparseBitrates, InvalidLayers, l 2 3, 0),
   (true, false, 2, sparseBitrates, InvalidLayers, l 2 3, 0),
   (false, true, 2, sparseBitrates, InvalidLayers, l 2 3, 0),
   (false, false, 2, [], l 0 1, l 2 3, 0),
   (false, false, 2, [], l 2 3, l 1 3, 0),
   (false, false, 2, fullBitrates, l 1 2, l 2 3, 5),
   (false, false, 2, fullBitrates, l 0 0, l 2 3, 11),
   (false, false, 2, overshootBitrates, l 1 3, l 0 3, -4),
   (false, false, 2, [[0, 0, 0, 0], [0, 0, 0, 0], [0, 0, 0, 0]], l 0 2, l 0 3, 0),
   (false, false, 2, [[0, 0, 0, 0], [0, 0, 0, 0], [0, 0, 0, 0]], InvalidLayers, l 0 3, 0),
   (true, false, -1, fullBitrates, InvalidLayers, l 2 3, 0),
   (false, false, 2, coop, l 0 0, l 2 3, 9),
   (false, false, 2, coop, l 2 1, l 2 3, 0),
   (false, false, 2, coopOver, l 1 0, l 0 3, -1),
   (false, false, 2, [[0, 0, 0, 0], [0, 0, 0, 0], [0, 0, 0, 0]], l 0 2, l 0 3, 0),
   (false, false, 2, sparseBitrates, l 0 1, l 2 3, 3),
   (false, false, 2, sparseBitrates, l 1 0, l 2 3, 2),
   (false, false, 2, sparseBitrates, l 1 3, l 2 3, 1),
   (false, false, 2, sparseBitrates, l 2 1, l 2 3, 0),
   (false, false, 2, sparseBitrates, l 0 0, l 2 3, 4),
   (false, false, 2, overshootBitrates, l 1 0, l 0 3, -1),
   (false, false, 2, fullBitrates, InvalidLayers, l 2 3, 12),
   (true, false, 2, fullBitrates, InvalidLayers, l 2 3, 0)]

end Sfu

/-! ## `pkg/service/egressservice.go`: `EgressService.startEgress`

The collaborators of the service (`EnsureRecordPermission`, `twirpAuthError`, the store, the
message bus with `egress.SendRequest`, the telemetry service) are not part of the file; their
answers are parameters, and the calls made to the telemetry service, the store and the logger
are recorded in program order. -/

namespace Service

/-- A Go `error` value, by its message. -/
abbrev Error := String

/-- The fields of `livekit.StartEgressRequest` that `startEgress` touches: `RoomId`, which it
sets, and the rest of the request. -/
structure StartEgressRequest (Req : Type) where
  RoomId : String
  Request : Req

/-- The field of `livekit.Room` that `startEgress` reads. -/
structure Room where
  Sid : String
deriving DecidableEq, Repr

/-- What `startEgress` gets from its collaborators; `Info` stands for `livekit.EgressInfo`,
pointers being options. -/
structure EgressEnv (Req Info : Type) where
  EnsureRecordPermission : Option Error
  twirpAuthError : Error → Error
  busIsNil : Bool
  LoadRoom : String → Option Room × Option Error
  SendRequest : StartEgressRequest Req → Option Info × Option Error
  StoreEgress : Option Info → Option Error

/-- Calls made by `startEgress`; `StoreEgress` is the call made by the goroutine it starts. -/
inductive EgressEvent (Info : Type)
  | EgressStarted (info : Option Info)
  | StoreEgress (info : Option Info)
  | Errorw (msg : String) (err : Error)
deriving DecidableEq, Repr

/-- How a call of `startEgress` ends: with its two results, or in a nil dereference. -/
inductive EgressOutcome (Info : Type)
  | ret (info : Option Info) (err : Option Error)
  | nilDeref
deriving DecidableEq, Repr

/-- `EgressService.startEgress`: the outcome, the request as left behind and the calls made.
The goroutine is run right where it is started. -/
def startEgress {Req Info : Type} (env : EgressEnv Req Info) (roomName : String)
    (req : StartEgressRequest Req) :
    EgressOutcome Info × StartEgressRequest Req × List (EgressEvent Info) :=
  match env.EnsureRecordPermission with
  | some err => (EgressOutcome.ret none (some (env.twirpAuthError err)), req, [])
  | none =>
    if env.busIsNil then
      (EgressOutcome.ret none (some "egress not connected (redis required)"), req, [])
    else
      match env.LoadRoom roomName with
      | (_, some err) => (EgressOutcome.ret none (some err), req, [])
      | (none, none) => (EgressOutcome.nilDeref, req, [])
      | (some room, none) =>
        let req1 : StartEgressRequest Req := { req with RoomId := room.Sid }
        let r := env.SendRequest req1
        let info := r.1
        let events :=
          match r.2 with
          | some _ =>
            [EgressEvent.EgressStarted info, EgressEvent.StoreEgress info] ++
              (match env.StoreEgress info with
               | some err => [EgressEvent.Errorw "could not write egress info" err]
               | none => [])
          | none => []
        (EgressOutcome.ret info none, req1, events)

/-- An environment in which everything up to `SendRequest` succeeds and `SendRequest`
answers with `send`. -/
def egressEnv (send : Option String × Option Error) : EgressEnv Unit String :=
  { EnsureRecordPermission := none
    twirpAuthError := fun e => e
    busIsNil := false
    LoadRoom := fun _ => (some { Sid := "RM_1" }, none)
    SendRequest := fun _ => send
    StoreEgress := fun _ => none }

end Service

/-! ## `pkg/service/node_provider.go`: `NodeProvider.FetchRelevant`

The database, the GeoIP reader, `json.Unmarshal`, `sort.SliceStable` and the `float64`
arithmetic with the functions of package `math` are not part of the file; they are
parameters.  The call of the logger in the loop is left out. -/

namespace Service

/-- The `float64` operations that the file uses.  `dec m e` is the constant `m / 10^e`,
`ofInt` the conversion `float64(n)` and `gt` the comparison `>`. -/
structure Float64 (F : Type) where
  dec : Int → Nat → F
  ofInt : Int → F
  add : F → F → F
  sub : F → F → F
  mul : F → F → F
  div : F → F → F
  gt : F → F → Bool
  Sin : F → F
  Cos : F → F
  Acos : F → F
  Pi : F

/-- The struct `Node`; `CreatedAt` is a point in time. -/
structure Node (F : Type) where
  Id : String
  Participants : Int
  Domain : String
  IP : String
  Country : String
  Latitude : F
  Longitude : F
  CreatedAt : Nat
deriving DecidableEq, Repr

def prefixKeyNode : String := "node_"

def weightEqualsCountries {F : Type} (A : Float64 F) : F := A.dec 10 1

def weightParticipantsCount {F : Type} (A : Float64 F) : F := A.dec (-1) 2

def weightDistance {F : Type} (A : Float64 F) : F := A.dec (-1) 1

/-- What `FetchRelevant` reads of the answer of `geo.City`. -/
structure City (F : Type) where
  Latitude : F
  Longitude : F
  IsoCode : String

/-- The collaborators of `NodeProvider`: `dbList` and `dbGet` are the calls `p.db.List` and
`p.db.Get`, `City` is `p.geo.City` applied to the parsed client address, `Unmarshal` is
`json.Unmarshal` into a `Node`, and `SliceStable n less` is the arrangement that
`sort.SliceStable` gives to a slice of length `n` compared by `less`: the original indices,
in sorted order. -/
structure NodeEnv (F : Type) where
  dbList : Except Error (List String)
  City : String → Except Error (City F)
  dbGet : String → Except Error String
  Unmarshal : String → Except Error (Node F)
  SliceStable : Nat → (Nat → Nat → Bool) → List Nat

/-- The message of `errors.Wrap(err, msg)`. -/
def Wrap (err : Error) (msg : String) : Error := msg ++ ": " ++ err

/-- `strings.HasPrefix`. -/
def HasPrefix (s pre : String) : Bool := pre.toList.isPrefixOf s.toList

/-- `strings.TrimLeft`: the leading characters contained in `cutset` are removed. -/
def TrimLeft (s cutset : String) : String :=
  String.mk (s.toList.dropWhile (fun c => decide (c ∈ cutset.toList)))

/-- An assignment to a variable that holds a value already: the old value is dropped. -/
def assign {α : Type} (_old new : α) : α := new

/-- The function `distance`. -/
def distance {F : Type} (A : Float64 F) (lat1 lng1 lat2 lng2 : F) : F :=
  let radlat1 := A.div (A.mul A.Pi lat1) (A.dec 180 0)
  let radlat2 := A.div (A.mul A.Pi lat2) (A.dec 180 0)
  let theta := A.sub lng1 lng2
  let radtheta := A.div (A.mul A.Pi theta) (A.dec 180 0)
  let dist := A.add (A.mul (A.Sin radlat1) (A.Sin radlat2))
    (A.mul (A.mul (A.Cos radlat1) (A.Cos radlat2)) (A.Cos radtheta))
  let dist := if A.gt dist (A.dec 1 0) then A.dec 1 0 else dist
  let dist := A.Acos dist
  let dist := A.div (A.mul dist (A.dec 180 0)) A.Pi
  let dist := A.mul (A.mul dist (A.dec 60 0)) (A.dec 11515 4)
  let dist := A.mul dist (A.dec 1609344 6)
  dist

/-- `NodeProvider.Get`. -/
def Get {F : Type} (env : NodeEnv F) (id : String) : Except Error (Node F) :=
  match env.dbGet (prefixKeyNode ++ id) with
  | Except.error err => Except.error (Wrap err "p2p db get")
  | Except.ok row =>
    match env.Unmarshal row with
    | Except.error err => Except.error (Wrap err "unmarshal row")
    | Except.ok res => Except.ok res

/-- The local struct `nodeRow` of `FetchRelevant`. -/
structure nodeRow (F : Type) where
  node : Node F
  weight : F
deriving DecidableEq, Repr

/-- The weight that the loop of `FetchRelevant` computes for a node: the statements
`var weight float64`, the conditional `weight += weightEqualsCountries`, and the assignment
`weight = dist*weightDistance + float64(node.Participants)*weightParticipantsCount`. -/
def nodeWeight {F : Type} (A : Float64 F) (clientLat clientLon : F) (clientCountry : String)
    (node : Node F) : F :=
  let weight := A.dec 0 0
  let weight := if clientCountry == node.Country then A.add weight (weightEqualsCountries A)
    else weight
  let dist := distance A node.Latitude node.Longitude clientLat clientLon
  let weight := assign weight
    (A.add (A.mul dist (weightDistance A))
      (A.mul (A.ofInt node.Participants) (weightParticipantsCount A)))
  weight

/-- The loop of `FetchRelevant` over the keys: the rows appended to `nodes`, or the error
of the first `Get` that fails. -/
def nodeRows {F : Type} (A : Float64 F) (env : NodeEnv F) (clientLat clientLon : F)
    (clientCountry : String) : List String → Except Error (List (nodeRow F))
  | [] => Except.ok []
  | key :: keys =>
    if !HasPrefix key ("/" ++ prefixKeyNode) then
      nodeRows A env clientLat clientLon clientCountry keys
    else
      let nodeId := TrimLeft key ("/" ++ prefixKeyNode)
      match Get env nodeId with
      | Except.error err => Except.error (Wrap err "get node by id")
      | Except.ok node =>
        let weight := nodeWeight A clientLat clientLon clientCountry node
        match nodeRows A env clientLat clientLon clientCountry keys with
        | Except.error err => Except.error err
        | Except.ok nodes => Except.ok ({ node := node, weight := weight } :: nodes)

/-- The comparison handed to `sort.SliceStable`: `nodes[i].weight > nodes[j].weight`. -/
def weightLess {F : Type} (A : Float64 F) (nodes : List (nodeRow F)) (i j : Nat) : Bool :=
  match nodes[i]?, nodes[j]? with
  | some a, some b => A.gt a.weight b.weight
  | _, _ => false

/-- `NodeProvider.FetchRelevant`. -/
def FetchRelevant {F : Type} (A : Float64 F) (env : NodeEnv F) (clientIP : String) :
    Except Error (Node F) :=
  match env.dbList with
  | Except.error err => Except.error (Wrap err "list keys")
  | Except.ok keys =>
    match env.City clientIP with
    | Except.error err => Except.error (Wrap err "fetch city")
    | Except.ok city =>
      match nodeRows A env city.Latitude city.Longitude city.IsoCode keys with
      | Except.error err => Except.error err
      | Except.ok nodes =>
        let sorted := (env.SliceStable nodes.length (weightLess A nodes)).filterMap
          (fun i => nodes[i]?)
        match sorted with
        | [] => Except.error "not found node"
        | row :: _ => Except.ok row.node

/-- A node with its country left out. -/
def eraseCountry {F : Type} (n : Node F) : Node F := { n with Country := "" }

/-- A row with the country of its node left out. -/
def eraseRow {F : Type} (r : nodeRow F) : nodeRow F := { r with node := eraseCountry r.node }

/-- A stable insertion sort on indices, for evaluation: `i` goes before the first index
that it is less than. -/
def insertIndex (less : Nat → Nat → Bool) (i : Nat) : List Nat → List Nat
  | [] => [i]
  | j :: rest => if less i j then i :: j :: rest else j :: insertIndex less i rest

def stableOrder (n : Nat) (less : Nat → Nat → Bool) : List Nat :=
  (List.range n).foldl (fun acc i => insertIndex less i acc) []

/-- An arithmetic for evaluation: fixed point in thousandths on `Int`, with crude stand-ins
for the functions of package `math`. -/
def fixedPoint : Float64 Int :=
  { dec := fun m e => m * 1000 / (10 : Int) ^ e
    ofInt := fun n => n * 1000
    add := fun a b => a + b
    sub := fun a b => a - b
    mul := fun a b => a * b / 1000
    div := fun a b => a * 1000 / b
    gt := fun a b => decide (a > b)
    Sin := fun a => a
    Cos := fun a => 1000 - a * a / 2000
    Acos := fun a => 1571 - 1571 * a / 1000
    Pi := 3142 }

/-- Two nodes stored under `node_a` and `node_b`, in the countries given. -/
def twoNodes (countryA countryB : String) : NodeEnv Int :=
  { dbList := Except.ok ["/node_a", "/other", "/node_b"]
    City := fun _ => Except.ok { Latitude := 52000, Longitude := 13000, IsoCode := "DE" }
    dbGet := fun key => Except.ok key
    Unmarshal := fun row =>
      if row = "node_a" then
        Except.ok { Id := "a", Participants := 50, Domain := "a.example", IP := "10.0.0.1",
                    Country := countryA, Latitude := 52000, Longitude := 13000, CreatedAt := 0 }
      else if row = "node_b" then
        Except.ok { Id := "b", Participants := 10, Domain := "b.example", IP := "10.0.0.2",
                    Country := countryB, Latitude := 52000, Longitude := 13000, CreatedAt := 0 }
      else Except.error "unexpected end of JSON input"
    SliceStable := stableOrder }

/-- The value of a result, if there is one. -/
def okValue {α : Type} : Except Error α → Option α
  | Except.ok a => some a
  | Except.error _ => none

end Service

/-! ## `pkg/rtc/types/ice.go`: `ICEConnectionDetails`

Pointers are options.  The lock and the logger of `ICEConnectionDetails` are left out; the
type `ice.Candidate` of the remote candidates is a parameter. -/

namespace Types

/-- The type `ICEConnectionType`, a string. -/
abbrev ICEConnectionType := String

def ICEConnectionTypeUDP : ICEConnectionType := "udp"

def ICEConnectionTypeTCP : ICEConnectionType := "tcp"

def ICEConnectionTypeTURN : ICEConnectionType := "turn"

def ICEConnectionTypeUnknown : ICEConnectionType := "unknown"

/-- The struct `webrtc.ICECandidate`: the fields that `isCandidateEqualTo` compares, the
enumerations `Typ` and `Protocol` by their numbers, and the identifier for statistics, which
it does not compare. -/
structure ICECandidate where
  statsID : String
  Foundation : String
  Priority : Nat
  Address : String
  Protocol : Nat
  Port : Nat
  Typ : Nat
  Component : Nat
  RelatedAddress : String
  RelatedPort : Nat
  TCPType : String
deriving DecidableEq, Repr

/-- The struct `ICECandidateExtended`. -/
structure ICECandidateExtended (RC : Type) where
  Local : Option ICECandidate
  Remote : Option RC
  Selected : Bool
  Filtered : Bool
deriving DecidableEq, Repr

/-- The struct `ICEConnectionDetails`; `Transport` is the number of the signal target, and
`ConnectionType` is the field `Type`. -/
structure ICEConnectionDetails (RC : Type) where
  Local : List (ICECandidateExtended RC)
  Remote : List (ICECandidateExtended RC)
  Transport : Nat
  ConnectionType : ICEConnectionType
deriving DecidableEq, Repr

def NewICEConnectionDetails (RC : Type) (transport : Nat) : ICEConnectionDetails RC :=
  { Local := [], Remote := [], Transport := transport,
    ConnectionType := ICEConnectionTypeUnknown }

/-- The function `isCandidateEqualTo`. -/
def isCandidateEqualTo (c1 c2 : Option ICECandidate) : Bool :=
  match c1, c2 with
  | none, none => true
  | none, some _ => false
  | some _, none => false
  | some c1, some c2 =>
    decide (c1.Typ = c2.Typ) &&
    decide (c1.Protocol = c2.Protocol) &&
    decide (c1.Address = c2.Address) &&
    decide (c1.Port = c2.Port) &&
    decide (c1.Component = c2.Component) &&
    decide (c1.Foundation = c2.Foundation) &&
    decide (c1.Priority = c2.Priority) &&
    decide (c1.RelatedAddress = c2.RelatedAddress) &&
    decide (c1.RelatedPort = c2.RelatedPort) &&
    decide (c1.TCPType = c2.TCPType)

namespace ICEConnectionDetails

/-- `HasCandidates`. -/
def HasCandidates {RC : Type} (d : ICEConnectionDetails RC) : Bool :=
  decide (d.Local.length > 0) || decide (d.Remote.length > 0)

/-- `AddLocalCandidate`; `slices.ContainsFunc` is `List.any`. -/
def AddLocalCandidate {RC : Type} (d : ICEConnectionDetails RC) (c : Option ICECandidate)
    (filtered : Bool) : ICEConnectionDetails RC :=
  let compFn := fun (e : ICECandidateExtended RC) => isCandidateEqualTo e.Local c
  if d.Local.any compFn then d
  else
    { d with Local := d.Local ++
        [{ Local := c, Remote := none, Selected := false, Filtered := filtered }] }

/-- `Clear`. -/
def Clear {RC : Type} (d : ICEConnectionDetails RC) : ICEConnectionDetails RC :=
  { d with Local := [], Remote := [], ConnectionType := ICEConnectionTypeUnknown }

/-- A sequence of `AddLocalCandidate` calls, first call first. -/
def addLocalCandidates {RC : Type} (d : ICEConnectionDetails RC) :
    List (Option ICECandidate × Bool) → ICEConnectionDetails RC
  | [] => d
  | (c, filtered) :: rest => addLocalCandidates (d.AddLocalCandidate c filtered) rest

end ICEConnectionDetails

/-- No two entries of the list have local candidates that `isCandidateEqualTo` takes for
equal, in either order. -/
def distinctLocal {RC : Type} (l : List (ICECandidateExtended RC)) : Prop :=
  l.Pairwise (fun a b => isCandidateEqualTo a.Local b.Local = false ∧
    isCandidateEqualTo b.Local a.Local = false)

/-- A host candidate at the address and port given. -/
def hostCandidate (statsID address : String) (port : Nat) : ICECandidate :=
  { statsID := statsID, Foundation := "1", Priority := 2130706431, Address := address,
    Protocol := 1, Port := port, Typ := 1, Component := 1, RelatedAddress := "",
    RelatedPort := 0, TCPType := "" }

end Types

/-! ## Arithmetic lemmas -/

namespace Utils

theorem conv_of_lt {n x : Nat} (h : x < 2 ^ n) : conv n x = x := Nat.mod_eq_of_lt h

theorem conv_lt (n x : Nat) : conv n x < 2 ^ n := Nat.mod_lt _ (Nat.two_pow_pos n)

theorem addW_lt (n a b : Nat) : addW n a b < 2 ^ n := Nat.mod_lt _ (Nat.two_pow_pos n)

theorem subW_lt (n a b : Nat) : subW n a b < 2 ^ n := Nat.mod_lt _ (Nat.two_pow_pos n)

theorem subW_eq {n a b : Nat} (ha : a < 2 ^ n) (hb : b < 2 ^ n) :
    subW n a b = (a + 2 ^ n - b) % 2 ^ n := by
  unfold subW
  rw [Nat.mod_eq_of_lt ha, Nat.mod_eq_of_lt hb]
  congr 1
  omega

theorem subW_of_le {n a b : Nat} (ha : a < 2 ^ n) (hba : b ≤ a) : subW n a b = a - b := by
  have hb : b < 2 ^ n := lt_of_le_of_lt hba ha
  rw [subW_eq ha hb]
  have h : a + 2 ^ n - b = (a - b) + 2 ^ n := by omega
  rw [h, Nat.add_mod_right]
  exact Nat.mod_eq_of_lt (by omega)

theorem subW_of_lt {n a b : Nat} (hab : a < b) (hb : b < 2 ^ n) :
    subW n a b = a + 2 ^ n - b := by
  have ha : a < 2 ^ n := lt_trans hab hb
  rw [subW_eq ha hb]
  exact Nat.mod_eq_of_lt (by omega)

theorem fullRange_of_lt {tb eb : Nat} (h : tb < eb) : conv eb (1 <<< tb) = 2 ^ tb := by
  rw [Nat.one_shiftLeft]
  exact conv_of_lt (Nat.pow_lt_pow_right (by norm_num) h)

theorem fullRange_of_eq (tb : Nat) : conv tb (1 <<< tb) = 0 := by
  rw [Nat.one_shiftLeft]
  exact Nat.mod_self _

theorem half_lt (tb : Nat) : 2 ^ tb / 2 < 2 ^ tb :=
  Nat.div_lt_self (Nat.two_pow_pos tb) (by norm_num)

theorem shiftRight_one (x : Nat) : x >>> 1 = x / 2 := by
  rw [Nat.shiftRight_eq_div_pow, Nat.pow_one]

theorem and_high_mask {tb eb x : Nat} (hT : tb ≤ eb) (hx : x < 2 ^ eb) :
    x &&& (2 ^ eb - 2 ^ tb) = x - x % 2 ^ tb := by
  have h1 : 2 ^ eb - 2 ^ tb = 2 ^ tb * (2 ^ (eb - tb) - 1) := by
    rw [Nat.mul_sub, ← Nat.pow_add, Nat.add_sub_cancel' hT, Nat.mul_one]
  have h2 : x - x % 2 ^ tb = 2 ^ tb * (x / 2 ^ tb) := by
    have := Nat.div_add_mod x (2 ^ tb)
    omega
  rw [h1, h2]
  apply Nat.eq_of_testBit_eq
  intro j
  rw [Nat.testBit_and, Nat.testBit_mul_pow_two, Nat.testBit_mul_pow_two,
    Nat.testBit_two_pow_sub_one, ← Nat.shiftRight_eq_div_pow, Nat.testBit_shiftRight]
  by_cases hj : tb ≤ j
  · have e : tb + (j - tb) = j := by omega
    rw [e]
    by_cases hj2 : j < eb
    · have : j - tb < eb - tb := by omega
      simp [hj, this]
    · have hxj : x < 2 ^ j := lt_of_lt_of_le hx (Nat.pow_le_pow_right (by norm_num) (by omega))
      simp [Nat.testBit_lt_two_pow hxj]
  · simp [hj]

/-- The mask `^(fullRange - 1)` computed in `ET` keeps exactly the bits above the raw width. -/
theorem mask_eq {tb eb : Nat} (hT : tb ≤ eb) :
    notW eb (subW eb (conv eb (1 <<< tb)) 1) = 2 ^ eb - 2 ^ tb := by
  rcases Nat.lt_or_eq_of_le hT with h | h
  · have hPQ : 2 ^ tb < 2 ^ eb := Nat.pow_lt_pow_right (by norm_num) h
    have hP : 1 ≤ 2 ^ tb := Nat.two_pow_pos tb
    rw [fullRange_of_lt h, subW_of_le hPQ hP]
    unfold notW
    rw [Nat.mod_eq_of_lt (by omega)]
    omega
  · subst h
    rw [fullRange_of_eq]
    have hP : 1 ≤ 2 ^ tb := Nat.two_pow_pos tb
    unfold notW subW
    rw [Nat.zero_mod, Nat.zero_add]
    rcases Nat.eq_or_lt_of_le hP with h1 | h1
    · rw [← h1]
    · rw [Nat.mod_eq_of_lt h1, Nat.mod_eq_of_lt (by omega), Nat.mod_eq_of_lt (by omega)]
      omega

theorem fullRange_dvd {tb eb : Nat} (hT : tb ≤ eb) : 2 ^ tb ∣ conv eb (1 <<< tb) := by
  rcases Nat.lt_or_eq_of_le hT with h | h
  · rw [fullRange_of_lt h]
  · subst h; rw [fullRange_of_eq]; exact Nat.dvd_zero _

theorem dvd_addW {tb eb a b : Nat} (hT : tb ≤ eb) (ha : 2 ^ tb ∣ a) (hb : 2 ^ tb ∣ b) :
    2 ^ tb ∣ addW eb a b :=
  (Nat.dvd_mod_iff (Nat.pow_dvd_pow 2 hT)).2 (Nat.dvd_add ha hb)

theorem dvd_subW {tb eb a b : Nat} (hT : tb ≤ eb) (ha : 2 ^ tb ∣ a) (hb : 2 ^ tb ∣ b) :
    2 ^ tb ∣ subW eb a b := by
  have pd : 2 ^ tb ∣ 2 ^ eb := Nat.pow_dvd_pow 2 hT
  unfold subW
  exact (Nat.dvd_mod_iff pd).2
    (Nat.dvd_add ((Nat.dvd_mod_iff pd).2 ha) (Nat.dvd_sub' pd ((Nat.dvd_mod_iff pd).2 hb)))

namespace WrapAround

variable {tb eb : Nat}

theorem inv_new : (NewWrapAround tb eb).Inv :=
  ⟨⟨rfl, Nat.two_pow_pos tb, Nat.two_pow_pos tb, Nat.two_pow_pos eb⟩, Nat.dvd_zero _⟩

theorem inv_maybeAdjustStart (hT : tb ≤ eb) (w : WrapAround tb eb) (v : Nat) (hv : v < 2 ^ tb)
    (h : w.Inv) : (w.maybeAdjustStart v).1.Inv := by
  obtain ⟨⟨hfr, hs, hh, hc⟩, hd⟩ := h
  unfold maybeAdjustStart
  simp only []
  have hc1 : w.fullRange < 2 ^ eb := by rw [hfr]; exact conv_lt _ _
  have hd1 : 2 ^ tb ∣ w.fullRange := by rw [hfr]; exact fullRange_dvd hT
  split_ifs
  all_goals first
    | exact ⟨⟨hfr, hs, hh, hc⟩, hd⟩
    | exact ⟨⟨hfr, hv, hh, hc⟩, hd⟩
    | exact ⟨⟨hfr, hv, hh, hc1⟩, hd1⟩

theorem inv_update (hT : tb ≤ eb) (w : WrapAround tb eb) (v : Nat) (hv : v < 2 ^ tb)
    (h : w.Inv) : (w.Update v).1.Inv := by
  have hm := inv_maybeAdjustStart hT w v hv h
  obtain ⟨⟨hfr, hs, hh, hc⟩, hd⟩ := h
  unfold Update
  simp only []
  split_ifs
  · exact ⟨⟨hfr, hv, hv, hc⟩, hd⟩
  · exact hm
  · refine ⟨⟨hfr, hs, hv, addW_lt _ _ _⟩, ?_⟩
    exact dvd_addW hT hd (by rw [hfr]; exact fullRange_dvd hT)
  · exact ⟨⟨hfr, hs, hv, hc⟩, hd⟩

theorem inv_resetHighest (hT : tb ≤ eb) (w : WrapAround tb eb) (ev : Nat) (hev : ev < 2 ^ eb)
    (h : w.Inv) : (w.ResetHighest ev).Inv := by
  obtain ⟨⟨hfr, hs, _, _⟩, _⟩ := h
  have hc : ev &&& notW eb (subW eb w.fullRange 1) = ev - ev % 2 ^ tb := by
    rw [hfr, mask_eq hT, and_high_mask hT hev]
  refine ⟨⟨hfr, hs, conv_lt _ _, ?_⟩, ?_⟩
  · show ev &&& notW eb (subW eb w.fullRange 1) < 2 ^ eb
    rw [hc]; omega
  · show 2 ^ tb ∣ ev &&& notW eb (subW eb w.fullRange 1)
    rw [hc]
    exact (Nat.dvd_sub_mod ev)

theorem inv_rollbackRestart (hT : tb ≤ eb) (w : WrapAround tb eb) (ev : Nat)
    (h : w.Inv) : (w.RollbackRestart ev).Inv := by
  obtain ⟨⟨hfr, _, hh, hc⟩, hd⟩ := h
  unfold RollbackRestart
  simp only []
  split_ifs
  · refine ⟨⟨hfr, conv_lt _ _, hh, subW_lt _ _ _⟩, ?_⟩
    exact dvd_subW hT hd (by rw [hfr]; exact fullRange_dvd hT)
  · exact ⟨⟨hfr, conv_lt _ _, hh, hc⟩, hd⟩

theorem inv_seed (w frm : WrapAround tb eb) (h : w.Inv) (hf : frm.Inv) : (w.Seed frm).Inv :=
  ⟨⟨h.1.1, hf.1.2.1, hf.1.2.2.1, hf.1.2.2.2⟩, hf.2⟩

theorem inv_of_reachable (hT : tb ≤ eb) {w : WrapAround tb eb} (h : Reachable w) : w.Inv := by
  induction h with
  | new => exact inv_new
  | update w v _ hv ih => exact inv_update hT w v hv ih
  | resetHighest w ev _ hev ih => exact inv_resetHighest hT w ev hev ih
  | rollbackRestart w ev _ _ ih => exact inv_rollbackRestart hT w ev ih
  | seed w frm _ _ ih1 ih2 => exact inv_seed w frm ih1 ih2

/-- Under the invariant `cycles + highest` does not overflow the extended type. -/
theorem inv_no_overflow (hT : tb ≤ eb) {w : WrapAround tb eb} (h : w.Inv) :
    w.cycles + w.highest < 2 ^ eb := by
  obtain ⟨⟨_, _, hh, hc⟩, k, hk⟩ := h
  obtain ⟨q, hq⟩ := Nat.pow_dvd_pow 2 hT
  rw [hk, hq] at hc
  have hkq : k < q := Nat.lt_of_mul_lt_mul_left hc
  rw [hk, hq]
  calc 2 ^ tb * k + w.highest < 2 ^ tb * k + 2 ^ tb := by omega
    _ = 2 ^ tb * (k + 1) := by rw [Nat.mul_add, Nat.mul_one]
    _ ≤ 2 ^ tb * q := Nat.mul_le_mul_left _ hkq

/-- The in-order branch of `Update`, shared by the results below. -/
theorem update_inOrder_core (tb eb : Nat) (w : WrapAround tb eb) (v : Nat)
    (hT : tb < eb) (hwf : w.WF) (hinit : w.initialized = true) (hv : v < 2 ^ tb)
    (hg0 : 0 < (v + 2 ^ tb - w.highest) % 2 ^ tb)
    (hg1 : (v + 2 ^ tb - w.highest) % 2 ^ tb ≤ 2 ^ tb / 2) :
    (w.Update v).1.highest = v ∧
    (w.Update v).1.cycles = (if v < w.highest then (w.cycles + 2 ^ tb) % 2 ^ eb else w.cycles) ∧
    (w.Update v).1.start = w.start ∧
    (w.Update v).1.initialized = true ∧
    (w.Update v).2.IsRestart = false ∧
    (w.Update v).2.PreExtendedHighest = w.GetExtendedHighest ∧
    (w.Update v).2.ExtendedVal
      = (w.GetExtendedHighest + (v + 2 ^ tb - w.highest) % 2 ^ tb) % 2 ^ eb ∧
    (w.Update v).1.GetExtendedHighest = (w.Update v).2.ExtendedVal := by
  obtain ⟨hfr, _, hh, hc⟩ := hwf
  rw [fullRange_of_lt hT] at hfr
  have hPQ : 2 ^ tb < 2 ^ eb := Nat.pow_lt_pow_right (by norm_num) hT
  have hgap : subW tb v w.highest = (v + 2 ^ tb - w.highest) % 2 ^ tb := subW_eq hv hh
  have hhalf : conv tb (w.fullRange >>> 1) = 2 ^ tb / 2 := by
    rw [hfr, shiftRight_one]; exact conv_of_lt (half_lt tb)
  have hcond : (subW tb v w.highest == 0 || decide (subW tb v w.highest > conv tb (w.fullRange >>> 1)))
      = false := by
    rw [hgap, hhalf]
    simp only [Bool.or_eq_false_iff, beq_eq_false_iff_ne, decide_eq_false_iff_not]
    omega
  have hvQ : v < 2 ^ eb := lt_trans hv hPQ
  have hhQ : w.highest < 2 ^ eb := lt_trans hh hPQ
  by_cases hlt : v < w.highest
  · have hg : (v + 2 ^ tb - w.highest) % 2 ^ tb = v + 2 ^ tb - w.highest :=
      Nat.mod_eq_of_lt (by omega)
    simp only [Update, hinit, Bool.not_true, Bool.false_eq_true, if_false, hcond]
    simp only [hlt, if_true, GetExtendedHighest, getExtendedHighest, addW,
      conv_of_lt hvQ, conv_of_lt hhQ, hfr, hg, Nat.mod_add_mod, Nat.add_mod_mod, true_and,
      and_true]
    congr 1
    omega
  · have hg : (v + 2 ^ tb - w.highest) % 2 ^ tb = v - w.highest := by
      rw [← subW_eq hv hh]; exact subW_of_le hv (by omega)
    simp only [Update, hinit, Bool.not_true, Bool.false_eq_true, if_false, hcond]
    simp only [hlt, if_false, GetExtendedHighest, getExtendedHighest, addW,
      conv_of_lt hvQ, conv_of_lt hhQ, hg, Nat.mod_add_mod, Nat.add_mod_mod, true_and,
      and_true]
    refine ⟨hinit, ?_⟩
    congr 1
    omega


theorem update_initialized (w : WrapAround tb eb) (v : Nat) :
    (w.Update v).1.initialized = true := by
  unfold Update maybeAdjustStart
  simp only []
  split_ifs <;> simp_all

theorem maybeAdjustStart_frame (w : WrapAround tb eb) (v : Nat)
    (h : (w.maybeAdjustStart v).2.1 = false) : (w.maybeAdjustStart v).1 = w := by
  unfold maybeAdjustStart at h ⊢
  simp only [] at h ⊢
  split_ifs at h ⊢ <;> simp_all

theorem isInOrder_of_init (w : WrapAround tb eb) (v : Nat) (hi : w.initialized = true) :
    w.isInOrder v = !(subW tb v w.highest == 0 ||
      decide (subW tb v w.highest > conv tb (w.fullRange >>> 1))) := by
  unfold isInOrder gap
  rw [hi]
  rfl

/-- A duplicate or out-of-order value that is no restart leaves the state as it is. -/
theorem update_frame (w : WrapAround tb eb) (v : Nat) (hi : w.initialized = true)
    (ho : w.isInOrder v = false) (h : (w.Update v).2.IsRestart = false) :
    (w.Update v).1 = w := by
  have hc : (subW tb v w.highest == 0 || decide (subW tb v w.highest > conv tb (w.fullRange >>> 1)))
      = true := by
    cases hC : (subW tb v w.highest == 0 ||
      decide (subW tb v w.highest > conv tb (w.fullRange >>> 1)))
    · rw [isInOrder_of_init w v hi, hC] at ho; exact absurd ho (by decide)
    · rfl
  simp only [Update, hi, Bool.not_true, Bool.false_eq_true, if_false, hc, if_true] at h ⊢
  exact maybeAdjustStart_frame w v h

/-- An in-order value moves the extended highest forward by the raw gap. -/
theorem update_inOrder_step (hT : tb ≤ eb) (w : WrapAround tb eb) (v : Nat) (hw : w.WF)
    (hi : w.initialized = true) (hv : v < 2 ^ tb) (ho : w.isInOrder v = true) :
    (w.Update v).1.start = w.start ∧
    (w.Update v).2.IsRestart = false ∧
    (w.Update v).1.GetExtendedHighest = (w.GetExtendedHighest + w.gap v) % 2 ^ eb := by
  have hc : (subW tb v w.highest == 0 || decide (subW tb v w.highest > conv tb (w.fullRange >>> 1)))
      = false := by
    cases hC : (subW tb v w.highest == 0 ||
      decide (subW tb v w.highest > conv tb (w.fullRange >>> 1)))
    · rfl
    · rw [isInOrder_of_init w v hi, hC] at ho; exact absurd ho (by decide)
  simp only [Bool.or_eq_false_iff, beq_eq_false_iff_ne, decide_eq_false_iff_not, not_lt] at hc
  have hlt : tb < eb := by
    rcases Nat.lt_or_eq_of_le hT with h | h
    · exact h
    · exfalso
      subst h
      rw [hw.1, fullRange_of_eq] at hc
      exact hc.1 (Nat.le_zero.1 (by simpa [conv] using hc.2))
  have hhalf : conv tb (w.fullRange >>> 1) = 2 ^ tb / 2 := by
    rw [hw.1, fullRange_of_lt hlt, shiftRight_one]; exact conv_of_lt (half_lt tb)
  have hg : subW tb v w.highest = (v + 2 ^ tb - w.highest) % 2 ^ tb := subW_eq hv hw.2.2.1
  rw [hhalf, hg] at hc
  have h := update_inOrder_core tb eb w v hlt hw hi hv (Nat.pos_of_ne_zero hc.1) hc.2
  refine ⟨h.2.2.1, h.2.2.2.2.1, ?_⟩
  rw [h.2.2.2.2.2.2.2, h.2.2.2.2.2.2.1]
  simp only [gap, hg]

/-- A run of updates without restart keeps `start` and adds up the in-order gaps. -/
theorem updates_run (hT : tb ≤ eb) (vs : List Nat) :
    ∀ w : WrapAround tb eb, w.Inv → w.initialized = true → (∀ v ∈ vs, v < 2 ^ tb) →
      (∀ r ∈ (w.updates vs).2, r.IsRestart = false) →
      (w.updates vs).1.start = w.start ∧
      (w.updates vs).1.GetExtendedHighest
        = (w.GetExtendedHighest + w.inOrderGapSum vs) % 2 ^ eb := by
  induction vs with
  | nil =>
    intro w _ _ _ _
    refine ⟨rfl, ?_⟩
    simp only [updates, inOrderGapSum, Nat.add_zero]
    exact (Nat.mod_eq_of_lt (addW_lt _ _ _)).symm
  | cons v vs ih =>
    intro w hw hi hvs hnr
    have hv : v < 2 ^ tb := hvs v (List.mem_cons_self _ _)
    have hvs1 : ∀ x ∈ vs, x < 2 ^ tb := fun x hx => hvs x (List.mem_cons_of_mem _ hx)
    have hhead : (w.Update v).2.IsRestart = false := hnr _ (List.mem_cons_self _ _)
    have htail : ∀ r ∈ ((w.Update v).1.updates vs).2, r.IsRestart = false :=
      fun r hr => hnr r (List.mem_cons_of_mem _ hr)
    have hstep := ih (w.Update v).1 (inv_update hT w v hv hw) (update_initialized w v) hvs1 htail
    by_cases ho : w.isInOrder v = true
    · obtain ⟨h1, _, h3⟩ := update_inOrder_step hT w v hw.1 hi hv ho
      refine ⟨by simp only [updates]; rw [hstep.1, h1], ?_⟩
      simp only [updates, inOrderGapSum, hi, ho, Bool.and_self, if_true]
      rw [hstep.2, h3, Nat.mod_add_mod, Nat.add_assoc]
    · have ho1 : w.isInOrder v = false := by simpa using ho
      have hfr := update_frame w v hi ho1 hhead
      rw [hfr] at hstep
      refine ⟨by simp only [updates]; rw [hfr]; exact hstep.1, ?_⟩
      simp only [updates, inOrderGapSum, hi, ho1, Bool.and_false, Bool.false_eq_true, if_false,
        Nat.zero_add]
      rw [hfr]
      exact hstep.2

/-- When every in-order value follows the highest directly, the gaps add up to the number
of in-order values. -/
theorem gapSum_eq_count (vs : List Nat) :
    ∀ w : WrapAround tb eb, w.initialized = true → w.contiguous vs = true →
      w.inOrderGapSum vs = w.inOrderCount vs := by
  induction vs with
  | nil => intro w _ _; rfl
  | cons v vs ih =>
    intro w hi hc
    simp only [contiguous, hi, Bool.true_and, Bool.and_eq_true, Bool.or_eq_true,
      Bool.not_eq_true', beq_iff_eq] at hc
    simp only [inOrderGapSum, inOrderCount, hi, Bool.true_and]
    rw [ih _ (update_initialized w v) hc.2]
    rcases hc.1 with h | h
    · simp [h]
    · by_cases ho : w.isInOrder v = true
      · simp [ho, h]
      · simp [ho]

theorem subW_add_cancel (n a s : Nat) (ha : a < 2 ^ n) :
    subW n ((a + s) % 2 ^ n) a = s % 2 ^ n := by
  unfold subW
  rw [Nat.mod_mod, Nat.mod_eq_of_lt ha, Nat.mod_add_mod]
  have h : a + s + (2 ^ n - a) = s + 2 ^ n := by omega
  rw [h, Nat.add_mod_right]

/-! ### Restarts, rollbacks and out-of-order values -/

theorem two_pow_parity (n : Nat) : 2 ^ n = 1 ∨ 2 ^ n = 2 * (2 ^ n / 2) := by
  cases n with
  | zero => left; rfl
  | succ k => right; rw [pow_succ]; omega

theorem subW_cases {n a b : Nat} (ha : a < 2 ^ n) (hb : b < 2 ^ n) :
    (b ≤ a ∧ subW n a b = a - b) ∨ (a < b ∧ subW n a b = a + 2 ^ n - b) := by
  rcases Nat.lt_or_ge a b with h | h
  · exact Or.inr ⟨h, subW_of_lt h hb⟩
  · exact Or.inl ⟨h, subW_of_le ha h⟩

/-- The maybeAdjustStart_pieces of `maybeAdjustStart` in plain arithmetic, `T` being narrower than `ET`. -/
theorem maybeAdjustStart_pieces (hT : tb < eb) (w : WrapAround tb eb) (v : Nat) (hI : w.Inv) (hv : v < 2 ^ tb) :
    w.fullRange >>> 1 = 2 ^ tb / 2 ∧
    conv tb (w.fullRange >>> 1) = 2 ^ tb / 2 ∧
    w.GetExtendedStart = w.start ∧
    w.GetExtendedHighest = w.cycles + w.highest ∧
    subW tb v w.start = (if w.start ≤ v then v - w.start else v + 2 ^ tb - w.start) ∧
    subW tb v w.highest = (if w.highest ≤ v then v - w.highest else v + 2 ^ tb - w.highest) ∧
    w.isWrapBack v w.highest = (decide (w.highest < 2 ^ tb / 2) && decide (2 ^ tb / 2 ≤ v)) ∧
    (∀ x, x + 2 ^ tb ≤ 2 ^ eb → w.getExtendedHighest x v = x + v) ∧
    subW eb w.cycles w.fullRange
      = (if 2 ^ tb ≤ w.cycles then w.cycles - 2 ^ tb else 2 ^ eb - 2 ^ tb) ∧
    w.cycles + 2 ^ tb ≤ 2 ^ eb ∧ (w.cycles = 0 ∨ 2 ^ tb ≤ w.cycles) := by
  have hno := inv_no_overflow (le_of_lt hT) hI
  obtain ⟨⟨hfr, hs, hh, hc⟩, hd⟩ := hI
  rw [fullRange_of_lt hT] at hfr
  have hPQ : 2 ^ tb < 2 ^ eb := Nat.pow_lt_pow_right (by norm_num) hT
  have hvQ : v < 2 ^ eb := lt_trans hv hPQ
  have hc0 : w.cycles = 0 ∨ 2 ^ tb ≤ w.cycles := by
    rcases Nat.eq_zero_or_pos w.cycles with h0 | hpos
    · exact Or.inl h0
    · exact Or.inr (Nat.le_of_dvd hpos hd)
  have hcR : w.cycles + 2 ^ tb ≤ 2 ^ eb := by
    obtain ⟨k, hk⟩ := hd
    obtain ⟨q, hq⟩ := Nat.pow_dvd_pow 2 (le_of_lt hT)
    rw [hk, hq] at hc
    have hkq : k < q := Nat.lt_of_mul_lt_mul_left hc
    rw [hk, hq]
    calc 2 ^ tb * k + 2 ^ tb = 2 ^ tb * (k + 1) := by rw [Nat.mul_add, Nat.mul_one]
      _ ≤ 2 ^ tb * q := Nat.mul_le_mul_left _ hkq
  refine ⟨?_, ?_, ?_, ?_, ?_, ?_, ?_, ?_, ?_, hcR, hc0⟩
  · rw [hfr, shiftRight_one]
  · rw [hfr, shiftRight_one]; exact conv_of_lt (half_lt tb)
  · exact conv_of_lt (lt_trans hs hPQ)
  · unfold GetExtendedHighest getExtendedHighest addW
    rw [conv_of_lt (lt_trans hh hPQ)]
    exact Nat.mod_eq_of_lt hno
  · split_ifs with h
    · exact subW_of_le hv h
    · exact subW_of_lt (by omega) hs
  · split_ifs with h
    · exact subW_of_le hv h
    · exact subW_of_lt (by omega) hh
  · unfold isWrapBack
    rw [hfr, shiftRight_one, conv_of_lt (lt_trans hh hPQ), conv_of_lt hvQ]
  · intro x hx
    unfold getExtendedHighest addW
    rw [conv_of_lt hvQ]
    exact Nat.mod_eq_of_lt (by omega)
  · rw [hfr]
    split_ifs with h
    · exact subW_of_le hc h
    · have hlt : w.cycles < 2 ^ tb := by omega
      have h0 : w.cycles = 0 := by omega
      rw [subW_of_lt hlt hPQ, h0, Nat.zero_add]

/-- The value of `totalNum` when the extended start does not exceed the extended highest:
the addition of 1 overflows only at the maximum of `ET` with the start at 0. -/
theorem totalNum_cases (hT : tb < eb) (w : WrapAround tb eb) (hI : w.Inv)
    (hs : w.start ≤ w.cycles + w.highest) :
    (w.cycles + w.highest + 1 = 2 ^ eb ∧ w.start = 0 ∧ w.totalNum = 0) ∨
    (¬ (w.cycles + w.highest + 1 = 2 ^ eb ∧ w.start = 0) ∧
      w.totalNum = w.cycles + w.highest - w.start + 1) := by
  have hno := inv_no_overflow (le_of_lt hT) hI
  have hPQ : 2 ^ tb < 2 ^ eb := Nat.pow_lt_pow_right (by norm_num) hT
  have hst := hI.1.2.1
  have p3 : w.GetExtendedStart = w.start := conv_of_lt (lt_trans hst hPQ)
  have p4 : w.GetExtendedHighest = w.cycles + w.highest := by
    unfold GetExtendedHighest getExtendedHighest addW
    rw [conv_of_lt (lt_trans hI.1.2.2.1 hPQ)]
    exact Nat.mod_eq_of_lt hno
  unfold totalNum
  rw [p3, p4, subW_of_le hno hs]
  unfold addW
  by_cases hc : w.cycles + w.highest + 1 = 2 ^ eb ∧ w.start = 0
  · left
    refine ⟨hc.1, hc.2, ?_⟩
    have e : w.cycles + w.highest - w.start + 1 = 2 ^ eb := by omega
    rw [e]
    exact Nat.mod_self _
  · right
    refine ⟨hc, Nat.mod_eq_of_lt ?_⟩
    omega

/-- The function `maybeAdjustStart` in plain arithmetic, for a counter with the invariant,
apart from `totalNum`. -/
theorem maybeAdjustStart_eq (hT : tb < eb) (w : WrapAround tb eb) (v : Nat) (hI : w.Inv)
    (hv : v < 2 ^ tb) :
    w.maybeAdjustStart v =
      if 2 ^ tb / 2 < w.totalNum then
        (w, false, 0, (if w.highest < 2 ^ tb / 2 ∧ 2 ^ tb / 2 ≤ v then
            (if 2 ^ tb ≤ w.cycles then w.cycles - 2 ^ tb else 2 ^ eb - 2 ^ tb) else w.cycles) + v)
      else if 2 ^ tb / 2 < subW tb v w.start then
        if w.highest < 2 ^ tb / 2 ∧ 2 ^ tb / 2 ≤ v then
          ({ w with cycles := 2 ^ tb, start := v }, true, w.start, v)
        else
          ({ w with start := v }, true, w.start, w.cycles + v)
      else
        (w, false, 0, (if w.highest < 2 ^ tb / 2 ∧ 2 ^ tb / 2 ≤ v then
            (if 2 ^ tb ≤ w.cycles then w.cycles - 2 ^ tb else 2 ^ eb - 2 ^ tb) else w.cycles) + v) := by
  obtain ⟨p1, p2, p3, p4, _, _, p7, p8, p9, p10, _⟩ := maybeAdjustStart_pieces hT w v hI hv
  have hfr : w.fullRange = 2 ^ tb := by rw [hI.1.1, fullRange_of_lt hT]
  have hPQ : 2 ^ tb < 2 ^ eb := Nat.pow_lt_pow_right (by norm_num) hT
  have htot : addW eb (subW eb w.GetExtendedHighest w.GetExtendedStart) 1 = w.totalNum := rfl
  have hX : (if w.isWrapBack v w.highest = true then subW eb w.cycles w.fullRange else w.cycles)
      + 2 ^ tb ≤ 2 ^ eb := by
    rw [p9]; split_ifs <;> omega
  have hX2 : w.getExtendedHighest
      (if w.isWrapBack v w.highest = true then subW eb w.cycles w.fullRange else w.cycles) v
      = (if w.highest < 2 ^ tb / 2 ∧ 2 ^ tb / 2 ≤ v then
            (if 2 ^ tb ≤ w.cycles then w.cycles - 2 ^ tb else 2 ^ eb - 2 ^ tb) else w.cycles) + v := by
    rw [p8 _ hX, p9, p7]
    simp only [Bool.and_eq_true, decide_eq_true_eq]
  have hg0 : ∀ u : WrapAround tb eb, u.getExtendedHighest 0 v = v := by
    intro u
    unfold getExtendedHighest addW
    rw [conv_of_lt (lt_trans hv hPQ), Nat.zero_add]
    exact Nat.mod_eq_of_lt (lt_trans hv hPQ)
  have hgc : ∀ u : WrapAround tb eb, u.getExtendedHighest w.cycles v = w.cycles + v := by
    intro u
    unfold getExtendedHighest addW
    rw [conv_of_lt (lt_trans hv hPQ)]
    exact Nat.mod_eq_of_lt (by omega)
  unfold maybeAdjustStart
  simp only [htot, hX2, p2, hg0, hgc]
  simp only [p3, p1]
  rw [p7, hfr]
  simp only [Bool.and_eq_true, decide_eq_true_eq, gt_iff_lt]

/-- The duplicate / out-of-order branch of `Update`. -/
theorem update_outOfOrder (w : WrapAround tb eb) (v : Nat) (hi : w.initialized = true)
    (hg : subW tb v w.highest = 0 ∨ conv tb (w.fullRange >>> 1) < subW tb v w.highest) :
    w.Update v = ((w.maybeAdjustStart v).1,
      { IsRestart := (w.maybeAdjustStart v).2.1,
        PreExtendedStart := (w.maybeAdjustStart v).2.2.1,
        PreExtendedHighest := w.GetExtendedHighest,
        ExtendedVal := (w.maybeAdjustStart v).2.2.2 }) := by
  have hc : (subW tb v w.highest == 0 || decide (subW tb v w.highest > conv tb (w.fullRange >>> 1)))
      = true := by
    rcases hg with h | h
    · simp [h]
    · simp [h]
  simp only [Update, hi, Bool.not_true, Bool.false_eq_true, if_false, hc, if_true]

theorem cycles_trichotomy {R c : Nat} (hd : R ∣ c) : c = 0 ∨ c = R ∨ 2 * R ≤ c := by
  obtain ⟨k, hk⟩ := hd
  rcases Nat.lt_or_ge k 2 with h | h
  · interval_cases k
    · left; simpa using hk
    · right; left; simpa using hk
  · right; right
    rw [hk, Nat.mul_comm 2 R]
    exact Nat.mul_le_mul_left R h

/-- The function `RollbackRestart` in plain arithmetic. -/
theorem rollbackRestart_eq (hT : tb < eb) (u : WrapAround tb eb) (p : Nat)
    (hfr : u.fullRange = 2 ^ tb) (hs : u.start < 2 ^ tb) (hp : p < 2 ^ tb) :
    u.RollbackRestart p =
      { u with cycles := (if p < 2 ^ tb / 2 ∧ 2 ^ tb / 2 ≤ u.start then subW eb u.cycles (2 ^ tb)
                          else u.cycles),
               start := p } := by
  have hPQ : 2 ^ tb < 2 ^ eb := Nat.pow_lt_pow_right (by norm_num) hT
  have hwb : u.isWrapBack u.start (conv tb p)
      = (decide (p < 2 ^ tb / 2) && decide (2 ^ tb / 2 ≤ u.start)) := by
    unfold isWrapBack
    rw [hfr, shiftRight_one, conv_of_lt hp, conv_of_lt (lt_trans hp hPQ),
      conv_of_lt (lt_trans hs hPQ)]
  unfold RollbackRestart
  rw [hwb, conv_of_lt hp, hfr]
  simp only [Bool.and_eq_true, decide_eq_true_eq]
  split_ifs <;> simp [hfr]

theorem getExtendedHighest_eq (u : WrapAround tb eb) (h : u.cycles + u.highest < 2 ^ eb) :
    u.GetExtendedHighest = u.cycles + u.highest := by
  unfold GetExtendedHighest getExtendedHighest addW
  rw [conv_of_lt (by omega)]
  exact Nat.mod_eq_of_lt h

/-- The invariant of the states reached by `Update` calls alone. -/
theorem ordered_update (hT : tb < eb) (w : WrapAround tb eb) (v : Nat) (hI : w.Inv)
    (ho : w.Ordered) (hv : v < 2 ^ tb)
    (hmono : w.GetExtendedHighest ≤ (w.Update v).1.GetExtendedHighest) :
    (w.Update v).1.Ordered := by
  have hI2 := inv_update (le_of_lt hT) w v hv hI
  have g1 := getExtendedHighest_eq w (inv_no_overflow (le_of_lt hT) hI)
  have g2 := getExtendedHighest_eq (w.Update v).1 (inv_no_overflow (le_of_lt hT) hI2)
  rw [g1, g2] at hmono
  unfold Ordered at ho ⊢
  cases hi : w.initialized
  · simp [Update, hi]
  · obtain ⟨_, p2, _, _, _, _, _, _, _, p10, _⟩ := maybeAdjustStart_pieces hT w v hI hv
    have hh := hI.1.2.2.1
    have hst := hI.1.2.1
    have hD := subW_cases hv hst
    have hG := subW_cases hv hh
    have hpar := two_pow_parity tb
    have htot := totalNum_cases hT w hI ho
    by_cases hg : subW tb v w.highest = 0 ∨ conv tb (w.fullRange >>> 1) < subW tb v w.highest
    · rw [update_outOfOrder w v hi hg, maybeAdjustStart_eq hT w v hI hv]
      rw [p2] at hg
      clear hmono g1 g2 hI2 hI
      split_ifs <;> simp only [] <;> omega
    · have hio : w.isInOrder v = true := by
        rw [isInOrder_of_init w v hi]
        simp only [Bool.not_eq_true', Bool.or_eq_false_iff, beq_eq_false_iff_ne,
          decide_eq_false_iff_not]
        exact ⟨fun h0 => hg (Or.inl h0), fun h1 => hg (Or.inr h1)⟩
      obtain ⟨e1, _, _⟩ := update_inOrder_step (le_of_lt hT) w v hI.1 hi hv hio
      rw [e1]
      omega

theorem inv_of_updateReachable (hT : tb < eb) {w : WrapAround tb eb} (h : UpdateReachable w) :
    w.Inv ∧ w.Ordered := by
  induction h with
  | new => exact ⟨inv_new, by simp [Ordered, NewWrapAround]⟩
  | update w v _ hv hmono ih =>
    exact ⟨inv_update (le_of_lt hT) w v hv ih.1, ordered_update hT w v ih.1 ih.2 hv hmono⟩

/-- A restart is reported by the duplicate / out-of-order branch only. -/
theorem restart_cond (w : WrapAround tb eb) (v : Nat) (h : (w.Update v).2.IsRestart = true) :
    w.initialized = true ∧
    (subW tb v w.highest = 0 ∨ conv tb (w.fullRange >>> 1) < subW tb v w.highest) := by
  cases hi : w.initialized
  · simp [Update, hi] at h
  · refine ⟨rfl, ?_⟩
    by_contra hg
    have hc : (subW tb v w.highest == 0 ||
        decide (subW tb v w.highest > conv tb (w.fullRange >>> 1))) = false := by
      simp only [Bool.or_eq_false_iff, beq_eq_false_iff_ne, decide_eq_false_iff_not]
      exact ⟨fun h0 => hg (Or.inl h0), fun h1 => hg (Or.inr h1)⟩
    simp [Update, hi, hc] at h

/-- The duplicate / out-of-order branch of `Update` in plain arithmetic, for a counter with
the invariant. -/
theorem update_dupOoo_eq (hT : tb < eb) (w : WrapAround tb eb) (v : Nat) (hI : w.Inv)
    (hv : v < 2 ^ tb) (hi : w.initialized = true)
    (hg : subW tb v w.highest = 0 ∨ conv tb (w.fullRange >>> 1) < subW tb v w.highest) :
    w.Update v =
      if 2 ^ tb / 2 < w.totalNum ∨ ¬ 2 ^ tb / 2 < subW tb v w.start then
        (w, { IsRestart := false, PreExtendedStart := 0,
              PreExtendedHighest := w.cycles + w.highest,
              ExtendedVal := (if w.highest < 2 ^ tb / 2 ∧ 2 ^ tb / 2 ≤ v then
                (if 2 ^ tb ≤ w.cycles then w.cycles - 2 ^ tb else 2 ^ eb - 2 ^ tb)
                else w.cycles) + v })
      else if w.highest < 2 ^ tb / 2 ∧ 2 ^ tb / 2 ≤ v then
        ({ w with cycles := 2 ^ tb, start := v },
         { IsRestart := true, PreExtendedStart := w.start,
           PreExtendedHighest := w.cycles + w.highest, ExtendedVal := v })
      else
        ({ w with start := v },
         { IsRestart := true, PreExtendedStart := w.start,
           PreExtendedHighest := w.cycles + w.highest, ExtendedVal := w.cycles + v }) := by
  obtain ⟨_, _, _, p4, _, _, _, _, _, _, _⟩ := maybeAdjustStart_pieces hT w v hI hv
  rw [update_outOfOrder w v hi hg, maybeAdjustStart_eq hT w v hI hv, p4]
  split_ifs <;> first | rfl | (exfalso; tauto)

/-- When `maybeAdjustStart` reports a restart, and what a restart does to the start. -/
theorem maybeAdjustStart_restart (w : WrapAround tb eb) (v : Nat) :
    ((w.maybeAdjustStart v).2.1 = true ↔
      addW eb (subW eb w.GetExtendedHighest w.GetExtendedStart) 1 ≤ w.fullRange >>> 1 ∧
      conv tb (w.fullRange >>> 1) < subW tb v w.start) ∧
    ((w.maybeAdjustStart v).2.1 = true →
      (w.maybeAdjustStart v).1.start = v ∧ (w.maybeAdjustStart v).2.2.1 = w.GetExtendedStart) := by
  by_cases ha : addW eb (subW eb w.GetExtendedHighest w.GetExtendedStart) 1 > w.fullRange >>> 1 <;>
  by_cases hb : subW tb v w.start > conv tb (w.fullRange >>> 1) <;>
  by_cases hw : w.isWrapBack v w.highest = true <;>
  simp [maybeAdjustStart, ha, hb, hw] <;> omega

theorem update_fullRange (w : WrapAround tb eb) (v : Nat) :
    (w.Update v).1.fullRange = w.fullRange := by
  unfold Update maybeAdjustStart
  simp only []
  split_ifs <;> rfl

/-- Counting up from 0 one by one reaches every extended value of `uint32` without
overflow. -/
theorem countedTo_reachable (k : Nat) (hk : k < 4294967296) : UpdateReachable (countedTo k) := by
  induction k with
  | zero =>
    have e : countedTo 0 = ((NewWrapAround 16 32).Update 0).1 := by decide
    rw [e]
    exact UpdateReachable.update _ 0 UpdateReachable.new (by decide) (by decide)
  | succ k ih =>
    have hr := ih (by omega)
    have hwf : (countedTo k).WF := by
      refine ⟨?_, ?_, ?_, ?_⟩
      · show (65536 : Nat) = conv 32 (1 <<< 16)
        decide
      · show 0 < 2 ^ 16
        decide
      · show k % 65536 < 2 ^ 16
        omega
      · show k - k % 65536 < 2 ^ 32
        omega
    have hv : (k + 1) % 65536 < 2 ^ 16 := by omega
    have hh : (countedTo k).highest = k % 65536 := rfl
    have hc : (countedTo k).cycles = k - k % 65536 := rfl
    obtain ⟨e1, e2, e3, e4, _, _, e7, e8⟩ := update_inOrder_core 16 32 (countedTo k)
      ((k + 1) % 65536) (by decide) hwf rfl hv (by rw [hh]; omega) (by rw [hh]; omega)
    have g := getExtendedHighest_eq (countedTo k) (by rw [hh, hc]; omega)
    have e5 := update_fullRange (countedTo k) ((k + 1) % 65536)
    have e : countedTo (k + 1) = ((countedTo k).Update ((k + 1) % 65536)).1 := by
      cases hu : ((countedTo k).Update ((k + 1) % 65536)).1 with
      | mk fr ini st hi cy =>
        rw [hu] at e1 e2 e3 e4 e5
        simp only [] at e1 e2 e3 e4 e5
        rw [hh, hc] at e2
        unfold countedTo
        simp only [WrapAround.mk.injEq]
        refine ⟨e5.symm, e4.symm, e3.symm, e1.symm, ?_⟩
        rw [e2]
        split_ifs <;> omega
    rw [e]
    refine UpdateReachable.update _ _ hr hv ?_
    rw [e8, e7, g, hh, hc]
    omega

/-- The arithmetic facts on a state reached by `Update` calls alone that the results on
restarts and out-of-order values rest on. -/
theorem reach_facts (hT : tb < eb) (w : WrapAround tb eb) (v : Nat) (hr : UpdateReachable w)
    (hv : v < 2 ^ tb) :
    w.Inv ∧
    w.fullRange = 2 ^ tb ∧ w.start < 2 ^ tb ∧ w.highest < 2 ^ tb ∧
    w.cycles + 2 ^ tb ≤ 2 ^ eb ∧ 2 * 2 ^ tb ≤ 2 ^ eb ∧ w.start ≤ w.cycles + w.highest ∧
    (w.cycles = 0 ∨ w.cycles = 2 ^ tb ∨ 2 * 2 ^ tb ≤ w.cycles) ∧
    (2 ^ tb = 1 ∨ 2 ^ tb = 2 * (2 ^ tb / 2)) ∧
    conv tb (w.fullRange >>> 1) = 2 ^ tb / 2 ∧
    ((w.cycles + w.highest + 1 = 2 ^ eb ∧ w.start = 0 ∧ w.totalNum = 0) ∨
      (¬ (w.cycles + w.highest + 1 = 2 ^ eb ∧ w.start = 0) ∧
        w.totalNum = w.cycles + w.highest - w.start + 1)) ∧
    ((w.start ≤ v ∧ subW tb v w.start = v - w.start) ∨
      (v < w.start ∧ subW tb v w.start = v + 2 ^ tb - w.start)) ∧
    ((w.highest ≤ v ∧ subW tb v w.highest = v - w.highest) ∨
      (v < w.highest ∧ subW tb v w.highest = v + 2 ^ tb - w.highest)) ∧
    ((v ≤ w.highest ∧ subW tb w.highest v = w.highest - v) ∨
      (w.highest < v ∧ subW tb w.highest v = w.highest + 2 ^ tb - v)) := by
  obtain ⟨hI, ho⟩ := inv_of_updateReachable hT hr
  have hfr : w.fullRange = 2 ^ tb := by rw [hI.1.1, fullRange_of_lt hT]
  have hPQ : 2 * 2 ^ tb ≤ 2 ^ eb := by
    rw [Nat.mul_comm, ← pow_succ]
    exact Nat.pow_le_pow_right (by norm_num) hT
  obtain ⟨_, p2, _, _, _, _, _, _, _, p10, _⟩ := maybeAdjustStart_pieces hT w v hI hv
  exact ⟨hI, hfr, hI.1.2.1, hI.1.2.2.1, p10, hPQ, ho, cycles_trichotomy hI.2,
    two_pow_parity tb, p2, totalNum_cases hT w hI ho, subW_cases hv hI.1.2.1,
    subW_cases hv hI.1.2.2.1, subW_cases hI.1.2.2.1 hv⟩

end WrapAround

end Utils

/-! ## Lemmas on the subscription manager -/

namespace Rtc

theorem mapGet_mapDel {κ α : Type} [DecidableEq κ] (m : List (κ × α)) (k k' : κ) :
    mapGet (mapDel m k) k' = if k' = k then none else mapGet m k' := by
  induction m with
  | nil => simp [mapDel, mapGet]
  | cons e r ih =>
    obtain ⟨a, b⟩ := e
    unfold mapDel at ih ⊢
    by_cases h : a = k
    · subst h
      by_cases h2 : k' = a
      · subst h2; simpa [List.filter, mapGet] using ih
      · have h3 : ¬ a = k' := fun h => h2 h.symm
        simpa [List.filter, mapGet, h2, h3] using ih
    · by_cases h2 : a = k'
      · subst h2; simp [List.filter, mapGet, h]
      · simpa [List.filter, mapGet, h, h2] using ih

theorem mapGet_mapSet {κ α : Type} [DecidableEq κ] (m : List (κ × α)) (k k' : κ) (v : α) :
    mapGet (mapSet m k v) k' = if k' = k then some v else mapGet m k' := by
  unfold mapSet
  by_cases h : k' = k
  · subst h; simp [mapGet]
  · have h3 : ¬ k = k' := fun e => h e.symm
    simp [mapGet, h, h3, mapGet_mapDel]

namespace SubscriptionManager

@[simp] theorem store_subscriptions (m : SubscriptionManager) (p : Nat) (s : trackSubscription) :
    (m.store p s).subscriptions = m.subscriptions := rfl

@[simp] theorem store_reconcileCh (m : SubscriptionManager) (p : Nat) (s : trackSubscription) :
    (m.store p s).reconcileCh = m.reconcileCh := rfl

@[simp] theorem store_closed (m : SubscriptionManager) (p : Nat) (s : trackSubscription) :
    (m.store p s).closed = m.closed := rfl

@[simp] theorem store_subscribedTo (m : SubscriptionManager) (p : Nat) (s : trackSubscription) :
    (m.store p s).subscribedTo = m.subscribedTo := rfl

@[simp] theorem store_onSubscribeStatusChanged (m : SubscriptionManager) (p : Nat)
    (s : trackSubscription) :
    (m.store p s).onSubscribeStatusChanged = m.onSubscribeStatusChanged := rfl

@[simp] theorem store_objs (m : SubscriptionManager) (p : Nat) (s : trackSubscription) (q : Nat) :
    (m.store p s).objs q = if q = p then s else m.objs q := rfl

@[simp] theorem queueReconcile_subscriptions (m : SubscriptionManager) (t : TrackID) :
    (m.queueReconcile t).subscriptions = m.subscriptions := by
  unfold queueReconcile; split <;> rfl

@[simp] theorem queueReconcile_objs (m : SubscriptionManager) (t : TrackID) :
    (m.queueReconcile t).objs = m.objs := by
  unfold queueReconcile; split <;> rfl

@[simp] theorem unsubscribe_fst (m : SubscriptionManager) (p : Nat) : (m.unsubscribe p).1 = m := by
  unfold unsubscribe; split <;> rfl

@[simp] theorem unsubscribe_err (m : SubscriptionManager) (p : Nat) :
    (m.unsubscribe p).2.2 = none := by
  unfold unsubscribe; split <;> rfl

theorem subscribeTail_objs (m1 : SubscriptionManager) (p : Nat) (st : SubscribedTrack)
    (e2 : List Event) (q : Nat) :
    ((m1.subscribeTail p st e2).1.objs q).desired = (m1.objs q).desired ∧
    ((m1.subscribeTail p st e2).1.objs q).trackID = (m1.objs q).trackID ∧
    ((m1.subscribeTail p st e2).1.objs q).numAttempts = (m1.objs q).numAttempts ∧
    ((m1.subscribeTail p st e2).1.objs q).subStartedAt = (m1.objs q).subStartedAt ∧
    (q ≠ p → (m1.subscribeTail p st e2).1.objs q = m1.objs q) := by
  unfold subscribeTail
  by_cases hq : q = p
  · simp [store, hq, trackSubscription.setSubscribedTrack]
  · simp [store, hq]

theorem subscribeTail_global (m1 : SubscriptionManager) (p : Nat) (st : SubscribedTrack)
    (e2 : List Event) :
    (m1.subscribeTail p st e2).1.subscriptions = m1.subscriptions ∧
    (m1.subscribeTail p st e2).1.reconcileCh = m1.reconcileCh ∧
    (m1.subscribeTail p st e2).1.closed = m1.closed ∧
    (m1.subscribeTail p st e2).2.2 = Outcome.ok := by
  unfold subscribeTail
  simp [store]

/-- What `subscribe` leaves alone. -/
theorem subscribe_frame (m : SubscriptionManager) (s : Nat) (env : Env) (q : Nat) :
    ((m.subscribe s env).1.objs q).desired = (m.objs q).desired ∧
    ((m.subscribe s env).1.objs q).trackID = (m.objs q).trackID ∧
    ((m.subscribe s env).1.objs q).numAttempts = (m.objs q).numAttempts ∧
    ((m.subscribe s env).1.objs q).subStartedAt
      = (if q = s then ((m.objs s).startAttempt env.now).subStartedAt
         else (m.objs q).subStartedAt) ∧
    (m.subscribe s env).1.subscriptions = m.subscriptions ∧
    (m.subscribe s env).1.reconcileCh = m.reconcileCh ∧
    (m.subscribe s env).1.closed = m.closed ∧
    ((m.subscribe s env).2.2 ≠ Outcome.ok →
      ((m.subscribe s env).1.objs q).subscribedTrack = (m.objs q).subscribedTrack) ∧
    (q ≠ s → (m.subscribe s env).1.objs q = m.objs q) := by
  have hA : ∀ a : trackSubscription, ∀ b : Bool,
      (a.setHasPermission b).1.desired = a.desired ∧
      (a.setHasPermission b).1.trackID = a.trackID ∧
      (a.setHasPermission b).1.numAttempts = a.numAttempts ∧
      (a.setHasPermission b).1.subStartedAt = a.subStartedAt ∧
      (a.setHasPermission b).1.subscribedTrack = a.subscribedTrack := by
    intro a b
    unfold trackSubscription.setHasPermission
    split <;> simp
  have hB : ∀ a : trackSubscription, ∀ t : Time,
      (a.startAttempt t).desired = a.desired ∧
      (a.startAttempt t).trackID = a.trackID ∧
      (a.startAttempt t).numAttempts = a.numAttempts ∧
      (a.startAttempt t).subscribedTrack = a.subscribedTrack := by
    intro a t
    unfold trackSubscription.startAttempt
    split <;> simp
  obtain ⟨now, since, pc, pd, cs, res, ⟨st, err⟩, rf⟩ := env
  have h0 : ∀ x : trackSubscription,
      ((m.store s x).objs q = if q = s then x else m.objs q) := fun x => rfl
  by_cases hq : q = s
  · subst hq
    cases cs
    · simp [subscribe, hB]
    · cases res with
      | error e => simp [subscribe, hB]
      | ok r =>
        obtain ⟨track, hp⟩ := r
        cases hp
        · simp [subscribe, hA, hB]
        · cases err with
          | none =>
            cases st with
            | none => simp [subscribe, hA, hB]
            | some t =>
              have ht := fun (m1 : SubscriptionManager) (e2 : List Event) (x : Nat) =>
                subscribeTail_objs m1 q t e2 x
              simp [subscribe, hA, hB, ht, subscribeTail_global]
          | some e =>
            by_cases he : e = SubError.errAlreadySubscribed
            · cases st with
              | none => simp [subscribe, hA, hB, he]
              | some t =>
                have ht := fun (m1 : SubscriptionManager) (e2 : List Event) (x : Nat) =>
                subscribeTail_objs m1 q t e2 x
                simp [subscribe, hA, hB, ht, he, subscribeTail_global]
            · simp [subscribe, hA, hB, he]
  · cases cs
    · simp [subscribe, hq]
    · cases res with
      | error e => simp [subscribe, hq]
      | ok r =>
        obtain ⟨track, hp⟩ := r
        cases hp
        · simp [subscribe, hq]
        · cases err with
          | none =>
            cases st with
            | none => simp [subscribe, hq]
            | some t =>
              have ht := fun (m1 : SubscriptionManager) (e2 : List Event) (x : Nat) =>
                subscribeTail_objs m1 s t e2 x
              simp [subscribe, hq, ht, subscribeTail_global]
          | some e =>
            by_cases he : e = SubError.errAlreadySubscribed
            · cases st with
              | none => simp [subscribe, hq, he]
              | some t =>
                have ht := fun (m1 : SubscriptionManager) (e2 : List Event) (x : Nat) =>
                subscribeTail_objs m1 s t e2 x
                simp [subscribe, hq, ht, he, subscribeTail_global]
            · simp [subscribe, hq, he]

/-- The one path of `reconcileSubscription` that deletes from the map. -/
theorem reconcile_subscriptions_removed (cfg : Timeouts) (m : SubscriptionManager) (s : Nat)
    (env : Env) (hc : m.canReconcile env = true) (hs : (m.objs s).needsSubscribe = false)
    (hu : (m.objs s).needsUnsubscribe = true) (hd : (m.objs s).isDesired = false) :
    (m.reconcileSubscription cfg s env).1.subscriptions
      = mapDel m.subscriptions (m.objs s).trackID := by
  unfold reconcileSubscription
  simp [hc, hs, hu, hd]

/-- On every other path the map is left as it is. -/
theorem reconcile_subscriptions_kept (cfg : Timeouts) (m : SubscriptionManager) (s : Nat)
    (env : Env)
    (h : ¬ (m.canReconcile env = true ∧ (m.objs s).needsSubscribe = false ∧
      (m.objs s).needsUnsubscribe = true ∧ (m.objs s).isDesired = false)) :
    (m.reconcileSubscription cfg s env).1.subscriptions = m.subscriptions := by
  have hf := subscribe_frame m s env s
  unfold reconcileSubscription
  by_cases hc : m.canReconcile env = true
  · by_cases hs : (m.objs s).needsSubscribe = true
    · simp only [hc, hs, Bool.not_true, Bool.false_eq_true, if_false, if_true]
      cases hr : (m.subscribe s env).2.2 with
      | ok => simp [hf]
      | nilDeref => simp [hf]
      | failed err =>
        simp only []
        split_ifs <;> simp [hf]
    · have hs1 : (m.objs s).needsSubscribe = false := by simpa using hs
      by_cases hu : (m.objs s).needsUnsubscribe = true
      · by_cases hd : (m.objs s).isDesired = true
        · simp [hc, hs1, hu, hd]
        · have hd1 : (m.objs s).isDesired = false := by simpa using hd
          exact absurd ⟨hc, hs1, hu, hd1⟩ h
      · have hu1 : (m.objs s).needsUnsubscribe = false := by simpa using hu
        simp only [hc, hs1, hu1, Bool.not_true, Bool.false_eq_true, if_false]
        split_ifs <;> rfl
  · have hc1 : m.canReconcile env = false := by simpa using hc
    simp [hc1]

theorem getOrCreate_subscriptions (m : SubscriptionManager) (t t2 : TrackID)
    (h : (mapGet m.subscriptions t2).isSome = true) :
    (mapGet (m.getOrCreate t).1.subscriptions t2).isSome = true := by
  unfold getOrCreate
  split
  · exact h
  · simp only [store_subscriptions, mapGet_mapSet]
    split_ifs
    · rfl
    · exact h

theorem setDesired_fields (a : trackSubscription) (b : Bool) :
    (a.setDesired b).1.desired = b ∧
    (a.setDesired b).1.trackID = a.trackID ∧
    (a.setDesired b).1.numAttempts = a.numAttempts ∧
    (a.setDesired b).1.subStartedAt = a.subStartedAt ∧
    (a.setDesired b).1.subscribedTrack = a.subscribedTrack ∧
    (a.setDesired b).1.bound = a.bound := by
  unfold trackSubscription.setDesired
  split_ifs with h
  · exact ⟨h, rfl, rfl, rfl, rfl, rfl⟩
  · exact ⟨rfl, rfl, rfl, rfl, rfl, rfl⟩

theorem recordAttempt_fields (a : trackSubscription) (b : Bool) :
    (a.recordAttempt b).desired = a.desired ∧
    (a.recordAttempt b).trackID = a.trackID ∧
    (a.recordAttempt b).subStartedAt = a.subStartedAt ∧
    (a.recordAttempt b).subscribedTrack = a.subscribedTrack ∧
    (a.recordAttempt b).bound = a.bound ∧
    (a.recordAttempt b).numAttempts = (if b = true then 0 else addInt32 a.numAttempts 1) := by
  unfold trackSubscription.recordAttempt
  cases b <;> simp

theorem queueReconcile_reconcileCh (m : SubscriptionManager) (t : TrackID) :
    (m.queueReconcile t).reconcileCh
      = if m.reconcileCh.length < 10 then m.reconcileCh ++ [t] else m.reconcileCh := by
  unfold queueReconcile; split <;> rfl

@[simp] theorem queueReconcile_closed (m : SubscriptionManager) (t : TrackID) :
    (m.queueReconcile t).closed = m.closed := by
  unfold queueReconcile; split <;> rfl

/-- The duration `reconcileSubscription` reads after a failed `subscribe`. -/
theorem duration_after_subscribe (m : SubscriptionManager) (s : Nat) (env : Env) (b : Bool) :
    (((m.subscribe s env).1.store s (((m.subscribe s env).1.objs s).recordAttempt b)).objs
        s).durationSinceStart env.since
      = ((m.objs s).startAttempt env.now).durationSinceStart env.since := by
  have hf := (subscribe_frame m s env s).2.2.2.1
  rw [if_pos rfl] at hf
  simp only [store_objs, if_true, trackSubscription.durationSinceStart,
    (recordAttempt_fields _ b).2.2.1, hf]

theorem reconcile_objs_other (cfg : Timeouts) (m : SubscriptionManager) (s : Nat) (env : Env)
    (q : Nat) (hq : q ≠ s) : (m.reconcileSubscription cfg s env).1.objs q = m.objs q := by
  have hf := (subscribe_frame m s env q).2.2.2.2.2.2.2.2 hq
  unfold reconcileSubscription
  by_cases hc : m.canReconcile env = true
  · by_cases hs : (m.objs s).needsSubscribe = true
    · simp only [hc, hs, Bool.not_true, Bool.false_eq_true, if_false, if_true]
      cases hr : (m.subscribe s env).2.2 with
      | ok => simp [hq, hf]
      | nilDeref => simp [hf]
      | failed err =>
        simp only []
        split_ifs <;> simp [hq, hf]
    · have hs1 : (m.objs s).needsSubscribe = false := by simpa using hs
      by_cases hu : (m.objs s).needsUnsubscribe = true
      · by_cases hd : (m.objs s).isDesired = true
        · simp [hc, hs1, hu, hd]
        · have hd1 : (m.objs s).isDesired = false := by simpa using hd
          simp [hc, hs1, hu, hd1]
      · have hu1 : (m.objs s).needsUnsubscribe = false := by simpa using hu
        simp only [hc, hs1, hu1, Bool.not_true, Bool.false_eq_true, if_false]
        split_ifs <;> rfl
  · have hc1 : m.canReconcile env = false := by simpa using hc
    simp [hc1]

theorem reconcile_flip (cfg : Timeouts) (m : SubscriptionManager) (s : Nat) (env : Env)
    (h : clearsDesired cfg m s env) :
    ((m.reconcileSubscription cfg s env).1.objs s).desired = false ∧
    (m.reconcileSubscription cfg s env).1.reconcileCh
      = (m.queueReconcile (m.objs s).trackID).reconcileCh := by
  obtain ⟨hc, hs, hr, hd⟩ := h
  have hf := subscribe_frame m s env s
  have hdur := duration_after_subscribe m s env false
  unfold reconcileSubscription
  simp only [hc, hs, Bool.not_true, Bool.false_eq_true, if_false, if_true]
  rcases hr with hr | hr <;>
  · rw [hr]
    simp only [hdur, hd, if_true]
    simp [queueReconcile_reconcileCh, setDesired_fields, recordAttempt_fields, hf]

theorem reconcile_keep (cfg : Timeouts) (m : SubscriptionManager) (s : Nat) (env : Env)
    (h : ¬ clearsDesired cfg m s env) :
    ((m.reconcileSubscription cfg s env).1.objs s).desired = (m.objs s).desired := by
  have hf := subscribe_frame m s env s
  have hdur := duration_after_subscribe m s env false
  unfold reconcileSubscription
  by_cases hc : m.canReconcile env = true
  · by_cases hs : (m.objs s).needsSubscribe = true
    · simp only [hc, hs, Bool.not_true, Bool.false_eq_true, if_false, if_true]
      cases hr : (m.subscribe s env).2.2 with
      | ok => simp [recordAttempt_fields, hf]
      | nilDeref => simp [hf]
      | failed err =>
        simp only [hdur]
        by_cases hd : ((m.objs s).startAttempt env.now).durationSinceStart env.since
            > cfg.notFoundTimeout
        · have hne : ¬ (err = SubError.ErrPublisherNotConnected ∨ err = SubError.ErrTrackNotFound) := by
            intro he
            apply h
            refine ⟨hc, hs, ?_, hd⟩
            rcases he with he | he
            · left; rw [hr, he]
            · right; rw [hr, he]
          simp only [hne, if_false]
          split_ifs <;> simp [recordAttempt_fields, hf]
        · simp only [hd, if_false]
          split_ifs <;> simp [recordAttempt_fields, hf]
    · have hs1 : (m.objs s).needsSubscribe = false := by simpa using hs
      by_cases hu : (m.objs s).needsUnsubscribe = true
      · by_cases hd : (m.objs s).isDesired = true
        · simp [hc, hs1, hu, hd]
        · have hd1 : (m.objs s).isDesired = false := by simpa using hd
          simp [hc, hs1, hu, hd1]
      · have hu1 : (m.objs s).needsUnsubscribe = false := by simpa using hu
        simp only [hc, hs1, hu1, Bool.not_true, Bool.false_eq_true, if_false]
        split_ifs <;> rfl
  · have hc1 : m.canReconcile env = false := by simpa using hc
    simp [hc1]

theorem subscribeTail_events (m1 : SubscriptionManager) (p : Nat) (st : SubscribedTrack)
    (e2 : List Event) (t : TrackID) (h : Event.OnSubcriptionError t ∉ e2) :
    Event.OnSubcriptionError t ∉ (m1.subscribeTail p st e2).2.1 := by
  unfold subscribeTail trackSubscription.setSubscribedTrack
  simp only []
  cases (m1.objs p).settings <;> simp [h]

theorem subscribe_events (m : SubscriptionManager) (s : Nat) (env : Env) (t : TrackID) :
    Event.OnSubcriptionError t ∉ (m.subscribe s env).2.1 := by
  obtain ⟨now, since, pc, pd, cs, res, ⟨st, err⟩, rf⟩ := env
  have hT : ∀ (m1 : SubscriptionManager) (x : SubscribedTrack) (e2 : List Event),
      Event.OnSubcriptionError t ∉ e2 → Event.OnSubcriptionError t ∉ (m1.subscribeTail s x e2).2.1 :=
    fun m1 x e2 h => subscribeTail_events m1 s x e2 t h
  cases cs
  · simp [subscribe]
  · cases res with
    | error e => simp [subscribe]
    | ok r =>
      obtain ⟨track, hp⟩ := r
      cases hp
      · simp only [subscribe]
        simp
      · cases err with
        | none =>
          cases st with
          | none =>
            simp only [subscribe]
            simp
          | some x =>
            simp only [subscribe]
            simp
            apply hT
            split_ifs <;> simp
        | some e =>
          by_cases he : e = SubError.errAlreadySubscribed
          · cases st with
            | none =>
              simp only [subscribe]
              simp [he]
            | some x =>
              simp only [subscribe]
              simp [he]
              apply hT
              split_ifs <;> simp
          · simp only [subscribe]
            simp [he]

theorem unsubscribe_events (m : SubscriptionManager) (s : Nat) (t : TrackID) :
    Event.OnSubcriptionError t ∉ (m.unsubscribe s).2.1 := by
  unfold unsubscribe
  split <;> simp

theorem raisesError_of_sub (cfg : Timeouts) (m : SubscriptionManager) (s : Nat) (env : Env)
    (hs : (m.objs s).needsSubscribe = true) :
    raisesError cfg m s env ↔
      m.canReconcile env = true ∧
      ((m.objs s).startAttempt env.now).durationSinceStart env.since > cfg.subscriptionTimeout ∧
      ∃ err, (m.subscribe s env).2.2 = Outcome.failed err ∧
        err ≠ SubError.ErrNoTrackPermission ∧ err ≠ SubError.ErrNoSubscribePermission ∧
        err ≠ SubError.ErrTrackNotAttached ∧ err ≠ SubError.ErrPublisherNotConnected ∧
        err ≠ SubError.ErrTrackNotFound := by
  unfold raisesError durationRead
  simp [hs]

theorem raisesError_of_nosub (cfg : Timeouts) (m : SubscriptionManager) (s : Nat) (env : Env)
    (hs : (m.objs s).needsSubscribe = false) :
    raisesError cfg m s env ↔
      m.canReconcile env = true ∧
      (m.objs s).durationSinceStart env.since > cfg.subscriptionTimeout ∧
      (m.objs s).needsUnsubscribe = false ∧ (m.objs s).needsBind = true := by
  unfold raisesError durationRead
  simp [hs]

theorem reconcile_error_iff (cfg : Timeouts) (m : SubscriptionManager) (s : Nat) (env : Env)
    (t : TrackID) :
    Event.OnSubcriptionError t ∈ (m.reconcileSubscription cfg s env).2
      ↔ t = (m.objs s).trackID ∧ raisesError cfg m s env := by
  have hf := subscribe_frame m s env s
  have hdur := duration_after_subscribe m s env false
  have hse := subscribe_events m s env t
  have hue := unsubscribe_events m s t
  have htid : (((m.subscribe s env).1.store s
      (((m.subscribe s env).1.objs s).recordAttempt false)).objs s).trackID
      = (m.objs s).trackID := by
    simp [recordAttempt_fields, hf]
  unfold reconcileSubscription
  by_cases hc : m.canReconcile env = true
  · by_cases hs : (m.objs s).needsSubscribe = true
    · rw [raisesError_of_sub cfg m s env hs]
      simp only [hc, hs, Bool.not_true, Bool.false_eq_true, if_false, if_true, true_and]
      have he0 : Event.OnSubcriptionError t ∉
          (if ((m.objs s).numAttempts == 0) = true then
            [Event.TrackSubscribeRequested (m.objs s).trackID (m.objs s).getPublisherID]
          else []) := by
        split_ifs <;> simp
      cases hr : (m.subscribe s env).2.2 with
      | ok => simp [he0, hse]
      | nilDeref => simp [he0, hse]
      | failed err =>
        simp only [hdur, htid, Outcome.failed.injEq, exists_eq_left']
        by_cases hp : err = SubError.ErrNoTrackPermission ∨ err = SubError.ErrNoSubscribePermission
            ∨ err = SubError.ErrTrackNotAttached
        · simp only [hp, if_true, List.mem_append, he0, hse, or_self, false_iff]
          rintro ⟨_, _, h1, h2, h3, _⟩
          rcases hp with hp | hp | hp
          · exact h1 hp
          · exact h2 hp
          · exact h3 hp
        · have hp1 : err ≠ SubError.ErrNoTrackPermission ∧ err ≠ SubError.ErrNoSubscribePermission
              ∧ err ≠ SubError.ErrTrackNotAttached :=
            ⟨fun h => hp (Or.inl h), fun h => hp (Or.inr (Or.inl h)),
              fun h => hp (Or.inr (Or.inr h))⟩
          by_cases hn : err = SubError.ErrPublisherNotConnected ∨ err = SubError.ErrTrackNotFound
          · simp only [hp, hn, if_false, if_true]
            have hrhs : ¬ (t = (m.objs s).trackID ∧
                ((m.objs s).startAttempt env.now).durationSinceStart env.since
                  > cfg.subscriptionTimeout ∧
                err ≠ SubError.ErrNoTrackPermission ∧ err ≠ SubError.ErrNoSubscribePermission ∧
                err ≠ SubError.ErrTrackNotAttached ∧ err ≠ SubError.ErrPublisherNotConnected ∧
                err ≠ SubError.ErrTrackNotFound) := by
              rintro ⟨_, _, _, _, _, h4, h5⟩
              rcases hn with hn | hn
              · exact h4 hn
              · exact h5 hn
            by_cases hd : ((m.objs s).startAttempt env.now).durationSinceStart env.since
                > cfg.notFoundTimeout
            · simp only [hd, if_true, iff_false_intro hrhs, iff_false, List.mem_append, he0, hse,
                false_or, List.mem_singleton]
              exact fun h => Event.noConfusion h
            · simp only [hd, if_false, iff_false_intro hrhs, iff_false, List.mem_append, he0, hse,
                or_self, not_false_eq_true]
          · have hn1 : err ≠ SubError.ErrPublisherNotConnected ∧ err ≠ SubError.ErrTrackNotFound :=
              ⟨fun h => hn (Or.inl h), fun h => hn (Or.inr h)⟩
            simp only [hp, hn, if_false]
            by_cases hd : ((m.objs s).startAttempt env.now).durationSinceStart env.since
                > cfg.subscriptionTimeout
            · simp only [hd, if_true, List.mem_append, he0, hse, false_or, List.mem_singleton,
                Event.OnSubcriptionError.injEq]
              constructor
              · rintro (h | h)
                · exact Event.noConfusion h
                · exact ⟨h, trivial, hp1.1, hp1.2.1, hp1.2.2, hn1.1, hn1.2⟩
              · intro h
                exact Or.inr h.1
            · simp only [hd, if_false, List.mem_append, he0, hse, false_or, List.mem_singleton]
              constructor
              · intro h
                exact Event.noConfusion h
              · intro h
                exact absurd h.2.1 (by simp)
    · have hs1 : (m.objs s).needsSubscribe = false := by simpa using hs
      rw [raisesError_of_nosub cfg m s env hs1]
      by_cases hu : (m.objs s).needsUnsubscribe = true
      · by_cases hd : (m.objs s).isDesired = true
        · simp [hc, hs1, hu, hd, hue]
        · have hd1 : (m.objs s).isDesired = false := by simpa using hd
          simp [hc, hs1, hu, hd1, hue]
      · have hu1 : (m.objs s).needsUnsubscribe = false := by simpa using hu
        by_cases hb : (m.objs s).needsBind = true
        · by_cases hd : (m.objs s).durationSinceStart env.since > cfg.subscriptionTimeout
          · simp [hc, hs1, hu1, hb, hd]
          · simp [hc, hs1, hu1, hb, hd]
        · simp [hc, hs1, hu1, hb]
  · have hc1 : m.canReconcile env = false := by simpa using hc
    unfold raisesError
    simp [hc1]

end SubscriptionManager

end Rtc

namespace Rtc

namespace SubscriptionManager

theorem addInt32_succ (k : Int) (h0 : 0 ≤ k) (h1 : k + 1 < 2 ^ 31) : addInt32 k 1 = k + 1 := by
  unfold addInt32
  norm_num at h1 ⊢
  omega

theorem needsSubscribe_of (a : trackSubscription) (hd : a.desired = true)
    (hn : a.subscribedTrack = none) : a.needsSubscribe = true := by
  simp [trackSubscription.needsSubscribe, hd, hn]

/-- What a failed `subscribe` leaves behind after `reconcileSubscription`. -/
theorem reconcile_failed_fields (cfg : Timeouts) (m : SubscriptionManager) (s : Nat) (env : Env)
    (err : SubError) (hc : m.canReconcile env = true) (hs : (m.objs s).needsSubscribe = true)
    (hr : (m.subscribe s env).2.2 = Outcome.failed err) :
    ((m.reconcileSubscription cfg s env).1.objs s).subscribedTrack = (m.objs s).subscribedTrack ∧
    ((m.reconcileSubscription cfg s env).1.objs s).subStartedAt
      = ((m.objs s).startAttempt env.now).subStartedAt ∧
    ((m.reconcileSubscription cfg s env).1.objs s).numAttempts
      = addInt32 (m.objs s).numAttempts 1 ∧
    ((m.reconcileSubscription cfg s env).1.objs s).trackID = (m.objs s).trackID ∧
    (m.reconcileSubscription cfg s env).1.closed = m.closed ∧
    (m.reconcileSubscription cfg s env).1.subscriptions = m.subscriptions := by
  have hf := subscribe_frame m s env s
  have hst : ((m.subscribe s env).1.objs s).subscribedTrack = (m.objs s).subscribedTrack :=
    hf.2.2.2.2.2.2.2.1 (by rw [hr]; exact fun h => Outcome.noConfusion h)
  have hsa := hf.2.2.2.1
  rw [if_pos rfl] at hsa
  unfold reconcileSubscription
  simp only [hc, hs, Bool.not_true, Bool.false_eq_true, if_false, if_true]
  rw [hr]
  simp only []
  split_ifs <;> simp [recordAttempt_fields, setDesired_fields, hf, hst, hsa]

/-- A subscription that is neither desired nor subscribed is left alone. -/
theorem reconcile_idle (cfg : Timeouts) (m : SubscriptionManager) (s : Nat) (env : Env)
    (hd : (m.objs s).desired = false) (hn : (m.objs s).subscribedTrack = none) :
    m.reconcileSubscription cfg s env = (m, []) := by
  unfold reconcileSubscription
  simp [trackSubscription.needsSubscribe, trackSubscription.needsUnsubscribe,
    trackSubscription.needsBind, hd, hn]

theorem subscribe_resolver_error (m : SubscriptionManager) (s : Nat) (env : Env) (err : SubError)
    (hcs : env.canSubscribe = true) (hres : env.resolver = Except.error err) :
    (m.subscribe s env).2.2 = Outcome.failed err := by
  unfold subscribe
  simp [hcs, hres]

theorem clearsDesired_iff (cfg : Timeouts) (m : SubscriptionManager) (s : Nat) (env : Env)
    (t0 : Time) (hc : m.canReconcile env = true) (hs : (m.objs s).needsSubscribe = true)
    (hr : (m.subscribe s env).2.2 = Outcome.failed SubError.ErrPublisherNotConnected ∨
      (m.subscribe s env).2.2 = Outcome.failed SubError.ErrTrackNotFound)
    (ht : ((m.objs s).startAttempt env.now).subStartedAt = some t0) :
    clearsDesired cfg m s env ↔ env.since - t0 > cfg.notFoundTimeout := by
  unfold clearsDesired trackSubscription.durationSinceStart
  rw [ht]
  simp [hc, hs, hr]

/-- One failed attempt of a run that has started at `t0`. -/
theorem notFound_step (cfg : Timeouts) (m : SubscriptionManager) (s : Nat) (env : Env)
    (t0 : Time) (hc : m.canReconcile env = true)
    (hd : (m.objs s).desired = true) (hn : (m.objs s).subscribedTrack = none)
    (hr : (m.subscribe s env).2.2 = Outcome.failed SubError.ErrPublisherNotConnected ∨
      (m.subscribe s env).2.2 = Outcome.failed SubError.ErrTrackNotFound)
    (ht : ((m.objs s).startAttempt env.now).subStartedAt = some t0) :
    (((m.reconcileSubscription cfg s env).1.objs s).desired = false
      ↔ env.since - t0 > cfg.notFoundTimeout) ∧
    ((m.reconcileSubscription cfg s env).1.objs s).subscribedTrack = none ∧
    ((m.reconcileSubscription cfg s env).1.objs s).subStartedAt = some t0 ∧
    ((m.reconcileSubscription cfg s env).1.objs s).numAttempts
      = addInt32 (m.objs s).numAttempts 1 := by
  have hs := needsSubscribe_of (m.objs s) hd hn
  have hiff := clearsDesired_iff cfg m s env t0 hc hs hr ht
  have hfields : ((m.reconcileSubscription cfg s env).1.objs s).subscribedTrack = none ∧
      ((m.reconcileSubscription cfg s env).1.objs s).subStartedAt = some t0 ∧
      ((m.reconcileSubscription cfg s env).1.objs s).numAttempts
        = addInt32 (m.objs s).numAttempts 1 := by
    rcases hr with hr | hr
    · have h := reconcile_failed_fields cfg m s env _ hc hs hr
      exact ⟨by rw [h.1, hn], by rw [h.2.1, ht], h.2.2.1⟩
    · have h := reconcile_failed_fields cfg m s env _ hc hs hr
      exact ⟨by rw [h.1, hn], by rw [h.2.1, ht], h.2.2.1⟩
  refine ⟨?_, hfields⟩
  by_cases hcl : clearsDesired cfg m s env
  · have h := (reconcile_flip cfg m s env hcl).1
    exact ⟨fun _ => hiff.1 hcl, fun _ => h⟩
  · have h := reconcile_keep cfg m s env hcl
    rw [h, hd]
    exact ⟨fun h => absurd h (by decide), fun h => absurd (hiff.2 h) hcl⟩

theorem startAttempt_started (a : trackSubscription) (t t0 : Time) (h : a.numAttempts ≠ 0)
    (hs : a.subStartedAt = some t0) : (a.startAttempt t).subStartedAt = some t0 := by
  unfold trackSubscription.startAttempt
  simp [h, hs]

theorem startAttempt_first (a : trackSubscription) (t : Time) (h : a.numAttempts = 0) :
    (a.startAttempt t).subStartedAt = some t := by
  unfold trackSubscription.startAttempt
  simp [h]

/-- A run of failed attempts that all happen within `notFoundTimeout` of `t0`. -/
theorem notFound_run (cfg : Timeouts) (s : Nat) (t0 : Time) (envs : List Env) :
    ∀ (m : SubscriptionManager) (k : Int),
      (m.objs s).desired = true → (m.objs s).subscribedTrack = none →
      (m.objs s).subStartedAt = some t0 → (m.objs s).numAttempts = k → 1 ≤ k →
      k + envs.length < 2 ^ 31 → notFoundRun cfg m s envs = true →
      (∀ e ∈ envs, e.since - t0 ≤ cfg.notFoundTimeout) →
      ((reconcileRun cfg m s envs).objs s).desired = true ∧
      ((reconcileRun cfg m s envs).objs s).subscribedTrack = none ∧
      ((reconcileRun cfg m s envs).objs s).subStartedAt = some t0 ∧
      ((reconcileRun cfg m s envs).objs s).numAttempts = k + envs.length := by
  induction envs with
  | nil =>
    intro m k hd hn ht hk _ _ _ _
    simp [reconcileRun, hd, hn, ht, hk]
  | cons env rest ih =>
    intro m k hd hn ht hk hk1 hlen hrun htime
    simp only [notFoundRun, Bool.and_eq_true, Bool.or_eq_true, decide_eq_true_eq] at hrun
    obtain ⟨⟨hc, hr⟩, hrest⟩ := hrun
    have hne : (m.objs s).numAttempts ≠ 0 := by rw [hk]; omega
    have hsa := startAttempt_started (m.objs s) env.now t0 hne ht
    have hstep := notFound_step cfg m s env t0 hc hd hn hr hsa
    have hle : env.since - t0 ≤ cfg.notFoundTimeout := htime env (List.mem_cons_self _ _)
    have hdes : ((m.reconcileSubscription cfg s env).1.objs s).desired = true := by
      cases hx : ((m.reconcileSubscription cfg s env).1.objs s).desired
      · exact absurd (hstep.1.1 hx) (not_lt.mpr hle)
      · rfl
    rw [List.length_cons] at hlen
    push_cast at hlen
    have hnum : ((m.reconcileSubscription cfg s env).1.objs s).numAttempts = k + 1 := by
      rw [hstep.2.2.2, hk]
      exact addInt32_succ k (by omega) (by omega)
    have := ih (m.reconcileSubscription cfg s env).1 (k + 1) hdes hstep.2.1 hstep.2.2.1 hnum
      (by omega) (by omega) hrest (fun e he => htime e (List.mem_cons_of_mem _ he))
    simp only [reconcileRun]
    refine ⟨this.1, this.2.1, this.2.2.1, ?_⟩
    rw [this.2.2.2, List.length_cons]
    push_cast
    omega

end SubscriptionManager

end Rtc

/-! ## Lemmas on `SubscribeToTrack` and `UnsubscribeFromTrack` -/

namespace Rtc

namespace SubscriptionManager

/-- What a successful `subscribe` leaves in the attempt counter. -/
theorem reconcile_ok_numAttempts (cfg : Timeouts) (m : SubscriptionManager) (s : Nat)
    (env : Env) (hc : m.canReconcile env = true) (hs : (m.objs s).needsSubscribe = true)
    (hr : (m.subscribe s env).2.2 = Outcome.ok) :
    ((m.reconcileSubscription cfg s env).1.objs s).numAttempts = 0 := by
  unfold reconcileSubscription
  simp only [hc, hs, Bool.not_true, Bool.false_eq_true, if_false, if_true]
  rw [hr]
  simp [trackSubscription.recordAttempt]

theorem failedRun_cons (cfg : Timeouts) (m : SubscriptionManager) (s : Nat) (env : Env)
    (rest : List Env) (h : failedRun cfg m s (env :: rest) = true) :
    m.canReconcile env = true ∧ (m.objs s).needsSubscribe = true ∧
    (∃ err, (m.subscribe s env).2.2 = Outcome.failed err) ∧
    failedRun cfg (m.reconcileSubscription cfg s env).1 s rest = true := by
  simp only [failedRun, Bool.and_eq_true] at h
  obtain ⟨⟨⟨hc, hs⟩, hr⟩, hrest⟩ := h
  refine ⟨hc, hs, ?_, hrest⟩
  cases hx : (m.subscribe s env).2.2 with
  | failed err => exact ⟨err, rfl⟩
  | ok => rw [hx] at hr; exact absurd hr (by simp)
  | nilDeref => rw [hx] at hr; exact absurd hr (by simp)

/-- A run of failed attempts that continues a run started at `t0`. -/
theorem failed_run (cfg : Timeouts) (s : Nat) (t0 : Time) (envs : List Env) :
    ∀ (m : SubscriptionManager) (k : Int),
      (m.objs s).subStartedAt = some t0 → (m.objs s).numAttempts = k → 1 ≤ k →
      k + envs.length < 2 ^ 31 → failedRun cfg m s envs = true →
      ((reconcileRun cfg m s envs).objs s).subStartedAt = some t0 ∧
      ((reconcileRun cfg m s envs).objs s).numAttempts = k + envs.length := by
  induction envs with
  | nil =>
    intro m k ht hk _ _ _
    simp [reconcileRun, ht, hk]
  | cons env rest ih =>
    intro m k ht hk hk1 hlen hrun
    obtain ⟨hc, hs, ⟨err, hr⟩, hrest⟩ := failedRun_cons cfg m s env rest hrun
    have hne : (m.objs s).numAttempts ≠ 0 := by rw [hk]; omega
    have hsa := startAttempt_started (m.objs s) env.now t0 hne ht
    have hf := reconcile_failed_fields cfg m s env err hc hs hr
    rw [List.length_cons] at hlen
    push_cast at hlen
    have hnum : ((m.reconcileSubscription cfg s env).1.objs s).numAttempts = k + 1 := by
      rw [hf.2.2.1, hk]
      exact addInt32_succ k (by omega) (by omega)
    have := ih (m.reconcileSubscription cfg s env).1 (k + 1) (by rw [hf.2.1, hsa]) hnum
      (by omega) (by omega) hrest
    simp only [reconcileRun]
    refine ⟨this.1, ?_⟩
    rw [this.2, List.length_cons]
    push_cast
    omega

theorem store_same (m : SubscriptionManager) (p : Nat) (x : trackSubscription)
    (h : m.objs p = x) : m.store p x = m := by
  cases m
  simp only [store, SubscriptionManager.mk.injEq, and_true]
  funext q
  by_cases hq : q = p
  · subst hq; simp [← h]
  · simp [hq]

theorem getOrCreate_found (m : SubscriptionManager) (t : TrackID) :
    mapGet (m.getOrCreate t).1.subscriptions t = some (m.getOrCreate t).2 := by
  unfold getOrCreate
  cases h : mapGet m.subscriptions t with
  | some p => simp [h]
  | none => simp [mapGet_mapSet]

theorem getOrCreate_of_found (m : SubscriptionManager) (t : TrackID) (p : Nat)
    (h : mapGet m.subscriptions t = some p) : m.getOrCreate t = (m, p) := by
  unfold getOrCreate
  rw [h]

/-- The entry `SubscribeToTrack` leaves behind. -/
theorem SubscribeToTrack_entry (m : SubscriptionManager) (t : TrackID)
    (pi : ParticipantIdentity) (pid : ParticipantID) :
    mapGet (m.SubscribeToTrack t pi pid).1.subscriptions t = some (m.getOrCreate t).2 ∧
    ((m.SubscribeToTrack t pi pid).1.objs (m.getOrCreate t).2).desired = true ∧
    ((m.SubscribeToTrack t pi pid).1.objs (m.getOrCreate t).2).publisherID = pid ∧
    ((m.SubscribeToTrack t pi pid).1.objs (m.getOrCreate t).2).publisherIdentity = pi := by
  have hg := getOrCreate_found m t
  unfold SubscribeToTrack
  simp only []
  cases hd : ((m.getOrCreate t).1.objs (m.getOrCreate t).2).desired <;>
    simp [trackSubscription.setDesired, trackSubscription.setPublisher, hd, hg]

/-- `SubscribeToTrack` on an entry that is desired and has this publisher does nothing. -/
theorem SubscribeToTrack_noop (m : SubscriptionManager) (t : TrackID)
    (pi : ParticipantIdentity) (pid : ParticipantID) (p : Nat)
    (hg : mapGet m.subscriptions t = some p) (hd : (m.objs p).desired = true)
    (h1 : (m.objs p).publisherID = pid) (h2 : (m.objs p).publisherIdentity = pi) :
    m.SubscribeToTrack t pi pid = (m, []) := by
  have hsp : (m.objs p).setPublisher pi pid = m.objs p := by
    unfold trackSubscription.setPublisher
    rw [← h1, ← h2]
  unfold SubscribeToTrack
  simp only [getOrCreate_of_found m t p hg, hsp, trackSubscription.setDesired, hd, if_true,
    Bool.false_eq_true, if_false]
  rw [store_same m p _ rfl]

/-- `UnsubscribeFromTrack` on an entry that is not desired, or on no entry, does nothing. -/
theorem UnsubscribeFromTrack_noop (m : SubscriptionManager) (t : TrackID)
    (h : ∀ p, mapGet m.subscriptions t = some p → (m.objs p).desired = false) :
    m.UnsubscribeFromTrack t = (m, []) := by
  unfold UnsubscribeFromTrack
  cases hg : mapGet m.subscriptions t with
  | none => rfl
  | some p =>
    simp only [trackSubscription.setDesired, h p hg, if_true, Bool.false_eq_true, if_false]
    rw [store_same m p _ rfl]

/-- The entry `UnsubscribeFromTrack` leaves behind. -/
theorem UnsubscribeFromTrack_entry (m : SubscriptionManager) (t : TrackID) (p : Nat)
    (hp : mapGet (m.UnsubscribeFromTrack t).1.subscriptions t = some p) :
    ((m.UnsubscribeFromTrack t).1.objs p).desired = false := by
  unfold UnsubscribeFromTrack at hp ⊢
  cases hg : mapGet m.subscriptions t with
  | none => rw [hg] at hp; simp only [] at hp; rw [hg] at hp; exact absurd hp (by simp)
  | some q =>
    rw [hg] at hp
    simp only [] at hp ⊢
    cases hd : (m.objs q).desired
    · simp [trackSubscription.setDesired, hd] at hp ⊢
      rw [hg] at hp
      have hq : q = p := by simpa using hp
      subst hq
      simp [hd]
    · simp [trackSubscription.setDesired, hd] at hp ⊢
      rw [hg] at hp
      have hq : q = p := by simpa using hp
      subst hq
      simp

/-! ### Convergence of the reconciler -/

theorem retriable_canReconcile (m : SubscriptionManager) (e : Env) (hcl : m.closed = false)
    (h : retriable e = true) : m.canReconcile e = true := by
  obtain ⟨now, since, pc, pd, cs, res, add, rf⟩ := e
  unfold retriable at h
  unfold canReconcile IsClosed
  cases pc <;> cases pd <;> simp_all

/-- Under a retriable environment `subscribe` succeeds and stores a track, or fails with
one of the two errors that count towards `notFoundTimeout`. -/
theorem subscribe_retriable (m : SubscriptionManager) (s : Nat) (e : Env)
    (h : retriable e = true) :
    (m.subscribe s e).2.2 = Outcome.failed SubError.ErrPublisherNotConnected ∨
    (m.subscribe s e).2.2 = Outcome.failed SubError.ErrTrackNotFound ∨
    ((m.subscribe s e).2.2 = Outcome.ok ∧
      ((m.subscribe s e).1.objs s).subscribedTrack.isSome = true) := by
  obtain ⟨now, since, pc, pd, cs, res, ⟨st, err⟩, rf⟩ := e
  unfold retriable at h
  cases cs
  · simp at h
  · cases res with
    | error er =>
      simp only [Bool.and_eq_true, Bool.or_eq_true, decide_eq_true_eq] at h
      rcases h.2 with he | he
      · left; subst he; simp [subscribe]
      · right; left; subst he; simp [subscribe]
    | ok r =>
      obtain ⟨track, hp⟩ := r
      cases hp
      · simp at h
      · cases err with
        | some er => simp at h
        | none =>
          cases st with
          | none => simp at h
          | some t =>
            right; right
            simp [subscribe, subscribeTail, trackSubscription.setSubscribedTrack]

theorem reconcile_ok_track (cfg : Timeouts) (m : SubscriptionManager) (s : Nat)
    (env : Env) (hc : m.canReconcile env = true) (hs : (m.objs s).needsSubscribe = true)
    (hr : (m.subscribe s env).2.2 = Outcome.ok)
    (ht : ((m.subscribe s env).1.objs s).subscribedTrack.isSome = true) :
    ((m.reconcileSubscription cfg s env).1.objs s).subscribedTrack.isSome = true := by
  unfold reconcileSubscription
  simp only [hc, hs, Bool.not_true, Bool.false_eq_true, if_false, if_true]
  rw [hr]
  simp [recordAttempt_fields, ht]

/-- A settled subscription is not touched by `reconcileSubscription`. -/
theorem reconcile_settled (cfg : Timeouts) (m : SubscriptionManager) (s : Nat) (env : Env)
    (h : settled (m.objs s) = true) :
    (m.reconcileSubscription cfg s env).1.objs s = m.objs s := by
  have hs : (m.objs s).needsSubscribe = false := by
    unfold settled at h
    unfold trackSubscription.needsSubscribe
    cases hd : (m.objs s).desired <;> cases hn : (m.objs s).subscribedTrack <;> simp_all
  unfold reconcileSubscription
  by_cases hc : m.canReconcile env = true
  · by_cases hu : (m.objs s).needsUnsubscribe = true
    · by_cases hd : (m.objs s).isDesired = true
      · simp [hc, hs, hu, hd]
      · have hd1 : (m.objs s).isDesired = false := by simpa using hd
        simp [hc, hs, hu, hd1]
    · have hu1 : (m.objs s).needsUnsubscribe = false := by simpa using hu
      simp only [hc, hs, hu1, Bool.not_true, Bool.false_eq_true, if_false]
      split_ifs <;> rfl
  · have hc1 : m.canReconcile env = false := by simpa using hc
    simp [hc1]

theorem run_settled (cfg : Timeouts) (s : Nat) (l : List Env) :
    ∀ m : SubscriptionManager, settled (m.objs s) = true →
      (reconcileRun cfg m s l).objs s = m.objs s := by
  induction l with
  | nil => intro m _; rfl
  | cons e r ih =>
    intro m h
    have h1 := reconcile_settled cfg m s e h
    simp only [reconcileRun]
    rw [ih _ (by rw [h1]; exact h), h1]

theorem ticksFrom_mono (d : Duration) (l : List Env) (t t2 : Time) (h : t2 ≤ t)
    (ht : ticksFrom t d l = true) : ticksFrom t2 d l = true := by
  cases l with
  | nil => rfl
  | cons e r =>
    simp only [ticksFrom, Bool.and_eq_true, decide_eq_true_eq] at ht ⊢
    exact ⟨⟨le_trans h ht.1.1, ht.1.2⟩, ht.2⟩

theorem not_settled (a : trackSubscription) (h : settled a = false) :
    a.desired = true ∧ a.subscribedTrack = none := by
  unfold settled at h
  cases hd : a.desired <;> cases hn : a.subscribedTrack <;> simp_all

/-- One reconcile of a subscription that is not settled, under a retriable environment:
it settles, or the attempt has failed within `notFoundTimeout` of the start time. -/
theorem converge_step (cfg : Timeouts) (m : SubscriptionManager) (s : Nat) (e : Env)
    (t0 : Time) (hcl : m.closed = false) (hns : settled (m.objs s) = false)
    (hsa : ((m.objs s).startAttempt e.now).subStartedAt = some t0)
    (hr : retriable e = true) :
    settled ((m.reconcileSubscription cfg s e).1.objs s) = true ∨
    (e.since - t0 ≤ cfg.notFoundTimeout ∧
      (m.reconcileSubscription cfg s e).1.closed = false ∧
      settled ((m.reconcileSubscription cfg s e).1.objs s) = false ∧
      ((m.reconcileSubscription cfg s e).1.objs s).subStartedAt = some t0 ∧
      ((m.reconcileSubscription cfg s e).1.objs s).numAttempts
        = addInt32 (m.objs s).numAttempts 1) := by
  obtain ⟨hd, hn⟩ := not_settled _ hns
  have hc := retriable_canReconcile m e hcl hr
  have hs := needsSubscribe_of (m.objs s) hd hn
  have hfail : ∀ err, (err = SubError.ErrPublisherNotConnected ∨ err = SubError.ErrTrackNotFound) →
      (m.subscribe s e).2.2 = Outcome.failed err → _ := fun err herr hout => by
    have hout2 : (m.subscribe s e).2.2 = Outcome.failed SubError.ErrPublisherNotConnected ∨
        (m.subscribe s e).2.2 = Outcome.failed SubError.ErrTrackNotFound := by
      rcases herr with h | h
      · left; rw [hout, h]
      · right; rw [hout, h]
    have hstep := notFound_step cfg m s e t0 hc hd hn hout2 hsa
    have hfld := reconcile_failed_fields cfg m s e err hc hs hout
    exact (⟨hstep, hfld⟩ : _ ∧ _)
  rcases subscribe_retriable m s e hr with h | h | h
  · obtain ⟨hstep, hfld⟩ := hfail _ (Or.inl rfl) h
    by_cases hx : e.since - t0 > cfg.notFoundTimeout
    · left
      unfold settled
      rw [hstep.1.2 hx]; rfl
    · right
      have hdes : ((m.reconcileSubscription cfg s e).1.objs s).desired = true := by
        cases hy : ((m.reconcileSubscription cfg s e).1.objs s).desired
        · exact absurd (hstep.1.1 hy) hx
        · rfl
      refine ⟨not_lt.mp hx, by rw [hfld.2.2.2.2.1, hcl], ?_, hstep.2.2.1, hstep.2.2.2⟩
      unfold settled
      rw [hdes, hstep.2.1]; rfl
  · obtain ⟨hstep, hfld⟩ := hfail _ (Or.inr rfl) h
    by_cases hx : e.since - t0 > cfg.notFoundTimeout
    · left
      unfold settled
      rw [hstep.1.2 hx]; rfl
    · right
      have hdes : ((m.reconcileSubscription cfg s e).1.objs s).desired = true := by
        cases hy : ((m.reconcileSubscription cfg s e).1.objs s).desired
        · exact absurd (hstep.1.1 hy) hx
        · rfl
      refine ⟨not_lt.mp hx, by rw [hfld.2.2.2.2.1, hcl], ?_, hstep.2.2.1, hstep.2.2.2⟩
      unfold settled
      rw [hdes, hstep.2.1]; rfl
  · left
    unfold settled
    rw [reconcile_ok_track cfg m s e hc hs h.1 h.2]
    simp

/-- A run that continues attempts started at `t0`: with `n * d` beyond the timeout, the
subscription settles within `n + 1` reconciles. -/
theorem converge_started (cfg : Timeouts) (s : Nat) (t0 : Time) (d : Duration) (n : Nat) :
    ∀ (envs : List Env) (m : SubscriptionManager) (k : Int) (t : Time),
      m.closed = false → (m.objs s).subStartedAt = some t0 → (m.objs s).numAttempts = k →
      1 ≤ k → k + n + 1 < 2 ^ 31 → cfg.notFoundTimeout < t - t0 + n * d →
      ticksFrom t d envs = true → (∀ e ∈ envs, retriable e = true) → n + 1 ≤ envs.length →
      ∃ j, j ≤ n + 1 ∧ settled ((reconcileRun cfg m s (envs.take j)).objs s) = true := by
  induction n with
  | zero =>
    intro envs m k t hcl ht hk hk1 _ htime hticks hgood hlen
    cases envs with
    | nil => simp at hlen
    | cons e r =>
      cases hset : settled (m.objs s)
      · have hne : (m.objs s).numAttempts ≠ 0 := by rw [hk]; omega
        have hsa := startAttempt_started (m.objs s) e.now t0 hne ht
        simp only [ticksFrom, Bool.and_eq_true, decide_eq_true_eq] at hticks
        rcases converge_step cfg m s e t0 hcl hset hsa (hgood e (List.mem_cons_self _ _))
          with h | h
        · exact ⟨1, le_refl _, by simpa [reconcileRun] using h⟩
        · exfalso
          have h1 := h.1
          have h2 := hticks.1.1
          have h3 := hticks.1.2
          simp only [Nat.cast_zero, zero_mul, add_zero] at htime
          linarith
      · exact ⟨0, Nat.zero_le _, by simpa [reconcileRun] using hset⟩
  | succ n ih =>
    intro envs m k t hcl ht hk hk1 hov htime hticks hgood hlen
    cases envs with
    | nil => simp at hlen
    | cons e r =>
      cases hset : settled (m.objs s)
      · have hne : (m.objs s).numAttempts ≠ 0 := by rw [hk]; omega
        have hsa := startAttempt_started (m.objs s) e.now t0 hne ht
        simp only [ticksFrom, Bool.and_eq_true, decide_eq_true_eq] at hticks
        rcases converge_step cfg m s e t0 hcl hset hsa (hgood e (List.mem_cons_self _ _))
          with h | h
        · exact ⟨1, by omega, by simpa [reconcileRun] using h⟩
        · push_cast at hov htime
          have hnum : ((m.reconcileSubscription cfg s e).1.objs s).numAttempts = k + 1 := by
            rw [h.2.2.2.2, hk]
            exact addInt32_succ k (by omega) (by omega)
          have h2 := hticks.1.1
          have htime2 : cfg.notFoundTimeout < (e.now + d) - t0 + n * d := by
            have : ((n : Int) + 1) * d = n * d + d := by ring
            rw [this] at htime
            linarith
          obtain ⟨j, hj, hsj⟩ := ih r (m.reconcileSubscription cfg s e).1 (k + 1) (e.now + d)
            h.2.1 h.2.2.2.1 hnum (by omega) (by omega) htime2 hticks.2
            (fun x hx => hgood x (List.mem_cons_of_mem _ hx))
            (by simp only [List.length_cons] at hlen; omega)
          exact ⟨j + 1, by omega, by simpa [reconcileRun] using hsj⟩
      · exact ⟨0, Nat.zero_le _, by simpa [reconcileRun] using hset⟩

/-- `subscribe` never sets `bound`: a successful call clears it, any other leaves it. -/
theorem subscribe_bound (m : SubscriptionManager) (s : Nat) (env : Env) :
    ((m.subscribe s env).1.objs s).bound = true → (m.objs s).bound = true := by
  have hA : ∀ a : trackSubscription, ∀ b : Bool,
      (a.setHasPermission b).1.bound = a.bound := by
    intro a b
    unfold trackSubscription.setHasPermission
    split <;> simp
  have hB : ∀ a : trackSubscription, ∀ t : Time, (a.startAttempt t).bound = a.bound := by
    intro a t
    unfold trackSubscription.startAttempt
    split <;> simp
  obtain ⟨now, since, pc, pd, cs, res, ⟨st, err⟩, rf⟩ := env
  cases cs
  · simp [subscribe, hB]
  · cases res with
    | error e => simp [subscribe, hB]
    | ok r =>
      obtain ⟨track, hp⟩ := r
      cases hp
      · simp [subscribe, hA, hB]
      · cases err with
        | none =>
          cases st with
          | none => simp [subscribe, hA, hB]
          | some t => simp [subscribe, subscribeTail, trackSubscription.setSubscribedTrack]
        | some e =>
          by_cases he : e = SubError.errAlreadySubscribed
          · cases st with
            | none => simp [subscribe, hA, hB, he]
            | some t =>
              simp [subscribe, subscribeTail, trackSubscription.setSubscribedTrack, he]
          · simp [subscribe, hA, hB, he]

/-- `reconcileSubscription` never sets `bound`. -/
theorem reconcile_bound (cfg : Timeouts) (m : SubscriptionManager) (s : Nat) (env : Env) :
    ((m.reconcileSubscription cfg s env).1.objs s).bound = true → (m.objs s).bound = true := by
  have hb := subscribe_bound m s env
  unfold reconcileSubscription
  by_cases hc : m.canReconcile env = true
  · by_cases hs : (m.objs s).needsSubscribe = true
    · simp only [hc, hs, Bool.not_true, Bool.false_eq_true, if_false, if_true]
      cases hr : (m.subscribe s env).2.2 with
      | ok => simpa [recordAttempt_fields] using hb
      | nilDeref => simpa using hb
      | failed err =>
        simp only []
        split_ifs <;> simpa [recordAttempt_fields, setDesired_fields] using hb
    · have hs1 : (m.objs s).needsSubscribe = false := by simpa using hs
      by_cases hu : (m.objs s).needsUnsubscribe = true
      · by_cases hd : (m.objs s).isDesired = true
        · simp [hc, hs1, hu, hd]
        · have hd1 : (m.objs s).isDesired = false := by simpa using hd
          simp [hc, hs1, hu, hd1]
      · have hu1 : (m.objs s).needsUnsubscribe = false := by simpa using hu
        simp only [hc, hs1, hu1, Bool.not_true, Bool.false_eq_true, if_false]
        split_ifs <;> exact id
  · have hc1 : m.canReconcile env = false := by simpa using hc
    simp [hc1]

theorem run_bound (cfg : Timeouts) (s : Nat) (l : List Env) :
    ∀ m : SubscriptionManager, ((reconcileRun cfg m s l).objs s).bound = true →
      (m.objs s).bound = true := by
  induction l with
  | nil => intro m h; exact h
  | cons e r ih =>
    intro m h
    exact reconcile_bound cfg m s e (ih _ h)

/-- A subscription that needs neither subscribe nor unsubscribe: the manager is left as
it is. -/
theorem reconcile_fixed (cfg : Timeouts) (m : SubscriptionManager) (s : Nat) (env : Env)
    (hs : (m.objs s).needsSubscribe = false) (hu : (m.objs s).needsUnsubscribe = false) :
    (m.reconcileSubscription cfg s env).1 = m := by
  unfold reconcileSubscription
  by_cases hc : m.canReconcile env = true
  · simp only [hc, hs, hu, Bool.not_true, Bool.false_eq_true, if_false]
    split_ifs <;> rfl
  · have hc1 : m.canReconcile env = false := by simpa using hc
    simp [hc1]

/-- A tick over a map with one entry that needs neither subscribe nor unsubscribe. -/
theorem tick_fixed (cfg : Timeouts) (m : SubscriptionManager) (t : TrackID) (p : Nat)
    (envs : Nat → Env) (hsubs : m.subscriptions = [(t, p)])
    (hs : (m.objs p).needsSubscribe = false) (hu : (m.objs p).needsUnsubscribe = false) :
    (m.reconcileSubscriptions cfg envs).1 = m := by
  unfold reconcileSubscriptions
  rw [hsubs]
  cases hb : (m.objs p).needsBind <;>
    simp [List.enum, List.enumFrom, hs, hu, hb, reconcile_fixed cfg m p _ hs hu]

theorem tickRun_fixed (cfg : Timeouts) (m : SubscriptionManager) (t : TrackID) (p : Nat)
    (hsubs : m.subscriptions = [(t, p)])
    (hs : (m.objs p).needsSubscribe = false) (hu : (m.objs p).needsUnsubscribe = false)
    (ticks : List (Nat → Env)) : tickRun cfg m ticks = m := by
  induction ticks with
  | nil => rfl
  | cons e r ih =>
    simp only [tickRun]
    rw [tick_fixed cfg m t p e hsubs hs hu]
    exact ih

end SubscriptionManager

/-! ### Subscribe-status callbacks -/

theorem mem_setAdd {κ : Type} [DecidableEq κ] (l : List κ) (k x : κ) :
    x ∈ setAdd l k ↔ x = k ∨ x ∈ l := by
  unfold setAdd
  by_cases h : k ∈ l
  · simp only [h, if_true]
    constructor
    · exact fun hx => Or.inr hx
    · rintro (rfl | hx)
      · exact h
      · exact hx
  · simp [h]

theorem setAdd_ne_nil {κ : Type} [DecidableEq κ] (l : List κ) (k : κ) : setAdd l k ≠ [] := by
  intro h
  have : k ∈ setAdd l k := (mem_setAdd l k k).2 (Or.inl rfl)
  rw [h] at this
  exact absurd this (List.not_mem_nil _)

theorem mem_setDel {κ : Type} [DecidableEq κ] (l : List κ) (k x : κ) :
    x ∈ setDel l k ↔ x ∈ l ∧ x ≠ k := by
  unfold setDel
  simp [List.mem_filter]

theorem statusEvents_append (a b : List Event) :
    statusEvents (a ++ b) = statusEvents a ++ statusEvents b := by
  unfold statusEvents
  exact List.filterMap_append _ _ _

namespace SubscriptionManager

/-- What a successful `subscribe` does to the `subscribedTo` map, to the objects, and which
status callback it makes. -/
theorem subscribe_ok_spec (m : SubscriptionManager) (s : Nat) (env : Env)
    (h : (m.subscribe s env).2.2 = Outcome.ok) :
    (m.subscribe s env).1.subscribedTo
      = mapSet m.subscribedTo (m.objs s).publisherID
          (setAdd ((mapGet m.subscribedTo (m.objs s).publisherID).getD [])
            (m.objs s).trackID) ∧
    (m.subscribe s env).1.onSubscribeStatusChanged = m.onSubscribeStatusChanged ∧
    (∀ q, ((m.subscribe s env).1.objs q).publisherID = (m.objs q).publisherID ∧
      ((m.subscribe s env).1.objs q).trackID = (m.objs q).trackID ∧
      ((m.subscribe s env).1.objs q).subscribedTrack.isSome
        = (if q = s then true else (m.objs q).subscribedTrack.isSome)) ∧
    statusEvents (m.subscribe s env).2.1
      = (if (m.onSubscribeStatusChanged
            && (mapGet m.subscribedTo (m.objs s).publisherID).isNone) = true
         then [((m.objs s).publisherID, true)] else []) := by
  have hA : ∀ a : trackSubscription, ∀ b : Bool,
      (a.setHasPermission b).1.publisherID = a.publisherID ∧
      (a.setHasPermission b).1.trackID = a.trackID ∧
      (a.setHasPermission b).1.settings = a.settings ∧
      (a.setHasPermission b).1.subscribedTrack = a.subscribedTrack := by
    intro a b
    unfold trackSubscription.setHasPermission
    split <;> simp
  have hB : ∀ a : trackSubscription, ∀ t : Time,
      (a.startAttempt t).publisherID = a.publisherID ∧
      (a.startAttempt t).trackID = a.trackID ∧
      (a.startAttempt t).settings = a.settings ∧
      (a.startAttempt t).subscribedTrack = a.subscribedTrack := by
    intro a t
    unfold trackSubscription.startAttempt
    split <;> simp
  have hT : ∀ (m1 : SubscriptionManager) (st : SubscribedTrack) (e2 : List Event),
      statusEvents e2 = [] →
      (m1.objs s).publisherID = (m.objs s).publisherID →
      (m1.objs s).trackID = (m.objs s).trackID →
      m1.subscribedTo = m.subscribedTo →
      m1.onSubscribeStatusChanged = m.onSubscribeStatusChanged →
      (∀ q, q ≠ s → m1.objs q = m.objs q) →
      (m1.subscribeTail s st e2).1.subscribedTo
        = mapSet m.subscribedTo (m.objs s).publisherID
            (setAdd ((mapGet m.subscribedTo (m.objs s).publisherID).getD [])
              (m.objs s).trackID) ∧
      (m1.subscribeTail s st e2).1.onSubscribeStatusChanged = m.onSubscribeStatusChanged ∧
      (∀ q, ((m1.subscribeTail s st e2).1.objs q).publisherID = (m.objs q).publisherID ∧
        ((m1.subscribeTail s st e2).1.objs q).trackID = (m.objs q).trackID ∧
        ((m1.subscribeTail s st e2).1.objs q).subscribedTrack.isSome
          = (if q = s then true else (m.objs q).subscribedTrack.isSome)) ∧
      statusEvents (m1.subscribeTail s st e2).2.1
        = (if (m.onSubscribeStatusChanged
              && (mapGet m.subscribedTo (m.objs s).publisherID).isNone) = true
           then [((m.objs s).publisherID, true)] else []) := by
    intro m1 st e2 he2 hp ht hsub hcb hoth
    unfold subscribeTail
    simp only [trackSubscription.setSubscribedTrack, trackSubscription.getPublisherID,
      store_subscribedTo, store_onSubscribeStatusChanged, hp, ht, hsub, hcb]
    refine ⟨trivial, trivial, ?_, ?_⟩
    · intro q
      by_cases hq : q = s
      · subst hq; simp [store, hp, ht]
      · simp [store, hq, hoth q hq]
    · simp only [statusEvents_append, he2]
      cases (m1.objs s).settings <;> cases st.needsNegotiation <;>
        cases m.onSubscribeStatusChanged <;>
        cases (mapGet m.subscribedTo (m.objs s).publisherID) <;>
        simp [statusEvents]
  obtain ⟨now, since, pc, pd, cs, res, ⟨st, err⟩, rf⟩ := env
  cases cs
  · simp [subscribe] at h
  · cases res with
    | error e => simp [subscribe] at h
    | ok r =>
      obtain ⟨track, hp⟩ := r
      cases hp
      · simp [subscribe] at h
      · have hshape : ∀ t : SubscribedTrack,
            (st = some t ∧ (err = none ∨ err = some SubError.errAlreadySubscribed)) →
            ∃ (m1 : SubscriptionManager) (e2 : List Event),
              subscribe m s
                { now := now, since := since, participantClosed := pc,
                  participantDisconnected := pd, canSubscribe := true,
                  resolver := Except.ok { Track := track, HasPermission := true },
                  addSubscriber := (st, err), removeTrackFails := rf }
                = m1.subscribeTail s t e2 ∧
              statusEvents e2 = [] ∧
              (m1.objs s).publisherID = (m.objs s).publisherID ∧
              (m1.objs s).trackID = (m.objs s).trackID ∧
              m1.subscribedTo = m.subscribedTo ∧
              m1.onSubscribeStatusChanged = m.onSubscribeStatusChanged ∧
              (∀ q, q ≠ s → m1.objs q = m.objs q) := by
          rintro t ⟨rfl, rfl | rfl⟩
          · refine ⟨_, _, rfl, ?_, ?_, ?_, rfl, rfl, ?_⟩
            · simp only [statusEvents_append]
              split_ifs <;> simp [statusEvents]
            · simp [store, hA, hB]
            · simp [store, hA, hB]
            · intro q hq; simp [store, hq]
          · refine ⟨_, _, rfl, ?_, ?_, ?_, rfl, rfl, ?_⟩
            · simp only [statusEvents_append]
              split_ifs <;> simp [statusEvents]
            · simp [store, hA, hB]
            · simp [store, hA, hB]
            · intro q hq; simp [store, hq]
        cases st with
        | none =>
          cases err with
          | none => simp [subscribe] at h
          | some e =>
            by_cases he : e = SubError.errAlreadySubscribed
            · simp [subscribe, he] at h
            · simp [subscribe, he] at h
        | some t =>
          cases err with
          | none =>
            obtain ⟨m1, e2, heq, h1, h2, h3, h4, h5, h6⟩ := hshape t ⟨rfl, Or.inl rfl⟩
            rw [heq]
            exact hT m1 t e2 h1 h2 h3 h4 h5 h6
          | some e =>
            by_cases he : e = SubError.errAlreadySubscribed
            · subst he
              obtain ⟨m1, e2, heq, h1, h2, h3, h4, h5, h6⟩ := hshape t ⟨rfl, Or.inr rfl⟩
              rw [heq]
              exact hT m1 t e2 h1 h2 h3 h4 h5 h6
            · simp [subscribe, he] at h

@[simp] theorem queueReconcile_subscribedTo (m : SubscriptionManager) (t : TrackID) :
    (m.queueReconcile t).subscribedTo = m.subscribedTo := by
  unfold queueReconcile; split <;> rfl

@[simp] theorem queueReconcile_onSubscribeStatusChanged (m : SubscriptionManager)
    (t : TrackID) :
    (m.queueReconcile t).onSubscribeStatusChanged = m.onSubscribeStatusChanged := by
  unfold queueReconcile; split <;> rfl

/-- The close callback of a subscription that holds no subscribed track only logs. -/
theorem close_spec_none (m : SubscriptionManager) (s : Nat) (w : Bool) (env : Env)
    (hst : (m.objs s).subscribedTrack = none) :
    (m.handleSubscribedTrackClose s w env).1 = m ∧
    statusEvents (m.handleSubscribedTrackClose s w env).2 = [] := by
  unfold handleSubscribedTrackClose
  simp [trackSubscription.getSubscribedTrack, hst, statusEvents]

/-- What the close callback does to the `subscribedTo` map, to the objects, and which
status callback it makes, for a subscription whose publisher has a set in the map. -/
theorem close_spec_some (m : SubscriptionManager) (s : Nat) (w : Bool) (env : Env)
    (st : SubscribedTrack) (l : List TrackID) (hst : (m.objs s).subscribedTrack = some st)
    (hl : mapGet m.subscribedTo (m.objs s).publisherID = some l) :
    (m.handleSubscribedTrackClose s w env).1.subscribedTo
      = (if (setDel l (m.objs s).trackID).length = 0 then
          mapDel m.subscribedTo (m.objs s).publisherID
         else mapSet m.subscribedTo (m.objs s).publisherID (setDel l (m.objs s).trackID)) ∧
    (m.handleSubscribedTrackClose s w env).1.onSubscribeStatusChanged
      = m.onSubscribeStatusChanged ∧
    (∀ q, ((m.handleSubscribedTrackClose s w env).1.objs q).publisherID
        = (m.objs q).publisherID ∧
      ((m.handleSubscribedTrackClose s w env).1.objs q).trackID = (m.objs q).trackID ∧
      ((m.handleSubscribedTrackClose s w env).1.objs q).subscribedTrack.isSome
        = (if q = s then false else (m.objs q).subscribedTrack.isSome)) ∧
    statusEvents (m.handleSubscribedTrackClose s w env).2
      = (if m.onSubscribeStatusChanged = true ∧ (setDel l (m.objs s).trackID).length = 0
         then [((m.objs s).publisherID, false)] else []) := by
  unfold handleSubscribedTrackClose
  simp only [trackSubscription.getSubscribedTrack, trackSubscription.getPublisherID, hst, hl,
    trackSubscription.setSubscribedTrack]
  refine ⟨?_, ?_, ?_, ?_⟩
  · by_cases hz : (setDel l (m.objs s).trackID).length = 0 <;> simp [hz]
  · simp
  · intro q
    by_cases hq : q = s
    · subst hq; simp [store]
    · simp [store, hq]
  · by_cases hz : (setDel l (m.objs s).trackID).length = 0 <;>
      cases m.onSubscribeStatusChanged <;> cases w <;> cases env.participantClosed <;>
      cases st.hasRTPSender <;> cases env.removeTrackFails <;>
      cases (m.objs s).settings <;>
      simp [hz, statusEvents, statusEvents_append]

end SubscriptionManager

/-- Under `Tracks`, a publisher has a set in the map exactly when a live subscription has
that publisher. -/
theorem tracks_isNone (m : SubscriptionManager) (live : List Nat) (hT : Tracks m live)
    (P : ParticipantID) :
    (mapGet m.subscribedTo P).isNone = true ↔ ¬ ∃ q, q ∈ live ∧ (m.objs q).publisherID = P := by
  obtain ⟨_, _, hne, hset, _⟩ := hT
  constructor
  · intro hn
    rintro ⟨q, hq, hp⟩
    have h1 := (hset P (m.objs q).trackID).2 ⟨q, hq, hp, rfl⟩
    cases hg : mapGet m.subscribedTo P with
    | none => rw [hg] at h1; simp at h1
    | some l => rw [hg] at hn; simp at hn
  · intro hno
    cases hg : mapGet m.subscribedTo P with
    | none => rfl
    | some l =>
      exfalso
      have hl := hne P l hg
      cases l with
      | nil => exact hl rfl
      | cons x r =>
        have hx : x ∈ (mapGet m.subscribedTo P).getD [] := by rw [hg]; simp
        obtain ⟨q, hq, hp, _⟩ := (hset P x).1 hx
        exact hno ⟨q, hq, hp⟩

/-- A successful `subscribe` of a new track keeps the map consistent and calls back with
`(publisher, true)` exactly when no live subscription has this publisher. -/
theorem subscribe_step (m : SubscriptionManager) (live : List Nat) (s : Nat) (env : Env)
    (hcb : m.onSubscribeStatusChanged = true) (hT : Tracks m live)
    (hnone : (m.objs s).subscribedTrack.isNone = true)
    (hok : (m.subscribe s env).2.2 = Outcome.ok)
    (huniq : live.all (fun q => !(decide ((m.objs q).publisherID = (m.objs s).publisherID) &&
      decide ((m.objs q).trackID = (m.objs s).trackID))) = true) :
    Tracks (m.subscribe s env).1 (s :: live) ∧
    statusEvents (m.subscribe s env).2.1
      = (if live.any (fun q => decide ((m.objs q).publisherID = (m.objs s).publisherID)) = true
         then [] else [((m.objs s).publisherID, true)]) := by
  have hiso := tracks_isNone m live hT (m.objs s).publisherID
  obtain ⟨hnd, hlive, hne, hset, hinj⟩ := hT
  obtain ⟨hsub, _, hobj, hev⟩ := SubscriptionManager.subscribe_ok_spec m s env hok
  have hs : s ∉ live := by
    intro h
    have h1 := (hlive s).1 h
    cases hx : (m.objs s).subscribedTrack <;> simp [hx] at h1 hnone
  have hu : ∀ q, q ∈ live → (m.objs q).publisherID = (m.objs s).publisherID →
      (m.objs q).trackID = (m.objs s).trackID → False := by
    intro q hq h1 h2
    have h3 := (List.all_eq_true.1 huniq) q hq
    simp [h1, h2] at h3
  refine ⟨⟨List.nodup_cons.2 ⟨hs, hnd⟩, ?_, ?_, ?_, ?_⟩, ?_⟩
  · intro q
    rw [(hobj q).2.2]
    by_cases hq : q = s
    · simp [hq]
    · simp [hq, hlive q]
  · intro pub l hg
    rw [hsub, mapGet_mapSet] at hg
    by_cases hp : pub = (m.objs s).publisherID
    · rw [if_pos hp] at hg
      have hl : setAdd ((mapGet m.subscribedTo (m.objs s).publisherID).getD [])
          (m.objs s).trackID = l := by simpa using hg
      rw [← hl]
      exact setAdd_ne_nil _ _
    · rw [if_neg hp] at hg
      exact hne pub l hg
  · intro pub tid
    rw [hsub, mapGet_mapSet]
    by_cases hp : pub = (m.objs s).publisherID
    · rw [if_pos hp]
      simp only [Option.getD_some, mem_setAdd]
      constructor
      · rintro (h | h)
        · exact ⟨s, List.mem_cons_self _ _, by rw [(hobj s).1, hp], by rw [(hobj s).2.1, h]⟩
        · obtain ⟨q, hq, h1, h2⟩ := (hset _ tid).1 h
          exact ⟨q, List.mem_cons_of_mem _ hq, by rw [(hobj q).1, h1, hp],
            by rw [(hobj q).2.1, h2]⟩
      · rintro ⟨q, hq, h1, h2⟩
        rw [(hobj q).1] at h1
        rw [(hobj q).2.1] at h2
        rcases List.mem_cons.1 hq with hqs | hql
        · left; rw [← h2, hqs]
        · right
          exact (hset _ tid).2 ⟨q, hql, by rw [h1, hp], h2⟩
    · rw [if_neg hp]
      constructor
      · intro h
        obtain ⟨q, hq, h1, h2⟩ := (hset pub tid).1 h
        exact ⟨q, List.mem_cons_of_mem _ hq, by rw [(hobj q).1, h1], by rw [(hobj q).2.1, h2]⟩
      · rintro ⟨q, hq, h1, h2⟩
        rw [(hobj q).1] at h1
        rw [(hobj q).2.1] at h2
        rcases List.mem_cons.1 hq with hqs | hql
        · exact absurd (by rw [← h1, hqs]) hp
        · exact (hset pub tid).2 ⟨q, hql, h1, h2⟩
  · intro q hq q2 hq2 h1 h2
    rw [(hobj q).1, (hobj q2).1] at h1
    rw [(hobj q).2.1, (hobj q2).2.1] at h2
    rcases List.mem_cons.1 hq with hqs | hql
    · rcases List.mem_cons.1 hq2 with hqs2 | hql2
      · rw [hqs, hqs2]
      · exact absurd (hu q2 hql2 (by rw [← h1, hqs]) (by rw [← h2, hqs])) id
    · rcases List.mem_cons.1 hq2 with hqs2 | hql2
      · exact absurd (hu q hql (by rw [h1, hqs2]) (by rw [h2, hqs2])) id
      · exact hinj q hql q2 hql2 h1 h2
  · rw [hev, hcb]
    by_cases hany : ∃ q, q ∈ live ∧ (m.objs q).publisherID = (m.objs s).publisherID
    · have h1 : live.any (fun q => decide ((m.objs q).publisherID = (m.objs s).publisherID))
          = true := by
        obtain ⟨q, hq, hp⟩ := hany
        exact List.any_eq_true.2 ⟨q, hq, by simp [hp]⟩
      have h2 : (mapGet m.subscribedTo (m.objs s).publisherID).isNone = false := by
        cases hx : (mapGet m.subscribedTo (m.objs s).publisherID).isNone
        · rfl
        · exact absurd hany (hiso.1 hx)
      simp [h1, h2]
    · have h1 : live.any (fun q => decide ((m.objs q).publisherID = (m.objs s).publisherID))
          = false := by
        cases hx : live.any (fun q => decide ((m.objs q).publisherID = (m.objs s).publisherID))
        · rfl
        · obtain ⟨q, hq, hp⟩ := List.any_eq_true.1 hx
          exact absurd ⟨q, hq, by simpa using hp⟩ hany
      have h2 := hiso.2 hany
      simp [h1, h2]

/-- The close callback keeps the map consistent and calls back with `(publisher, false)`
exactly when the closed subscription was live and no other live subscription has its
publisher. -/
theorem close_step (m : SubscriptionManager) (live : List Nat) (s : Nat) (w : Bool) (env : Env)
    (hcb : m.onSubscribeStatusChanged = true) (hT : Tracks m live) :
    Tracks (m.handleSubscribedTrackClose s w env).1 (live.erase s) ∧
    (m.handleSubscribedTrackClose s w env).1.onSubscribeStatusChanged = true ∧
    (∀ q, ((m.handleSubscribedTrackClose s w env).1.objs q).publisherID
      = (m.objs q).publisherID) ∧
    statusEvents (m.handleSubscribedTrackClose s w env).2
      = (if s ∈ live then
          (if (live.erase s).any
              (fun q => decide ((m.objs q).publisherID = (m.objs s).publisherID)) = true
           then [] else [((m.objs s).publisherID, false)])
         else []) := by
  by_cases hs : s ∈ live
  · obtain ⟨hnd, hlive, hne, hset, hinj⟩ := hT
    have hsome := (hlive s).1 hs
    obtain ⟨st, hst⟩ : ∃ st, (m.objs s).subscribedTrack = some st := by
      cases hx : (m.objs s).subscribedTrack with
      | none => rw [hx] at hsome; simp at hsome
      | some st => exact ⟨st, rfl⟩
    have hTin := (hset (m.objs s).publisherID (m.objs s).trackID).2 ⟨s, hs, rfl, rfl⟩
    obtain ⟨l, hl⟩ : ∃ l, mapGet m.subscribedTo (m.objs s).publisherID = some l := by
      cases hx : mapGet m.subscribedTo (m.objs s).publisherID with
      | none => rw [hx] at hTin; simp at hTin
      | some l => exact ⟨l, rfl⟩
    obtain ⟨hsub, hcb2, hobj, hev⟩ :=
      SubscriptionManager.close_spec_some m s w env st l hst hl
    have hmem : ∀ q, q ∈ live.erase s ↔ q ≠ s ∧ q ∈ live := fun q => hnd.mem_erase_iff
    have hdel : ∀ tid, tid ∈ setDel l (m.objs s).trackID ↔
        ∃ q, q ∈ live.erase s ∧ (m.objs q).publisherID = (m.objs s).publisherID ∧
          (m.objs q).trackID = tid := by
      intro tid
      rw [mem_setDel]
      have hset2 := hset (m.objs s).publisherID tid
      rw [hl] at hset2
      simp only [Option.getD_some] at hset2
      constructor
      · rintro ⟨h1, h2⟩
        obtain ⟨q, hq, hp, ht⟩ := hset2.1 h1
        refine ⟨q, (hmem q).2 ⟨?_, hq⟩, hp, ht⟩
        intro hqs
        apply h2
        rw [← ht, hqs]
      · rintro ⟨q, hq, hp, ht⟩
        obtain ⟨hqs, hql⟩ := (hmem q).1 hq
        refine ⟨hset2.2 ⟨q, hql, hp, ht⟩, ?_⟩
        intro htt
        exact hqs (hinj q hql s hs hp (by rw [ht, htt]))
    have hzero : (setDel l (m.objs s).trackID).length = 0 ↔
        ¬ ∃ q, q ∈ live.erase s ∧ (m.objs q).publisherID = (m.objs s).publisherID := by
      constructor
      · intro hz
        rintro ⟨q, hq, hp⟩
        have h1 := (hdel (m.objs q).trackID).2 ⟨q, hq, hp, rfl⟩
        rw [List.length_eq_zero.1 hz] at h1
        exact absurd h1 (List.not_mem_nil _)
      · intro hno
        cases hx : setDel l (m.objs s).trackID with
        | nil => rfl
        | cons x r =>
          exfalso
          have hxm : x ∈ setDel l (m.objs s).trackID := by rw [hx]; simp
          obtain ⟨q, hq, hp, _⟩ := (hdel x).1 hxm
          exact hno ⟨q, hq, hp⟩
    refine ⟨⟨hnd.erase s, ?_, ?_, ?_, ?_⟩, by rw [hcb2, hcb], fun q => (hobj q).1, ?_⟩
    · intro q
      rw [(hobj q).2.2, hmem q]
      by_cases hq : q = s
      · simp [hq]
      · simp [hq, hlive q]
    · intro pub l2 hg
      rw [hsub] at hg
      by_cases hz : (setDel l (m.objs s).trackID).length = 0
      · rw [if_pos hz, mapGet_mapDel] at hg
        by_cases hp : pub = (m.objs s).publisherID
        · rw [if_pos hp] at hg; exact absurd hg (by simp)
        · rw [if_neg hp] at hg; exact hne pub l2 hg
      · rw [if_neg hz, mapGet_mapSet] at hg
        by_cases hp : pub = (m.objs s).publisherID
        · rw [if_pos hp] at hg
          have : setDel l (m.objs s).trackID = l2 := by simpa using hg
          rw [← this]
          intro hnil
          exact hz (by rw [hnil]; rfl)
        · rw [if_neg hp] at hg; exact hne pub l2 hg
    · intro pub tid
      have hmap : tid ∈ (mapGet (m.handleSubscribedTrackClose s w env).1.subscribedTo pub).getD []
          ↔ (if pub = (m.objs s).publisherID then tid ∈ setDel l (m.objs s).trackID
             else tid ∈ (mapGet m.subscribedTo pub).getD []) := by
        rw [hsub]
        by_cases hz : (setDel l (m.objs s).trackID).length = 0
        · rw [if_pos hz, mapGet_mapDel]
          by_cases hp : pub = (m.objs s).publisherID
          · simp [hp, List.length_eq_zero.1 hz]
          · simp [hp]
        · rw [if_neg hz, mapGet_mapSet]
          by_cases hp : pub = (m.objs s).publisherID
          · simp [hp]
          · simp [hp]
      rw [hmap]
      by_cases hp : pub = (m.objs s).publisherID
      · rw [if_pos hp, hdel tid]
        constructor
        · rintro ⟨q, hq, h1, h2⟩
          exact ⟨q, hq, by rw [(hobj q).1, h1, hp], by rw [(hobj q).2.1, h2]⟩
        · rintro ⟨q, hq, h1, h2⟩
          rw [(hobj q).1] at h1
          rw [(hobj q).2.1] at h2
          exact ⟨q, hq, by rw [h1, hp], h2⟩
      · rw [if_neg hp]
        constructor
        · intro h
          obtain ⟨q, hq, h1, h2⟩ := (hset pub tid).1 h
          refine ⟨q, (hmem q).2 ⟨?_, hq⟩, by rw [(hobj q).1, h1], by rw [(hobj q).2.1, h2]⟩
          intro hqs
          apply hp
          rw [← h1, hqs]
        · rintro ⟨q, hq, h1, h2⟩
          rw [(hobj q).1] at h1
          rw [(hobj q).2.1] at h2
          exact (hset pub tid).2 ⟨q, ((hmem q).1 hq).2, h1, h2⟩
    · intro q hq q2 hq2 h1 h2
      rw [(hobj q).1, (hobj q2).1] at h1
      rw [(hobj q).2.1, (hobj q2).2.1] at h2
      exact hinj q ((hmem q).1 hq).2 q2 ((hmem q2).1 hq2).2 h1 h2
    · rw [hev, if_pos hs]
      by_cases hany : ∃ q, q ∈ live.erase s ∧ (m.objs q).publisherID = (m.objs s).publisherID
      · have h1 : (live.erase s).any
            (fun q => decide ((m.objs q).publisherID = (m.objs s).publisherID)) = true := by
          obtain ⟨q, hq, hp⟩ := hany
          exact List.any_eq_true.2 ⟨q, hq, by simp [hp]⟩
        have h2 : ¬ (setDel l (m.objs s).trackID).length = 0 := fun hz => hzero.1 hz hany
        simp [h1, h2]
      · have h1 : (live.erase s).any
            (fun q => decide ((m.objs q).publisherID = (m.objs s).publisherID)) = false := by
          cases hx : (live.erase s).any
            (fun q => decide ((m.objs q).publisherID = (m.objs s).publisherID))
          · rfl
          · obtain ⟨q, hq, hp⟩ := List.any_eq_true.1 hx
            exact absurd ⟨q, hq, by simpa using hp⟩ hany
        have h2 := hzero.2 hany
        simp [h1, h2, hcb]
  · have hst : (m.objs s).subscribedTrack = none := by
      cases hx : (m.objs s).subscribedTrack with
      | none => rfl
      | some st => exact absurd ((hT.2.1 s).2 (by rw [hx]; rfl)) hs
    obtain ⟨h1, h2⟩ := SubscriptionManager.close_spec_none m s w env hst
    rw [h1, h2, List.erase_of_not_mem hs, if_neg hs]
    exact ⟨hT, hcb, fun _ => rfl, rfl⟩

/-- Along a valid run the callbacks made are those the specification asks for. -/
theorem status_run (pubOf : Nat → ParticipantID) (ops : List SubOp) :
    ∀ (m : SubscriptionManager) (live : List Nat),
      m.onSubscribeStatusChanged = true → Tracks m live →
      (∀ q, (m.objs q).publisherID = pubOf q) → validOps m live ops = true →
      statusTrace m ops = specStatusChanges pubOf live ops := by
  induction ops with
  | nil => intro m live _ _ _ _; rfl
  | cons op rest ih =>
    intro m live hcb hT hpub hv
    cases op with
    | subscribe s env =>
      simp only [validOps, Bool.and_eq_true, decide_eq_true_eq] at hv
      obtain ⟨⟨⟨hnone, hok⟩, huniq⟩, hrest⟩ := hv
      obtain ⟨hT2, hev⟩ := subscribe_step m live s env hcb hT hnone hok huniq
      obtain ⟨_, hcb2, hobj, _⟩ := SubscriptionManager.subscribe_ok_spec m s env hok
      have hpub2 : ∀ q, ((m.subscribe s env).1.objs q).publisherID = pubOf q :=
        fun q => by rw [(hobj q).1, hpub q]
      simp only [statusTrace, specStatusChanges, SubOp.run]
      rw [ih _ _ (by rw [hcb2, hcb]) hT2 hpub2 hrest, hev]
      simp only [hpub]
    | close s w env =>
      simp only [validOps] at hv
      obtain ⟨hT2, hcb2, hobj, hev⟩ := close_step m live s w env hcb hT
      have hpub2 : ∀ q, ((m.handleSubscribedTrackClose s w env).1.objs q).publisherID
          = pubOf q := fun q => by rw [hobj q, hpub q]
      simp only [statusTrace, specStatusChanges, SubOp.run]
      rw [ih _ _ hcb2 hT2 hpub2 hv, hev]
      simp only [hpub]

end Rtc

/-! ## Lemmas on the forwarder -/

namespace Sfu

open Utils

theorem chain_cons_cons (r : Nat → Nat → Bool) (a b : Nat) (l : List Nat) :
    chain r (a :: b :: l) = (r a b && chain r (b :: l)) := rfl

theorem chain_tail (r : Nat → Nat → Bool) (a : Nat) (l : List Nat)
    (h : chain r (a :: l) = true) : chain r l = true := by
  cases l with
  | nil => rfl
  | cons b l =>
    rw [chain_cons_cons, Bool.and_eq_true] at h
    exact h.2

/-- One step of the munger from a consistent state: the state stays consistent, and either
the packet is forwarded in order with a sequence number strictly ahead of the last one, or
nothing is forwarded in order and the last outbound values stay. -/
theorem munger_step (r : RTPMunger) (pkt : ExtPacket) (h : r.consistent) :
    (r.UpdateAndGetSnTs pkt).1.consistent ∧
    (r.UpdateAndGetSnTs pkt).1.tsOffset = r.tsOffset ∧
    ((∃ rtp, (r.UpdateAndGetSnTs pkt).2.1 = some rtp ∧
        rtp.snOrdering ≠ SequenceNumberOrdering.OutOfOrder ∧
        (r.UpdateAndGetSnTs pkt).1.lastSN = rtp.sequenceNumber ∧
        (r.UpdateAndGetSnTs pkt).1.lastTS = rtp.timestamp ∧
        snAhead r.lastSN rtp.sequenceNumber = true ∧
        rtp.timestamp = subW 32 pkt.Timestamp r.tsOffset) ∨
     (((r.UpdateAndGetSnTs pkt).2.1 = none ∨
        ∃ rtp, (r.UpdateAndGetSnTs pkt).2.1 = some rtp ∧
          rtp.snOrdering = SequenceNumberOrdering.OutOfOrder) ∧
      (r.UpdateAndGetSnTs pkt).1.lastSN = r.lastSN ∧
      (r.UpdateAndGetSnTs pkt).1.lastTS = r.lastTS)) := by
  unfold RTPMunger.consistent at h ⊢
  by_cases h0 : subW 16 (conv 16 pkt.SequenceNumber) r.highestIncomingSN = 0
  · have e : r.UpdateAndGetSnTs pkt = (r, none, false) := by
      simp [RTPMunger.UpdateAndGetSnTs, h0]
    rw [e]
    exact ⟨h, rfl, Or.inr ⟨Or.inl rfl, rfl, rfl⟩⟩
  · by_cases h1 : subW 16 (conv 16 pkt.SequenceNumber) r.highestIncomingSN > 2 ^ 15
    · cases hm : Rtc.mapGet r.missingSNs (conv 16 pkt.SequenceNumber) with
      | none =>
        have e : r.UpdateAndGetSnTs pkt = (r, none, true) := by
          simp only [RTPMunger.UpdateAndGetSnTs, h0, h1, hm, if_true, if_false]
        rw [e]
        exact ⟨h, rfl, Or.inr ⟨Or.inl rfl, rfl, rfl⟩⟩
      | some offset =>
        have e : r.UpdateAndGetSnTs pkt
            = ({ r with missingSNs := Rtc.mapDel r.missingSNs (conv 16 pkt.SequenceNumber) },
               some { snOrdering := SequenceNumberOrdering.OutOfOrder,
                      sequenceNumber := subW 16 (conv 16 pkt.SequenceNumber) offset,
                      timestamp := subW 32 pkt.Timestamp r.tsOffset },
               false) := by
          simp only [RTPMunger.UpdateAndGetSnTs, h0, h1, hm, if_true, if_false]
        rw [e]
        exact ⟨h, rfl, Or.inr ⟨Or.inr ⟨_, rfl, rfl⟩, rfl, rfl⟩⟩
    · by_cases h2 : subW 16 (conv 16 pkt.SequenceNumber) r.highestIncomingSN = 1
          ∧ pkt.PayloadSize = 0
      · have e : r.UpdateAndGetSnTs pkt
            = ({ r with highestIncomingSN := conv 16 pkt.SequenceNumber,
                        snOffset := addW 16 r.snOffset 1 }, none, false) := by
          simp [RTPMunger.UpdateAndGetSnTs, h2]
        rw [e]
        refine ⟨?_, rfl, Or.inr ⟨Or.inl rfl, rfl, rfl⟩⟩
        have h3 := h2.1
        show r.lastSN = subW 16 (conv 16 pkt.SequenceNumber) (addW 16 r.snOffset 1)
        rw [h]
        unfold subW addW conv at *
        norm_num at *
        omega
      · have e : r.UpdateAndGetSnTs pkt
            = ({ r with highestIncomingSN := conv 16 pkt.SequenceNumber,
                        lastSN := subW 16 (conv 16 pkt.SequenceNumber) r.snOffset,
                        lastTS := subW 32 pkt.Timestamp r.tsOffset,
                        missingSNs := RTPMunger.reserve r.missingSNs r.highestIncomingSN
                          r.snOffset
                          (subW 16 (conv 16 pkt.SequenceNumber) r.highestIncomingSN - 1) },
               some { snOrdering :=
                        if subW 16 (conv 16 pkt.SequenceNumber) r.highestIncomingSN = 1
                        then SequenceNumberOrdering.Contiguous
                        else SequenceNumberOrdering.Gap,
                      sequenceNumber := subW 16 (conv 16 pkt.SequenceNumber) r.snOffset,
                      timestamp := subW 32 pkt.Timestamp r.tsOffset },
               false) := by
          simp only [RTPMunger.UpdateAndGetSnTs, h0, h1, h2, if_false]
        rw [e]
        refine ⟨rfl, rfl, Or.inl ⟨_, rfl, ?_, rfl, rfl, ?_, rfl⟩⟩
        · show (if subW 16 (conv 16 pkt.SequenceNumber) r.highestIncomingSN = 1
              then SequenceNumberOrdering.Contiguous else SequenceNumberOrdering.Gap)
              ≠ SequenceNumberOrdering.OutOfOrder
          split_ifs <;> exact fun hx => SequenceNumberOrdering.noConfusion hx
        · show snAhead r.lastSN (subW 16 (conv 16 pkt.SequenceNumber) r.snOffset) = true
          unfold snAhead
          rw [h]
          simp only [Bool.and_eq_true, decide_eq_true_eq]
          unfold subW conv at *
          norm_num at *
          omega

theorem inOrder_cons_fwd (tp : TranslationParams) (tps : List TranslationParams)
    (rtp : TranslationParamsRTP) (h : tp.rtp = some rtp)
    (ho : rtp.snOrdering ≠ SequenceNumberOrdering.OutOfOrder) :
    inOrder (tp :: tps) = rtp :: inOrder tps := by
  simp [inOrder, forwarded, List.filterMap_cons, h, ho]

theorem inOrder_cons_skip (tp : TranslationParams) (tps : List TranslationParams)
    (h : tp.rtp = none ∨
      ∃ rtp, tp.rtp = some rtp ∧ rtp.snOrdering = SequenceNumberOrdering.OutOfOrder) :
    inOrder (tp :: tps) = inOrder tps := by
  rcases h with h | ⟨rtp, h, ho⟩
  · simp [inOrder, forwarded, List.filterMap_cons, h]
  · simp [inOrder, forwarded, List.filterMap_cons, h, ho]

/-- One call of `GetTranslationParams` on a forwarder whose munger is consistent once it
has started. -/
theorem translate_step (f : PacketForwarder) (pkt : ExtPacket)
    (hinv : f.started = true → f.rtpMunger.consistent) :
    ((f.GetTranslationParams pkt).1.started = true →
      (f.GetTranslationParams pkt).1.rtpMunger.consistent) ∧
    (f.started = true → (f.GetTranslationParams pkt).1.started = true) ∧
    ((∃ rtp, (f.GetTranslationParams pkt).2.rtp = some rtp ∧
        rtp.snOrdering ≠ SequenceNumberOrdering.OutOfOrder ∧
        (f.GetTranslationParams pkt).1.started = true ∧
        (f.GetTranslationParams pkt).1.rtpMunger.lastSN = rtp.sequenceNumber ∧
        (f.GetTranslationParams pkt).1.rtpMunger.lastTS = rtp.timestamp ∧
        (f.started = true → snAhead f.rtpMunger.lastSN rtp.sequenceNumber = true) ∧
        (f.started = true → tsCond f pkt = true →
          tsNotBehind f.rtpMunger.lastTS rtp.timestamp = true)) ∨
     (((f.GetTranslationParams pkt).2.rtp = none ∨
        ∃ rtp, (f.GetTranslationParams pkt).2.rtp = some rtp ∧
          rtp.snOrdering = SequenceNumberOrdering.OutOfOrder) ∧
      (f.started = true →
        (f.GetTranslationParams pkt).1.rtpMunger.lastSN = f.rtpMunger.lastSN ∧
        (f.GetTranslationParams pkt).1.rtpMunger.lastTS = f.rtpMunger.lastTS) ∧
      (f.started = false → (f.GetTranslationParams pkt).1.started = false ∨
        (f.GetTranslationParams pkt).1.started = true))) := by
  by_cases hm : (f.muted || f.pubMuted) = true
  · have e : f.GetTranslationParams pkt
        = (f, { shouldDrop := true, isDroppingRelevant := false, rtp := none }) := by
      simp only [PacketForwarder.GetTranslationParams, hm, if_true]
    rw [e]
    refine ⟨hinv, id, Or.inr ⟨Or.inl rfl, fun _ => ⟨rfl, rfl⟩, fun h => Or.inl h⟩⟩
  · obtain ⟨r0, hr0, hc0, hsn0, hts0, htso⟩ : ∃ r0 : RTPMunger,
        r0 = (if (!f.started) = true then f.rtpMunger.SetLastSnTs pkt
              else if f.lastSSRC ≠ pkt.SSRC then f.rtpMunger.UpdateSnTsOffsets pkt
              else f.rtpMunger) ∧
        r0.consistent ∧
        (f.started = true → r0.lastSN = f.rtpMunger.lastSN) ∧
        (f.started = true → r0.lastTS = f.rtpMunger.lastTS) ∧
        (f.started = true → tsCond f pkt = true →
          tsNotBehind f.rtpMunger.lastTS (subW 32 pkt.Timestamp r0.tsOffset) = true) := by
      refine ⟨_, rfl, ?_, ?_, ?_, ?_⟩
      · cases hs : f.started
        · simp only [Bool.not_false, if_true]
          unfold RTPMunger.consistent RTPMunger.SetLastSnTs
          simp only []
          unfold subW
          norm_num
        · have hc := hinv hs
          unfold RTPMunger.consistent at hc
          simp only [Bool.not_true, Bool.false_eq_true, if_false]
          by_cases hss : f.lastSSRC = pkt.SSRC
          · simp only [hss, ne_eq, not_true_eq_false, if_false]
            exact hc
          · simp only [hss, ne_eq, not_false_eq_true, if_true]
            unfold RTPMunger.consistent RTPMunger.UpdateSnTsOffsets
            simp only []
            have hlt : f.rtpMunger.lastSN < 2 ^ 16 := by rw [hc]; exact subW_lt _ _ _
            unfold subW at *
            norm_num at *
            omega
      · intro hs
        by_cases hss : f.lastSSRC = pkt.SSRC <;>
          simp [hs, hss, RTPMunger.UpdateSnTsOffsets]
      · intro hs
        by_cases hss : f.lastSSRC = pkt.SSRC <;>
          simp [hs, hss, RTPMunger.UpdateSnTsOffsets]
      · intro hs htc
        unfold tsCond at htc
        simp only [hs, Bool.not_true, Bool.false_eq_true, if_false]
        by_cases hss : f.lastSSRC = pkt.SSRC
        · simp only [hss, ne_eq, not_true_eq_false, if_false, if_true] at htc ⊢
          unfold tsNotBehind at htc ⊢
          simp only [decide_eq_true_eq] at htc ⊢
          unfold subW addW at *
          norm_num at *
          omega
        · simp only [hss, ne_eq, not_false_eq_true, if_true, if_false] at htc ⊢
          unfold tsNotBehind
          simp only [decide_eq_true_eq] at htc ⊢
          unfold RTPMunger.UpdateSnTsOffsets
          simp only []
          unfold subW
          norm_num
          omega
    have e : f.GetTranslationParams pkt
        = ({ f with started := true, lastSSRC := pkt.SSRC,
                    rtpMunger := (r0.UpdateAndGetSnTs pkt).1 },
           match (r0.UpdateAndGetSnTs pkt).2.1 with
           | some rtp => { shouldDrop := false, isDroppingRelevant := false, rtp := some rtp }
           | none => { shouldDrop := true, isDroppingRelevant := (r0.UpdateAndGetSnTs pkt).2.2,
                       rtp := none }) := by
      simp only [PacketForwarder.GetTranslationParams, hm, if_false, hr0]
      rfl
    rw [e]
    obtain ⟨hc1, _, hcase⟩ := munger_step r0 pkt hc0
    refine ⟨fun _ => hc1, fun _ => rfl, ?_⟩
    rcases hcase with ⟨rtp, h1, h2, h3, h4, h5, h6⟩ | ⟨h1, h2, h3⟩
    · left
      refine ⟨rtp, by simp only [h1], h2, rfl, h3, h4, ?_, ?_⟩
      · intro hs
        rw [← hsn0 hs]
        exact h5
      · intro hs htc
        rw [h6]
        exact htso hs htc
    · right
      refine ⟨?_, fun hs => ⟨by rw [← hsn0 hs]; exact h2, by rw [← hts0 hs]; exact h3⟩,
        fun _ => Or.inr rfl⟩
      rcases h1 with h1 | ⟨rtp, h1, ho⟩
      · left; simp only [h1]
      · right; exact ⟨rtp, by simp only [h1], ho⟩

/-- Along a sequence of packets the headers forwarded in order form a chain, which starts
at the last outbound values if the forwarder has started. -/
theorem translate_run (pkts : List ExtPacket) :
    ∀ f : PacketForwarder, (f.started = true → f.rtpMunger.consistent) →
      chain snAhead ((if f.started = true then [f.rtpMunger.lastSN] else []) ++
        (inOrder (f.translate pkts)).map (fun r => r.sequenceNumber)) = true ∧
      (tsInputOk f pkts = true →
        chain tsNotBehind ((if f.started = true then [f.rtpMunger.lastTS] else []) ++
          (inOrder (f.translate pkts)).map (fun r => r.timestamp)) = true) := by
  induction pkts with
  | nil =>
    intro f _
    cases f.started <;> simp [PacketForwarder.translate, inOrder, forwarded, chain]
  | cons pkt rest ih =>
    intro f hinv
    obtain ⟨hinv2, hst, hcase⟩ := translate_step f pkt hinv
    obtain ⟨ihsn, ihts⟩ := ih (f.GetTranslationParams pkt).1 hinv2
    simp only [PacketForwarder.translate, tsInputOk, Bool.and_eq_true]
    rcases hcase with ⟨rtp, h1, h2, h3, h4, h5, h6, h7⟩ | ⟨h1, h2, h3⟩
    · rw [inOrder_cons_fwd _ _ rtp h1 h2]
      simp only [h3, if_true, h4, h5, List.singleton_append] at ihsn ihts
      simp only [h1, List.map_cons]
      cases hs : f.started
      · simp only [Bool.false_eq_true, if_false, List.nil_append]
        exact ⟨ihsn, fun h => ihts h.2⟩
      · simp only [if_true, List.singleton_append, chain_cons_cons, Bool.and_eq_true]
        refine ⟨⟨h6 hs, ihsn⟩, fun h => ⟨h7 hs ?_, ihts h.2⟩⟩
        have h8 := h.1
        simp only [hs, Bool.not_true, Bool.or_false, Bool.or_eq_true, decide_eq_true_eq] at h8
        rcases h8 with h8 | h8
        · exact absurd h8 h2
        · exact h8
    · rw [inOrder_cons_skip _ _ h1]
      cases hs : f.started
      · simp only [Bool.false_eq_true, if_false, List.nil_append]
        cases hs2 : (f.GetTranslationParams pkt).1.started
        · simp only [hs2, Bool.false_eq_true, if_false, List.nil_append] at ihsn ihts
          exact ⟨ihsn, fun h => ihts h.2⟩
        · simp only [hs2, if_true, List.singleton_append] at ihsn ihts
          exact ⟨chain_tail _ _ _ ihsn, fun h => chain_tail _ _ _ (ihts h.2)⟩
      · have hs2 := hst hs
        obtain ⟨e1, e2⟩ := h2 hs
        simp only [hs2, if_true, e1, e2] at ihsn ihts
        simp only [if_true]
        exact ⟨ihsn, fun h => ihts h.2⟩

/-! ### The first packet of a new source -/

/-- The first packet of a new source, if it is forwarded by a started forwarder: it is
`Contiguous`, one after the last outbound sequence number, and its timestamp is the last
outbound timestamp plus the frame time delta. -/
theorem switch_step (f : PacketForwarder) (pkt : ExtPacket) (rtp : TranslationParamsRTP)
    (hs : f.started = true) (hss : f.lastSSRC ≠ pkt.SSRC)
    (hf : (f.GetTranslationParams pkt).2.rtp = some rtp) :
    rtp.snOrdering = SequenceNumberOrdering.Contiguous ∧
    rtp.sequenceNumber = addW 16 f.rtpMunger.lastSN 1 ∧
    rtp.timestamp = addW 32 f.rtpMunger.lastTS pkt.frameTimeDelta ∧
    (f.GetTranslationParams pkt).1.lastSSRC = pkt.SSRC ∧
    (f.GetTranslationParams pkt).1.started = true := by
  by_cases hm : (f.muted || f.pubMuted) = true
  · simp [PacketForwarder.GetTranslationParams, hm] at hf
  · have e : f.GetTranslationParams pkt
        = ({ f with started := true, lastSSRC := pkt.SSRC,
                    rtpMunger := ((f.rtpMunger.UpdateSnTsOffsets pkt).UpdateAndGetSnTs pkt).1 },
           match ((f.rtpMunger.UpdateSnTsOffsets pkt).UpdateAndGetSnTs pkt).2.1 with
           | some rtp => { shouldDrop := false, isDroppingRelevant := false, rtp := some rtp }
           | none => { shouldDrop := true,
                       isDroppingRelevant :=
                         ((f.rtpMunger.UpdateSnTsOffsets pkt).UpdateAndGetSnTs pkt).2.2,
                       rtp := none }) := by
      simp only [PacketForwarder.GetTranslationParams, hm, if_false, hs, Bool.not_true,
        Bool.false_eq_true, hss, ne_eq, not_false_eq_true, if_true]
    have hd : subW 16 (conv 16 pkt.SequenceNumber)
        (f.rtpMunger.UpdateSnTsOffsets pkt).highestIncomingSN = 1 := by
      show subW 16 (conv 16 pkt.SequenceNumber) (subW 16 pkt.SequenceNumber 1) = 1
      unfold subW conv
      norm_num
      omega
    rw [e] at hf ⊢
    by_cases hp : pkt.PayloadSize = 0
    · have e1 : ((f.rtpMunger.UpdateSnTsOffsets pkt).UpdateAndGetSnTs pkt).2.1 = none := by
        simp [RTPMunger.UpdateAndGetSnTs, hd, hp]
      rw [e1] at hf
      exact absurd hf (by simp)
    · have e1 : ((f.rtpMunger.UpdateSnTsOffsets pkt).UpdateAndGetSnTs pkt).2.1
          = some { snOrdering := SequenceNumberOrdering.Contiguous,
                   sequenceNumber := subW 16 (conv 16 pkt.SequenceNumber)
                     (f.rtpMunger.UpdateSnTsOffsets pkt).snOffset,
                   timestamp := subW 32 pkt.Timestamp
                     (f.rtpMunger.UpdateSnTsOffsets pkt).tsOffset } := by
        simp [RTPMunger.UpdateAndGetSnTs, hd, hp]
      rw [e1] at hf
      simp only [Option.some.injEq] at hf
      subst hf
      refine ⟨rfl, ?_, ?_, rfl, rfl⟩
      · simp only [RTPMunger.UpdateSnTsOffsets]
        unfold subW addW conv
        norm_num
        omega
      · simp only [RTPMunger.UpdateSnTsOffsets]
        unfold subW addW
        norm_num
        omega

/-- The munger's last outbound sequence number and timestamp are those of the last packet
forwarded in order. -/
theorem last_inOrder_run (pkts : List ExtPacket) :
    ∀ f : PacketForwarder, (f.started = true → f.rtpMunger.consistent) →
      (∀ last, (inOrder (f.translate pkts)).getLast? = some last →
        (f.after pkts).started = true ∧
        (f.after pkts).rtpMunger.lastSN = last.sequenceNumber ∧
        (f.after pkts).rtpMunger.lastTS = last.timestamp) ∧
      (inOrder (f.translate pkts) = [] → f.started = true →
        (f.after pkts).started = true ∧
        (f.after pkts).rtpMunger.lastSN = f.rtpMunger.lastSN ∧
        (f.after pkts).rtpMunger.lastTS = f.rtpMunger.lastTS) := by
  induction pkts with
  | nil =>
    intro f _
    refine ⟨fun last h => ?_, fun _ hs => ⟨hs, rfl, rfl⟩⟩
    simp [PacketForwarder.translate, inOrder, forwarded] at h
  | cons pkt rest ih =>
    intro f hinv
    obtain ⟨hinv2, hst, hcase⟩ := translate_step f pkt hinv
    obtain ⟨ih2, ih3⟩ := ih (f.GetTranslationParams pkt).1 hinv2
    simp only [PacketForwarder.translate, PacketForwarder.after]
    rcases hcase with ⟨rtp, h1, h2, h3, h4, h5, _, _⟩ | ⟨h1, h2, _⟩
    · rw [inOrder_cons_fwd _ _ rtp h1 h2]
      refine ⟨fun last hl => ?_, fun h => absurd h (by simp)⟩
      cases hr : inOrder ((f.GetTranslationParams pkt).1.translate rest) with
      | nil =>
        rw [hr] at hl
        simp only [List.getLast?_singleton, Option.some.injEq] at hl
        obtain ⟨a, b, c⟩ := ih3 hr h3
        rw [← hl]
        exact ⟨a, b.trans h4, c.trans h5⟩
      | cons b l =>
        rw [hr, List.getLast?_cons_cons] at hl
        rw [← hr] at hl
        exact ih2 last hl
    · rw [inOrder_cons_skip _ _ h1]
      refine ⟨ih2, fun hn hs => ?_⟩
      obtain ⟨a, b, c⟩ := ih3 hn (hst hs)
      exact ⟨a, b.trans (h2 hs).1, c.trans (h2 hs).2⟩

/-! ### Lemmas on the layer allocator -/

/-- The model of `distance_to_desired` returns what `forwarder_test.go` expects, for every
expectation transcribed in `TestForwarder_distances`. -/
theorem distance_conforms :
    TestForwarder_distances.all (fun v =>
      decide (getDistanceToDesired v.1 v.2.1 v.2.2.1 v.2.2.2.1 v.2.2.2.2.1 v.2.2.2.2.2.1
        = v.2.2.2.2.2.2)) = true := by
  decide

theorem mem_downFrom (n x : Int) : x ∈ downFrom n ↔ 0 ≤ x ∧ x ≤ n := by
  unfold downFrom
  simp only [List.mem_map, List.mem_reverse, List.mem_range]
  constructor
  · rintro ⟨k, hk, rfl⟩
    simp only [Int.ofNat_eq_coe]
    omega
  · rintro ⟨h0, hn⟩
    refine ⟨x.toNat, ?_, ?_⟩
    · omega
    · simp only [Int.ofNat_eq_coe]
      omega

theorem mem_cellsDown (max : VideoLayers) (c : Int × Int) (h : c ∈ cellsDown max) :
    c.1 ≤ max.Spatial := by
  unfold cellsDown at h
  simp only [List.mem_flatMap, List.mem_map] at h
  obtain ⟨s, hs, t, _, rfl⟩ := h
  exact ((mem_downFrom _ _).1 hs).2

theorem walk_not_found (brs : Bitrates) (target : VideoLayers) (l : List (Int × Int))
    (h : ∀ c, c ∈ l → ¬ (c.1 = target.Spatial ∧ c.2 = target.Temporal)) :
    (walk brs target l).2 = false := by
  induction l with
  | nil => rfl
  | cons c rest ih =>
    have ih2 := ih (fun c hc => h c (List.mem_cons_of_mem _ hc))
    have hc := h c (List.mem_cons_self _ _)
    unfold walk
    split_ifs
    · exact ih2
    · exact ih2

theorem mem_overshootCells (target max : VideoLayers) (h0 : 0 ≤ target.Spatial)
    (h1 : 0 ≤ target.Temporal) (h2 : max.Spatial < target.Spatial) :
    (target.Spatial, target.Temporal) ∈ overshootCells target max := by
  unfold overshootCells
  simp only [List.mem_flatMap, List.mem_map, List.mem_filter, decide_eq_true_eq]
  exact ⟨target.Spatial, ⟨(mem_downFrom _ _).2 ⟨h0, le_refl _⟩, h2⟩, target.Temporal,
    (mem_downFrom _ _).2 ⟨h1, le_refl _⟩, rfl⟩

theorem downFrom_nonneg (n : Int) (h : 0 ≤ n) : downFrom n = n :: downFrom (n - 1) := by
  unfold downFrom
  have e1 : (n + 1).toNat = n.toNat + 1 := by omega
  have e2 : (n - 1 + 1).toNat = n.toNat := by omega
  rw [e1, e2, List.range_succ, List.reverse_append, List.reverse_singleton,
    List.singleton_append, List.map_cons]
  congr 1
  simp only [Int.ofNat_eq_coe]
  omega

theorem downFrom_length (n : Int) : (downFrom n).length = (n + 1).toNat := by
  simp [downFrom]

theorem cellsDown_succ (ms mt : Int) (h : 0 ≤ ms) :
    cellsDown { Spatial := ms, Temporal := mt }
      = (downFrom mt).map (fun t => (ms, t)) ++
          cellsDown { Spatial := ms - 1, Temporal := mt } := by
  unfold cellsDown
  simp only []
  rw [downFrom_nonneg ms h, List.flatMap_cons]

/-- Walking over cells that have a bitrate and are not the target counts them. -/
theorem walk_append_pre (brs : Bitrates) (target : VideoLayers) (pre rest : List (Int × Int))
    (h : ∀ c, c ∈ pre → brs.cell c.1 c.2 ≠ 0 ∧
      ¬ (c.1 = target.Spatial ∧ c.2 = target.Temporal)) :
    walk brs target (pre ++ rest)
      = ((walk brs target rest).1 + pre.length, (walk brs target rest).2) := by
  induction pre with
  | nil => simp
  | cons c pre ih =>
    have hc := h c (List.mem_cons_self _ _)
    have ih2 := ih (fun c hc => h c (List.mem_cons_of_mem _ hc))
    rw [List.cons_append, walk, if_neg hc.1, if_neg hc.2, ih2]
    simp only [List.length_cons, Nat.cast_add, Nat.cast_one, Prod.mk.injEq, and_true]
    ring

/-- Walking along the row of the target down to the target. -/
theorem walk_row_target (brs : Bitrates) (ts tt : Int) (rest : List (Int × Int)) (htt : 0 ≤ tt)
    (j : Nat) (hnz : ∀ t : Int, tt ≤ t → t ≤ tt + j → brs.cell ts t ≠ 0) :
    walk brs { Spatial := ts, Temporal := tt }
        ((downFrom (tt + j)).map (fun t => (ts, t)) ++ rest)
      = ((j : Int), true) := by
  induction j with
  | zero =>
    have h0 := hnz tt (le_refl _) (by simp)
    simp only [Nat.cast_zero, add_zero]
    rw [downFrom_nonneg tt htt, List.map_cons, List.cons_append, walk, if_neg h0,
      if_pos ⟨rfl, rfl⟩]
  | succ j ih =>
    have h1 := hnz (tt + (j + 1 : Nat)) (by omega) (le_refl _)
    have ih2 := ih (fun t h1 h2 => hnz t h1 (by push_cast at h2 ⊢; omega))
    have e : tt + ((j + 1 : Nat) : Int) - 1 = tt + (j : Int) := by push_cast; ring
    rw [downFrom_nonneg _ (by omega), List.map_cons, List.cons_append, walk, if_neg h1,
      if_neg (by
        simp only [true_and]
        push_cast
        omega), e, ih2]
    simp

/-- Walking over the rows above the target's. -/
theorem walk_rows_above (brs : Bitrates) (ts tt mt : Int) (hts : 0 ≤ ts) (hmt : 0 ≤ mt)
    (k : Nat)
    (hnz : ∀ s t : Int, ts < s → s ≤ ts + k → 0 ≤ t → t ≤ mt → brs.cell s t ≠ 0) :
    walk brs { Spatial := ts, Temporal := tt } (cellsDown { Spatial := ts + k, Temporal := mt })
      = ((walk brs { Spatial := ts, Temporal := tt }
            (cellsDown { Spatial := ts, Temporal := mt })).1 + k * (mt + 1),
         (walk brs { Spatial := ts, Temporal := tt }
            (cellsDown { Spatial := ts, Temporal := mt })).2) := by
  induction k with
  | zero => simp
  | succ k ih =>
    have ih2 := ih (fun s t h1 h2 h3 h4 => hnz s t h1 (by push_cast; omega) h3 h4)
    have e : ts + ((k + 1 : Nat) : Int) - 1 = ts + (k : Int) := by push_cast; ring
    rw [cellsDown_succ _ _ (by omega), e, walk_append_pre, ih2]
    · simp only [List.length_map, downFrom_length, Prod.mk.injEq, and_true]
      have : (((mt + 1).toNat : Nat) : Int) = mt + 1 := by omega
      rw [this]
      push_cast
      ring
    · intro c hc
      simp only [List.mem_map] at hc
      obtain ⟨t, ht, rfl⟩ := hc
      have hb := (mem_downFrom _ _).1 ht
      refine ⟨hnz _ t (by push_cast; omega) (le_refl _) hb.1 hb.2, ?_⟩
      simp only [not_and]
      intro h
      push_cast at h
      omega

/-- The distance from a target to max layers when every cell from the target up to max
layers has a bitrate. -/
theorem distance_all_cells (pub : Int) (brs : Bitrates) (target max : VideoLayers)
    (hpub : pub ≠ InvalidLayerSpatial)
    (h0 : 0 ≤ target.Spatial) (h1 : target.Spatial ≤ max.Spatial)
    (h2 : 0 ≤ target.Temporal) (h3 : target.Temporal ≤ max.Temporal)
    (hcells : ∀ s t : Int,
      (target.Spatial < s ∨ (target.Spatial = s ∧ target.Temporal ≤ t)) →
      s ≤ max.Spatial → 0 ≤ t → t ≤ max.Temporal → brs.cell s t ≠ 0) :
    getDistanceToDesired false false pub brs target max
      = (max.Spatial - target.Spatial) * (max.Temporal + 1)
        + (max.Temporal - target.Temporal) := by
  obtain ⟨ts, tt⟩ := target
  obtain ⟨ms, mt⟩ := max
  simp only at h0 h1 h2 h3 hcells ⊢
  obtain ⟨k, rfl⟩ : ∃ k : Nat, ms = ts + k := ⟨(ms - ts).toNat, by omega⟩
  obtain ⟨j, rfl⟩ : ∃ j : Nat, mt = tt + j := ⟨(mt - tt).toNat, by omega⟩
  have hrow := walk_row_target brs ts tt (cellsDown { Spatial := ts - 1, Temporal := tt + j })
    h2 j (fun t ht1 ht2 => hcells ts t (Or.inr ⟨rfl, ht1⟩) (by omega) (by omega) ht2)
  have hbase : walk brs { Spatial := ts, Temporal := tt }
      (cellsDown { Spatial := ts, Temporal := tt + j }) = ((j : Int), true) := by
    rw [cellsDown_succ _ _ h0]
    exact hrow
  have habove := walk_rows_above brs ts tt (tt + j) h0 (by omega) k
    (fun s t hs1 hs2 ht1 ht2 => hcells s t (Or.inl hs1) hs2 ht1 ht2)
  rw [hbase] at habove
  unfold getDistanceToDesired
  simp only [hpub, decide_False, Bool.or_false, Bool.false_eq_true, if_false, habove, if_true]
  ring

/-- Walking over cells none of which is the target counts those with a bitrate. -/
theorem walk_count (brs : Bitrates) (target : VideoLayers) (l : List (Int × Int))
    (h : ∀ c, c ∈ l → ¬ (c.1 = target.Spatial ∧ c.2 = target.Temporal)) :
    (walk brs target l).1 = (l.countP (fun c => decide (brs.cell c.1 c.2 ≠ 0)) : Nat) := by
  induction l with
  | nil => rfl
  | cons c rest ih =>
    have ih2 := ih (fun c hc => h c (List.mem_cons_of_mem _ hc))
    have hc := h c (List.mem_cons_self _ _)
    unfold walk
    by_cases hz : brs.cell c.1 c.2 = 0
    · rw [if_pos hz, ih2, List.countP_cons_of_neg]
      simp [hz]
    · rw [if_neg hz, if_neg hc, List.countP_cons_of_pos]
      · simp only [ih2]
        push_cast
        ring
      · simp [hz]

theorem takeWhile_append_pre {α : Type} (p : α → Bool) (pre rest : List α)
    (h : ∀ c, c ∈ pre → p c = true) :
    (pre ++ rest).takeWhile p = pre ++ rest.takeWhile p := by
  induction pre with
  | nil => rfl
  | cons c pre ih =>
    rw [List.cons_append, List.takeWhile_cons, if_pos (h c (List.mem_cons_self _ _)),
      ih (fun c hc => h c (List.mem_cons_of_mem _ hc)), List.cons_append]

/-- A walk that meets the target, a cell with a bitrate, counts the cells with a bitrate
before it. -/
theorem walk_met (brs : Bitrates) (target : VideoLayers) (l : List (Int × Int))
    (hmem : (target.Spatial, target.Temporal) ∈ l)
    (hnz : brs.cell target.Spatial target.Temporal ≠ 0) :
    walk brs target l
      = ((((l.takeWhile (fun c => !decide (c.1 = target.Spatial ∧ c.2 = target.Temporal))).countP
          (fun c => decide (brs.cell c.1 c.2 ≠ 0)) : Nat) : Int), true) := by
  induction l with
  | nil => exact absurd hmem (List.not_mem_nil _)
  | cons c rest ih =>
    by_cases hc : c.1 = target.Spatial ∧ c.2 = target.Temporal
    · have hz : brs.cell c.1 c.2 ≠ 0 := by rw [hc.1, hc.2]; exact hnz
      rw [walk, if_neg hz, if_pos hc, List.takeWhile_cons]
      simp [hc]
    · have hrest : (target.Spatial, target.Temporal) ∈ rest := by
        rcases List.mem_cons.1 hmem with h | h
        · exact absurd ⟨(congrArg Prod.fst h).symm, (congrArg Prod.snd h).symm⟩ hc
        · exact h
      have ih2 := ih hrest
      have hp : (fun c : Int × Int =>
          !decide (c.1 = target.Spatial ∧ c.2 = target.Temporal)) c = true := by
        simp only [Bool.not_eq_true', decide_eq_false_iff_not]
        exact hc
      rw [List.takeWhile_cons, if_pos hp]
      by_cases hz : brs.cell c.1 c.2 = 0
      · rw [walk, if_pos hz, ih2, List.countP_cons_of_neg]
        simp [hz]
      · rw [walk, if_neg hz, if_neg hc, ih2, List.countP_cons_of_pos]
        · simp
        · simp [hz]

theorem mem_cellsDown_iff (max : VideoLayers) (c : Int × Int) :
    c ∈ cellsDown max ↔ (0 ≤ c.1 ∧ c.1 ≤ max.Spatial) ∧ 0 ≤ c.2 ∧ c.2 ≤ max.Temporal := by
  unfold cellsDown
  simp only [List.mem_flatMap, List.mem_map]
  constructor
  · rintro ⟨s, hs, t, ht, rfl⟩
    exact ⟨(mem_downFrom _ _).1 hs, (mem_downFrom _ _).1 ht⟩
  · rintro ⟨hs, ht⟩
    exact ⟨c.1, (mem_downFrom _ _).2 hs, c.2, (mem_downFrom _ _).2 ht, rfl⟩

/-- The cells passed in the row of the target before the target. -/
theorem takeWhile_row_length (ts tt : Int) (rest : List (Int × Int)) (htt : 0 ≤ tt) (j : Nat) :
    (((downFrom (tt + j)).map (fun t => (ts, t)) ++ rest).takeWhile
      (fun c => !decide (c.1 = ts ∧ c.2 = tt))).length = j := by
  induction j with
  | zero =>
    simp only [Nat.cast_zero, add_zero]
    rw [downFrom_nonneg tt htt, List.map_cons, List.cons_append, List.takeWhile_cons]
    simp
  | succ j ih =>
    have e : tt + ((j + 1 : Nat) : Int) - 1 = tt + (j : Int) := by push_cast; ring
    have hne : ¬ (tt + ((j + 1 : Nat) : Int) = tt) := by push_cast; omega
    rw [downFrom_nonneg _ (by omega), List.map_cons, List.cons_append, List.takeWhile_cons, e]
    simp only [true_and, hne, decide_False, Bool.not_false, if_true, List.length_cons, ih]

/-- The number of cells between a target and max layers. -/
theorem cellsAbove_length (ts tt : Int) (hts : 0 ≤ ts) (htt : 0 ≤ tt) (k j : Nat) :
    (cellsAbove { Spatial := ts, Temporal := tt }
      { Spatial := ts + k, Temporal := tt + j }).length = k * (tt + j + 1).toNat + j := by
  unfold cellsAbove
  simp only []
  induction k with
  | zero =>
    simp only [Nat.cast_zero, add_zero, zero_mul, zero_add]
    rw [cellsDown_succ _ _ hts]
    exact takeWhile_row_length ts tt _ htt j
  | succ k ih =>
    have e : ts + ((k + 1 : Nat) : Int) - 1 = ts + (k : Int) := by push_cast; ring
    rw [cellsDown_succ _ _ (by omega), e, takeWhile_append_pre, List.length_append, ih,
      List.length_map, downFrom_length]
    · ring
    · intro c hc
      simp only [List.mem_map] at hc
      obtain ⟨t, _, rfl⟩ := hc
      simp only [Bool.not_eq_true', decide_eq_false_iff_not, not_and]
      intro h
      push_cast at h
      omega

/-- An allocation whose distance is computed by `getDistanceToDesired` follows the rule. -/
theorem distanceRule_of_eq (muted pubMuted : Bool) (pub : Int) (a : VideoAllocation)
    (h : a.distanceToDesired
      = getDistanceToDesired muted pubMuted pub a.bitrates a.targetLayers a.maxLayers) :
    DistanceRule muted pubMuted pub a := by
  refine ⟨fun hm => ?_, fun hm hp hpub => ⟨fun h0 h1 h2 h3 hnz => ?_, fun ht => ?_,
    fun h0 h1 h2 hnz => ?_⟩⟩
  · rw [h]
    unfold getDistanceToDesired
    rcases hm with hm | hm | hm <;> simp [hm]
  · have hmem : (a.targetLayers.Spatial, a.targetLayers.Temporal) ∈ cellsDown a.maxLayers :=
      (mem_cellsDown_iff _ _).2 ⟨⟨h0, h1⟩, h2, h3⟩
    have hw := walk_met a.bitrates a.targetLayers (cellsDown a.maxLayers) hmem hnz
    have hd : a.distanceToDesired = (((cellsAbove a.targetLayers a.maxLayers).countP
        (fun c => decide (a.bitrates.cell c.1 c.2 ≠ 0)) : Nat) : Int) := by
      rw [h]
      unfold getDistanceToDesired cellsAbove
      simp only [hm, hp, hpub, decide_False, Bool.or_false, Bool.false_eq_true, if_false, hw,
        if_true]
    refine ⟨hd, fun hmt => ?_⟩
    obtain ⟨k, hk⟩ : ∃ k : Nat, a.maxLayers.Spatial = a.targetLayers.Spatial + k :=
      ⟨(a.maxLayers.Spatial - a.targetLayers.Spatial).toNat, by omega⟩
    obtain ⟨j, hj⟩ : ∃ j : Nat, a.maxLayers.Temporal = a.targetLayers.Temporal + j :=
      ⟨(a.maxLayers.Temporal - a.targetLayers.Temporal).toNat, by omega⟩
    have hlen : (cellsAbove a.targetLayers a.maxLayers).length
        = k * (a.targetLayers.Temporal + j + 1).toNat + j := by
      have := cellsAbove_length a.targetLayers.Spatial a.targetLayers.Temporal h0 h2 k j
      rw [← hk, ← hj] at this
      rw [← hj]
      exact this
    have hform : (a.maxLayers.Spatial - a.targetLayers.Spatial) * (DefaultMaxLayerTemporal + 1)
        + (a.maxLayers.Temporal - a.targetLayers.Temporal)
        = (((cellsAbove a.targetLayers a.maxLayers).length : Nat) : Int) := by
      rw [hlen, ← hmt, hk, hj]
      push_cast
      have : (((a.targetLayers.Temporal + j + 1).toNat : Nat) : Int)
          = a.targetLayers.Temporal + j + 1 := by omega
      rw [this]
      ring
    rw [hform, hd]
    refine ⟨by exact_mod_cast List.countP_le_length _, fun hall => ?_, fun hex => ?_⟩
    · have : (cellsAbove a.targetLayers a.maxLayers).countP
          (fun c => decide (a.bitrates.cell c.1 c.2 ≠ 0))
          = (cellsAbove a.targetLayers a.maxLayers).length :=
        List.countP_eq_length.2 (fun c hc => by simpa using hall c hc)
      rw [this]
    · obtain ⟨c, hc, hz⟩ := hex
      have hlt : (cellsAbove a.targetLayers a.maxLayers).countP
          (fun c => decide (a.bitrates.cell c.1 c.2 ≠ 0))
          < (cellsAbove a.targetLayers a.maxLayers).length := by
        apply lt_of_le_of_ne (List.countP_le_length _)
        intro heq
        have := List.countP_eq_length.1 heq c hc
        simp [hz] at this
      exact_mod_cast hlt
  · have hnot : ∀ c, c ∈ cellsDown a.maxLayers →
        ¬ (c.1 = a.targetLayers.Spatial ∧ c.2 = a.targetLayers.Temporal) := by
      intro c hc hh
      have := ((mem_cellsDown_iff _ _).1 hc).1.1
      rw [ht] at hh
      have h5 : c.1 = -1 := hh.1
      omega
    have hw := walk_count a.bitrates a.targetLayers (cellsDown a.maxLayers) hnot
    have hf := walk_not_found a.bitrates a.targetLayers (cellsDown a.maxLayers) hnot
    have hv : a.targetLayers.IsValid = false := by rw [ht]; decide
    rw [h]
    unfold getDistanceToDesired
    simp only [hm, hp, hpub, decide_False, Bool.or_false, Bool.false_eq_true, if_false, hf, hw,
      hv]
  · have hnot : ∀ c, c ∈ cellsDown a.maxLayers →
        ¬ (c.1 = a.targetLayers.Spatial ∧ c.2 = a.targetLayers.Temporal) := by
      intro c hc hh
      have := mem_cellsDown a.maxLayers c hc
      omega
    have hf := walk_not_found a.bitrates a.targetLayers (cellsDown a.maxLayers) hnot
    have hv : a.targetLayers.IsValid = true := by
      unfold VideoLayers.IsValid InvalidLayerSpatial InvalidLayerTemporal
      simp only [Bool.and_eq_true, decide_eq_true_eq]
      constructor <;> omega
    have hpos : 0 < (overshootCells a.targetLayers a.maxLayers).countP
        (fun c => decide (a.bitrates.cell c.1 c.2 ≠ 0)) :=
      List.countP_pos_iff.2
        ⟨_, mem_overshootCells a.targetLayers a.maxLayers h0 h1 h2, by simpa using hnz⟩
    rw [h]
    unfold getDistanceToDesired
    simp only [hm, hp, hpub, decide_False, Bool.or_false, Bool.false_eq_true, if_false, hf, hv,
      if_true]
    omega

/-- The cells passed in the row of the target before the target are those with a higher
temporal layer. -/
theorem mem_takeWhile_row (ts tt : Int) (rest : List (Int × Int)) (htt : 0 ≤ tt) (j : Nat)
    (c : Int × Int) :
    c ∈ ((downFrom (tt + j)).map (fun t => (ts, t)) ++ rest).takeWhile
      (fun c => !decide (c.1 = ts ∧ c.2 = tt)) ↔ c.1 = ts ∧ tt < c.2 ∧ c.2 ≤ tt + j := by
  induction j with
  | zero =>
    simp only [Nat.cast_zero, add_zero]
    rw [downFrom_nonneg tt htt, List.map_cons, List.cons_append, List.takeWhile_cons]
    simp only [and_self, decide_True, Bool.not_true, Bool.false_eq_true, if_false,
      List.not_mem_nil, false_iff, not_and, not_le]
    intro _ h
    exact h
  | succ j ih =>
    have e : tt + ((j + 1 : Nat) : Int) - 1 = tt + (j : Int) := by push_cast; ring
    have hne : ¬ (tt + ((j + 1 : Nat) : Int) = tt) := by push_cast; omega
    rw [downFrom_nonneg _ (by omega), List.map_cons, List.cons_append, List.takeWhile_cons, e]
    simp only [true_and, hne, decide_False, Bool.not_false, if_true, List.mem_cons, ih]
    constructor
    · rintro (h | ⟨h1, h2, h3⟩)
      · rw [h]
        simp only [true_and]
        push_cast
        omega
      · exact ⟨h1, h2, by push_cast; omega⟩
    · rintro ⟨h1, h2, h3⟩
      by_cases h4 : c.2 = tt + ((j + 1 : Nat) : Int)
      · left
        exact Prod.ext h1 h4
      · right
        exact ⟨h1, h2, by push_cast at h3 h4; omega⟩

/-- The cells between a target and max layers: those of a spatial layer above the target's
up to max layers, and those of the target's spatial layer with a higher temporal layer. -/
theorem mem_cellsAbove (target max : VideoLayers) (h0 : 0 ≤ target.Spatial)
    (h1 : target.Spatial ≤ max.Spatial) (h2 : 0 ≤ target.Temporal)
    (h3 : target.Temporal ≤ max.Temporal) (c : Int × Int) :
    c ∈ cellsAbove target max ↔
      (target.Spatial < c.1 ∧ c.1 ≤ max.Spatial ∧ 0 ≤ c.2 ∧ c.2 ≤ max.Temporal) ∨
      (c.1 = target.Spatial ∧ target.Temporal < c.2 ∧ c.2 ≤ max.Temporal) := by
  obtain ⟨ts, tt⟩ := target
  obtain ⟨ms, mt⟩ := max
  simp only at h0 h1 h2 h3 ⊢
  obtain ⟨k, rfl⟩ : ∃ k : Nat, ms = ts + k := ⟨(ms - ts).toNat, by omega⟩
  obtain ⟨j, rfl⟩ : ∃ j : Nat, mt = tt + j := ⟨(mt - tt).toNat, by omega⟩
  unfold cellsAbove
  simp only []
  clear h1 h3
  induction k with
  | zero =>
    simp only [Nat.cast_zero, add_zero]
    rw [cellsDown_succ _ _ h0, mem_takeWhile_row ts tt _ h2 j c]
    constructor
    · intro h; exact Or.inr h
    · rintro (h | h)
      · omega
      · exact h
  | succ k ih =>
    have e : ts + ((k + 1 : Nat) : Int) - 1 = ts + (k : Int) := by push_cast; ring
    rw [cellsDown_succ _ _ (by omega), e, takeWhile_append_pre, List.mem_append, ih]
    · simp only [List.mem_map, mem_downFrom]
      constructor
      · rintro (⟨t, ht, rfl⟩ | h | h)
        · left
          simp only
          push_cast
          omega
        · left
          push_cast
          omega
        · exact Or.inr h
      · rintro (h | h)
        · by_cases h4 : c.1 = ts + ((k + 1 : Nat) : Int)
          · left
            exact ⟨c.2, ⟨h.2.2.1, h.2.2.2⟩, Prod.ext h4.symm rfl⟩
          · right; left
            push_cast at h h4
            omega
        · exact Or.inr (Or.inr h)
    · intro c hc
      simp only [List.mem_map] at hc
      obtain ⟨t, _, rfl⟩ := hc
      simp only [Bool.not_eq_true', decide_eq_false_iff_not, not_and]
      intro h
      push_cast at h
      omega

/-- The modelled operations return the allocations that `forwarder_test.go` requires of
paused forwarders: of `AllocateOptimal` with invalid max layers, without a published layer,
muted and muted by the publisher (lines 123 to 195), of the commit of a muted forwarder
(lines 604 to 614), and of `Pause` (lines 1075 to 1085 and 1110 to 1119). -/
theorem paused_conforms
    (select : Forwarder → List Int → Bitrates → Bool → VideoSelection)
    (commit : Forwarder → VideoSelection) :
    (({ newVideoForwarder with maxLayers := InvalidLayers } : Forwarder).AllocateOptimal []
        sparseBitrates true select).2
      = TestForwarderAllocateOptimal_expectedResult VideoPauseReason.FeedDry InvalidLayers ∧
    (((newVideoForwarder.SetMaxSpatialLayer DefaultMaxLayerSpatial).SetMaxTemporalLayer
        DefaultMaxLayerTemporal).AllocateOptimal [] sparseBitrates true select).2
      = TestForwarderAllocateOptimal_expectedResult VideoPauseReason.FeedDry DefaultMaxLayers ∧
    ((testForwarder.Mute true).1.AllocateOptimal [] sparseBitrates true select).2
      = TestForwarderAllocateOptimal_expectedResult VideoPauseReason.Muted DefaultMaxLayers ∧
    ((testForwarder.PubMute true).1.AllocateOptimal [] sparseBitrates true select).2
      = TestForwarderAllocateOptimal_expectedResult VideoPauseReason.PubMuted
          DefaultMaxLayers ∧
    (TestForwarderProvisionalAllocateMute_state.ProvisionalAllocateCommit commit).2
      = TestForwarderProvisionalAllocateMute_expectedResult ∧
    ((TestForwarderPause_state false).Pause fullBitrates).2
      = TestForwarderPause_expectedResult ∧
    (((TestForwarderPause_state true).Mute true).1.Pause fullBitrates).2
      = TestForwarderPauseMute_expectedResult :=
  ⟨by rfl, by rfl, by rfl, by rfl, by rfl, by decide, by decide⟩

/-- With the selections that the tests require, the modelled operations return the
allocations that they require: the first commit of `TestForwarderProvisionalAllocate`
(lines 413 to 426) and the first move of `TestForwarderAllocateNextHigher` (lines 879 to
893). -/
theorem selected_conforms :
    (TestForwarderProvisionalAllocate_state.ProvisionalAllocateCommit
        Forwarder.committedSelection).2
      = TestForwarderProvisionalAllocate_expectedResult ∧
    (TestForwarderAllocateNextHigher_state.AllocateNextHigher 1000000 sparseBitrates false
        (fun _ _ _ _ => some TestForwarderAllocateNextHigher_pick)).2
      = (TestForwarderAllocateNextHigher_expectedResult, true) := by
  constructor <;> decide

theorem updateAllocation_snd (f : Forwarder) (alloc : VideoAllocation) :
    (f.updateAllocation alloc).2 = alloc := rfl

theorem pausedAllocation_distance (f : Forwarder) (reason : VideoPauseReason) (brs : Bitrates) :
    (f.pausedAllocation reason brs).distanceToDesired
      = getDistanceToDesired f.muted f.pubMuted f.maxPublishedLayer
          (f.pausedAllocation reason brs).bitrates (f.pausedAllocation reason brs).targetLayers
          (f.pausedAllocation reason brs).maxLayers := rfl

/-- The distance of the allocation that `AllocateOptimal` returns is computed from its
bitrates, target and max layers. -/
theorem allocateOptimal_distance (f : Forwarder) (availableLayers : List Int) (brs : Bitrates)
    (allowOvershoot : Bool)
    (select : Forwarder → List Int → Bitrates → Bool → VideoSelection) :
    (f.AllocateOptimal availableLayers brs allowOvershoot select).2.distanceToDesired
      = getDistanceToDesired f.muted f.pubMuted f.maxPublishedLayer
          (f.AllocateOptimal availableLayers brs allowOvershoot select).2.bitrates
          (f.AllocateOptimal availableLayers brs allowOvershoot select).2.targetLayers
          (f.AllocateOptimal availableLayers brs allowOvershoot select).2.maxLayers := by
  unfold Forwarder.AllocateOptimal
  rw [updateAllocation_snd]
  split_ifs <;> rfl

theorem pause_distance (f : Forwarder) (brs : Bitrates) :
    (f.Pause brs).2.distanceToDesired
      = getDistanceToDesired f.muted f.pubMuted f.maxPublishedLayer (f.Pause brs).2.bitrates
          (f.Pause brs).2.targetLayers (f.Pause brs).2.maxLayers := by
  unfold Forwarder.Pause
  rw [updateAllocation_snd]
  split_ifs <;> rfl

theorem commit_distance (f : Forwarder) (commit : Forwarder → VideoSelection) :
    (f.ProvisionalAllocateCommit commit).2.distanceToDesired
      = getDistanceToDesired f.provisional.muted f.provisional.pubMuted
          f.provisional.maxPublishedLayer (f.ProvisionalAllocateCommit commit).2.bitrates
          (f.ProvisionalAllocateCommit commit).2.targetLayers
          (f.ProvisionalAllocateCommit commit).2.maxLayers := rfl

theorem nextHigher_cases (f : Forwarder) (additionalCapacity : Int) (brs : Bitrates)
    (allowOvershoot : Bool)
    (pick : Forwarder → Int → Bitrates → Bool → Option VideoSelection) :
    ((f.AllocateNextHigher additionalCapacity brs allowOvershoot pick).2.2 = false ∧
      (f.AllocateNextHigher additionalCapacity brs allowOvershoot pick).2.1 = f.lastAllocation ∧
      (f.AllocateNextHigher additionalCapacity brs allowOvershoot pick).1 = f) ∨
    ((f.AllocateNextHigher additionalCapacity brs allowOvershoot pick).2.2 = true ∧
      ∃ sel : VideoSelection, (f.AllocateNextHigher additionalCapacity brs allowOvershoot pick).2.1
        = sel.allocation f.muted f.pubMuted f.maxPublishedLayer brs f.maxLayers) := by
  unfold Forwarder.AllocateNextHigher
  split_ifs
  · left; exact ⟨rfl, rfl, rfl⟩
  · cases pick f additionalCapacity brs allowOvershoot with
    | none => left; exact ⟨rfl, rfl, rfl⟩
    | some sel => right; exact ⟨rfl, sel, rfl⟩

/-- The state after calls of `ProvisionalAllocate` keeps what `ProvisionalAllocatePrepare`
took. -/
theorem provisionalAllocate_snapshot (f : Forwarder) (available : Int) (layers : VideoLayers)
    (allowPause allowOvershoot : Bool) :
    (f.ProvisionalAllocate available layers allowPause allowOvershoot).1.provisional.muted
        = f.provisional.muted ∧
    (f.ProvisionalAllocate available layers allowPause allowOvershoot).1.provisional.pubMuted
        = f.provisional.pubMuted ∧
    (f.ProvisionalAllocate available layers allowPause
        allowOvershoot).1.provisional.maxPublishedLayer = f.provisional.maxPublishedLayer ∧
    (f.ProvisionalAllocate available layers allowPause allowOvershoot).1.provisional.bitrates
        = f.provisional.bitrates ∧
    (f.ProvisionalAllocate available layers allowPause allowOvershoot).1.provisional.maxLayers
        = f.provisional.maxLayers := by
  unfold Forwarder.ProvisionalAllocate
  simp only []
  split_ifs <;> exact ⟨rfl, rfl, rfl, rfl, rfl⟩

/-- After `ProvisionalAllocatePrepare` and any calls of `ProvisionalAllocate` the mute flags
and the max published layer of the snapshot are those of the forwarder at the time of
`ProvisionalAllocatePrepare`. -/
theorem provisionalAllocateAll_snapshot (calls : List (Int × VideoLayers × Bool × Bool)) :
    ∀ f : Forwarder,
      (provisionalAllocateAll f calls).provisional.muted = f.provisional.muted ∧
      (provisionalAllocateAll f calls).provisional.pubMuted = f.provisional.pubMuted ∧
      (provisionalAllocateAll f calls).provisional.maxPublishedLayer
        = f.provisional.maxPublishedLayer := by
  induction calls with
  | nil => intro f; exact ⟨rfl, rfl, rfl⟩
  | cons c rest ih =>
    intro f
    obtain ⟨h1, h2, h3, _, _⟩ := provisionalAllocate_snapshot f c.1 c.2.1 c.2.2.1 c.2.2.2
    obtain ⟨i1, i2, i3⟩ := ih (f.ProvisionalAllocate c.1 c.2.1 c.2.2.1 c.2.2.2).1
    exact ⟨i1.trans h1, i2.trans h2, i3.trans h3⟩


end Sfu

/-! ## Lemmas on `FetchRelevant` -/

namespace Service

theorem nodeWeight_eq {F : Type} (A : Float64 F) (lat lon : F) (c : String) (n : Node F) :
    nodeWeight A lat lon c n
      = A.add (A.mul (distance A n.Latitude n.Longitude lat lon) (weightDistance A))
          (A.mul (A.ofInt n.Participants) (weightParticipantsCount A)) := rfl

theorem nodeWeight_eraseCountry {F : Type} (A : Float64 F) (lat lon : F) (c : String)
    (n1 n2 : Node F) (h : eraseCountry n1 = eraseCountry n2) :
    nodeWeight A lat lon c n1 = nodeWeight A lat lon c n2 := by
  have h1 : (eraseCountry n1).Latitude = (eraseCountry n2).Latitude := by rw [h]
  have h2 : (eraseCountry n1).Longitude = (eraseCountry n2).Longitude := by rw [h]
  have h3 : (eraseCountry n1).Participants = (eraseCountry n2).Participants := by rw [h]
  simp only [eraseCountry] at h1 h2 h3
  rw [nodeWeight_eq, nodeWeight_eq, h1, h2, h3]

/-- Two runs whose stored nodes differ in the country only build the same rows, up to the
country. -/
theorem nodeRows_eraseCountry {F : Type} (A : Float64 F) (env1 env2 : NodeEnv F)
    (lat lon : F) (c : String)
    (hget : ∀ id, (Get env1 id).map eraseCountry = (Get env2 id).map eraseCountry)
    (keys : List String) :
    (nodeRows A env1 lat lon c keys).map (List.map eraseRow)
      = (nodeRows A env2 lat lon c keys).map (List.map eraseRow) := by
  induction keys with
  | nil => rfl
  | cons key keys ih =>
    unfold nodeRows
    cases hp : HasPrefix key ("/" ++ prefixKeyNode)
    · simp only [Bool.not_false, if_true]
      exact ih
    · simp only [Bool.not_true, Bool.false_eq_true, if_false]
      have hg := hget (TrimLeft key ("/" ++ prefixKeyNode))
      cases h1 : Get env1 (TrimLeft key ("/" ++ prefixKeyNode)) with
      | error e1 =>
        cases h2 : Get env2 (TrimLeft key ("/" ++ prefixKeyNode)) with
        | error e2 =>
          rw [h1, h2] at hg
          simp only [Except.map, Except.error.injEq] at hg
          simp only [Except.map, hg]
        | ok n2 => rw [h1, h2] at hg; simp [Except.map] at hg
      | ok n1 =>
        cases h2 : Get env2 (TrimLeft key ("/" ++ prefixKeyNode)) with
        | error e2 => rw [h1, h2] at hg; simp [Except.map] at hg
        | ok n2 =>
          rw [h1, h2] at hg
          simp only [Except.map, Except.ok.injEq] at hg
          simp only []
          cases r1 : nodeRows A env1 lat lon c keys with
          | error e1 =>
            cases r2 : nodeRows A env2 lat lon c keys with
            | error e2 =>
              rw [r1, r2] at ih
              simp only [Except.map, Except.error.injEq] at ih
              simp only [Except.map, ih]
            | ok l2 => rw [r1, r2] at ih; simp [Except.map] at ih
          | ok l1 =>
            cases r2 : nodeRows A env2 lat lon c keys with
            | error e2 => rw [r1, r2] at ih; simp [Except.map] at ih
            | ok l2 =>
              rw [r1, r2] at ih
              simp only [Except.map, Except.ok.injEq] at ih
              simp only [Except.map, List.map_cons, ih, eraseRow, hg,
                nodeWeight_eraseCountry A lat lon c n1 n2 hg]

theorem weightLess_eraseRow {F : Type} (A : Float64 F) (l1 l2 : List (nodeRow F))
    (h : l1.map eraseRow = l2.map eraseRow) : weightLess A l1 = weightLess A l2 := by
  have hw : ∀ i : Nat, l1[i]?.map nodeRow.weight = l2[i]?.map nodeRow.weight := by
    intro i
    have h3 : ((l1.map eraseRow)[i]?).map nodeRow.weight
        = ((l2.map eraseRow)[i]?).map nodeRow.weight := by rw [h]
    simp only [List.getElem?_map, Option.map_map] at h3
    exact h3
  have key : ∀ (l : List (nodeRow F)) (i j : Nat), weightLess A l i j
      = (match l[i]?.map nodeRow.weight, l[j]?.map nodeRow.weight with
         | some a, some b => A.gt a b
         | _, _ => false) := by
    intro l i j
    unfold weightLess
    cases l[i]? <;> cases l[j]? <;> rfl
  funext i j
  rw [key l1, key l2, hw i, hw j]

theorem sorted_eraseRow {F : Type} (l1 l2 : List (nodeRow F)) (order : List Nat)
    (h : l1.map eraseRow = l2.map eraseRow) :
    (order.filterMap (fun i => l1[i]?)).map eraseRow
      = (order.filterMap (fun i => l2[i]?)).map eraseRow := by
  have hw : ∀ i : Nat, l1[i]?.map eraseRow = l2[i]?.map eraseRow := by
    intro i
    have h3 : (l1.map eraseRow)[i]? = (l2.map eraseRow)[i]? := by rw [h]
    simp only [List.getElem?_map] at h3
    exact h3
  induction order with
  | nil => rfl
  | cons i rest ih =>
    have hi := hw i
    simp only [List.filterMap_cons]
    cases a1 : l1[i]? with
    | none =>
      cases a2 : l2[i]? with
      | none => exact ih
      | some y => rw [a1, a2] at hi; simp at hi
    | some x =>
      cases a2 : l2[i]? with
      | none => rw [a1, a2] at hi; simp at hi
      | some y =>
        rw [a1, a2] at hi
        simp only [Option.map_some', Option.some.injEq] at hi
        simp only [List.map_cons, hi, ih]

end Service

/-! ## Lemmas on `ICEConnectionDetails` -/

namespace Types

theorem isCandidateEqualTo_comm (c1 c2 : Option ICECandidate) :
    isCandidateEqualTo c1 c2 = isCandidateEqualTo c2 c1 := by
  cases c1 with
  | none => cases c2 <;> rfl
  | some a =>
    cases c2 with
    | none => rfl
    | some b =>
      unfold isCandidateEqualTo
      rw [Bool.eq_iff_iff]
      simp only [Bool.and_eq_true, decide_eq_true_eq]
      constructor <;> rintro ⟨⟨⟨⟨⟨⟨⟨⟨⟨h1, h2⟩, h3⟩, h4⟩, h5⟩, h6⟩, h7⟩, h8⟩, h9⟩, h10⟩ <;>
        exact ⟨⟨⟨⟨⟨⟨⟨⟨⟨h1.symm, h2.symm⟩, h3.symm⟩, h4.symm⟩, h5.symm⟩, h6.symm⟩, h7.symm⟩,
          h8.symm⟩, h9.symm⟩, h10.symm⟩

theorem distinctLocal_add {RC : Type} (d : ICEConnectionDetails RC) (c : Option ICECandidate)
    (filtered : Bool) (h : distinctLocal d.Local) :
    distinctLocal (d.AddLocalCandidate c filtered).Local := by
  unfold ICEConnectionDetails.AddLocalCandidate
  simp only []
  split_ifs with hc
  · exact h
  · unfold distinctLocal at h ⊢
    simp only []
    rw [List.pairwise_append]
    refine ⟨h, List.pairwise_singleton _ _, ?_⟩
    intro a ha b hb
    simp only [List.mem_singleton] at hb
    subst hb
    simp only [List.any_eq_true, not_exists, not_and, Bool.not_eq_true] at hc
    have h1 := hc a ha
    exact ⟨h1, by rw [isCandidateEqualTo_comm]; exact h1⟩

theorem distinctLocal_addAll {RC : Type} (cs : List (Option ICECandidate × Bool)) :
    ∀ d : ICEConnectionDetails RC, distinctLocal d.Local →
      distinctLocal (d.addLocalCandidates cs).Local := by
  induction cs with
  | nil => intro d h; exact h
  | cons x rest ih =>
    intro d h
    obtain ⟨c, filtered⟩ := x
    exact ih _ (distinctLocal_add d c filtered h)

end Types

open Utils Utils.WrapAround Rtc Rtc.SubscriptionManager

/-! ## Theorems on `WrapAround` -/

/-- C1: on an initialised counter with `T` narrower than `ET`, a value whose raw gap `g`
to `highest` satisfies `0 < g ≤ range/2` is handled in-order: `highest` becomes the
value, `cycles` grows by one full range exactly when the value is below the previous raw
highest, `start` is unchanged, `IsRestart` is false, and `ExtendedVal` is the previous
extended highest plus `g`, which is also the extended highest after the call. -/
theorem update_in_order (tb eb : Nat) (w : WrapAround tb eb) (v : Nat)
    (hT : tb < eb) (hwf : w.WF) (hinit : w.initialized = true) (hv : v < 2 ^ tb)
    (hg0 : 0 < (v + 2 ^ tb - w.highest) % 2 ^ tb)
    (hg1 : (v + 2 ^ tb - w.highest) % 2 ^ tb ≤ 2 ^ tb / 2) :
    (w.Update v).1.highest = v ∧
    (w.Update v).1.cycles = (if v < w.highest then (w.cycles + 2 ^ tb) % 2 ^ eb else w.cycles) ∧
    (w.Update v).1.start = w.start ∧
    (w.Update v).1.initialized = true ∧
    (w.Update v).2.IsRestart = false ∧
    (w.Update v).2.PreExtendedHighest = w.GetExtendedHighest ∧
    (w.Update v).2.ExtendedVal
      = (w.GetExtendedHighest + (v + 2 ^ tb - w.highest) % 2 ^ tb) % 2 ^ eb ∧
    (w.Update v).1.GetExtendedHighest = (w.Update v).2.ExtendedVal :=
  WrapAround.update_inOrder_core tb eb w v hT hwf hinit hv hg0 hg1

/-- Witness for `update_in_order`: the raw wrap `65530 → 3` of a `uint16` counter extended
to `uint32`. -/
theorem update_in_order_witness :
    ((NewWrapAround 16 32).Update 65530).1.WF ∧
    (((NewWrapAround 16 32).Update 65530).1.Update 3).1.cycles = 65536 ∧
    (((NewWrapAround 16 32).Update 65530).1.Update 3).2.ExtendedVal = 65539 :=
  ⟨by decide,
   by
    have h := update_in_order 16 32 ((NewWrapAround 16 32).Update 65530).1 3 (by decide)
      (by decide) (by decide) (by decide) (by decide) (by decide)
    rw [h.2.1]; decide,
   by
    have h := update_in_order 16 32 ((NewWrapAround 16 32).Update 65530).1 3 (by decide)
      (by decide) (by decide) (by decide) (by decide) (by decide)
    rw [h.2.2.2.2.2.2.1]; decide⟩

/-- C2: in every state reachable from `NewWrapAround` by `Update`, `ResetHighest`,
`RollbackRestart` and `Seed` (from another reachable counter), `cycles` is a multiple of
the full range, so the extended highest is `cycles + highest` without overflow and its
truncation to the raw width is the raw highest. -/
theorem reachable_cycles_multiple (tb eb : Nat) (w : WrapAround tb eb)
    (hT : tb ≤ eb) (h : Reachable w) :
    2 ^ tb ∣ w.cycles ∧ w.fullRange ∣ w.cycles ∧
    w.GetExtendedHighest = w.cycles + w.highest ∧
    w.GetExtendedHighest % 2 ^ tb = w.GetHighest := by
  have hinv := inv_of_reachable hT h
  have hov := inv_no_overflow hT hinv
  obtain ⟨⟨hfr, _, hh, hc⟩, hd⟩ := hinv
  have hP : 2 ^ tb ≤ 2 ^ eb := Nat.pow_le_pow_right (by norm_num) hT
  have hext : w.GetExtendedHighest = w.cycles + w.highest := by
    simp only [GetExtendedHighest, getExtendedHighest, addW, conv_of_lt (lt_of_lt_of_le hh hP),
      Nat.mod_eq_of_lt hov]
  refine ⟨hd, ?_, hext, ?_⟩
  · rcases Nat.lt_or_eq_of_le hT with hlt | heq
    · rw [hfr, fullRange_of_lt hlt]; exact hd
    · subst heq
      rw [Nat.eq_zero_of_dvd_of_lt hd hc]
      exact Nat.dvd_zero _
  · rw [hext]
    obtain ⟨k, hk⟩ := hd
    rw [hk, Nat.mul_add_mod]
    exact Nat.mod_eq_of_lt hh

/-- Witness for `reachable_cycles_multiple`: a `uint16` counter after `Update 65530`,
`Update 3` and `RollbackRestart 70000`. -/
theorem reachable_cycles_multiple_witness :
    ((((NewWrapAround 16 32).Update 65530).1.Update 3).1.RollbackRestart 70000).GetExtendedHighest
      % 2 ^ 16 = 3 :=
  (reachable_cycles_multiple 16 32 _ (by decide)
    (Reachable.rollbackRestart _ 70000
      (Reachable.update _ 3 (Reachable.update _ 65530 Reachable.new (by decide)) (by decide))
      (by decide))).2.2.2

/-- C3 (as stated, refuted): on a fresh `uint16` counter the values `1, 3` are both
handled in order and none is a restart, yet the extended highest minus the extended start
is 2, not the number of in-order inputs minus one (which is 1). -/
theorem span_count_counterexample :
    (∀ r ∈ ((NewWrapAround 16 32).updates [1, 3]).2, r.IsRestart = false) ∧
    (NewWrapAround 16 32).inOrderCount [1, 3] = 2 ∧
    [1, 3].dedup.length = 2 ∧
    subW 32 ((NewWrapAround 16 32).updates [1, 3]).1.GetExtendedHighest
      ((NewWrapAround 16 32).updates [1, 3]).1.GetExtendedStart = 2 ∧
    subW 32 ((NewWrapAround 16 32).updates [1, 3]).1.GetExtendedHighest
      ((NewWrapAround 16 32).updates [1, 3]).1.GetExtendedStart
      ≠ (NewWrapAround 16 32).inOrderCount [1, 3] - 1 := by
  decide

/-- C3 (amended): for every sequence of raw values passed to `Update` on a fresh counter
in which no update reports `IsRestart`, the extended highest minus the extended start
(in the extended width) is the sum of the raw gaps of the values handled in order; for a
non-empty sequence in which each in-order value after the first is the successor of the
highest, this is the number of values handled in order minus one. -/
theorem span_eq_gap_sum (tb eb : Nat) (vs : List Nat)
    (hT : tb ≤ eb) (hvs : ∀ v ∈ vs, v < 2 ^ tb)
    (hnr : ∀ r ∈ ((NewWrapAround tb eb).updates vs).2, r.IsRestart = false) :
    subW eb ((NewWrapAround tb eb).updates vs).1.GetExtendedHighest
        ((NewWrapAround tb eb).updates vs).1.GetExtendedStart
      = (NewWrapAround tb eb).inOrderGapSum vs % 2 ^ eb ∧
    (vs ≠ [] → (NewWrapAround tb eb).contiguous vs = true →
      subW eb ((NewWrapAround tb eb).updates vs).1.GetExtendedHighest
          ((NewWrapAround tb eb).updates vs).1.GetExtendedStart
        = ((NewWrapAround tb eb).inOrderCount vs - 1) % 2 ^ eb) := by
  cases vs with
  | nil =>
    refine ⟨?_, fun h => absurd rfl h⟩
    simp [updates, inOrderGapSum, NewWrapAround, GetExtendedHighest, GetExtendedStart,
      getExtendedHighest, addW, conv, subW]
  | cons v vs =>
    have hv : v < 2 ^ tb := hvs v (List.mem_cons_self _ _)
    have hvQ : v < 2 ^ eb := lt_of_lt_of_le hv (Nat.pow_le_pow_right (by norm_num) hT)
    have hvs1 : ∀ x ∈ vs, x < 2 ^ tb := fun x hx => hvs x (List.mem_cons_of_mem _ hx)
    have htail : ∀ r ∈ (((NewWrapAround tb eb).Update v).1.updates vs).2, r.IsRestart = false :=
      fun r hr => hnr r (List.mem_cons_of_mem _ hr)
    have hinv := inv_update hT (NewWrapAround tb eb) v hv inv_new
    have hrun := updates_run hT vs _ hinv (update_initialized _ v) hvs1 htail
    have h1 : ((NewWrapAround tb eb).Update v).1.start = v := rfl
    have h2 : ((NewWrapAround tb eb).Update v).1.GetExtendedHighest = v := by
      simp [Update, NewWrapAround, GetExtendedHighest, getExtendedHighest, addW, conv,
        Nat.mod_eq_of_lt hvQ]
    have hsum : (NewWrapAround tb eb).inOrderGapSum (v :: vs)
        = ((NewWrapAround tb eb).Update v).1.inOrderGapSum vs := by
      simp [inOrderGapSum, NewWrapAround]
    have hspan : subW eb ((NewWrapAround tb eb).updates (v :: vs)).1.GetExtendedHighest
        ((NewWrapAround tb eb).updates (v :: vs)).1.GetExtendedStart
        = (NewWrapAround tb eb).inOrderGapSum (v :: vs) % 2 ^ eb := by
      simp only [updates, GetExtendedStart]
      rw [hrun.1, hrun.2, h1, h2, conv_of_lt hvQ, hsum]
      exact subW_add_cancel eb v _ hvQ
    refine ⟨hspan, fun _ hc => ?_⟩
    rw [hspan, hsum]
    have hc1 : ((NewWrapAround tb eb).Update v).1.contiguous vs = true := by
      simpa [contiguous, NewWrapAround] using hc
    rw [gapSum_eq_count vs _ (update_initialized _ v) hc1]
    simp [inOrderCount, isInOrder, NewWrapAround]

/-- Witness for `span_eq_gap_sum`: the `uint16` values `65534, 65535, 0, 0, 65535, 1`
(two of them not in order) span three steps. -/
theorem span_eq_gap_sum_witness :
    subW 32 ((NewWrapAround 16 32).updates [65534, 65535, 0, 0, 65535, 1]).1.GetExtendedHighest
        ((NewWrapAround 16 32).updates [65534, 65535, 0, 0, 65535, 1]).1.GetExtendedStart
      = (4 - 1) % 2 ^ 32 :=
  (span_eq_gap_sum 16 32 [65534, 65535, 0, 0, 65535, 1] (by decide) (by decide)
    (by decide)).2 (by decide) (by decide)

/-- C4: the first `Update v` of a counter that is not initialised and whose `cycles` is
0 (as `NewWrapAround` leaves it) sets `start = highest = v`, keeps `cycles` at 0, returns
`IsRestart = false` and `ExtendedVal = v`, so that afterwards
`GetExtendedStart = GetExtendedHighest = v`; `PreExtendedHighest` is `v - 1` in the
extended width, which is the maximum extended value when `v = 0`. -/
theorem update_first (tb eb : Nat) (w : WrapAround tb eb) (v : Nat)
    (hT : tb ≤ eb) (hv : v < 2 ^ tb) (hinit : w.initialized = false) (hc : w.cycles = 0) :
    (w.Update v).1.start = v ∧
    (w.Update v).1.highest = v ∧
    (w.Update v).1.cycles = 0 ∧
    (w.Update v).1.initialized = true ∧
    (w.Update v).2.IsRestart = false ∧
    (w.Update v).2.ExtendedVal = v ∧
    (w.Update v).1.GetExtendedStart = v ∧
    (w.Update v).1.GetExtendedHighest = v ∧
    (w.Update v).2.PreExtendedHighest = (if v = 0 then 2 ^ eb - 1 else v - 1) := by
  have hvQ : v < 2 ^ eb := lt_of_lt_of_le hv (Nat.pow_le_pow_right (by norm_num) hT)
  have hpre : subW eb v 1 = if v = 0 then 2 ^ eb - 1 else v - 1 := by
    by_cases h0 : v = 0
    · subst h0
      rw [if_pos rfl]
      rcases Nat.eq_or_lt_of_le (Nat.two_pow_pos eb) with h1 | h1
      · unfold subW; rw [← h1]
      · rw [subW_of_lt (by omega) h1]; omega
    · rw [if_neg h0]
      exact subW_of_le hvQ (by omega)
  simp only [Update, hinit, Bool.not_false, if_true, GetExtendedStart, GetExtendedHighest,
    getExtendedHighest, addW, hc, conv_of_lt hvQ, Nat.zero_add, Nat.mod_eq_of_lt hvQ, hpre,
    and_self]

/-- Witness for `update_first`: the first value of a fresh `uint16` counter is 0. -/
theorem update_first_witness :
    ((NewWrapAround 16 32).Update 0).1.GetExtendedHighest = 0 ∧
    ((NewWrapAround 16 32).Update 0).2.PreExtendedHighest = 4294967295 :=
  have h := update_first 16 32 (NewWrapAround 16 32) 0 (by decide) (by decide) rfl rfl
  ⟨h.2.2.2.2.2.2.2.1, h.2.2.2.2.2.2.2.2⟩

/-- C5: in every state (with the `fullRange` set by `NewWrapAround`) and for every
extended value `ev`, after `ResetHighest ev` the extended highest is exactly `ev`, the raw
highest is `ev` truncated to the raw width, and `start` is unchanged. -/
theorem resetHighest_extended (tb eb : Nat) (w : WrapAround tb eb) (ev : Nat)
    (hT : tb ≤ eb) (hfr : w.fullRange = (NewWrapAround tb eb).fullRange) (hev : ev < 2 ^ eb) :
    (w.ResetHighest ev).GetExtendedHighest = ev ∧
    (w.ResetHighest ev).GetHighest = ev % 2 ^ tb ∧
    (w.ResetHighest ev).start = w.start ∧
    (w.ResetHighest ev).initialized = w.initialized := by
  have hPQ : 2 ^ tb ≤ 2 ^ eb := Nat.pow_le_pow_right (by norm_num) hT
  have hm : ev % 2 ^ tb < 2 ^ eb := lt_of_lt_of_le (Nat.mod_lt _ (Nat.two_pow_pos tb)) hPQ
  have hle : ev % 2 ^ tb ≤ ev := Nat.mod_le _ _
  simp only [NewWrapAround] at hfr
  simp only [ResetHighest, GetExtendedHighest, GetHighest, getExtendedHighest, addW, conv, hfr]
  refine ⟨?_, trivial, trivial, trivial⟩
  have hmask := mask_eq hT
  simp only [conv] at hmask
  rw [hmask, and_high_mask hT hev, Nat.mod_eq_of_lt hm, Nat.sub_add_cancel hle]
  exact Nat.mod_eq_of_lt hev

/-- Witness for `resetHighest_extended` on a `uint16`/`uint32` counter. -/
theorem resetHighest_extended_witness :
    ((NewWrapAround 16 32).ResetHighest 196613).GetExtendedHighest = 196613 ∧
    ((NewWrapAround 16 32).ResetHighest 196613).GetHighest = 196613 % 2 ^ 16 :=
  have h := resetHighest_extended 16 32 (NewWrapAround 16 32) 196613 (by decide) rfl (by decide)
  ⟨h.1, h.2.1⟩

/-! ## Theorems on the subscription manager -/

/-- C6: whatever the operation (`SubscribeToTrack`, `UnsubscribeFromTrack`,
`UpdateSubscribedTrackSettings`, `reconcileSubscription`, `handleSubscribedTrackClose`, the
bind callback), a track ID that is in the subscriptions map before it and not after it was
removed by a `reconcileSubscription` of a subscription with that track ID which passed
`canReconcile`, needed no subscribe, needed unsubscribe, whose `unsubscribe` returned no
error and which was not desired when the entry was removed. -/
theorem entry_removed_only_by_unsubscribe (cfg : Timeouts) (m : SubscriptionManager) (op : Op)
    (tid : TrackID) (hin : (mapGet m.subscriptions tid).isSome = true)
    (hout : mapGet (op.run cfg m).1.subscriptions tid = none) :
    ∃ s env, op = Op.reconcileSubscription s env ∧
      m.canReconcile env = true ∧
      (m.objs s).trackID = tid ∧
      (m.objs s).needsSubscribe = false ∧
      (m.objs s).needsUnsubscribe = true ∧
      (m.unsubscribe s).2.2 = none ∧
      ((m.unsubscribe s).1.objs s).isDesired = false := by
  cases op with
  | SubscribeToTrack t pi pid =>
    exfalso
    have h := getOrCreate_subscriptions m t tid hin
    have e : (Op.run cfg m (Op.SubscribeToTrack t pi pid)).1.subscriptions
        = (m.getOrCreate t).1.subscriptions := by
      simp only [Op.run, SubscribeToTrack]
      split_ifs <;> simp
    rw [e] at hout
    rw [hout] at h
    exact Bool.false_ne_true h
  | UnsubscribeFromTrack t =>
    exfalso
    have e : (Op.run cfg m (Op.UnsubscribeFromTrack t)).1.subscriptions = m.subscriptions := by
      simp only [Op.run, UnsubscribeFromTrack]
      split
      · rfl
      · split_ifs <;> simp
    rw [e] at hout
    rw [hout] at hin
    exact Bool.false_ne_true hin
  | UpdateSubscribedTrackSettings t st =>
    exfalso
    have h := getOrCreate_subscriptions m t tid hin
    have e : (Op.run cfg m (Op.UpdateSubscribedTrackSettings t st)).1.subscriptions
        = (m.getOrCreate t).1.subscriptions := by
      simp [Op.run, UpdateSubscribedTrackSettings]
    rw [e] at hout
    rw [hout] at h
    exact Bool.false_ne_true h
  | reconcileSubscription s env =>
    by_cases h : m.canReconcile env = true ∧ (m.objs s).needsSubscribe = false ∧
        (m.objs s).needsUnsubscribe = true ∧ (m.objs s).isDesired = false
    · obtain ⟨hc, hs, hu, hd⟩ := h
      have e := reconcile_subscriptions_removed cfg m s env hc hs hu hd
      simp only [Op.run] at hout
      rw [e, mapGet_mapDel] at hout
      refine ⟨s, env, rfl, hc, ?_, hs, hu, unsubscribe_err m s, by rw [unsubscribe_fst]; exact hd⟩
      by_contra hne
      rw [if_neg (fun h => hne h.symm)] at hout
      rw [hout] at hin
      exact Bool.false_ne_true hin
    · exfalso
      have e := reconcile_subscriptions_kept cfg m s env h
      simp only [Op.run] at hout
      rw [e] at hout
      rw [hout] at hin
      exact Bool.false_ne_true hin
  | handleSubscribedTrackClose s w env =>
    exfalso
    have e : (Op.run cfg m (Op.handleSubscribedTrackClose s w env)).1.subscriptions
        = m.subscriptions := by
      simp only [Op.run, handleSubscribedTrackClose]
      split <;> simp
    rw [e] at hout
    rw [hout] at hin
    exact Bool.false_ne_true hin
  | onBind s =>
    exfalso
    have e : (Op.run cfg m (Op.onBind s)).1.subscriptions = m.subscriptions := by
      simp [Op.run, onBind]
    rw [e] at hout
    rw [hout] at hin
    exact Bool.false_ne_true hin

/-- Witness for `entry_removed_only_by_unsubscribe`: the track `t` was subscribed and is
no longer wanted; the reconcile at 3 s removes its entry. -/
theorem entry_removed_only_by_unsubscribe_witness :
    ∃ s env, Op.reconcileSubscription 0 (Scenario.envOk (Scenario.sec 3))
        = Op.reconcileSubscription s env ∧
      Scenario.unwanted.canReconcile env = true ∧
      (Scenario.unwanted.objs s).trackID = "t" ∧
      (Scenario.unwanted.objs s).needsSubscribe = false ∧
      (Scenario.unwanted.objs s).needsUnsubscribe = true ∧
      (Scenario.unwanted.unsubscribe s).2.2 = none ∧
      ((Scenario.unwanted.unsubscribe s).1.objs s).isDesired = false :=
  entry_removed_only_by_unsubscribe defaultTimeouts Scenario.unwanted
    (Op.reconcileSubscription 0 (Scenario.envOk (Scenario.sec 3))) "t" (by decide) (by decide)

/-- C7: `reconcileSubscription` changes the `desired` flag of a subscription if and only
if it is the reconciled one, the reconcile passed `canReconcile`, `needsSubscribe` held,
`subscribe` failed with `ErrPublisherNotConnected` or `ErrTrackNotFound`, and
`durationSinceStart` (read after the `startAttempt` of this `subscribe`) exceeds
`notFoundTimeout`; in that case `desired` becomes false and `queueReconcile` is called for
the track (the track ID is appended to the channel unless 10 requests are pending). -/
theorem reconcile_changes_desired_iff (cfg : Timeouts) (m : SubscriptionManager) (s : Nat)
    (env : Env) :
    (∀ q, ((m.reconcileSubscription cfg s env).1.objs q).desired ≠ (m.objs q).desired ↔
      (q = s ∧ m.canReconcile env = true ∧ (m.objs s).needsSubscribe = true ∧
        ((m.subscribe s env).2.2 = Outcome.failed SubError.ErrPublisherNotConnected ∨
         (m.subscribe s env).2.2 = Outcome.failed SubError.ErrTrackNotFound) ∧
        ((m.objs s).startAttempt env.now).durationSinceStart env.since > cfg.notFoundTimeout)) ∧
    (((m.reconcileSubscription cfg s env).1.objs s).desired ≠ (m.objs s).desired →
      ((m.reconcileSubscription cfg s env).1.objs s).desired = false ∧
      (m.reconcileSubscription cfg s env).1.reconcileCh
        = (m.queueReconcile (m.objs s).trackID).reconcileCh ∧
      (m.queueReconcile (m.objs s).trackID).reconcileCh
        = (if m.reconcileCh.length < 10 then m.reconcileCh ++ [(m.objs s).trackID]
           else m.reconcileCh)) := by
  have key : ((m.reconcileSubscription cfg s env).1.objs s).desired ≠ (m.objs s).desired ↔
      clearsDesired cfg m s env := by
    by_cases hcl : clearsDesired cfg m s env
    · have hfl := (reconcile_flip cfg m s env hcl).1
      have hdes : (m.objs s).desired = true := by
        have := hcl.2.1
        simp only [trackSubscription.needsSubscribe, Bool.and_eq_true] at this
        exact this.1
      rw [hfl, hdes]
      exact ⟨fun _ => hcl, fun _ => by decide⟩
    · rw [reconcile_keep cfg m s env hcl]
      exact ⟨fun h => absurd rfl h, fun h => absurd h hcl⟩
  refine ⟨fun q => ?_, fun h => ?_⟩
  · by_cases hq : q = s
    · subst hq
      rw [key]
      exact ⟨fun h => ⟨rfl, h⟩, fun h => h.2⟩
    · rw [reconcile_objs_other cfg m s env q hq]
      exact ⟨fun h => absurd rfl h, fun h => absurd h.1 hq⟩
  · have hfl := reconcile_flip cfg m s env (key.1 h)
    exact ⟨hfl.1, hfl.2, queueReconcile_reconcileCh m _⟩

/-- C8 (as stated, refuted): the track `t` is wanted, the resolver answers
`ErrTrackNotFound` at 0 s, 3 s and 6 s; the reconcile at 6 s flips `desired` to false, and
the next reconcile (at 9 s) leaves the entry of `t` in the subscriptions map. -/
theorem publisher_gone_counterexample :
    ((reconcileRun defaultTimeouts Scenario.wanted 0
        [Scenario.envNotFound 0, Scenario.envNotFound (Scenario.sec 3)]).objs 0).desired = true ∧
    ((reconcileRun defaultTimeouts Scenario.wanted 0
        [Scenario.envNotFound 0, Scenario.envNotFound (Scenario.sec 3),
         Scenario.envNotFound (Scenario.sec 6)]).objs 0).desired = false ∧
    mapGet (reconcileRun defaultTimeouts Scenario.wanted 0
        [Scenario.envNotFound 0, Scenario.envNotFound (Scenario.sec 3),
         Scenario.envNotFound (Scenario.sec 6),
         Scenario.envNotFound (Scenario.sec 9)]).subscriptions "t" = some 0 := by
  decide

/-- C8 (amended): when the resolver answers `ErrTrackNotFound` for a subscription that
needs subscribe and `durationSinceStart` exceeds `notFoundTimeout`, the reconcile flips
`desired` to false and calls `queueReconcile`; the entry stays in the subscriptions map,
and the next reconcile of that subscription, whatever its environment, does nothing (the
subscription has no subscribed track, so it needs no unsubscribe). -/
theorem not_found_timeout_keeps_entry (cfg : Timeouts) (m : SubscriptionManager) (s : Nat)
    (env : Env) (tid : TrackID)
    (hmap : mapGet m.subscriptions tid = some s) (htid : (m.objs s).trackID = tid)
    (hc : m.canReconcile env = true) (hs : (m.objs s).needsSubscribe = true)
    (hcs : env.canSubscribe = true)
    (hres : env.resolver = Except.error SubError.ErrTrackNotFound)
    (hd : ((m.objs s).startAttempt env.now).durationSinceStart env.since
      > cfg.notFoundTimeout) :
    ((m.reconcileSubscription cfg s env).1.objs s).desired = false ∧
    (m.reconcileSubscription cfg s env).1.reconcileCh = (m.queueReconcile tid).reconcileCh ∧
    mapGet (m.reconcileSubscription cfg s env).1.subscriptions tid = some s ∧
    (∀ env2, (m.reconcileSubscription cfg s env).1.reconcileSubscription cfg s env2
      = ((m.reconcileSubscription cfg s env).1, [])) ∧
    (∀ env2, mapGet ((m.reconcileSubscription cfg s env).1.reconcileSubscription cfg s
      env2).1.subscriptions tid = some s) := by
  have hr := subscribe_resolver_error m s env _ hcs hres
  have hcl : clearsDesired cfg m s env := ⟨hc, hs, Or.inr hr, hd⟩
  have hfl := reconcile_flip cfg m s env hcl
  have hff := reconcile_failed_fields cfg m s env _ hc hs hr
  have hnone : (m.objs s).subscribedTrack = none := by
    simp only [trackSubscription.needsSubscribe, Bool.and_eq_true, Option.isNone_iff_eq_none]
      at hs
    exact hs.2
  have hidle : ∀ env2, (m.reconcileSubscription cfg s env).1.reconcileSubscription cfg s env2
      = ((m.reconcileSubscription cfg s env).1, []) :=
    fun env2 => reconcile_idle cfg _ s env2 hfl.1 (by rw [hff.1, hnone])
  have hkeep : mapGet (m.reconcileSubscription cfg s env).1.subscriptions tid = some s := by
    rw [hff.2.2.2.2.2, hmap]
  refine ⟨hfl.1, by rw [hfl.2, htid], hkeep, hidle, fun env2 => ?_⟩
  rw [hidle env2]
  exact hkeep

/-- Witness for `not_found_timeout_keeps_entry`: the track `t` has been failing since 0 s
and is reconciled at 6 s. -/
theorem not_found_timeout_keeps_entry_witness :
    mapGet ((reconcileRun defaultTimeouts Scenario.wanted 0
        [Scenario.envNotFound 0]).reconcileSubscription defaultTimeouts 0
        (Scenario.envNotFound (Scenario.sec 6))).1.subscriptions "t" = some 0 :=
  (not_found_timeout_keeps_entry defaultTimeouts
    (reconcileRun defaultTimeouts Scenario.wanted 0 [Scenario.envNotFound 0]) 0
    (Scenario.envNotFound (Scenario.sec 6)) "t" (by decide) (by decide) (by decide) (by decide)
    rfl rfl (by decide)).2.2.1

/-- C9 (as stated, refuted): the track `t` fails once at 0 s, is unsubscribed and
subscribed again (`desired` becomes true again), and its first subscribe attempt after
that, at 100 s, fails with `ErrTrackNotFound`: `desired` is cleared by that very reconcile,
although no time has passed since that attempt, because the start time is still 0 s. -/
theorem retry_window_counterexample :
    ((runOps defaultTimeouts NewSubscriptionManager
        [Op.SubscribeToTrack "t" "pub" "pubID",
         Op.reconcileSubscription 0 (Scenario.envNotFound 0),
         Op.UnsubscribeFromTrack "t"]).objs 0).desired = false ∧
    ((runOps defaultTimeouts NewSubscriptionManager
        [Op.SubscribeToTrack "t" "pub" "pubID",
         Op.reconcileSubscription 0 (Scenario.envNotFound 0),
         Op.UnsubscribeFromTrack "t",
         Op.SubscribeToTrack "t" "pub" "pubID"]).objs 0).desired = true ∧
    ((runOps defaultTimeouts NewSubscriptionManager
        [Op.SubscribeToTrack "t" "pub" "pubID",
         Op.reconcileSubscription 0 (Scenario.envNotFound 0),
         Op.UnsubscribeFromTrack "t",
         Op.SubscribeToTrack "t" "pub" "pubID"]).objs 0).subStartedAt = some 0 ∧
    (Scenario.envNotFound (Scenario.sec 100)).since - (Scenario.envNotFound (Scenario.sec 100)).now
      ≤ defaultTimeouts.notFoundTimeout ∧
    ((runOps defaultTimeouts NewSubscriptionManager
        [Op.SubscribeToTrack "t" "pub" "pubID",
         Op.reconcileSubscription 0 (Scenario.envNotFound 0),
         Op.UnsubscribeFromTrack "t",
         Op.SubscribeToTrack "t" "pub" "pubID",
         Op.reconcileSubscription 0 (Scenario.envNotFound (Scenario.sec 100))]).objs 0).desired
      = false := by
  decide

/-- C9 (amended): take a subscription that is desired, has no subscribed track and whose
`numAttempts` is 0 (it is new, or its last attempt succeeded), and a run of reconciles
`env0 :: envs` whose `subscribe` fails with `ErrPublisherNotConnected` or
`ErrTrackNotFound`.  If every reconcile of the run reads the clock no later than
`notFoundTimeout` after the first attempt (`env0.now`), then after the run the
subscription is still desired and still needs subscribe (it is retried), its start time is
that of the first attempt and `numAttempts` counts the failures; and a further such
failure clears `desired` exactly when its clock reading is more than `notFoundTimeout`
after the first attempt. -/
theorem not_found_retry_window (cfg : Timeouts) (m : SubscriptionManager) (s : Nat)
    (env0 : Env) (envs : List Env)
    (h0 : (m.objs s).numAttempts = 0) (hd : (m.objs s).desired = true)
    (hn : (m.objs s).subscribedTrack = none)
    (hlen : (envs.length : Int) + 1 < 2 ^ 31)
    (hrun : notFoundRun cfg m s (env0 :: envs) = true)
    (htime : ∀ e ∈ env0 :: envs, e.since - env0.now ≤ cfg.notFoundTimeout) :
    ((reconcileRun cfg m s (env0 :: envs)).objs s).desired = true ∧
    ((reconcileRun cfg m s (env0 :: envs)).objs s).needsSubscribe = true ∧
    ((reconcileRun cfg m s (env0 :: envs)).objs s).subStartedAt = some env0.now ∧
    ((reconcileRun cfg m s (env0 :: envs)).objs s).numAttempts = (envs.length : Int) + 1 ∧
    (∀ env1, (reconcileRun cfg m s (env0 :: envs)).canReconcile env1 = true →
      (((reconcileRun cfg m s (env0 :: envs)).subscribe s env1).2.2
          = Outcome.failed SubError.ErrPublisherNotConnected ∨
        ((reconcileRun cfg m s (env0 :: envs)).subscribe s env1).2.2
          = Outcome.failed SubError.ErrTrackNotFound) →
      ((((reconcileRun cfg m s (env0 :: envs)).reconcileSubscription cfg s env1).1.objs
          s).desired = false ↔ env1.since - env0.now > cfg.notFoundTimeout)) := by
  have hrun0 := hrun
  simp only [notFoundRun, Bool.and_eq_true, Bool.or_eq_true, decide_eq_true_eq] at hrun0
  obtain ⟨⟨hc, hr⟩, hrest⟩ := hrun0
  have hsa := startAttempt_first (m.objs s) env0.now h0
  have hstep := notFound_step cfg m s env0 env0.now hc hd hn hr hsa
  have hle : env0.since - env0.now ≤ cfg.notFoundTimeout := htime env0 (List.mem_cons_self _ _)
  have hdes : ((m.reconcileSubscription cfg s env0).1.objs s).desired = true := by
    cases hx : ((m.reconcileSubscription cfg s env0).1.objs s).desired
    · exact absurd (hstep.1.1 hx) (not_lt.mpr hle)
    · rfl
  have hnum : ((m.reconcileSubscription cfg s env0).1.objs s).numAttempts = 1 := by
    rw [hstep.2.2.2, h0]
    rfl
  have hall := notFound_run cfg s env0.now envs (m.reconcileSubscription cfg s env0).1 1 hdes
    hstep.2.1 hstep.2.2.1 hnum (le_refl 1) (by omega) hrest
    (fun e he => htime e (List.mem_cons_of_mem _ he))
  simp only [reconcileRun]
  refine ⟨hall.1, needsSubscribe_of _ hall.1 hall.2.1, hall.2.2.1, by rw [hall.2.2.2]; omega,
    fun env1 hc1 hr1 => ?_⟩
  have hne : ((reconcileRun cfg (m.reconcileSubscription cfg s env0).1 s envs).objs
      s).numAttempts ≠ 0 := by
    rw [hall.2.2.2]; omega
  have hsa1 := startAttempt_started _ env1.now env0.now hne hall.2.2.1
  exact (notFound_step cfg _ s env1 env0.now hc1 hall.1 hall.2.1 hr1 hsa1).1

/-- Witness for `not_found_retry_window`: the track `t` fails at 0 s and at 3 s, both
within the 5 s window. -/
theorem not_found_retry_window_witness :
    ((reconcileRun defaultTimeouts Scenario.wanted 0
        [Scenario.envNotFound 0, Scenario.envNotFound (Scenario.sec 3)]).objs 0).needsSubscribe
      = true ∧
    ((reconcileRun defaultTimeouts Scenario.wanted 0
        [Scenario.envNotFound 0, Scenario.envNotFound (Scenario.sec 3)]).objs 0).numAttempts
      = 2 :=
  have h := not_found_retry_window defaultTimeouts Scenario.wanted 0 (Scenario.envNotFound 0)
    [Scenario.envNotFound (Scenario.sec 3)] (by decide) (by decide) (by decide) (by decide)
    (by decide) (by decide)
  ⟨h.2.1, h.2.2.2.1⟩

/-- C10 (as stated, refuted): the track `t` was subscribed at 0 s and is not bound; at
11 s it needs neither subscribe nor unsubscribe, `needsBind` holds and
`durationSinceStart` exceeds `subscriptionTimeout`, yet a reconcile while the participant
is disconnected does not call `OnSubcriptionError`. -/
theorem error_callback_counterexample :
    (Scenario.subscribed.objs 0).durationSinceStart
        (Scenario.envDisconnected (Scenario.sec 11)).since
      > defaultTimeouts.subscriptionTimeout ∧
    (Scenario.subscribed.objs 0).needsSubscribe = false ∧
    (Scenario.subscribed.objs 0).needsUnsubscribe = false ∧
    (Scenario.subscribed.objs 0).needsBind = true ∧
    Event.OnSubcriptionError "t" ∉
      (Scenario.subscribed.reconcileSubscription defaultTimeouts 0
        (Scenario.envDisconnected (Scenario.sec 11))).2 := by
  decide

/-- C10 (amended): `reconcileSubscription` calls `OnSubcriptionError` with a track ID if
and only if that is the track ID of the reconciled subscription, the reconcile passed
`canReconcile` (manager not closed, participant neither closed nor disconnected), the
duration it reads exceeds `subscriptionTimeout`, and either (a) `needsSubscribe` held and
`subscribe` failed with an error other than `ErrNoTrackPermission`,
`ErrNoSubscribePermission`, `ErrTrackNotAttached`, `ErrPublisherNotConnected` and
`ErrTrackNotFound`, or (b) the subscription needed neither subscribe nor unsubscribe and
`needsBind` held.  In particular a `subscribe` that fails with one of the three
permission/attachment errors never raises the callback. -/
theorem error_callback_iff (cfg : Timeouts) (m : SubscriptionManager) (s : Nat) (env : Env) :
    (∀ t, Event.OnSubcriptionError t ∈ (m.reconcileSubscription cfg s env).2 ↔
      (t = (m.objs s).trackID ∧ m.canReconcile env = true ∧
        durationRead m s env > cfg.subscriptionTimeout ∧
        (((m.objs s).needsSubscribe = true ∧
            ∃ err, (m.subscribe s env).2.2 = Outcome.failed err ∧
              err ≠ SubError.ErrNoTrackPermission ∧ err ≠ SubError.ErrNoSubscribePermission ∧
              err ≠ SubError.ErrTrackNotAttached ∧ err ≠ SubError.ErrPublisherNotConnected ∧
              err ≠ SubError.ErrTrackNotFound) ∨
         ((m.objs s).needsSubscribe = false ∧ (m.objs s).needsUnsubscribe = false ∧
            (m.objs s).needsBind = true)))) ∧
    (∀ err t, (m.objs s).needsSubscribe = true →
      (m.subscribe s env).2.2 = Outcome.failed err →
      (err = SubError.ErrNoTrackPermission ∨ err = SubError.ErrNoSubscribePermission ∨
        err = SubError.ErrTrackNotAttached) →
      Event.OnSubcriptionError t ∉ (m.reconcileSubscription cfg s env).2) := by
  refine ⟨fun t => reconcile_error_iff cfg m s env t, fun err t hs hr he hmem => ?_⟩
  obtain ⟨_, _, _, h⟩ := (reconcile_error_iff cfg m s env t).1 hmem
  rcases h with ⟨_, err2, hr2, h1, h2, h3, _⟩ | ⟨hs2, _⟩
  · rw [hr] at hr2
    have e : err = err2 := Outcome.failed.inj hr2
    subst e
    rcases he with he | he | he
    · exact h1 he
    · exact h2 he
    · exact h3 he
  · rw [hs] at hs2
    exact Bool.noConfusion hs2

/-- Witness for `error_callback_iff`: the unbound track `t` of the scenario above raises
the callback at 11 s once the participant is connected. -/
theorem error_callback_iff_witness :
    Event.OnSubcriptionError "t" ∈
      (Scenario.subscribed.reconcileSubscription defaultTimeouts 0
        (Scenario.envOk (Scenario.sec 11))).2 :=
  ((error_callback_iff defaultTimeouts Scenario.subscribed 0
      (Scenario.envOk (Scenario.sec 11))).1 "t").2
    ⟨by decide, by decide, by decide, Or.inr ⟨by decide, by decide, by decide⟩⟩

/-- C11 (the failing input, evaluated): `SubscribeToTrack(t)` and a subscribing reconcile
fire `(pubID, true)`; `UnsubscribeFromTrack(t)` and a reconcile delete the entry of `t`
while its subscribed track is not closed yet and `pubID` still has `t` in `subscribedTo`;
`SubscribeToTrack(t)` makes a second subscription object, whose subscribe fires nothing.
The close callback of the first track then fires `(pubID, false)` although the second
object holds a subscribed track of that publisher, which `GetSubscribedTracks` still lists
while `IsSubscribedTo(pubID)` is false; the close of that last track fires nothing. -/
theorem stale_close_status_changed :
    (statusEvents Scenario.staleFirst.2 = [("pubID", true)] ∧
      (Scenario.staleFirst.1.objs 0).subscribedTrack = some Scenario.subTrack) ∧
    (Scenario.staleRemoved.1.subscriptions = [] ∧
      Event.RemoveSubscriber 7 false ∈ Scenario.staleRemoved.2 ∧
      statusEvents Scenario.staleRemoved.2 = [] ∧
      (Scenario.staleRemoved.1.objs 0).subscribedTrack = some Scenario.subTrack ∧
      Scenario.staleRemoved.1.subscribedTo = [("pubID", ["t"])]) ∧
    (Scenario.staleSecond.1.subscriptions = [("t", 1)] ∧
      (Scenario.staleSecond.1.objs 1).subscribedTrack = some Scenario.subTrack2 ∧
      statusEvents Scenario.staleSecond.2 = []) ∧
    (statusEvents Scenario.staleClose.2 = [("pubID", false)] ∧
      (Scenario.staleClose.1.objs 1).subscribedTrack = some Scenario.subTrack2 ∧
      Scenario.staleClose.1.GetSubscribedTracks = [Scenario.subTrack2] ∧
      Scenario.staleClose.1.IsSubscribedTo "pubID" = false) ∧
    (statusEvents Scenario.staleLast.2 = [] ∧
      Scenario.staleLast.1.GetSubscribedTracks = []) := by
  refine ⟨⟨?_, ?_⟩, ⟨?_, ?_, ?_, ?_, ?_⟩, ⟨?_, ?_, ?_⟩, ⟨?_, ?_, ?_, ?_⟩, ?_, ?_⟩ <;> decide

/-- Runs without a stale subscription object: with the callback set and the `subscribedTo`
map consistent with the subscriptions `live` that hold a subscribed track, along every run
of successful subscribes of new tracks and of closes of live subscriptions the
`OnSubscribeStatusChanged` calls are exactly those of `specStatusChanges`:
`(publisher, true)` once when a track is subscribed while no subscription of that publisher
is live, `(publisher, false)` once when a live subscription is closed and no other of that
publisher is live, and no call at any other step. -/
theorem status_changed_first_last (m : SubscriptionManager) (live : List Nat)
    (ops : List SubOp) (hcb : m.onSubscribeStatusChanged = true) (hT : Tracks m live)
    (hv : validOps m live ops = true) :
    statusTrace m ops = specStatusChanges (fun q => (m.objs q).publisherID) live ops :=
  status_run _ ops m live hcb hT (fun _ => rfl) hv

/-- Witness for `status_changed_first_last`:
tracks `a` and `b` of one publisher and `c` of another are subscribed and
closed; each publisher is reported once as subscribed and once as unsubscribed. -/
theorem status_changed_first_last_witness :
    statusTrace Scenario.threeTracks Scenario.threeOps
      = [("pubID", true), ("pub2ID", true), ("pub2ID", false), ("pubID", false)] :=
  (status_changed_first_last Scenario.threeTracks [] Scenario.threeOps (by decide)
    ⟨List.nodup_nil,
     fun q => by
      have h : (Scenario.threeTracks.objs q).subscribedTrack = none := by
        by_cases h2 : q = 2
        · subst h2; decide
        · by_cases h1 : q = 1
          · subst h1; decide
          · by_cases h0 : q = 0
            · subst h0; decide
            · simp [Scenario.threeTracks, SubscriptionManager.SubscribeToTrack,
                SubscriptionManager.getOrCreate, SubscriptionManager.OnSubscribeStatusChanged,
                NewSubscriptionManager, mapGet, mapSet, mapDel, SubscriptionManager.store,
                SubscriptionManager.queueReconcile, trackSubscription.setDesired,
                trackSubscription.setPublisher, newTrackSubscription, h0, h1, h2]
      simp [h],
     fun pub l h => by
      have hs : Scenario.threeTracks.subscribedTo = [] := by decide
      rw [hs] at h
      simp [mapGet] at h,
     fun pub tid => by
      have hs : Scenario.threeTracks.subscribedTo = [] := by decide
      rw [hs]
      simp [mapGet],
     fun q hq => absurd hq (List.not_mem_nil _)⟩
    (by decide)).trans (by decide)

/-- C12 (as stated, refuted): a subscription whose stored permission is already false (one
refused attempt lies behind it) is refused again; this second `subscribe` returns
`ErrNoTrackPermission` and makes no call at all, so it registers no change observer, while
the first refusal did register one. -/
theorem permission_observer_counterexample :
    (Scenario.denied.objs 0).hasPermission = false ∧
    (Scenario.envDenied 3).resolver = Except.ok { Track := 7, HasPermission := false } ∧
    (Scenario.denied.subscribe 0 (Scenario.envDenied 3)).2.2
      = Outcome.failed SubError.ErrNoTrackPermission ∧
    (Scenario.denied.subscribe 0 (Scenario.envDenied 3)).2.1 = [] ∧
    (Scenario.wanted.subscribe 0 (Scenario.envDenied 0)).2.1
      = [Event.SubscriptionPermissionUpdate "pubID" "t" false,
         Event.AddChangeObserver 7 "t"] :=
  ⟨by decide, rfl, by decide, by decide, by decide⟩

/-- C12 (amended): when the participant may subscribe and the resolver reports
`HasPermission = false`, `subscribe` returns `ErrNoTrackPermission`, never calls
`AddSubscriber`, stores the permission as false, and registers the change observer on the
resolved track (its callback re-queues the subscription's track id) exactly when the stored
permission was true before the call; when it was false already, no call is made. -/
theorem no_permission_subscribe (m : SubscriptionManager) (s : Nat) (env : Env)
    (res : MediaResolverResult) (hcs : env.canSubscribe = true)
    (hres : env.resolver = Except.ok res) (hp : res.HasPermission = false) :
    (m.subscribe s env).2.2 = Outcome.failed SubError.ErrNoTrackPermission ∧
    (∀ track, Event.AddSubscriber track ∉ (m.subscribe s env).2.1) ∧
    ((m.subscribe s env).1.objs s).hasPermission = false ∧
    (m.subscribe s env).2.1
      = (if (m.objs s).hasPermission = true then
          [Event.SubscriptionPermissionUpdate (m.objs s).publisherID (m.objs s).trackID false,
           Event.AddChangeObserver res.Track (m.objs s).trackID]
         else []) ∧
    (Event.AddChangeObserver res.Track (m.objs s).trackID ∈ (m.subscribe s env).2.1
      ↔ (m.objs s).hasPermission = true) := by
  have hB : ∀ a : trackSubscription, ∀ t : Time,
      (a.startAttempt t).hasPermission = a.hasPermission ∧
      (a.startAttempt t).trackID = a.trackID ∧
      (a.startAttempt t).publisherID = a.publisherID := by
    intro a t
    unfold trackSubscription.startAttempt
    split <;> simp
  unfold subscribe
  cases hh : (m.objs s).hasPermission <;>
    simp [hcs, hres, hp, hh, hB, trackSubscription.setHasPermission,
      trackSubscription.getPublisherID]

/-- Witness for `no_permission_subscribe` (C12): the first refusal of the subscription `t`. -/
theorem no_permission_subscribe_witness :
    (Scenario.envDenied 0).canSubscribe = true ∧
    (Scenario.wanted.subscribe 0 (Scenario.envDenied 0)).2.2
      = Outcome.failed SubError.ErrNoTrackPermission ∧
    Event.AddChangeObserver 7 "t" ∈ (Scenario.wanted.subscribe 0 (Scenario.envDenied 0)).2.1 :=
  ⟨rfl,
   (no_permission_subscribe Scenario.wanted 0 (Scenario.envDenied 0)
      { Track := 7, HasPermission := false } rfl rfl rfl).1,
   (no_permission_subscribe Scenario.wanted 0 (Scenario.envDenied 0)
      { Track := 7, HasPermission := false } rfl rfl rfl).2.2.2.2.2 (by decide)⟩

/-- C13 (the failing input, evaluated): the subscription `t` has one failed attempt behind
it; `AddSubscriber` now answers `errAlreadySubscribed` with a nil track.  `subscribe` passes
the error check and calls `OnClose` on the nil track: it does not return, no track is
stored, and `reconcileSubscription` never reaches `recordAttempt`, so `numAttempts` stays
at 1.  Only when a track comes along with `errAlreadySubscribed` does the attempt end as a
success with the track stored and `numAttempts` reset. -/
theorem already_subscribed_nil_track :
    (Scenario.failedOnce.objs 0).numAttempts = 1 ∧
    (Scenario.envAlreadyNil 3).addSubscriber = (none, some SubError.errAlreadySubscribed) ∧
    (Scenario.failedOnce.subscribe 0 (Scenario.envAlreadyNil 3)).2.2 = Outcome.nilDeref ∧
    (Scenario.failedOnce.subscribe 0 (Scenario.envAlreadyNil 3)).2.1
      = [Event.AddSubscriber 7, Event.nilDereference] ∧
    ((Scenario.failedOnce.reconcileSubscription defaultTimeouts 0
        (Scenario.envAlreadyNil 3)).1.objs 0).subscribedTrack = none ∧
    ((Scenario.failedOnce.reconcileSubscription defaultTimeouts 0
        (Scenario.envAlreadyNil 3)).1.objs 0).numAttempts = 1 ∧
    (Scenario.failedOnce.subscribe 0 (Scenario.envAlreadySome 3)).2.2 = Outcome.ok ∧
    ((Scenario.failedOnce.reconcileSubscription defaultTimeouts 0
        (Scenario.envAlreadySome 3)).1.objs 0).subscribedTrack = some Scenario.subTrack ∧
    ((Scenario.failedOnce.reconcileSubscription defaultTimeouts 0
        (Scenario.envAlreadySome 3)).1.objs 0).numAttempts = 0 :=
  ⟨by decide, rfl, by decide, by decide, by decide, by decide, by decide, by decide,
   by decide⟩

/-- C14: attempt accounting.  For a reconcile that reaches `subscribe` with the counter in
the range of an `int32` below its maximum: a failed attempt adds exactly one to
`numAttempts`, a successful attempt sets it to 0, and `startAttempt` writes the start time
exactly when `numAttempts` is 0.  Hence after a run of consecutive failed attempts that
begins with `numAttempts = 0` the counter equals the length of the run and
`durationSinceStart` is the time elapsed since the clock value read at the first attempt of
the run. -/
theorem attempt_accounting (cfg : Timeouts) (m : SubscriptionManager) (s : Nat) (env : Env)
    (rest : List Env) (hc : m.canReconcile env = true)
    (hs : (m.objs s).needsSubscribe = true) (h0 : 0 ≤ (m.objs s).numAttempts)
    (h1 : (m.objs s).numAttempts + 1 < 2 ^ 31) :
    (∀ err, (m.subscribe s env).2.2 = Outcome.failed err →
      ((m.reconcileSubscription cfg s env).1.objs s).numAttempts
        = (m.objs s).numAttempts + 1) ∧
    ((m.subscribe s env).2.2 = Outcome.ok →
      ((m.reconcileSubscription cfg s env).1.objs s).numAttempts = 0) ∧
    ((m.subscribe s env).1.objs s).subStartedAt
      = (if (m.objs s).numAttempts = 0 then some env.now else (m.objs s).subStartedAt) ∧
    ((m.objs s).numAttempts = 0 → failedRun cfg m s (env :: rest) = true →
      (rest.length : Int) + 1 < 2 ^ 31 →
      ((reconcileRun cfg m s (env :: rest)).objs s).numAttempts = rest.length + 1 ∧
      ((reconcileRun cfg m s (env :: rest)).objs s).subStartedAt = some env.now ∧
      ∀ since, ((reconcileRun cfg m s (env :: rest)).objs s).durationSinceStart since
        = since - env.now) := by
  have hf := subscribe_frame m s env s
  refine ⟨?_, reconcile_ok_numAttempts cfg m s env hc hs, ?_, ?_⟩
  · intro err hr
    rw [(reconcile_failed_fields cfg m s env err hc hs hr).2.2.1]
    exact addInt32_succ _ h0 h1
  · rw [hf.2.2.2.1, if_pos rfl]
    unfold trackSubscription.startAttempt
    by_cases hz : (m.objs s).numAttempts = 0 <;> simp [hz]
  · intro hz hrun hlen
    obtain ⟨_, _, ⟨err, hr⟩, hrest⟩ := failedRun_cons cfg m s env rest hrun
    have hfld := reconcile_failed_fields cfg m s env err hc hs hr
    have hnum : ((m.reconcileSubscription cfg s env).1.objs s).numAttempts = 1 := by
      rw [hfld.2.2.1, hz]; rfl
    have hst : ((m.reconcileSubscription cfg s env).1.objs s).subStartedAt = some env.now := by
      rw [hfld.2.1]; exact startAttempt_first _ _ hz
    have hrn := failed_run cfg s env.now rest (m.reconcileSubscription cfg s env).1 1 hst hnum
      (by omega) (by omega) hrest
    simp only [reconcileRun]
    refine ⟨by rw [hrn.2]; omega, hrn.1, ?_⟩
    intro since
    unfold trackSubscription.durationSinceStart
    rw [hrn.1]

/-- Witness for `attempt_accounting` (C14):
three attempts of the subscription `t` at which `AddSubscriber` fails, at
times 0, 3 s and 6 s; the start time stays that of the first attempt. -/
theorem attempt_accounting_witness :
    ((reconcileRun defaultTimeouts Scenario.wanted 0
        [Scenario.envFails 0, Scenario.envFails (Scenario.sec 3),
         Scenario.envFails (Scenario.sec 6)]).objs 0).numAttempts = 3 ∧
    ((reconcileRun defaultTimeouts Scenario.wanted 0
        [Scenario.envFails 0, Scenario.envFails (Scenario.sec 3),
         Scenario.envFails (Scenario.sec 6)]).objs 0).subStartedAt = some 0 :=
  have h := (attempt_accounting defaultTimeouts Scenario.wanted 0 (Scenario.envFails 0)
    [Scenario.envFails (Scenario.sec 3), Scenario.envFails (Scenario.sec 6)]
    (by decide) (by decide) (by decide) (by decide)).2.2.2 (by decide) (by decide) (by decide)
  ⟨h.1, h.2.1⟩

/-- C15: `SubscribeToTrack` and `UnsubscribeFromTrack` are idempotent.  A second call with
the same arguments returns the manager of the first call unchanged (map, objects and
reconcile queue alike) and makes no call; and either operation changes the reconcile queue
only when it has changed the `desired` flag of the entry. -/
theorem subscribe_unsubscribe_idempotent (m : SubscriptionManager) (t : TrackID)
    (pi : ParticipantIdentity) (pid : ParticipantID) :
    (m.SubscribeToTrack t pi pid).1.SubscribeToTrack t pi pid
      = ((m.SubscribeToTrack t pi pid).1, []) ∧
    (m.UnsubscribeFromTrack t).1.UnsubscribeFromTrack t = ((m.UnsubscribeFromTrack t).1, []) ∧
    ((m.SubscribeToTrack t pi pid).1.reconcileCh ≠ m.reconcileCh →
      ((m.getOrCreate t).1.objs (m.getOrCreate t).2).desired = false ∧
      ((m.SubscribeToTrack t pi pid).1.objs (m.getOrCreate t).2).desired = true) ∧
    ((m.UnsubscribeFromTrack t).1.reconcileCh ≠ m.reconcileCh →
      ∃ p, mapGet m.subscriptions t = some p ∧ (m.objs p).desired = true ∧
        ((m.UnsubscribeFromTrack t).1.objs p).desired = false) := by
  have he := SubscribeToTrack_entry m t pi pid
  refine ⟨SubscribeToTrack_noop _ t pi pid _ he.1 he.2.1 he.2.2.1 he.2.2.2,
    UnsubscribeFromTrack_noop _ t (fun p hp => UnsubscribeFromTrack_entry m t p hp), ?_, ?_⟩
  · intro hne
    refine ⟨?_, he.2.1⟩
    cases hd : ((m.getOrCreate t).1.objs (m.getOrCreate t).2).desired
    · rfl
    · exfalso
      apply hne
      have hg : (m.getOrCreate t).1.reconcileCh = m.reconcileCh := by
        unfold getOrCreate
        split <;> rfl
      unfold SubscribeToTrack
      simp [trackSubscription.setDesired, trackSubscription.setPublisher, hd, hg]
  · intro hne
    cases hg : mapGet m.subscriptions t with
    | none =>
      exfalso
      apply hne
      unfold UnsubscribeFromTrack
      rw [hg]
    | some p =>
      refine ⟨p, rfl, ?_, ?_⟩
      · cases hd : (m.objs p).desired
        · exfalso
          apply hne
          unfold UnsubscribeFromTrack
          simp [hg, trackSubscription.setDesired, hd]
        · rfl
      · have hp : mapGet (m.UnsubscribeFromTrack t).1.subscriptions t = some p := by
          unfold UnsubscribeFromTrack
          simp only [hg]
          split <;> simp [hg]
        exact UnsubscribeFromTrack_entry m t p hp

/-- C16 (as stated, refuted): the manager whose one subscription `t` is desired and holds a
subscribed track that has not been bound.  No number of reconcile ticks, under whatever
environments, changes this manager: `desired` stays true and `bound` stays false, so
neither `desired == bound` nor `desired == false` is ever reached. -/
theorem bind_pending_counterexample :
    Scenario.subscribed.subscriptions = [("t", 0)] ∧
    ¬ ∃ ticks : List (Nat → Env),
      ((tickRun defaultTimeouts Scenario.subscribed ticks).objs 0).desired
        = ((tickRun defaultTimeouts Scenario.subscribed ticks).objs 0).bound ∨
      ((tickRun defaultTimeouts Scenario.subscribed ticks).objs 0).desired = false := by
  refine ⟨by decide, ?_⟩
  rintro ⟨ticks, h⟩
  rw [tickRun_fixed defaultTimeouts Scenario.subscribed "t" 0 (by decide) (by decide)
    (by decide) ticks] at h
  revert h
  decide

/-- C16 (amended): convergence of one subscription under reconciles alone.  The manager is
not closed; the attempt counter is 0, or at least 1 with a start time not after `t`; the
reconciles read clocks at least `d` apart, the first not before `t`; every environment lets
reconcile go ahead and makes `subscribe` succeed or fail with `ErrPublisherNotConnected` or
`ErrTrackNotFound`; and `N ≥ 1` reconcile intervals exceed `notFoundTimeout`.  Then within
`N + 1` reconciles the subscription is settled: `desired` is false or it holds a subscribed
track.  A settled subscription is left as it is by every further reconcile, and no
reconcile ever sets `bound`. -/
theorem reconcile_converges (cfg : Timeouts) (m : SubscriptionManager) (s : Nat)
    (envs : List Env) (t : Time) (d : Duration) (N : Nat)
    (hcl : m.closed = false)
    (hacc : (m.objs s).numAttempts = 0 ∨
      (1 ≤ (m.objs s).numAttempts ∧ ∃ t0, (m.objs s).subStartedAt = some t0 ∧ t0 ≤ t))
    (hov : (m.objs s).numAttempts + N + 1 < 2 ^ 31)
    (hN1 : 1 ≤ N) (hN : cfg.notFoundTimeout < N * d)
    (hticks : ticksFrom t d envs = true) (hgood : ∀ e ∈ envs, retriable e = true)
    (hlen : N + 1 ≤ envs.length) :
    (∃ j, j ≤ N + 1 ∧ settled ((reconcileRun cfg m s (envs.take j)).objs s) = true) ∧
    (∀ (m2 : SubscriptionManager) (l : List Env), settled (m2.objs s) = true →
      (reconcileRun cfg m2 s l).objs s = m2.objs s) ∧
    (∀ (m2 : SubscriptionManager) (l : List Env),
      ((reconcileRun cfg m2 s l).objs s).bound = true → (m2.objs s).bound = true) := by
  refine ⟨?_, fun m2 l h => run_settled cfg s l m2 h, fun m2 l h => run_bound cfg s l m2 h⟩
  rcases hacc with h0 | ⟨h1, t0, hst, ht0⟩
  · obtain ⟨n, rfl⟩ : ∃ n, N = n + 1 := ⟨N - 1, by omega⟩
    cases envs with
    | nil => simp at hlen
    | cons e r =>
      cases hset : settled (m.objs s)
      · have hsa := startAttempt_first (m.objs s) e.now h0
        simp only [ticksFrom, Bool.and_eq_true, decide_eq_true_eq] at hticks
        rcases converge_step cfg m s e e.now hcl hset hsa (hgood e (List.mem_cons_self _ _))
          with h | h
        · exact ⟨1, by omega, by simpa [reconcileRun] using h⟩
        · push_cast at hov hN
          have hnum : ((m.reconcileSubscription cfg s e).1.objs s).numAttempts = 1 := by
            rw [h.2.2.2.2, h0]; rfl
          have htime2 : cfg.notFoundTimeout < (e.now + d) - e.now + n * d := by
            have : ((n : Int) + 1) * d = n * d + d := by ring
            rw [this] at hN
            linarith
          rw [h0] at hov
          obtain ⟨j, hj, hsj⟩ := converge_started cfg s e.now d n r
            (m.reconcileSubscription cfg s e).1 1 (e.now + d) h.2.1 h.2.2.2.1 hnum
            (le_refl _) (by omega) htime2 hticks.2
            (fun x hx => hgood x (List.mem_cons_of_mem _ hx))
            (by simp only [List.length_cons] at hlen; omega)
          exact ⟨j + 1, by omega, by simpa [reconcileRun] using hsj⟩
      · exact ⟨0, Nat.zero_le _, by simpa [reconcileRun] using hset⟩
  · have htime : cfg.notFoundTimeout < t - t0 + N * d := by linarith
    exact converge_started cfg s t0 d N envs m _ t hcl hst rfl h1 hov htime hticks hgood hlen

/-- Witness for `reconcile_converges` (C16):
the subscription `t` of a track that is never found, reconciled at 0 s,
3 s and 6 s: two intervals of 3 s exceed the 5 s timeout, and it is settled within three
reconciles. -/
theorem reconcile_converges_witness :
    ∃ j, j ≤ 2 + 1 ∧ settled ((reconcileRun defaultTimeouts Scenario.wanted 0
      ([Scenario.envNotFound 0, Scenario.envNotFound (Scenario.sec 3),
        Scenario.envNotFound (Scenario.sec 6)].take j)).objs 0) = true :=
  (reconcile_converges defaultTimeouts Scenario.wanted 0
    [Scenario.envNotFound 0, Scenario.envNotFound (Scenario.sec 3),
      Scenario.envNotFound (Scenario.sec 6)] 0 (Scenario.sec 3) 2
    (by decide) (Or.inl (by decide)) (by decide) (by decide) (by decide) (by decide)
    (by decide) (by decide)).1

/-! ## Theorems on the forwarder -/

/-- C17 (as stated, refuted): the packets of `TestForwarderGetTranslationParamsAudio`.  The
forwarder answers as the test requires; the forwarded packets carry, in forwarding order,
the outbound sequence numbers 23333, 23334, 23336, 23335, 23337: source packet 23336
arrives after 23337 and is forwarded as `OutOfOrder` with 23335, behind the 23336 that was
forwarded before it. -/
theorem outbound_sn_order_counterexample :
    Sfu.newPacketForwarder.translate (Sfu.TestForwarderGetTranslationParamsAudio.map Prod.fst)
      = Sfu.TestForwarderGetTranslationParamsAudio.map Prod.snd ∧
    (Sfu.forwarded (Sfu.TestForwarderGetTranslationParamsAudio.map Prod.snd)).map
        (fun r => r.sequenceNumber) = [23333, 23334, 23336, 23335, 23337] ∧
    Sfu.chain Sfu.snAhead [23333, 23334, 23336, 23335, 23337] = false := by
  decide

/-- C17 (amended): for a forwarder whose munger is consistent once it has started (a new
forwarder is) and any sequence of packets, the outbound sequence numbers of the packets
forwarded in order (as `Contiguous` or `Gap`) are strictly increasing mod 2^16 in forwarding
order, beginning ahead of the last outbound sequence number; and if the source timestamps
of these packets do not go back (`tsInputOk`), their outbound timestamps do not go back
either. -/
theorem in_order_sn_increasing (f : Sfu.PacketForwarder) (pkts : List Sfu.ExtPacket)
    (hinv : f.started = true → f.rtpMunger.consistent) :
    Sfu.chain Sfu.snAhead ((if f.started = true then [f.rtpMunger.lastSN] else []) ++
      (Sfu.inOrder (f.translate pkts)).map (fun r => r.sequenceNumber)) = true ∧
    (Sfu.tsInputOk f pkts = true →
      Sfu.chain Sfu.tsNotBehind ((if f.started = true then [f.rtpMunger.lastTS] else []) ++
        (Sfu.inOrder (f.translate pkts)).map (fun r => r.timestamp)) = true) :=
  Sfu.translate_run pkts f hinv

/-- Witness for `in_order_sn_increasing` (C17):
the packets of the test; those forwarded in order carry 23333, 23334,
23336, 23337, and their timestamps do not go back. -/
theorem in_order_sn_increasing_witness :
    Sfu.chain Sfu.snAhead ([] ++ (Sfu.inOrder (Sfu.newPacketForwarder.translate
        (Sfu.TestForwarderGetTranslationParamsAudio.map Prod.fst))).map
          (fun r => r.sequenceNumber)) = true ∧
    Sfu.chain Sfu.tsNotBehind ([] ++ (Sfu.inOrder (Sfu.newPacketForwarder.translate
        (Sfu.TestForwarderGetTranslationParamsAudio.map Prod.fst))).map
          (fun r => r.timestamp)) = true ∧
    (Sfu.inOrder (Sfu.newPacketForwarder.translate
        (Sfu.TestForwarderGetTranslationParamsAudio.map Prod.fst))).map
          (fun r => r.sequenceNumber) = [23333, 23334, 23336, 23337] :=
  ⟨(in_order_sn_increasing Sfu.newPacketForwarder
      (Sfu.TestForwarderGetTranslationParamsAudio.map Prod.fst)
      (fun h => absurd h (by decide))).1,
   (in_order_sn_increasing Sfu.newPacketForwarder
      (Sfu.TestForwarderGetTranslationParamsAudio.map Prod.fst)
      (fun h => absurd h (by decide))).2 (by decide),
   by decide⟩

/-- C18 (as stated, refuted): `Mute(true)` then `PubMute(true)` and `PubMute(true)` then
`Mute(true)` leave the forwarder of the tests in the same state, muted and muted by the
publisher, for which the claim requires both `Muted` and `PubMuted`; the allocation that
`AllocateOptimal` returns has one pause reason, `Muted`, whatever the bitrates. -/
theorem mute_pause_reason_counterexample :
    ((Sfu.testForwarder.Mute true).1.PubMute true).1
      = ((Sfu.testForwarder.PubMute true).1.Mute true).1 ∧
    (∀ (brs : Sfu.Bitrates)
        (select : Sfu.Forwarder → List Int → Sfu.Bitrates → Bool → Sfu.VideoSelection),
      ((((Sfu.testForwarder.Mute true).1.PubMute true).1.AllocateOptimal [] brs true
        select).2.pauseReason = Sfu.VideoPauseReason.Muted)) :=
  ⟨by decide, fun _ _ => rfl⟩

/-- C18 (amended): for every forwarder state, bitrate matrix and selection rule, the
`AllocateOptimal` that follows `Mute(true)`, and likewise the one that follows
`PubMute(true)`, returns an allocation with invalid target layers and nothing requested, and
leaves the forwarder's target layers invalid.  Its pause reason is `Muted` after
`Mute(true)`; after `PubMute(true)` it is `PubMuted` unless the forwarder is also muted,
when it is `Muted`. -/
theorem mute_allocate_optimal (f : Sfu.Forwarder) (availableLayers : List Int)
    (brs : Sfu.Bitrates) (allowOvershoot : Bool)
    (select : Sfu.Forwarder → List Int → Sfu.Bitrates → Bool → Sfu.VideoSelection) :
    (((f.Mute true).1.AllocateOptimal availableLayers brs allowOvershoot select).2.targetLayers
        = Sfu.InvalidLayers ∧
     ((f.Mute true).1.AllocateOptimal availableLayers brs allowOvershoot
        select).2.bandwidthRequested = 0 ∧
     ((f.Mute true).1.AllocateOptimal availableLayers brs allowOvershoot select).1.targetLayers
        = Sfu.InvalidLayers ∧
     ((f.Mute true).1.AllocateOptimal availableLayers brs allowOvershoot select).2.pauseReason
        = Sfu.VideoPauseReason.Muted) ∧
    (((f.PubMute true).1.AllocateOptimal availableLayers brs allowOvershoot
        select).2.targetLayers = Sfu.InvalidLayers ∧
     ((f.PubMute true).1.AllocateOptimal availableLayers brs allowOvershoot
        select).2.bandwidthRequested = 0 ∧
     ((f.PubMute true).1.AllocateOptimal availableLayers brs allowOvershoot
        select).1.targetLayers = Sfu.InvalidLayers ∧
     ((f.PubMute true).1.AllocateOptimal availableLayers brs allowOvershoot
        select).2.pauseReason
        = (if f.muted = true then Sfu.VideoPauseReason.Muted
           else Sfu.VideoPauseReason.PubMuted)) := by
  cases hm : f.muted <;> cases hq : f.pubMuted <;>
    simp [Sfu.Forwarder.AllocateOptimal, Sfu.Forwarder.updateAllocation, Sfu.Forwarder.Mute,
      Sfu.Forwarder.PubMute, Sfu.Forwarder.pausedAllocation, hm, hq]

/-- C19 (as stated, refuted): the calls of `TestForwarderProvisionalAllocate`.  The test
requires the returns 1, 11, -8, 3, 0 of the first five calls and 0, 12, -4 of the calls
with overshoot; the rule of the claim returns 1, 0, 3, 3, 0 and 0, 12, 0: it refuses the
second call (12 > 12 - 1) and the last call of the overshoot part, both of which the test
requires to commit.  The modelled rule returns what the test requires. -/
theorem provisional_allocate_counterexample :
    Sfu.TestForwarderProvisionalAllocate_returns = [1, 11, -8, 3, 0] ∧
    Sfu.allocateAll Sfu.Forwarder.specProvisionalAllocate
      (Sfu.testForwarder.ProvisionalAllocatePrepare Sfu.fullBitrates)
      Sfu.TestForwarderProvisionalAllocate_calls = [1, 0, 3, 3, 0] ∧
    Sfu.allocateAll Sfu.Forwarder.ProvisionalAllocate
      (Sfu.testForwarder.ProvisionalAllocatePrepare Sfu.fullBitrates)
      Sfu.TestForwarderProvisionalAllocate_calls
        = Sfu.TestForwarderProvisionalAllocate_returns ∧
    Sfu.TestForwarderProvisionalAllocate_overshootReturns = [0, 12, -4] ∧
    Sfu.allocateAll Sfu.Forwarder.specProvisionalAllocate
      ((Sfu.testForwarder.SetMaxSpatialLayer 0).ProvisionalAllocatePrepare
        Sfu.overshootBitrates)
      Sfu.TestForwarderProvisionalAllocate_overshootCalls = [0, 12, 0] ∧
    Sfu.allocateAll Sfu.Forwarder.ProvisionalAllocate
      ((Sfu.testForwarder.SetMaxSpatialLayer 0).ProvisionalAllocatePrepare
        Sfu.overshootBitrates)
      Sfu.TestForwarderProvisionalAllocate_overshootCalls
        = Sfu.TestForwarderProvisionalAllocate_overshootReturns := by
  decide

/-- C19 (amended): on a forwarder that was not muted and had valid max layers and a published
layer when `ProvisionalAllocatePrepare` ran, a call of `ProvisionalAllocate` commits the
cell and returns `b - previous_committed` exactly when the cell has a bitrate (`b ≠ 0`), the
layer is not above max layers unless overshoot is allowed, and either the layer is not above
max layers and `b ≤ available + previous_committed`, or pausing is not allowed and nothing
is committed yet or the layer is not above the committed one; otherwise it returns 0 and
leaves the forwarder, the provisional selection included, unchanged. -/
theorem provisional_allocate_rule (f : Sfu.Forwarder) (available : Int)
    (layers : Sfu.VideoLayers) (allowPause allowOvershoot : Bool)
    (hm : f.provisional.muted = false) (hp : f.provisional.pubMuted = false)
    (hpub : f.provisional.maxPublishedLayer ≠ Sfu.InvalidLayerSpatial)
    (hmax : f.provisional.maxLayers.IsValid = true) :
    ((decide (f.provisional.bitrates.cell layers.Spatial layers.Temporal ≠ 0) &&
      (allowOvershoot || !layers.GreaterThan f.provisional.maxLayers) &&
      ((!layers.GreaterThan f.provisional.maxLayers &&
          decide (f.provisional.bitrates.cell layers.Spatial layers.Temporal
            ≤ available + f.committedBitrate)) ||
       (!allowPause && (!f.provisional.allocatedLayers.IsValid ||
          !layers.GreaterThan f.provisional.allocatedLayers)))) = true →
      f.ProvisionalAllocate available layers allowPause allowOvershoot
        = ({ f with provisional := { f.provisional with allocatedLayers := layers } },
           f.provisional.bitrates.cell layers.Spatial layers.Temporal - f.committedBitrate)) ∧
    ((decide (f.provisional.bitrates.cell layers.Spatial layers.Temporal ≠ 0) &&
      (allowOvershoot || !layers.GreaterThan f.provisional.maxLayers) &&
      ((!layers.GreaterThan f.provisional.maxLayers &&
          decide (f.provisional.bitrates.cell layers.Spatial layers.Temporal
            ≤ available + f.committedBitrate)) ||
       (!allowPause && (!f.provisional.allocatedLayers.IsValid ||
          !layers.GreaterThan f.provisional.allocatedLayers)))) = false →
      f.ProvisionalAllocate available layers allowPause allowOvershoot = (f, 0)) := by
  unfold Sfu.Forwarder.ProvisionalAllocate
  simp only [hm, hp, hmax, hpub, decide_False, Bool.or_false, Bool.false_or, Bool.not_true]
  by_cases hb : f.provisional.bitrates.cell layers.Spatial layers.Temporal = 0
  · cases allowOvershoot <;> cases layers.GreaterThan f.provisional.maxLayers <;>
      simp [hb]
  · cases allowOvershoot <;> cases hg : layers.GreaterThan f.provisional.maxLayers <;>
      cases allowPause <;> cases f.provisional.allocatedLayers.IsValid <;>
      cases layers.GreaterThan f.provisional.allocatedLayers <;>
      by_cases hfit : f.provisional.bitrates.cell layers.Spatial layers.Temporal
        ≤ available + f.committedBitrate <;>
      simp [hb, hfit]

/-- Witness for `provisional_allocate_rule` (C19):
the second call of the test, `(12, (2, 3))` with `(0, 0)` committed at
bitrate 1: the cell is committed and 11 is returned. -/
theorem provisional_allocate_rule_witness :
    (((Sfu.testForwarder.ProvisionalAllocatePrepare Sfu.fullBitrates).ProvisionalAllocate 12
        { Spatial := 0, Temporal := 0 } true false).1.ProvisionalAllocate 12
        { Spatial := 2, Temporal := 3 } true false).2 = 11 :=
  (congrArg Prod.snd ((provisional_allocate_rule
    ((Sfu.testForwarder.ProvisionalAllocatePrepare Sfu.fullBitrates).ProvisionalAllocate 12
      { Spatial := 0, Temporal := 0 } true false).1 12 { Spatial := 2, Temporal := 3 }
    true false (by decide) (by decide) (by decide) (by decide)).1 (by decide))).trans
    (by decide)

/-- C20 (as stated, refuted): allocations that `forwarder_test.go` requires and the modelled
operations return.  The allocation of the first move of `TestForwarderAllocateNextHigher`
(target `(0, 1)`, max layers `(2, 3)`, no pause) has `distanceToDesired = 3`, the formula
gives 10; the allocation of `Pause` in `TestForwarderPause` (invalid target, max layers
`(2, 3)`, paused for `Bandwidth`) has `distanceToDesired = 12`, the formula gives 16.  For
the first commit of `TestForwarderProvisionalAllocate`, whose bitrates have no empty cell,
both are 5. -/
theorem distance_formula_counterexample :
    ((Sfu.TestForwarderAllocateNextHigher_state.AllocateNextHigher 1000000 Sfu.sparseBitrates
        false (fun _ _ _ _ => some Sfu.TestForwarderAllocateNextHigher_pick)).2.1
        = Sfu.TestForwarderAllocateNextHigher_expectedResult ∧
     Sfu.TestForwarderAllocateNextHigher_expectedResult.pauseReason = Sfu.VideoPauseReason.None ∧
     Sfu.TestForwarderAllocateNextHigher_expectedResult.distanceToDesired = 3 ∧
     Sfu.specDistanceToDesired Sfu.TestForwarderAllocateNextHigher_expectedResult = 10) ∧
    (((Sfu.TestForwarderPause_state false).Pause Sfu.fullBitrates).2
        = Sfu.TestForwarderPause_expectedResult ∧
     Sfu.TestForwarderPause_expectedResult.pauseReason = Sfu.VideoPauseReason.Bandwidth ∧
     Sfu.TestForwarderPause_expectedResult.distanceToDesired = 12 ∧
     Sfu.specDistanceToDesired Sfu.TestForwarderPause_expectedResult = 16) ∧
    ((Sfu.TestForwarderProvisionalAllocate_state.ProvisionalAllocateCommit
        Sfu.Forwarder.committedSelection).2
        = Sfu.TestForwarderProvisionalAllocate_expectedResult ∧
     Sfu.TestForwarderProvisionalAllocate_expectedResult.distanceToDesired = 5 ∧
     Sfu.specDistanceToDesired Sfu.TestForwarderProvisionalAllocate_expectedResult = 5) := by
  decide

/-- C20 (amended): the allocation that `AllocateOptimal` or `Pause` returns, the one that
`ProvisionalAllocateCommit` returns after `ProvisionalAllocatePrepare` and any calls of
`ProvisionalAllocate`, and the one that `AllocateNextHigher` returns when it boosts, follow
`DistanceRule` for the mute flags and the max published layer of the forwarder (for the
commit: at the time of `ProvisionalAllocatePrepare`).  That is, `distanceToDesired` is 0
when the forwarder is muted, muted by the publisher or has no published layer; otherwise,
for a target that is a cell with a bitrate not above max layers, it is the number of cells
with a bitrate between the target and max layers, which is the value of the specification's
formula if all these cells have a bitrate and `MaxTemporal` is the max temporal layer, and
less if one has none; for an invalid target it is the number of cells with a bitrate up to
max layers; and it is negative when the target is a cell with a bitrate in a spatial layer
above max layers.  When `AllocateNextHigher` does not boost it returns the last
allocation. -/
theorem distance_to_desired_rule (f : Sfu.Forwarder) (availableLayers : List Int)
    (brs : Sfu.Bitrates) (allowOvershoot : Bool) (additionalCapacity : Int)
    (calls : List (Int × Sfu.VideoLayers × Bool × Bool))
    (select : Sfu.Forwarder → List Int → Sfu.Bitrates → Bool → Sfu.VideoSelection)
    (commit : Sfu.Forwarder → Sfu.VideoSelection)
    (pick : Sfu.Forwarder → Int → Sfu.Bitrates → Bool → Option Sfu.VideoSelection) :
    Sfu.DistanceRule f.muted f.pubMuted f.maxPublishedLayer
      (f.AllocateOptimal availableLayers brs allowOvershoot select).2 ∧
    Sfu.DistanceRule f.muted f.pubMuted f.maxPublishedLayer
      ((Sfu.provisionalAllocateAll (f.ProvisionalAllocatePrepare brs)
        calls).ProvisionalAllocateCommit commit).2 ∧
    ((f.AllocateNextHigher additionalCapacity brs allowOvershoot pick).2.2 = true →
      Sfu.DistanceRule f.muted f.pubMuted f.maxPublishedLayer
        (f.AllocateNextHigher additionalCapacity brs allowOvershoot pick).2.1) ∧
    ((f.AllocateNextHigher additionalCapacity brs allowOvershoot pick).2.2 = false →
      (f.AllocateNextHigher additionalCapacity brs allowOvershoot pick).2.1
        = f.lastAllocation) ∧
    Sfu.DistanceRule f.muted f.pubMuted f.maxPublishedLayer (f.Pause brs).2 := by
  refine ⟨Sfu.distanceRule_of_eq _ _ _ _ (Sfu.allocateOptimal_distance f _ _ _ _), ?_,
    fun hb => ?_, fun hb => ?_, Sfu.distanceRule_of_eq _ _ _ _ (Sfu.pause_distance f brs)⟩
  · obtain ⟨h1, h2, h3⟩ :=
      Sfu.provisionalAllocateAll_snapshot calls (f.ProvisionalAllocatePrepare brs)
    have hd := Sfu.commit_distance
      (Sfu.provisionalAllocateAll (f.ProvisionalAllocatePrepare brs) calls) commit
    rw [h1, h2, h3] at hd
    exact Sfu.distanceRule_of_eq _ _ _ _ hd
  · rcases Sfu.nextHigher_cases f additionalCapacity brs allowOvershoot pick with
      ⟨h, _, _⟩ | ⟨_, sel, h⟩
    · rw [h] at hb; exact Bool.noConfusion hb
    · rw [h]; exact Sfu.distanceRule_of_eq _ _ _ _ rfl
  · rcases Sfu.nextHigher_cases f additionalCapacity brs allowOvershoot pick with
      ⟨_, h, _⟩ | ⟨h, _, _⟩
    · exact h
    · rw [h] at hb; exact Bool.noConfusion hb

/-- Witness for `distance_to_desired_rule` (C20): the first move of
`TestForwarderAllocateNextHigher` boosts; the target `(0, 1)` has a bitrate and lies below
max layers `(2, 3)`, three of the ten cells between them have a bitrate, and the distance is
3, which is less than the 10 of the formula. -/
theorem distance_to_desired_rule_witness :
    (Sfu.TestForwarderAllocateNextHigher_state.AllocateNextHigher 1000000 Sfu.sparseBitrates
        false (fun _ _ _ _ => some Sfu.TestForwarderAllocateNextHigher_pick)).2.2 = true ∧
    (Sfu.TestForwarderAllocateNextHigher_state.AllocateNextHigher 1000000 Sfu.sparseBitrates
        false (fun _ _ _ _ => some Sfu.TestForwarderAllocateNextHigher_pick)).2.1.distanceToDesired
      = 3 ∧
    (Sfu.TestForwarderAllocateNextHigher_state.AllocateNextHigher 1000000 Sfu.sparseBitrates
        false (fun _ _ _ _ => some Sfu.TestForwarderAllocateNextHigher_pick)).2.1.distanceToDesired
      < 10 :=
  ⟨by decide,
   Eq.trans
     ((((distance_to_desired_rule Sfu.TestForwarderAllocateNextHigher_state []
        Sfu.sparseBitrates false 1000000 []
        (fun _ _ _ _ => Sfu.TestForwarderAllocateNextHigher_pick)
        Sfu.Forwarder.committedSelection
        (fun _ _ _ _ => some Sfu.TestForwarderAllocateNextHigher_pick)).2.2.1 (by decide)).2
        (by decide) (by decide) (by decide)).1 (by decide) (by decide) (by decide) (by decide)
        (by decide)).1
     (by decide),
   lt_of_lt_of_eq
     ((((((distance_to_desired_rule Sfu.TestForwarderAllocateNextHigher_state []
        Sfu.sparseBitrates false 1000000 []
        (fun _ _ _ _ => Sfu.TestForwarderAllocateNextHigher_pick)
        Sfu.Forwarder.committedSelection
        (fun _ _ _ _ => some Sfu.TestForwarderAllocateNextHigher_pick)).2.2.1 (by decide)).2
        (by decide) (by decide) (by decide)).1 (by decide) (by decide) (by decide) (by decide)
        (by decide)).2 (by decide)).2.2 ⟨(1, 1), by decide, by decide⟩)
     (by decide)⟩

/-! ## Theorems on restarts of `WrapAround` -/

/-- C22: on an initialised counter whose `T` is narrower than `ET`, `Update v` reports a
restart exactly when `v` is a duplicate or out-of-order value (raw gap `0` or above half the
range), at most half the range was seen (`GetExtendedHighest - GetExtendedStart + 1`,
computed in `ET` as the code does, is at most half the range) and `v` lies before the start;
a restart moves the start to `v` and reports the previous extended start, and without a
restart the start is unchanged. -/
theorem restart_iff (tb eb : Nat) (hT : tb < eb) (w : WrapAround tb eb) (v : Nat)
    (hwf : w.WF) (hi : w.initialized = true) :
    ((w.Update v).2.IsRestart = true ↔
      (subW tb v w.highest = 0 ∨ 2 ^ tb / 2 < subW tb v w.highest) ∧
      addW eb (subW eb w.GetExtendedHighest w.GetExtendedStart) 1 ≤ 2 ^ tb / 2 ∧
      2 ^ tb / 2 < subW tb v w.start) ∧
    ((w.Update v).2.IsRestart = true →
      (w.Update v).1.start = v ∧ (w.Update v).2.PreExtendedStart = w.GetExtendedStart) ∧
    ((w.Update v).2.IsRestart = false → (w.Update v).1.start = w.start) := by
  have hfr : w.fullRange = 2 ^ tb := by rw [hwf.1, fullRange_of_lt hT]
  have h1 : w.fullRange >>> 1 = 2 ^ tb / 2 := by rw [hfr, shiftRight_one]
  have h2 : conv tb (w.fullRange >>> 1) = 2 ^ tb / 2 := by
    rw [h1]; exact conv_of_lt (half_lt tb)
  by_cases hg : subW tb v w.highest = 0 ∨ conv tb (w.fullRange >>> 1) < subW tb v w.highest
  · obtain ⟨m1, m2⟩ := maybeAdjustStart_restart w v
    have m3 := maybeAdjustStart_frame w v
    rw [h2, h1] at m1
    rw [update_outOfOrder w v hi hg]
    rw [h2] at hg
    simp only []
    refine ⟨⟨fun h => ⟨hg, m1.mp h⟩, fun h => m1.mpr h.2⟩, m2, fun h => ?_⟩
    rw [m3 h]
  · have hc : (subW tb v w.highest == 0 ||
        decide (subW tb v w.highest > conv tb (w.fullRange >>> 1))) = false := by
      simp only [Bool.or_eq_false_iff, beq_eq_false_iff_ne, decide_eq_false_iff_not]
      exact ⟨fun h0 => hg (Or.inl h0), fun h3 => hg (Or.inr h3)⟩
    rw [h2] at hg
    simp only [Update, hi, Bool.not_true, Bool.false_eq_true, if_false, hc]
    refine ⟨⟨fun h => absurd h (by simp), fun h => absurd h.1 hg⟩, fun h => absurd h (by simp), ?_⟩
    intro _
    split_ifs <;> rfl


/-- C23 (the failing input, evaluated): a `WrapAround[uint16, uint32]` that started at 0
and counted up to the maximum of `uint32`, which `Update` calls alone reach without
overflow, has seen the whole extended range, yet the count `highest - start + 1` of
`maybeAdjustStart` wraps to 0 in `uint32` and passes for "not seen more than half the range
yet": the late value 40000 is taken for a restart; `RollbackRestart` of the reported start 0
then takes one full range off `cycles`, which the restart had not changed. -/
theorem rollback_at_maximum :
    UpdateReachable atMaximum ∧
    (atMaximum.start = 0 ∧ atMaximum.highest = 65535 ∧ atMaximum.cycles = 4294901760 ∧
      atMaximum.GetExtendedHighest = 4294967295) ∧
    (atMaximum.Update 40000).2.IsRestart = true ∧
    (atMaximum.Update 40000).2.PreExtendedStart = 0 ∧
    (atMaximum.Update 40000).1.cycles = 4294901760 ∧
    ((atMaximum.Update 40000).1.RollbackRestart
      (atMaximum.Update 40000).2.PreExtendedStart).cycles = 4294836224 :=
  ⟨countedTo_reachable 4294967295 (by decide), by decide, by decide, by decide, by decide,
   by decide⟩

/-- Rollback away from the maximum of `ET`: on a state reached from a fresh counter by
`Update` calls alone without overflow of the extended counter, unless the extended highest
is the maximum of `ET` and the start is 0, a restarting `Update v` followed by `RollbackRestart` of the reported
`PreExtendedStart` gives back the state before that `Update` (start, highest and cycles
included). -/
theorem rollback_undoes_restart (tb eb : Nat) (hT : tb < eb) (w : WrapAround tb eb) (v : Nat)
    (hr : UpdateReachable w) (hcorner : ¬ (w.GetExtendedHighest + 1 = 2 ^ eb ∧ w.start = 0))
    (hv : v < 2 ^ tb) (hres : (w.Update v).2.IsRestart = true) :
    (w.Update v).1.RollbackRestart (w.Update v).2.PreExtendedStart = w := by
  obtain ⟨hI, hfr, hs, hh, hcR, hRE, hle, htri, hpar, p2, htot, hD, hG, _⟩ :=
    reach_facts hT w v hr hv
  rw [getExtendedHighest_eq w (inv_no_overflow (le_of_lt hT) hI)] at hcorner
  obtain ⟨hi, hg⟩ := restart_cond w v hres
  have hPQ : 2 ^ tb < 2 ^ eb := Nat.pow_lt_pow_right (by norm_num) hT
  have hE := update_dupOoo_eq hT w v hI hv hi hg
  rw [hE] at hres ⊢
  rw [p2] at hg
  have hRR : subW eb (2 ^ tb) (2 ^ tb) = 0 := by
    rw [subW_of_le hPQ (le_refl _)]; exact Nat.sub_self _
  split_ifs at hres ⊢ with h1 h2
  · have e := rollbackRestart_eq hT ({ w with cycles := 2 ^ tb, start := v }) w.start hfr hv hs
    simp only [] at e ⊢
    rw [e, hRR]
    obtain ⟨fr, ini, s, h, c⟩ := w
    simp only [] at *
    simp only [WrapAround.mk.injEq, true_and]
    split_ifs <;> omega
  · have e := rollbackRestart_eq hT ({ w with start := v }) w.start hfr hv hs
    simp only [] at e ⊢
    rw [e]
    obtain ⟨fr, ini, s, h, c⟩ := w
    simp only [] at *
    simp only [WrapAround.mk.injEq, true_and]
    split_ifs <;> omega

/-- C24: on an initialised state reached from a fresh counter by `Update` calls alone
without overflow of the extended counter, an out-of-order value `v` (raw gap above half the
range) leaves the raw highest unchanged, and the reported `ExtendedVal` is the extended
highest after the call minus the raw distance `highest - v`, a subtraction that does not
underflow; so `ExtendedVal` is strictly below the extended highest. -/
theorem out_of_order_extended_val (tb eb : Nat) (hT : tb < eb) (w : WrapAround tb eb) (v : Nat)
    (hr : UpdateReachable w) (hi : w.initialized = true) (hv : v < 2 ^ tb)
    (hgap : 2 ^ tb / 2 < subW tb v w.highest) :
    (w.Update v).1.highest = w.highest ∧
    subW tb w.highest v ≤ (w.Update v).1.GetExtendedHighest ∧
    (w.Update v).2.ExtendedVal = (w.Update v).1.GetExtendedHighest - subW tb w.highest v ∧
    (w.Update v).2.ExtendedVal < (w.Update v).1.GetExtendedHighest := by
  obtain ⟨hI, hfr, hs, hh, hcR, hRE, hle, htri, hpar, p2, htot, hD, hG, hB⟩ :=
    reach_facts hT w v hr hv
  have hg : subW tb v w.highest = 0 ∨ conv tb (w.fullRange >>> 1) < subW tb v w.highest := by
    rw [p2]; exact Or.inr hgap
  have g1 : w.GetExtendedHighest = w.cycles + w.highest :=
    getExtendedHighest_eq w (by omega)
  have g2 : ({ w with cycles := 2 ^ tb, start := v } : WrapAround tb eb).GetExtendedHighest
      = 2 ^ tb + w.highest := by
    have hlt : 2 ^ tb + w.highest < 2 ^ eb := by omega
    exact getExtendedHighest_eq { w with cycles := 2 ^ tb, start := v } hlt
  have g3 : ({ w with start := v } : WrapAround tb eb).GetExtendedHighest
      = w.cycles + w.highest := by
    have hlt : w.cycles + w.highest < 2 ^ eb := by omega
    exact getExtendedHighest_eq { w with start := v } hlt
  rw [update_dupOoo_eq hT w v hI hv hi hg]
  simp only [apply_ite Prod.fst, apply_ite Prod.snd, apply_ite WrapAround.highest,
    apply_ite WrapAround.GetExtendedHighest, apply_ite WrapAroundUpdateResult.ExtendedVal, g1, g2, g3]
  clear g1 g2 g3 hr hI hi hg hT hfr
  split_ifs <;> omega

/-- C25 (the failing input, evaluated): a `WrapAround[uint16, uint32]` that started at 0
and counted up to the maximum of `uint32`, which `Update` calls alone reach without
overflow, has seen the whole extended range, yet the count `highest - start + 1` of
`maybeAdjustStart` wraps to 0 in `uint32` and passes for "not seen more than half the range
yet": a second `Update` of its highest 65535 is taken for a restart and moves the start to
65535. -/
theorem duplicate_at_maximum :
    UpdateReachable atMaximum ∧
    (atMaximum.initialized = true ∧ atMaximum.start = 0 ∧ atMaximum.highest = 65535 ∧
      atMaximum.GetExtendedHighest = 4294967295) ∧
    atMaximum.totalNum = 0 ∧
    (atMaximum.Update 65535).2.IsRestart = true ∧
    (atMaximum.Update 65535).1.start = 65535 :=
  ⟨countedTo_reachable 4294967295 (by decide), by decide, by decide, by decide, by decide⟩

/-- Duplicates away from the maximum of `ET`: on an initialised state reached from a fresh
counter by `Update` calls alone without overflow of the extended counter, unless the
extended highest is the maximum of `ET` and the start is 0, `Update` of the current highest is a no-op: the state (start,
highest and cycles included) is unchanged, no restart is reported, and `ExtendedVal` and
`PreExtendedHighest` are both the extended highest. -/
theorem duplicate_update_noop (tb eb : Nat) (hT : tb < eb) (w : WrapAround tb eb)
    (hr : UpdateReachable w) (hcorner : ¬ (w.GetExtendedHighest + 1 = 2 ^ eb ∧ w.start = 0))
    (hi : w.initialized = true) :
    (w.Update w.highest).1 = w ∧
    (w.Update w.highest).2.IsRestart = false ∧
    (w.Update w.highest).2.ExtendedVal = (w.Update w.highest).2.PreExtendedHighest ∧
    (w.Update w.highest).2.PreExtendedHighest = w.GetExtendedHighest := by
  have hh0 : w.highest < 2 ^ tb := (inv_of_updateReachable hT hr).1.1.2.2.1
  obtain ⟨hI, hfr, hs, hh, hcR, hRE, hle, htri, hpar, p2, htot, hD, hG, hB⟩ :=
    reach_facts hT w w.highest hr hh0
  have hg : subW tb w.highest w.highest = 0 ∨
      conv tb (w.fullRange >>> 1) < subW tb w.highest w.highest := by
    left; rw [subW_of_le hh (le_refl _)]; exact Nat.sub_self _
  have g1 : w.GetExtendedHighest = w.cycles + w.highest :=
    getExtendedHighest_eq w (by omega)
  rw [g1] at hcorner
  have hc : 2 ^ tb / 2 < w.totalNum ∨ ¬ 2 ^ tb / 2 < subW tb w.highest w.start := by
    clear hr hI hi hg hT hfr g1
    omega
  have hn : ¬ (w.highest < 2 ^ tb / 2 ∧ 2 ^ tb / 2 ≤ w.highest) := by omega
  rw [update_dupOoo_eq hT w w.highest hI hh0 hi hg, if_pos hc, g1]
  simp only [hn, if_false, and_self]

/-- C26: in every state reached from a fresh counter by `Update` calls alone without
overflow of the extended counter, the extended start does not exceed the extended highest;
with `cycles = 0` the raw start does not exceed the raw highest; and a restart across the
raw wrap boundary (highest in the lower half, the new start in the upper half) sets `cycles`
to one full range, which keeps the new start below the extended highest. -/
theorem extended_start_le_highest (tb eb : Nat) (hT : tb < eb) (w : WrapAround tb eb)
    (hr : UpdateReachable w) :
    w.GetExtendedStart ≤ w.GetExtendedHighest ∧
    (w.cycles = 0 → w.start ≤ w.highest) ∧
    (∀ v, v < 2 ^ tb → (w.Update v).2.IsRestart = true →
      w.highest < 2 ^ tb / 2 → 2 ^ tb / 2 ≤ v →
      (w.Update v).1.cycles = 2 ^ tb ∧
      (w.Update v).1.GetExtendedStart < (w.Update v).1.GetExtendedHighest) := by
  obtain ⟨hI, ho⟩ := inv_of_updateReachable hT hr
  have hno := inv_no_overflow (le_of_lt hT) hI
  have hPQ : 2 ^ tb < 2 ^ eb := Nat.pow_lt_pow_right (by norm_num) hT
  have hPQ2 : 2 * 2 ^ tb ≤ 2 ^ eb := by
    rw [Nat.mul_comm, ← pow_succ]
    exact Nat.pow_le_pow_right (by norm_num) hT
  have hs := hI.1.2.1
  have hh := hI.1.2.2.1
  unfold Ordered at ho
  refine ⟨?_, ?_, ?_⟩
  · rw [getExtendedHighest_eq w hno]
    unfold GetExtendedStart
    rw [conv_of_lt (lt_trans hs hPQ)]
    exact ho
  · intro hc
    rw [hc, Nat.zero_add] at ho
    exact ho
  · intro v hv hres hlo hhi
    obtain ⟨hini, hg⟩ := restart_cond w v hres
    have g2 : ({ w with cycles := 2 ^ tb, start := v } : WrapAround tb eb).GetExtendedHighest
        = 2 ^ tb + w.highest := by
      have hlt : 2 ^ tb + w.highest < 2 ^ eb := by omega
      exact getExtendedHighest_eq { w with cycles := 2 ^ tb, start := v } hlt
    have hE := update_dupOoo_eq hT w v hI hv hini hg
    rw [hE] at hres ⊢
    split_ifs at hres ⊢ with h1 h2
    · simp only [g2, GetExtendedStart, conv_of_lt (lt_trans hv hPQ)]
      exact ⟨trivial, by omega⟩
    · exact absurd ⟨hlo, hhi⟩ h2

/-- Witness for `restart_iff` (C22): in `uint16` space, extended to `uint32`, the value pairs
`(10, 65530)`, `(10, 9)` and `(65530, 65528)` each restart on their second value; for the
first pair the start becomes `65530` and the previous extended start `10` is reported. -/
theorem restart_iff_witness :
    (((NewWrapAround 16 32).Update 10).1.Update 65530).2.IsRestart = true ∧
    (((NewWrapAround 16 32).Update 10).1.Update 65530).1.start = 65530 ∧
    (((NewWrapAround 16 32).Update 10).1.Update 65530).2.PreExtendedStart = 10 ∧
    ((NewWrapAround 16 32).updates [10, 9]).2.map WrapAroundUpdateResult.IsRestart
      = [false, true] ∧
    ((NewWrapAround 16 32).updates [65530, 65528]).2.map WrapAroundUpdateResult.IsRestart
      = [false, true] :=
  ⟨(restart_iff 16 32 (by decide) ((NewWrapAround 16 32).Update 10).1 65530 (by decide)
      (by decide)).1.mpr (by decide),
   by decide, by decide, by decide, by decide⟩

/-- Witness for `rollback_undoes_restart`: after `Update 10`, the restarting
`Update 65530` followed by `RollbackRestart 10` gives back the state after `Update 10`. -/
theorem rollback_undoes_restart_witness :
    ((((NewWrapAround 16 32).Update 10).1.Update 65530).1.RollbackRestart
        (((NewWrapAround 16 32).Update 10).1.Update 65530).2.PreExtendedStart
      = ((NewWrapAround 16 32).Update 10).1) ∧
    (((NewWrapAround 16 32).Update 10).1.Update 65530).1.cycles = 65536 ∧
    ((NewWrapAround 16 32).Update 10).1.cycles = 0 :=
  ⟨rollback_undoes_restart 16 32 (by decide) ((NewWrapAround 16 32).Update 10).1 65530
      (UpdateReachable.update _ 10 UpdateReachable.new (by decide) (by decide))
      (by decide) (by decide) (by decide),
   by decide, by decide⟩

/-- Witness for `out_of_order_extended_val` (C24): after `Update 65530` and `Update 5` (one
wrap of the raw value) the late value `65533` is extended to `65533`, which is `8` below the
extended highest `65541`. -/
theorem out_of_order_extended_val_witness :
    ((((NewWrapAround 16 32).Update 65530).1.Update 5).1.Update 65533).2.ExtendedVal = 65533 ∧
    ((((NewWrapAround 16 32).Update 65530).1.Update 5).1.Update 65533).1.GetExtendedHighest
      = 65541 ∧
    ((((NewWrapAround 16 32).Update 65530).1.Update 5).1.Update 65533).2.ExtendedVal
      < ((((NewWrapAround 16 32).Update 65530).1.Update 5).1.Update 65533).1.GetExtendedHighest :=
  ⟨by decide, by decide,
   (out_of_order_extended_val 16 32 (by decide)
      (((NewWrapAround 16 32).Update 65530).1.Update 5).1 65533
      (UpdateReachable.update _ 5
        (UpdateReachable.update _ 65530 UpdateReachable.new (by decide) (by decide))
        (by decide) (by decide))
      (by decide) (by decide) (by decide)).2.2.2⟩

/-- Witness for `duplicate_update_noop`: after `Update 10`, a second `Update 10`
changes nothing and reports the extended value `10` without a restart. -/
theorem duplicate_update_noop_witness :
    (((NewWrapAround 16 32).Update 10).1.Update 10).1 = ((NewWrapAround 16 32).Update 10).1 ∧
    (((NewWrapAround 16 32).Update 10).1.Update 10).2.IsRestart = false ∧
    (((NewWrapAround 16 32).Update 10).1.Update 10).2.ExtendedVal = 10 :=
  ⟨(duplicate_update_noop 16 32 (by decide) ((NewWrapAround 16 32).Update 10).1
      (UpdateReachable.update _ 10 UpdateReachable.new (by decide) (by decide))
      (by decide) (by decide)).1,
   by decide, by decide⟩

/-- Witness for `extended_start_le_highest` (C26): in `uint16` space, `Update 10` then
`Update 65530` restarts across the raw wrap boundary; `cycles` becomes `65536`, so that the
extended start `65530` stays below the extended highest `65546`. -/
theorem extended_start_le_highest_witness :
    ((NewWrapAround 16 32).Update 10).1.GetExtendedStart
      ≤ ((NewWrapAround 16 32).Update 10).1.GetExtendedHighest ∧
    ((((NewWrapAround 16 32).Update 10).1.Update 65530).1.cycles = 2 ^ 16 ∧
      (((NewWrapAround 16 32).Update 10).1.Update 65530).1.GetExtendedStart
        < (((NewWrapAround 16 32).Update 10).1.Update 65530).1.GetExtendedHighest) ∧
    (((NewWrapAround 16 32).Update 10).1.Update 65530).1.GetExtendedStart = 65530 ∧
    (((NewWrapAround 16 32).Update 10).1.Update 65530).1.GetExtendedHighest = 65546 :=
  ⟨(extended_start_le_highest 16 32 (by decide) ((NewWrapAround 16 32).Update 10).1
      (UpdateReachable.update _ 10 UpdateReachable.new (by decide) (by decide))).1,
   (extended_start_le_highest 16 32 (by decide) ((NewWrapAround 16 32).Update 10).1
      (UpdateReachable.update _ 10 UpdateReachable.new (by decide) (by decide))).2.2
      65530 (by decide) (by decide) (by decide) (by decide),
   by decide, by decide⟩

/-! ## Theorems on the reconcile predicates of `trackSubscription` -/

/-- C27: for every `trackSubscription`, `needsSubscribe` holds iff it is desired and has no
subscribed track, `needsUnsubscribe` iff it is not desired and has a subscribed track, and
`needsBind` iff it is desired, has a subscribed track and is not bound; the three are
pairwise exclusive, and none of them holds exactly when the subscription is (not desired and
without subscribed track) or (desired, with subscribed track and bound). -/
theorem needs_predicates (s : trackSubscription) :
    (s.needsSubscribe = true ↔ s.desired = true ∧ s.subscribedTrack = none) ∧
    (s.needsUnsubscribe = true ↔ s.desired = false ∧ s.subscribedTrack ≠ none) ∧
    (s.needsBind = true ↔ s.desired = true ∧ s.subscribedTrack ≠ none ∧ s.bound = false) ∧
    ¬ (s.needsSubscribe = true ∧ s.needsUnsubscribe = true) ∧
    ¬ (s.needsSubscribe = true ∧ s.needsBind = true) ∧
    ¬ (s.needsUnsubscribe = true ∧ s.needsBind = true) ∧
    ((s.needsSubscribe || s.needsUnsubscribe || s.needsBind) = false ↔
      (s.desired = false ∧ s.subscribedTrack = none) ∨
      (s.desired = true ∧ s.subscribedTrack ≠ none ∧ s.bound = true)) := by
  obtain ⟨d, _, _, _, _, _, t, _, b, _⟩ := s
  unfold trackSubscription.needsSubscribe trackSubscription.needsUnsubscribe
    trackSubscription.needsBind
  cases d <;> cases t <;> cases b <;> simp

/-! ## Theorems on the switch of the source SSRC -/

/-- C21 (as stated, refuted): in `TestForwarderGetTranslationParamsAudio` the last packet
forwarded before the switch of the source is the late packet 23336, sent as `OutOfOrder`
with the outbound sequence number 23335; the first packet of the new source is required to
get 23337, which is not 23335 + 1 but one after 23336, the number of the last packet
forwarded in order. -/
theorem ssrc_switch_last_outbound_counterexample :
    ((Sfu.forwarded (Sfu.newPacketForwarder.translate
        ((Sfu.TestForwarderGetTranslationParamsAudio.map Prod.fst).take 7))).getLast?
      = some { snOrdering := Sfu.SequenceNumberOrdering.OutOfOrder, sequenceNumber := 23335,
               timestamp := 0xabcdef }) ∧
    ((Sfu.TestForwarderGetTranslationParamsAudio.map Prod.snd).getLast?
      = some { shouldDrop := false, isDroppingRelevant := false,
               rtp := some { snOrdering := Sfu.SequenceNumberOrdering.Contiguous,
                             sequenceNumber := 23337, timestamp := 0xabcdf0 } }) ∧
    Sfu.newPacketForwarder.translate (Sfu.TestForwarderGetTranslationParamsAudio.map Prod.fst)
      = Sfu.TestForwarderGetTranslationParamsAudio.map Prod.snd ∧
    addW 16 23335 1 ≠ 23337 ∧ addW 16 23336 1 = 23337 := by
  decide

/-- C21 (amended): after any sequence of packets of which one was forwarded in order (as
`Contiguous` or `Gap`), the first packet of a new source SSRC, if it is forwarded, is
`Contiguous` with the outbound sequence number of the last packet forwarded in order plus
one (mod 2^16), whatever its own sequence number, and its outbound timestamp is that of the
last packet forwarded in order plus the frame time delta (mod 2^32), whatever its own
timestamp, hence ahead of it when the delta is between 1 and 2^31; `lastSSRC` becomes the
new SSRC. -/
theorem ssrc_switch_contiguous (f0 : Sfu.PacketForwarder) (pkts : List Sfu.ExtPacket)
    (pkt : Sfu.ExtPacket) (last rtp : Sfu.TranslationParamsRTP)
    (hinv : f0.started = true → f0.rtpMunger.consistent)
    (hlast : (Sfu.inOrder (f0.translate pkts)).getLast? = some last)
    (hss : (f0.after pkts).lastSSRC ≠ pkt.SSRC)
    (hf : ((f0.after pkts).GetTranslationParams pkt).2.rtp = some rtp) :
    rtp.snOrdering = Sfu.SequenceNumberOrdering.Contiguous ∧
    rtp.sequenceNumber = addW 16 last.sequenceNumber 1 ∧
    rtp.timestamp = addW 32 last.timestamp pkt.frameTimeDelta ∧
    (1 ≤ pkt.frameTimeDelta → pkt.frameTimeDelta ≤ 2 ^ 31 →
      0 < subW 32 rtp.timestamp last.timestamp ∧
      subW 32 rtp.timestamp last.timestamp ≤ 2 ^ 31) ∧
    ((f0.after pkts).GetTranslationParams pkt).1.lastSSRC = pkt.SSRC := by
  obtain ⟨hs, e1, e2⟩ := (Sfu.last_inOrder_run pkts f0 hinv).1 last hlast
  obtain ⟨a, b, c, d, _⟩ := Sfu.switch_step (f0.after pkts) pkt rtp hs hss hf
  rw [e1] at b
  rw [e2] at c
  refine ⟨a, b, c, ?_, d⟩
  intro h1 h2
  rw [c]
  unfold subW addW
  norm_num at h2 ⊢
  omega

/-- Witness for `ssrc_switch_contiguous` (C21): the packets of the test; the last packet
forwarded in order carries 23336, and the packet 123 of the new source 0x87654321 is sent
as 23337 with the timestamp 0xabcdf0. -/
theorem ssrc_switch_contiguous_witness :
    (Sfu.inOrder (Sfu.newPacketForwarder.translate
        ((Sfu.TestForwarderGetTranslationParamsAudio.map Prod.fst).take 7))).getLast?
      = some { snOrdering := Sfu.SequenceNumberOrdering.Gap, sequenceNumber := 23336,
               timestamp := 0xabcdef } ∧
    (23337 = addW 16 23336 1 ∧ 0xabcdf0 = addW 32 0xabcdef 1) ∧
    ((Sfu.newPacketForwarder.after
        ((Sfu.TestForwarderGetTranslationParamsAudio.map Prod.fst).take 7)).GetTranslationParams
        { SequenceNumber := 123, Timestamp := 0xfedcba, SSRC := 0x87654321, PayloadSize := 20,
          frameTimeDelta := 1 }).1.lastSSRC = 0x87654321 :=
  ⟨by decide,
   ⟨(ssrc_switch_contiguous Sfu.newPacketForwarder
      ((Sfu.TestForwarderGetTranslationParamsAudio.map Prod.fst).take 7)
      { SequenceNumber := 123, Timestamp := 0xfedcba, SSRC := 0x87654321, PayloadSize := 20,
        frameTimeDelta := 1 }
      { snOrdering := Sfu.SequenceNumberOrdering.Gap, sequenceNumber := 23336,
        timestamp := 0xabcdef }
      { snOrdering := Sfu.SequenceNumberOrdering.Contiguous, sequenceNumber := 23337,
        timestamp := 0xabcdf0 }
      (fun h => absurd h (by decide)) (by decide) (by decide) (by decide)).2.1,
    (ssrc_switch_contiguous Sfu.newPacketForwarder
      ((Sfu.TestForwarderGetTranslationParamsAudio.map Prod.fst).take 7)
      { SequenceNumber := 123, Timestamp := 0xfedcba, SSRC := 0x87654321, PayloadSize := 20,
        frameTimeDelta := 1 }
      { snOrdering := Sfu.SequenceNumberOrdering.Gap, sequenceNumber := 23336,
        timestamp := 0xabcdef }
      { snOrdering := Sfu.SequenceNumberOrdering.Contiguous, sequenceNumber := 23337,
        timestamp := 0xabcdf0 }
      (fun h => absurd h (by decide)) (by decide) (by decide) (by decide)).2.2.1⟩,
   by decide⟩

/-! ## Theorems on `EgressService.startEgress` -/

/-- C28: once the permission check passes, the bus is not nil and `LoadRoom` succeeds,
`startEgress` returns the info of `SendRequest` with a nil error whether or not `SendRequest`
failed, and `EgressStarted` and `StoreEgress` are called exactly when `SendRequest` returned
an error. -/
theorem startEgress_drops_send_error {Req Info : Type} (env : Service.EgressEnv Req Info)
    (roomName : String) (req : Service.StartEgressRequest Req) (room : Service.Room)
    (hperm : env.EnsureRecordPermission = none) (hbus : env.busIsNil = false)
    (hroom : env.LoadRoom roomName = (some room, none)) :
    (Service.startEgress env roomName req).1
      = Service.EgressOutcome.ret (env.SendRequest { req with RoomId := room.Sid }).1 none ∧
    ((env.SendRequest { req with RoomId := room.Sid }).2 = none →
      (Service.startEgress env roomName req).2.2 = []) ∧
    (∀ err, (env.SendRequest { req with RoomId := room.Sid }).2 = some err →
      ∃ rest, (Service.startEgress env roomName req).2.2
        = Service.EgressEvent.EgressStarted (env.SendRequest { req with RoomId := room.Sid }).1
          :: Service.EgressEvent.StoreEgress (env.SendRequest { req with RoomId := room.Sid }).1
          :: rest ∧
        ∀ e ∈ rest, ∃ msg er, e = Service.EgressEvent.Errorw msg er) := by
  unfold Service.startEgress
  simp only [hperm, hbus, hroom, Bool.false_eq_true, if_false]
  refine ⟨trivial, fun h => ?_, fun err h => ?_⟩
  · simp only [h]
  · simp only [h, List.cons_append, List.nil_append]
    refine ⟨_, rfl, ?_⟩
    intro e he
    cases hst : env.StoreEgress (env.SendRequest { req with RoomId := room.Sid }).1 with
    | none => rw [hst] at he; simp at he
    | some er =>
      rw [hst] at he
      simp only [List.mem_singleton] at he
      exact ⟨_, _, he⟩

/-- Witness for `startEgress_drops_send_error` (C28): a failing `SendRequest` gives a nil
error and the two calls, a succeeding one gives the info and no call. -/
theorem startEgress_drops_send_error_witness :
    (Service.startEgress (Service.egressEnv (none, some "timeout")) "room"
        { RoomId := "", Request := () }).1 = Service.EgressOutcome.ret none none ∧
    (Service.startEgress (Service.egressEnv (none, some "timeout")) "room"
        { RoomId := "", Request := () }).2.2
      = [Service.EgressEvent.EgressStarted none, Service.EgressEvent.StoreEgress none] ∧
    (Service.startEgress (Service.egressEnv (some "EG_1", none)) "room"
        { RoomId := "", Request := () }).1 = Service.EgressOutcome.ret (some "EG_1") none ∧
    (Service.startEgress (Service.egressEnv (some "EG_1", none)) "room"
        { RoomId := "", Request := () }).2.2 = [] :=
  ⟨(startEgress_drops_send_error (Service.egressEnv (none, some "timeout")) "room"
      { RoomId := "", Request := () } { Sid := "RM_1" } rfl rfl rfl).1,
   by decide,
   (startEgress_drops_send_error (Service.egressEnv (some "EG_1", none)) "room"
      { RoomId := "", Request := () } { Sid := "RM_1" } rfl rfl rfl).1,
   by decide⟩

/-! ## Theorems on `NodeProvider.FetchRelevant` -/

/-- C29: for two runs of `FetchRelevant` that differ only in the stored country of the nodes
(same keys, same client, same answers of `Get` up to the country), the results agree up to
the country of the returned node (the same node is chosen, or the same error returned), the
rows get the same weights, and the weight of a node is
`dist*weightDistance + participants*weightParticipantsCount` whatever its country and the
country of the client. -/
theorem fetchRelevant_ignores_country {F : Type} (A : Service.Float64 F)
    (env1 env2 : Service.NodeEnv F) (clientIP : String)
    (hlist : env1.dbList = env2.dbList) (hcity : env1.City = env2.City)
    (hsort : env1.SliceStable = env2.SliceStable)
    (hget : ∀ id, (Service.Get env1 id).map Service.eraseCountry
      = (Service.Get env2 id).map Service.eraseCountry) :
    (Service.FetchRelevant A env1 clientIP).map Service.eraseCountry
      = (Service.FetchRelevant A env2 clientIP).map Service.eraseCountry ∧
    (∀ lat lon c keys,
      (Service.nodeRows A env1 lat lon c keys).map (List.map Service.nodeRow.weight)
        = (Service.nodeRows A env2 lat lon c keys).map (List.map Service.nodeRow.weight)) ∧
    (∀ lat lon c c2 k (n : Service.Node F),
      Service.nodeWeight A lat lon c n
        = A.add (A.mul (Service.distance A n.Latitude n.Longitude lat lon)
            (Service.weightDistance A))
          (A.mul (A.ofInt n.Participants) (Service.weightParticipantsCount A)) ∧
      Service.nodeWeight A lat lon c2 { n with Country := k }
        = Service.nodeWeight A lat lon c n) := by
  refine ⟨?_, ?_, fun lat lon c c2 k n => ⟨rfl, rfl⟩⟩
  · unfold Service.FetchRelevant
    rw [← hlist, ← hcity, ← hsort]
    cases env1.dbList with
    | error e => rfl
    | ok keys =>
      cases env1.City clientIP with
      | error e => rfl
      | ok city =>
        have hr := Service.nodeRows_eraseCountry A env1 env2 city.Latitude city.Longitude
          city.IsoCode hget keys
        simp only []
        cases r1 : Service.nodeRows A env1 city.Latitude city.Longitude city.IsoCode keys with
        | error e1 =>
          cases r2 : Service.nodeRows A env2 city.Latitude city.Longitude city.IsoCode keys with
          | error e2 =>
            rw [r1, r2] at hr
            simp only [Except.map, Except.error.injEq] at hr
            simp only [Except.map, hr]
          | ok l2 => rw [r1, r2] at hr; simp [Except.map] at hr
        | ok l1 =>
          cases r2 : Service.nodeRows A env2 city.Latitude city.Longitude city.IsoCode keys with
          | error e2 => rw [r1, r2] at hr; simp [Except.map] at hr
          | ok l2 =>
            rw [r1, r2] at hr
            simp only [Except.map, Except.ok.injEq] at hr
            have hlen : l1.length = l2.length := by
              have := congrArg List.length hr
              simpa using this
            have hs := Service.sorted_eraseRow l1 l2
              (env1.SliceStable l1.length (Service.weightLess A l1)) hr
            simp only []
            rw [← Service.weightLess_eraseRow A l1 l2 hr, ← hlen]
            generalize List.filterMap (fun i => l1[i]?)
              (env1.SliceStable l1.length (Service.weightLess A l1)) = s1 at hs ⊢
            generalize List.filterMap (fun i => l2[i]?)
              (env1.SliceStable l1.length (Service.weightLess A l1)) = s2 at hs ⊢
            cases s1 with
            | nil =>
              cases s2 with
              | nil => rfl
              | cons b t => simp at hs
            | cons a t1 =>
              cases s2 with
              | nil => simp at hs
              | cons b t2 =>
                simp only [List.map_cons, List.cons.injEq] at hs
                have h1 : (Service.eraseRow a).node = (Service.eraseRow b).node := by rw [hs.1]
                simp only [Except.map]
                exact congrArg Except.ok h1
  · intro lat lon c keys
    have hr := Service.nodeRows_eraseCountry A env1 env2 lat lon c hget keys
    have hc : ∀ r : Except Service.Error (List (Service.nodeRow F)),
        r.map (List.map Service.nodeRow.weight)
          = (r.map (List.map Service.eraseRow)).map (List.map Service.nodeRow.weight) := by
      intro r
      cases r with
      | error e => rfl
      | ok l =>
        simp only [Except.map, List.map_map]
        rfl
    rw [hc, hc (Service.nodeRows A env2 lat lon c keys), hr]

/-- Witness for `fetchRelevant_ignores_country` (C29): with the client in `DE`, the node
`b` (10 participants) is chosen before the node `a` (50 participants) at the same place,
whether `a` is stored with the country `DE` or `FR`. -/
theorem fetchRelevant_ignores_country_witness :
    (Service.FetchRelevant Service.fixedPoint (Service.twoNodes "DE" "FR") "192.0.2.1").map
        Service.eraseCountry
      = (Service.FetchRelevant Service.fixedPoint (Service.twoNodes "FR" "FR") "192.0.2.1").map
        Service.eraseCountry ∧
    (Service.okValue (Service.FetchRelevant Service.fixedPoint (Service.twoNodes "DE" "FR")
        "192.0.2.1")).map (fun n => (n.Id, n.Country)) = some ("b", "FR") ∧
    (Service.okValue (Service.nodeRows Service.fixedPoint (Service.twoNodes "DE" "FR")
        52000 13000 "DE" ["/node_a", "/other", "/node_b"])).map
        (List.map Service.nodeRow.weight) = some [-500, -100] :=
  ⟨(fetchRelevant_ignores_country Service.fixedPoint (Service.twoNodes "DE" "FR")
      (Service.twoNodes "FR" "FR") "192.0.2.1" rfl rfl rfl
      (fun id => by
        unfold Service.Get Service.twoNodes
        simp only []
        split_ifs <;> rfl)).1,
   by decide, by decide⟩

/-! ## Theorems on `ICEConnectionDetails` -/

/-- C30: starting from `NewICEConnectionDetails`, or after `Clear`, any sequence of
`AddLocalCandidate` calls leaves a `Local` list without two entries whose candidates are
equal under `isCandidateEqualTo`; adding a candidate equal to one already present changes
nothing (the flags of the entries included), and adding another one appends it at the end,
not selected and with the `filtered` flag given. -/
theorem local_candidates_distinct {RC : Type} (transport : Nat)
    (d0 d : Types.ICEConnectionDetails RC) (cs : List (Option Types.ICECandidate × Bool))
    (c : Option Types.ICECandidate) (filtered : Bool) :
    Types.distinctLocal ((Types.NewICEConnectionDetails RC transport).addLocalCandidates cs).Local ∧
    Types.distinctLocal (d0.Clear.addLocalCandidates cs).Local ∧
    ((∃ e ∈ d.Local, Types.isCandidateEqualTo e.Local c = true) →
      d.AddLocalCandidate c filtered = d) ∧
    ((∀ e ∈ d.Local, Types.isCandidateEqualTo e.Local c = false) →
      d.AddLocalCandidate c filtered
        = { d with Local := d.Local ++
              [{ Local := c, Remote := none, Selected := false, Filtered := filtered }] }) := by
  refine ⟨?_, ?_, ?_, ?_⟩
  · exact Types.distinctLocal_addAll cs _ List.Pairwise.nil
  · exact Types.distinctLocal_addAll cs _ List.Pairwise.nil
  · rintro ⟨e, he, h⟩
    have hc : d.Local.any (fun e => Types.isCandidateEqualTo e.Local c) = true :=
      List.any_eq_true.mpr ⟨e, he, h⟩
    simp only [Types.ICEConnectionDetails.AddLocalCandidate, hc, if_true]
  · intro h
    have hc : d.Local.any (fun e => Types.isCandidateEqualTo e.Local c) = false := by
      rw [List.any_eq_false]
      intro e he
      rw [h e he]
      exact Bool.false_ne_true
    simp only [Types.ICEConnectionDetails.AddLocalCandidate, hc, Bool.false_eq_true, if_false]

/-- Witness for `local_candidates_distinct` (C30): a host candidate, the same candidate
gathered again (another statistics identifier, now filtered) and a second host candidate
give two entries; the repeated one changes nothing. -/
theorem local_candidates_distinct_witness :
    Types.distinctLocal ((Types.NewICEConnectionDetails Unit 0).addLocalCandidates
      [(some (Types.hostCandidate "s1" "10.0.0.1" 5000), false),
       (some (Types.hostCandidate "s2" "10.0.0.1" 5000), true),
       (some (Types.hostCandidate "s3" "10.0.0.2" 5000), false)]).Local ∧
    ((Types.NewICEConnectionDetails Unit 0).addLocalCandidates
      [(some (Types.hostCandidate "s1" "10.0.0.1" 5000), false),
       (some (Types.hostCandidate "s2" "10.0.0.1" 5000), true),
       (some (Types.hostCandidate "s3" "10.0.0.2" 5000), false)]).Local
      = [{ Local := some (Types.hostCandidate "s1" "10.0.0.1" 5000), Remote := none,
           Selected := false, Filtered := false },
         { Local := some (Types.hostCandidate "s3" "10.0.0.2" 5000), Remote := none,
           Selected := false, Filtered := false }] ∧
    ((Types.NewICEConnectionDetails Unit 0).AddLocalCandidate
        (some (Types.hostCandidate "s1" "10.0.0.1" 5000)) false).AddLocalCandidate
        (some (Types.hostCandidate "s2" "10.0.0.1" 5000)) true
      = (Types.NewICEConnectionDetails Unit 0).AddLocalCandidate
        (some (Types.hostCandidate "s1" "10.0.0.1" 5000)) false :=
  ⟨(local_candidates_distinct 0 (Types.NewICEConnectionDetails Unit 0)
      ((Types.NewICEConnectionDetails Unit 0).AddLocalCandidate
        (some (Types.hostCandidate "s1" "10.0.0.1" 5000)) false)
      [(some (Types.hostCandidate "s1" "10.0.0.1" 5000), false),
       (some (Types.hostCandidate "s2" "10.0.0.1" 5000), true),
       (some (Types.hostCandidate "s3" "10.0.0.2" 5000), false)]
      (some (Types.hostCandidate "s2" "10.0.0.1" 5000)) true).1,
   by decide,
   (local_candidates_distinct 0 (Types.NewICEConnectionDetails Unit 0)
      ((Types.NewICEConnectionDetails Unit 0).AddLocalCandidate
        (some (Types.hostCandidate "s1" "10.0.0.1" 5000)) false)
      [] (some (Types.hostCandidate "s2" "10.0.0.1" 5000)) true).2.2.1
     ⟨_, List.mem_singleton.mpr rfl, by decide⟩⟩
